import Mathlib

/-!
# Siconos: `grfc3d_IPM`, `newton_LSA` and `LagrangianLinearTIR`

Shallow embedding of `numerics/src/FrictionContact/grfc3d_ipm.c`,
`numerics/src/tools/Newton_methods.c` and
`kernel/src/modelingTools/LagrangianLinearTIR.cpp`.

Conventions of the embedding.

* A C array `double *` is a function `Nat → R` (index to value); a routine that writes
  the first `n` entries of a buffer leaves the other entries as they were.
* The scalar type `R` is generic.  The definitions only use the operations the C code
  uses; theorems about exact arithmetic take `R` to be a linear ordered field, and runs
  with NaN use the type `Dbl` (rationals extended by the two infinities and NaN).
* `unsigned int` arithmetic of the dimension bookkeeping is taken modulo `2^32` (`u32`).
* Routines that live outside these files (BLAS, NumericsMatrix, JordanAlgebra, the
  residual and step-length helpers of `gfc3d_ipm.c`, the linear solvers) are either
  written out with their standard meaning or collected in the record `Externals`.
-/

namespace Siconos

/-! ## Vectors, BLAS level 1 -/

/-- C array of doubles, indexed from 0. -/
abbrev Vec (R : Type) := Nat → R

/-- Reduction of an `unsigned int` value modulo `2^32`. -/
def u32 (x : Nat) : Nat := x % 4294967296

/-- Conversion of an `unsigned int` to `int` (two's complement). -/
def toInt32 (x : Nat) : Int :=
  if x % 4294967296 < 2147483648 then (x % 4294967296 : Nat) else (x % 4294967296 : Nat) - 4294967296

/-- Conversion of an `int` to `unsigned int`. -/
def ofInt32 (x : Int) : Nat := (x % 4294967296).toNat

section Blas
variable {R : Type}

/-- BLAS `cblas_dcopy(n, x, 1, y, 1)`: the first `n` entries of `y` become those of `x`. -/
def cblas_dcopy (n : Nat) (x y : Vec R) : Vec R :=
  fun i => if i < n then x i else y i

/-- BLAS `cblas_daxpy(n, a, x, 1, y, 1)`: `y[i] += a * x[i]` for `i < n`. -/
def cblas_daxpy [Add R] [Mul R] (n : Nat) (a : R) (x y : Vec R) : Vec R :=
  fun i => if i < n then y i + a * x i else y i

/-- BLAS `cblas_dscal(n, a, x, 1)`: `x[i] *= a` for `i < n`. -/
def cblas_dscal [Mul R] (n : Nat) (a : R) (x : Vec R) : Vec R :=
  fun i => if i < n then a * x i else x i

/-- BLAS `cblas_ddot(n, x, 1, y, 1)`: the sum of `x[i] * y[i]` for `i < n`. -/
def cblas_ddot [Zero R] [Add R] [Mul R] : Nat → Vec R → Vec R → R
  | 0, _, _ => 0
  | n + 1, x, y => cblas_ddot n x y + x n * y n

/-- The C library `fmin` on non-NaN arguments. -/
def fmin [LE R] [DecidableRel (α := R) (· ≤ ·)] (a b : R) : R := if a ≤ b then a else b

/-- The C library `fmax` on non-NaN arguments. -/
def fmax [LE R] [DecidableRel (α := R) (· ≤ ·)] (a b : R) : R := if a ≤ b then b else a

/-- Maximum of the first `vecSize` entries (`NV_max` of NumericsVector): the running
maximum starts at `vec[0]` and is replaced by every later entry that exceeds it. -/
def NV_max [LT R] [DecidableRel (α := R) (· < ·)] (vec : Vec R) : Nat → R
  | 0 => vec 0
  | 1 => vec 0
  | n + 2 => if NV_max vec (n + 1) < vec (n + 1) then vec (n + 1) else NV_max vec (n + 1)

/-- `NV_isnan(vec, n)`: some entry among the first `n` is NaN (`isnan` is the C
classification of one double). -/
def NV_isnan (isnan : R → Bool) (vec : Vec R) (n : Nat) : Bool :=
  (List.range n).any (fun i => isnan (vec i))

/-- `NV_sub(x, y, n, out)`: `out[i] = x[i] - y[i]` for `i < n`. -/
def NV_sub [Sub R] (x y : Vec R) (n : Nat) (out : Vec R) : Vec R :=
  fun i => if i < n then x i - y i else out i

/-- `NV_add(x, y, n, out)`: `out[i] = x[i] + y[i]` for `i < n`. -/
def NV_add [Add R] (x y : Vec R) (n : Nat) (out : Vec R) : Vec R :=
  fun i => if i < n then x i + y i else out i

end Blas

/-! ## NumericsMatrix -/

/-- Sum of `f 0, ..., f (n-1)`, accumulated from index 0 upwards. -/
def sumTo {R : Type} [Zero R] [Add R] : Nat → (Nat → R) → R
  | 0, _ => 0
  | n + 1, f => sumTo n f + f n

/-- Dense view of a `NumericsMatrix`: storage tag, sizes and the entries. -/
structure NumericsMatrix (R : Type) where
  storageType : Int
  size0 : Nat
  size1 : Nat
  entry : Nat → Nat → R

section Matrix
variable {R : Type}

/-- `NM_create(storageType, size0, size1)`: a matrix without entries. -/
def NM_create [Zero R] (storageType : Int) (size0 size1 : Nat) : NumericsMatrix R :=
  { storageType := storageType, size0 := size0, size1 := size1, entry := fun _ _ => 0 }

/-- `NM_entry(A, i, j, val)` on triplet storage: the triplet `(i, j, val)` is appended,
so `val` is added to the entry `(i, j)` (no caller writes a position twice). -/
def NM_entry [Add R] (A : NumericsMatrix R) (i j : Nat) (val : R) : NumericsMatrix R :=
  { A with entry := fun a b => if a = i ∧ b = j then A.entry a b + val else A.entry a b }

/-- `NM_eye(size)`: the identity matrix. -/
def NM_eye [Zero R] [One R] (storageType : Int) (size : Nat) : NumericsMatrix R :=
  { storageType := storageType, size0 := size, size1 := size,
    entry := fun i j => if i = j ∧ i < size then 1 else 0 }

/-- `NM_transpose(A)`. -/
def NM_transpose (A : NumericsMatrix R) : NumericsMatrix R :=
  { storageType := A.storageType, size0 := A.size1, size1 := A.size0,
    entry := fun i j => A.entry j i }

/-- `NM_add(alpha, A, beta, B)`: the matrix `alpha*A + beta*B`. -/
def NM_add [Add R] [Mul R] (alpha : R) (A : NumericsMatrix R) (beta : R) (B : NumericsMatrix R) :
    NumericsMatrix R :=
  { storageType := A.storageType, size0 := A.size0, size1 := A.size1,
    entry := fun i j => alpha * A.entry i j + beta * B.entry i j }

/-- `NM_multiply(A, B)`: the matrix product `A*B`. -/
def NM_multiply [Zero R] [Add R] [Mul R] (A B : NumericsMatrix R) : NumericsMatrix R :=
  { storageType := A.storageType, size0 := A.size0, size1 := B.size1,
    entry := fun i j => sumTo A.size1 (fun k => A.entry i k * B.entry k j) }

/-- `NM_gemv(alpha, A, x, beta, y)`: `y = alpha*A*x + beta*y` on the rows of `A`. -/
def NM_gemv [Zero R] [Add R] [Mul R] (alpha : R) (A : NumericsMatrix R) (x : Vec R) (beta : R)
    (y : Vec R) : Vec R :=
  fun i => if i < A.size0 then alpha * sumTo A.size1 (fun k => A.entry i k * x k) + beta * y i
    else y i

/-- `NM_gemm(alpha, A, B, beta, C)`: `C = alpha*A*B + beta*C`. -/
def NM_gemm [Zero R] [Add R] [Mul R] (alpha : R) (A B : NumericsMatrix R) (beta : R)
    (C : NumericsMatrix R) : NumericsMatrix R :=
  { C with entry := fun i j =>
      alpha * sumTo A.size1 (fun k => A.entry i k * B.entry k j) + beta * C.entry i j }

/-- `NM_insert(A, B, start_i, start_j)` on triplet storage: every stored entry of `B` is
appended to `A`, shifted by `(start_i, start_j)`; entries that meet add up.  The sizes
declared for `B` play no role. -/
def NM_insert [Add R] (A B : NumericsMatrix R) (start_i start_j : Nat) : NumericsMatrix R :=
  { A with entry := fun i j =>
      if start_i ≤ i ∧ start_j ≤ j then A.entry i j + B.entry (i - start_i) (j - start_j)
      else A.entry i j }

end Matrix

/-! ## Helper functions of `grfc3d_ipm.c` -/

section Helpers
variable {R : Type}

/-- Assignment `v[i] = a`. -/
def setv (v : Vec R) (i : Nat) (a : R) : Vec R := fun k => if k = i then a else v k

/-- Inner loop of `extract_vector`: `for (l = i-1; l < j; l++) out[posX++] = vec[posY + l]`.
The state is `(out, posX)`. -/
def extract_inner (vec : Vec R) (posY i j : Nat) (st : Vec R × Nat) : Vec R × Nat :=
  (List.range' (i - 1) (j - (i - 1))).foldl
    (fun s l => (setv s.1 s.2 (vec (posY + l)), s.2 + 1)) st

/-- One pass of the outer loop of `extract_vector`; the state is `(out, posX, posY)`. -/
def extract_outer (vec : Vec R) (vec_dim i j : Nat) (st : Vec R × Nat × Nat) : Vec R × Nat × Nat :=
  let s1 := extract_inner vec st.2.2 i j (setv st.1 st.2.1 (vec st.2.2), st.2.1 + 1)
  (s1.1, s1.2, st.2.2 + vec_dim)

/-- Whether a call `extract_vector(vec, vecSize, varsCount, i, j, out)` on allocated
buffers runs through: `varsCount` is a positive `int` (no division by zero in
`vecSize / varsCount`, no negative loop bound), and the assertions `i >= 1`, `i <= j`,
`j <= vec_dim` and `out_dim > 0`, with `out_dim = vec_dim - 2` in `unsigned int`, hold. -/
def extract_vector_defined (vecSize varsCount i j : Nat) : Bool :=
  decide (0 < varsCount) && decide (varsCount < 2147483648) && decide (1 ≤ i) && decide (i ≤ j)
    && decide (j ≤ vecSize / varsCount)
    && decide (0 < u32 (vecSize / varsCount + 4294967296 - 2))

/-- `extract_vector(vec, vecSize, varsCount, i, j, out)`: for each of the `varsCount`
blocks of `vec` the first element and the elements `i..j` (counted from 1) are appended
to `out`.  This is the contents of `out` after a call that runs through; whether it does
(the assertions, the division `vecSize / varsCount`) is `extract_vector_defined`, and a
run of `grfc3d_IPM` with a call that does not run through has no result
(`ipm_loop_defined`). -/
def extract_vector (vec : Vec R) (vecSize varsCount i j : Nat) (out : Vec R) : Vec R :=
  let vec_dim := vecSize / varsCount
  ((List.range varsCount).foldl (fun st _ => extract_outer vec vec_dim i j st) (out, 0, 0)).1

/-- `compute_J_matrix(varsCount)`: the `5n x 6n` matrix with, for every contact `i`,
`J_1 = [I_3; 0]` at `(5i, 3i)` and `J_2` (ones at `(0,0)`, `(3,1)`, `(4,2)`) at
`(5i, 3n + 3i)`.  The assertion `varsCount > 0` at its entry is part of
`ipm_run_defined`. -/
def compute_J_matrix [Zero R] [One R] [Add R] (NM_SPARSE : Int) (varsCount : Nat) : NumericsMatrix R :=
  let J : NumericsMatrix R := NM_create NM_SPARSE (u32 (5 * varsCount)) (u32 (u32 (3 * varsCount) * 2))
  let J_1 : NumericsMatrix R := NM_insert (NM_create NM_SPARSE 5 3) (NM_eye NM_SPARSE 3) 0 0
  let J_2 : NumericsMatrix R :=
    NM_insert (NM_insert (NM_create NM_SPARSE 5 3) (NM_eye NM_SPARSE 1) 0 0) (NM_eye NM_SPARSE 2) 3 1
  (List.range varsCount).foldl
    (fun J i => NM_insert (NM_insert J J_1 (u32 (i * 5)) (u32 (i * 3))) J_2 (u32 (i * 5))
      (u32 (u32 (varsCount * 3) + u32 (i * 3)))) J

end Helpers

/-! ## Data of the interior-point solver -/

/-- Values of the enumeration and index constants of the Siconos headers that
`grfc3d_ipm.c` refers to (the headers are outside the two files). -/
structure Constants where
  SICONOS_IPARAM_MAX_ITER : Nat
  SICONOS_IPARAM_ITER_DONE : Nat
  SICONOS_DPARAM_TOL : Nat
  SICONOS_DPARAM_RESIDU : Nat
  SICONOS_FRICTION_3D_IPM_IPARAM_SPARSE_STORAGE : Nat
  SICONOS_FRICTION_3D_IPM_FORCED_SPARSE_STORAGE : Int
  SICONOS_FRICTION_3D_IPM_IPARAM_FINISH_WITHOUT_SCALING : Nat
  SICONOS_FRICTION_3D_IPM_IPARAM_NESTEROV_TODD_SCALING : Nat
  SICONOS_FRICTION_3D_IPM_IPARAM_NESTEROV_TODD_SCALING_METHOD : Nat
  SICONOS_FRICTION_3D_IPM_NESTEROV_TODD_SCALING_WITH_QP : Int
  SICONOS_FRICTION_3D_IPM_NESTEROV_TODD_SCALING_WITH_F : Int
  SICONOS_FRICTION_3D_IPM_IPARAM_UPDATE_S : Nat
  SICONOS_FRICTION_3D_IPM_SIGMA_PARAMETER_1 : Nat
  SICONOS_FRICTION_3D_IPM_SIGMA_PARAMETER_2 : Nat
  SICONOS_FRICTION_3D_IPM_SIGMA_PARAMETER_3 : Nat
  SICONOS_FRICTION_3D_IPM_GAMMA_PARAMETER_1 : Nat
  SICONOS_FRICTION_3D_IPM_GAMMA_PARAMETER_2 : Nat
  NM_SPARSE : Int
  NM_SPARSE_BLOCK : Int

/-- Problem descriptor `GlobalRollingFrictionContactProblem`. -/
structure GlobalRollingFrictionContactProblem (R : Type) where
  dimension : Nat
  numberOfContacts : Nat
  M : NumericsMatrix R
  H : NumericsMatrix R
  q : Vec R
  b : Vec R
  mu : Vec R
  mu_r : Vec R

/-- Struct `IPM_point`: the triple `(v, u, r)`. -/
structure IPM_point (R : Type) where
  globalVelocity : Vec R
  velocity : Vec R
  reaction : Vec R

/-- Struct `IPM_change_of_variable`. -/
structure IPM_change_of_variable (R : Type) where
  mat : NumericsMatrix R
  inv_mat : NumericsMatrix R

/-- Struct `IPM_internal_params`. -/
structure IPM_internal_params (R : Type) where
  alpha_primal : R
  alpha_dual : R
  sigma : R
  barr_param : R

/-- Struct `Grfc3d_IPM_data` without the scratch vaults `tmp_vault_*` (they are pairwise
distinct zero-initialised buffers; the embedding passes their contents as values). -/
structure Grfc3d_IPM_data (R : Type) where
  starting_point : IPM_point R
  original_point : IPM_point R
  P_mu : IPM_change_of_variable R
  internal_params : IPM_internal_params R

/-- The fields of `SolverOptions` used by `grfc3d_IPM`; `none` stands for a NULL pointer. -/
structure SolverOptions (R : Type) where
  iparam : Nat → Int
  dparam : Nat → R
  dWork : Option (Vec R)
  dWorkSize : Nat
  solverData : Option (Grfc3d_IPM_data R)

/-- Routines called by `grfc3d_IPM` whose source is outside `grfc3d_ipm.c`
(`gfc3d_ipm.c`, `JordanAlgebra.c`, `NumericsMatrix.c`, `grfc3d_compute_error.c`, libm).
Every routine is a function of its arguments; an output buffer is returned as a value. -/
structure Externals (R : Type) where
  /-- C `isnan`. -/
  isnan : R → Bool
  /-- C `pow`. -/
  pow : R → R → R
  NM_is_symmetric : NumericsMatrix R → Bool
  /-- Copy made by `NM_copy_to_sparse(A, B, DBL_EPSILON)` into a matrix of the given sizes. -/
  NM_copy_to_sparse : NumericsMatrix R → Nat → Nat → NumericsMatrix R
  /-- Routine `primalResidual(velocity, H, globalVelocity, w, out, &rnorm)`. -/
  primalResidual : Vec R → NumericsMatrix R → Vec R → Vec R → Vec R × R
  /-- Routine `dualResidual(M, globalVelocity, H, reaction, f, out, &rnorm)`. -/
  dualResidual : NumericsMatrix R → Vec R → NumericsMatrix R → Vec R → Vec R → Vec R × R
  complemResidualNorm : Vec R → Vec R → Nat → Nat → R
  /-- Routine `grfc3d_compute_error(problem, r, u, v, tol, &error, flag)`: the value written to `error`. -/
  computeError : GlobalRollingFrictionContactProblem R → Vec R → Vec R → Vec R → R → Int → R
  Nesterov_Todd_vector : Nat → Vec R → Vec R → Nat → Nat → Vec R
  QRmat : Vec R → Nat → Nat → NumericsMatrix R
  NTmat : Vec R → Vec R → Nat → Nat → NumericsMatrix R
  NTmatsqr : Vec R → Vec R → Nat → Nat → NumericsMatrix R
  QNTpinvz : Vec R → Vec R → Vec R → Nat → Nat → Vec R
  Arrow_repr : Vec R → Nat → Nat → NumericsMatrix R
  JA_prod : Vec R → Vec R → Nat → Nat → Vec R
  JA_inv : Vec R → Nat → Nat → Vec R
  JA_iden : Nat → Nat → Vec R
  getStepLength : Vec R → Vec R → Nat → Nat → R → R
  /-- In-place solve `NM_LDLT_solve(Jac, rhs, 1)`: the contents of `rhs` afterwards. -/
  NM_LDLT_solve : NumericsMatrix R → Vec R → Vec R
  /-- In-place solve `NM_LU_solve(Jac, rhs, 1)`: the contents of `rhs` afterwards. -/
  NM_LU_solve : NumericsMatrix R → Vec R → Vec R

section Init
variable {R : Type} [Zero R] [RatCast R] [Add R] [Div R]

/-- Diagonal of `P_mu` written by the loop of `grfc3d_IPM_init`. -/
def P_mu_diag (d : Nat) (mu mu_r : Vec R) (i : Nat) : R :=
  if i % d = 0 then ((1 : ℚ) : R)
  else if i % d = 1 ∨ i % d = 2 then mu (i / d)
  else mu_r (i / d)

/-- Diagonal of `P_mu_inv` written by the loop of `grfc3d_IPM_init`. -/
def P_mu_inv_diag (d : Nat) (mu mu_r : Vec R) (i : Nat) : R :=
  if i % d = 0 then ((1 : ℚ) : R)
  else if i % d = 1 ∨ i % d = 2 then ((1 : ℚ) : R) / mu (i / d)
  else ((1 : ℚ) : R) / mu_r (i / d)

/-- `grfc3d_IPM_init(problem, options)`: allocates the work buffer when it is missing or
has the wrong size, and builds the solver data (starting point, `P_mu`, `P_mu_inv`,
initial internal parameters). -/
def grfc3d_IPM_init (cst : Constants) (problem : GlobalRollingFrictionContactProblem R)
    (options : SolverOptions R) : SolverOptions R :=
  let m := problem.M.size0
  let nd := problem.H.size1
  let d := problem.dimension
  let n := nd / d
  let size := u32 (m + nd + n * (d + 1))
  let realloc : Bool := options.dWork.isNone || options.dWorkSize != size
  let data : Grfc3d_IPM_data R :=
    { starting_point :=
        { globalVelocity := fun i => if i < m then ((1 / 100 : ℚ) : R) else 0
          velocity := fun i => if i < nd then (if i % d = 0 then ((3 : ℚ) : R) else ((1 / 1000 : ℚ) : R)) else 0
          reaction := fun i => if i < nd then (if i % d = 0 then ((1 / 2 : ℚ) : R) else ((4 / 100 : ℚ) : R)) else 0 }
      original_point :=
        { globalVelocity := fun _ => 0, velocity := fun _ => 0, reaction := fun _ => 0 }
      P_mu :=
        { mat := (List.range nd).foldl
            (fun A i => NM_entry A i i (P_mu_diag d problem.mu problem.mu_r i))
            (NM_create cst.NM_SPARSE nd nd)
          inv_mat := (List.range nd).foldl
            (fun A i => NM_entry A i i (P_mu_inv_diag d problem.mu problem.mu_r i))
            (NM_create cst.NM_SPARSE nd nd) }
      internal_params :=
        { alpha_primal := ((1 : ℚ) : R), alpha_dual := ((1 : ℚ) : R),
          sigma := ((1 / 10 : ℚ) : R), barr_param := ((1 : ℚ) : R) } }
  { options with
    dWork := if realloc then some (fun _ => 0) else options.dWork
    dWorkSize := if realloc then size else options.dWorkSize
    solverData := some data }

end Init

/-! ## The loop of `grfc3d_IPM` -/

/-- Pointer arithmetic `x + off` on a buffer that is read. -/
def shift {R : Type} (x : Vec R) (off : Nat) : Vec R := fun i => x (off + i)

/-- A routine `f` that writes through the pointer `y + off`: entries of `y` below
`off` are kept. -/
def at_off {R : Type} (off : Nat) (f : Vec R → Vec R) (y : Vec R) : Vec R :=
  fun i => if i < off then y i else f (shift y off) (i - off)

/-- The `unsigned int` size variables declared at the top of `grfc3d_IPM`. -/
structure Dims where
  m : Nat
  nd : Nat
  d : Nat
  n : Nat
  m_plus_nd : Nat
  d_minus_2 : Nat
  n_dminus2 : Nat
  n_dplus1 : Nat

/-- Size variables of a problem: `m = M->size0`, `nd = H->size1`, `d = dimension`,
`n = numberOfContacts`, `m_plus_nd = m+nd`, `d_minus_2 = d-2`, `n_dminus2 = n*d_minus_2`,
`n_dplus1 = n*(d+1)`, all in `unsigned int` arithmetic. -/
def dims_of {R : Type} (problem : GlobalRollingFrictionContactProblem R) : Dims :=
  let m := problem.M.size0
  let nd := problem.H.size1
  let d := problem.dimension
  let n := problem.numberOfContacts
  let d_minus_2 := u32 (d + 4294967296 - 2)
  { m := m, nd := nd, d := d, n := n, m_plus_nd := u32 (m + nd), d_minus_2 := d_minus_2,
    n_dminus2 := u32 (n * d_minus_2), n_dplus1 := u32 (n * (d + 1)) }

/-- The condition of `assert((m_plus_nd+2*n_dminus2) == (m_plus_nd+n_dplus1))`. -/
def rhs_size_assert (D : Dims) : Bool :=
  u32 (D.m_plus_nd + 2 * D.n_dminus2) == u32 (D.m_plus_nd + D.n_dplus1)

/-- Everything `grfc3d_IPM` fixes before the loop and does not change in it. -/
structure IPMContext (R : Type) where
  ext : Externals R
  cst : Constants
  /-- The problem after the symmetrisation of `problem->M`. -/
  problem : GlobalRollingFrictionContactProblem R
  dims : Dims
  M : NumericsMatrix R
  H : NumericsMatrix R
  minus_H : NumericsMatrix R
  J : NumericsMatrix R
  P_mu : NumericsMatrix R
  P_mu_inv : NumericsMatrix R
  w : Vec R
  f : Vec R
  tol : R
  max_iter : Nat
  sgmp1 : R
  sgmp2 : R
  sgmp3 : R
  gmmp1 : R
  gmmp2 : R

/-- The variables of `grfc3d_IPM` that carry a value from one pass of the loop to the
next or to the exit.  `updates` is a ghost counter of the executions of the block
"Update variables"; `fws` is true for `'*'`. -/
structure IPMState (R : Type) where
  globalVelocity : Vec R
  velocity : Vec R
  reaction : Vec R
  t : Vec R
  t_prime : Vec R
  rhs : Vec R
  iparam : Nat → Int
  original_velocity : Vec R
  original_reaction : Vec R
  full_error : R
  fws : Bool
  gmm : R
  alpha_primal : R
  alpha_dual : R
  sigma : R
  barr_param : R
  /-- The pointer `Qp_bar`; `none` stands for NULL. -/
  Qp_bar : Option (NumericsMatrix R)
  /-- The pointer `Qp_tilde`; `none` stands for NULL. -/
  Qp_tilde : Option (NumericsMatrix R)
  /-- The pointer `Qp2_bar`; `none` stands for NULL. -/
  Qp2_bar : Option (NumericsMatrix R)
  /-- The pointer `Qp2_tilde`; `none` stands for NULL. -/
  Qp2_tilde : Option (NumericsMatrix R)
  iteration : Nat
  hasNotConverged : Int
  updates : Nat

/-- Values computed by one pass of the loop between its top and the exit test. -/
structure IPMHead (R : Type) where
  velocity_1 : Vec R
  velocity_2 : Vec R
  reaction_1 : Vec R
  reaction_2 : Vec R
  iparam : Nat → Int
  fws : Bool
  primalConstraint : Vec R
  pinfeas : R
  dualConstraint : Vec R
  dinfeas : R
  gapVal : R
  barr_param : R
  complem_1 : R
  complem_2 : R
  original_velocity : Vec R
  original_reaction : Vec R
  full_error : R
  u1dotr1 : R
  u2dotr2 : R
  error_array : Vec R

section Loop
variable {R : Type} [Zero R] [RatCast R] [Add R] [Sub R] [Mul R] [Div R]
  [LE R] [LT R] [DecidableRel (α := R) (· ≤ ·)] [DecidableRel (α := R) (· < ·)]

/-- The loop `for (i = 0; i < n; i++) vec[i*d_minus_2] = t[i]` that puts the auxiliary
scalars in front of the blocks. -/
def set_leading (D : Dims) (vec t : Vec R) : Vec R :=
  (List.range D.n).foldl (fun v i => setv v (u32 (i * D.d_minus_2)) (t i)) vec

/-- Top of the loop body: extraction of the sub-blocks, switch to the system without
scaling, residuals, gap, barrier parameter, full error and the array of the exit test. -/
def ipm_head (c : IPMContext R) (s : IPMState R) : IPMHead R :=
  let D := c.dims
  let velocity_1 := set_leading D (extract_vector s.velocity D.nd D.n 2 3 (fun _ => 0)) s.t
  let velocity_2 := set_leading D (extract_vector s.velocity D.nd D.n 4 5 (fun _ => 0)) s.t_prime
  let reaction_1 := extract_vector s.reaction D.nd D.n 2 3 (fun _ => 0)
  let reaction_2 := extract_vector s.reaction D.nd D.n 4 5 (fun _ => 0)
  let switch : Bool :=
    s.iparam c.cst.SICONOS_FRICTION_3D_IPM_IPARAM_FINISH_WITHOUT_SCALING == 1
      && decide (s.full_error ≤ ((1 / 1000000 : ℚ) : R)) && !s.fws
  let iparam : Nat → Int :=
    if switch then
      fun k => if k = c.cst.SICONOS_FRICTION_3D_IPM_IPARAM_NESTEROV_TODD_SCALING then 0 else s.iparam k
    else s.iparam
  let fws := if switch then true else s.fws
  let pr := c.ext.primalResidual s.velocity c.H s.globalVelocity c.w
  let dr := c.ext.dualResidual c.M s.globalVelocity c.H s.reaction c.f
  let gapVal := cblas_ddot D.nd s.reaction s.velocity
  let barr_param := gapVal / ((D.n : ℚ) : R)
  let complem_1 := c.ext.complemResidualNorm velocity_1 reaction_1 D.n_dminus2 D.n
  let complem_2 := c.ext.complemResidualNorm velocity_2 reaction_2 D.n_dminus2 D.n
  let original_velocity := NM_gemv ((1 : ℚ) : R) c.P_mu_inv s.velocity ((0 : ℚ) : R) s.original_velocity
  let original_reaction := NM_gemv ((1 : ℚ) : R) c.P_mu s.reaction ((0 : ℚ) : R) s.original_reaction
  let update_s := iparam c.cst.SICONOS_FRICTION_3D_IPM_IPARAM_UPDATE_S
  let full_error :=
    if update_s = 1 then
      c.ext.computeError c.problem original_reaction original_velocity s.globalVelocity c.tol 1
    else if update_s = 0 then
      c.ext.computeError c.problem original_reaction original_velocity s.globalVelocity c.tol 0
    else s.full_error
  let u1dotr1 := cblas_ddot D.n_dminus2 velocity_1 reaction_1
  let u2dotr2 := cblas_ddot D.n_dminus2 velocity_2 reaction_2
  { velocity_1 := velocity_1, velocity_2 := velocity_2, reaction_1 := reaction_1,
    reaction_2 := reaction_2, iparam := iparam, fws := fws,
    primalConstraint := pr.1, pinfeas := pr.2, dualConstraint := dr.1, dinfeas := dr.2,
    gapVal := gapVal, barr_param := barr_param, complem_1 := complem_1, complem_2 := complem_2,
    original_velocity := original_velocity, original_reaction := original_reaction,
    full_error := full_error, u1dotr1 := u1dotr1, u2dotr2 := u2dotr2,
    error_array := fun k =>
      if k = 0 then pr.2 else if k = 1 then dr.2 else if k = 2 then u1dotr1
      else if k = 3 then u2dotr2 else if k = 4 then complem_1 else complem_2 }

/-- The exit test `NV_max(error_array, 4) <= tol`. -/
def ipm_converged (c : IPMContext R) (h : IPMHead R) : Bool :=
  decide (NV_max h.error_array 4 ≤ c.tol)

/-- The matrix behind a pointer (`none` stands for NULL).  On NULL the value is the empty
matrix; no run with a result reads it, since a pass that hands a NULL pointer to
`NM_insert` or `NM_gemv` is excluded by `ipm_body_defined`.  The library routines
`NM_insert`, `NM_gemv` and `NM_clear` are not among the sources at hand; they are taken to
read through the matrix pointer they are handed, so that a NULL pointer ends the run. -/
def NM_deref (p : Option (NumericsMatrix R)) : NumericsMatrix R := p.getD (NM_create 0 0 0)

/-- The four pointers `(Qp_bar, Qp2_bar, Qp_tilde, Qp2_tilde)` after the assignments of a
pass with Nesterov-Todd scaling; with a method that is neither `WITH_QP` nor `WITH_F`
nothing is assigned and the pointers keep their previous values, NULL in the first pass. -/
def ipm_scaling_matrices (c : IPMContext R) (s : IPMState R) (h : IPMHead R) :
    Option (NumericsMatrix R) × Option (NumericsMatrix R) × Option (NumericsMatrix R)
      × Option (NumericsMatrix R) :=
  let D := c.dims
  let method := h.iparam c.cst.SICONOS_FRICTION_3D_IPM_IPARAM_NESTEROV_TODD_SCALING_METHOD
  if method = c.cst.SICONOS_FRICTION_3D_IPM_NESTEROV_TODD_SCALING_WITH_QP then
    (some (c.ext.QRmat (c.ext.Nesterov_Todd_vector 0 h.velocity_1 h.reaction_1 D.n_dminus2 D.n) D.n_dminus2 D.n),
     some (c.ext.QRmat (c.ext.Nesterov_Todd_vector 2 h.velocity_1 h.reaction_1 D.n_dminus2 D.n) D.n_dminus2 D.n),
     some (c.ext.QRmat (c.ext.Nesterov_Todd_vector 0 h.velocity_2 h.reaction_2 D.n_dminus2 D.n) D.n_dminus2 D.n),
     some (c.ext.QRmat (c.ext.Nesterov_Todd_vector 2 h.velocity_2 h.reaction_2 D.n_dminus2 D.n) D.n_dminus2 D.n))
  else if method = c.cst.SICONOS_FRICTION_3D_IPM_NESTEROV_TODD_SCALING_WITH_F then
    (some (c.ext.NTmat h.velocity_1 h.reaction_1 D.n_dminus2 D.n),
     some (c.ext.NTmatsqr h.velocity_1 h.reaction_1 D.n_dminus2 D.n),
     some (c.ext.NTmat h.velocity_2 h.reaction_2 D.n_dminus2 D.n),
     some (c.ext.NTmatsqr h.velocity_2 h.reaction_2 D.n_dminus2 D.n))
  else (s.Qp_bar, s.Qp2_bar, s.Qp_tilde, s.Qp2_tilde)

/-- The part of the Jacobian common to both systems: `M`, `-H'`, `-H` and `J`. -/
def ipm_jac_common (c : IPMContext R) : NumericsMatrix R :=
  let D := c.dims
  let size := u32 (D.m + D.nd + D.n_dplus1)
  let Jac : NumericsMatrix R := NM_create c.cst.NM_SPARSE size size
  NM_insert (NM_insert (NM_insert (NM_insert Jac c.M 0 0) (NM_transpose c.minus_H) 0 D.m)
    c.minus_H D.m 0) c.J D.m D.m_plus_nd

/-- Jacobian with Nesterov-Todd scaling: rows `[M -H' 0; -H 0 J; 0 J' Q^2]`. -/
def ipm_jac_scaled (c : IPMContext R) (Qp2_bar Qp2_tilde : NumericsMatrix R) : NumericsMatrix R :=
  let D := c.dims
  NM_insert (NM_insert (NM_insert (ipm_jac_common c) (NM_transpose c.J) D.m_plus_nd D.m)
    Qp2_bar D.m_plus_nd D.m_plus_nd)
    Qp2_tilde (u32 (D.m_plus_nd + D.n_dminus2)) (u32 (D.m_plus_nd + D.n_dminus2))

/-- Entries written to `block_1` and `block_2` for the contact `i`. -/
def ipm_blocks_contact (D : Dims) (velocity_1 velocity_2 : Vec R)
    (b : NumericsMatrix R × NumericsMatrix R) (i : Nat) : NumericsMatrix R × NumericsMatrix R :=
  let posX := i * D.d_minus_2
  let posY := i * D.d
  let b0 := (NM_entry b.1 posX posY (velocity_1 posX), NM_entry b.2 posX posY (velocity_2 posX))
  (List.range' 1 (D.d_minus_2 - 1)).foldl
    (fun b j =>
      (NM_entry (NM_entry (NM_entry b.1 posX (posY + j) (velocity_1 (posX + j)))
          (posX + j) posY (velocity_1 (posX + j))) (posX + j) (posY + j) (velocity_1 posX),
       NM_entry (NM_entry (NM_entry b.2 posX (posY + j + 2) (velocity_2 (posX + j)))
          (posX + j) posY (velocity_2 (posX + j))) (posX + j) (posY + j + 2) (velocity_2 posX)))
    b0

/-- Jacobian without scaling: rows `[M -H' 0 0; -H 0 J; 0 block_1 arw(r1) 0; 0 block_2 0 arw(r2)]`. -/
def ipm_jac_unscaled (c : IPMContext R) (h : IPMHead R) : NumericsMatrix R :=
  let D := c.dims
  let n3 := 3 * D.n
  let n5 := 5 * D.n
  let blocks := (List.range D.n).foldl (ipm_blocks_contact D h.velocity_1 h.velocity_2)
    (NM_create c.cst.NM_SPARSE n5 n3, NM_create c.cst.NM_SPARSE n5 n3)
  NM_insert (NM_insert (NM_insert (NM_insert (ipm_jac_common c) blocks.1 D.m_plus_nd D.m)
    (c.ext.Arrow_repr h.reaction_1 D.n_dminus2 D.n) D.m_plus_nd D.m_plus_nd)
    blocks.2 (u32 (D.m_plus_nd + D.n_dminus2)) D.m)
    (c.ext.Arrow_repr h.reaction_2 D.n_dminus2 D.n)
    (u32 (D.m_plus_nd + D.n_dminus2)) (u32 (D.m_plus_nd + D.n_dminus2))

/-- The Jacobian of a pass: scaled when `iparam[NESTEROV_TODD_SCALING]` is non-zero. -/
def ipm_jacobian (c : IPMContext R) (s : IPMState R) (h : IPMHead R) : NumericsMatrix R :=
  if h.iparam c.cst.SICONOS_FRICTION_3D_IPM_IPARAM_NESTEROV_TODD_SCALING ≠ 0 then
    let Q := ipm_scaling_matrices c s h
    ipm_jac_scaled c (NM_deref Q.2.1) (NM_deref Q.2.2.2)
  else ipm_jac_unscaled c h

/-- Whether the right-hand sides and the solver are those of the scaled system:
`iparam[NESTEROV_TODD_SCALING] > 0`. -/
def ipm_nt (c : IPMContext R) (h : IPMHead R) : Bool :=
  decide (0 < h.iparam c.cst.SICONOS_FRICTION_3D_IPM_IPARAM_NESTEROV_TODD_SCALING)

/-- Assembly of the right-hand side: the two residuals, the two complementarity parts,
and the change of sign of the `m + nd + n_dplus1` leading entries. -/
def ipm_rhs (c : IPMContext R) (h : IPMHead R) (complem_1 complem_2 rhs : Vec R) : Vec R :=
  let D := c.dims
  let rhs := cblas_dcopy D.m h.dualConstraint rhs
  let rhs := at_off D.m (cblas_dcopy D.nd h.primalConstraint) rhs
  let rhs := at_off D.m_plus_nd (cblas_dcopy D.n_dminus2 complem_1) rhs
  let rhs := at_off (D.m_plus_nd + D.n_dminus2) (cblas_dcopy D.n_dminus2 complem_2) rhs
  cblas_dscal (u32 (D.m + D.nd + D.n_dplus1)) ((-1 : ℚ) : R) rhs

/-- The linear solve of a pass: `NM_LDLT_solve` for the scaled system, `NM_LU_solve`
otherwise. -/
def ipm_solve (c : IPMContext R) (h : IPMHead R) (Jac : NumericsMatrix R) (rhs : Vec R) : Vec R :=
  if ipm_nt c h then c.ext.NM_LDLT_solve Jac rhs else c.ext.NM_LU_solve Jac rhs

/-- Directions read back from the solution stored in `rhs`. -/
structure IPMDirection (R : Type) where
  d_globalVelocity : Vec R
  d_reaction : Vec R
  d_reaction_1 : Vec R
  d_reaction_2 : Vec R
  d_velocity_1 : Vec R
  d_velocity_2 : Vec R
  d_velocity : Vec R
  d_t : Vec R
  d_t_prime : Vec R

/-- "Retrieve the solutions": the segments of `rhs` of lengths `m`, `nd`, `n_dminus2`,
`n_dminus2`, and `d_velocity`, `d_t`, `d_t_prime` assembled per contact. -/
def ipm_retrieve (D : Dims) (rhs : Vec R) : IPMDirection R :=
  let d_globalVelocity := cblas_dcopy D.m rhs (fun _ => 0)
  let d_reaction := cblas_dcopy D.nd (shift rhs D.m) (fun _ => 0)
  let d_reaction_1 := extract_vector d_reaction D.nd D.n 2 3 (fun _ => 0)
  let d_reaction_2 := extract_vector d_reaction D.nd D.n 4 5 (fun _ => 0)
  let d_velocity_1 := cblas_dcopy D.n_dminus2 (shift rhs D.m_plus_nd) (fun _ => 0)
  let d_velocity_2 := cblas_dcopy D.n_dminus2 (shift rhs (D.m_plus_nd + D.n_dminus2)) (fun _ => 0)
  let dv := (List.range D.n).foldl
    (fun (b : Vec R × Vec R × Vec R) i =>
      let posX := i * D.d
      let posY := i * D.d_minus_2
      (setv (setv (setv (setv (setv b.1 posX (d_velocity_1 posY + d_velocity_2 posY))
          (posX + 1) (d_velocity_1 (posY + 1))) (posX + 2) (d_velocity_1 (posY + 2)))
          (posX + 3) (d_velocity_2 (posY + 1))) (posX + 4) (d_velocity_2 (posY + 2)),
       setv b.2.1 i (d_velocity_1 posY), setv b.2.2 i (d_velocity_2 posY)))
    ((fun _ => 0), (fun _ => 0), (fun _ => 0))
  { d_globalVelocity := d_globalVelocity, d_reaction := d_reaction, d_reaction_1 := d_reaction_1,
    d_reaction_2 := d_reaction_2, d_velocity_1 := d_velocity_1, d_velocity_2 := d_velocity_2,
    d_velocity := dv.1, d_t := dv.2.1, d_t_prime := dv.2.2 }

/-- The step length `fmin(alpha_primal_1, fmin(alpha_primal_2, fmin(alpha_dual_1, alpha_dual_2)))`
from the four ratio tests with damping `gmm`. -/
def ipm_step_length (c : IPMContext R) (h : IPMHead R) (dir : IPMDirection R) (gmm : R) : R :=
  let D := c.dims
  let alpha_primal_1 := c.ext.getStepLength h.velocity_1 dir.d_velocity_1 D.n_dminus2 D.n gmm
  let alpha_primal_2 := c.ext.getStepLength h.velocity_2 dir.d_velocity_2 D.n_dminus2 D.n gmm
  let alpha_dual_1 := c.ext.getStepLength h.reaction_1 dir.d_reaction_1 D.n_dminus2 D.n gmm
  let alpha_dual_2 := c.ext.getStepLength h.reaction_2 dir.d_reaction_2 D.n_dminus2 D.n gmm
  fmin alpha_primal_1 (fmin alpha_primal_2 (fmin alpha_dual_1 alpha_dual_2))

/-- Values of the predictor step. -/
structure IPMPredictor (R : Type) where
  Jac : NumericsMatrix R
  /-- The pointers `(Qp_bar, Qp2_bar, Qp_tilde, Qp2_tilde)` after the scaling block. -/
  Q : Option (NumericsMatrix R) × Option (NumericsMatrix R) × Option (NumericsMatrix R)
    × Option (NumericsMatrix R)
  rhs : Vec R
  dir : IPMDirection R
  alpha_primal : R
  alpha_dual : R
  gmm : R
  barr_param_a : R
  e : R
  sigma : R

/-- Predictor step: Jacobian, first right-hand side (`r_i` with scaling, `u_i o r_i`
without), solve, affine step length, new `gmm`, affine barrier value and centering
parameter `sigma`. -/
def ipm_predictor (c : IPMContext R) (s : IPMState R) (h : IPMHead R) : IPMPredictor R :=
  let D := c.dims
  let Q := if h.iparam c.cst.SICONOS_FRICTION_3D_IPM_IPARAM_NESTEROV_TODD_SCALING ≠ 0
    then ipm_scaling_matrices c s h else (s.Qp_bar, s.Qp2_bar, s.Qp_tilde, s.Qp2_tilde)
  let Jac := ipm_jacobian c s h
  let rhs0 :=
    if ipm_nt c h then ipm_rhs c h h.reaction_1 h.reaction_2 s.rhs
    else ipm_rhs c h (c.ext.JA_prod h.velocity_1 h.reaction_1 D.n_dminus2 D.n)
      (c.ext.JA_prod h.velocity_2 h.reaction_2 D.n_dminus2 D.n) s.rhs
  let rhs := ipm_solve c h Jac rhs0
  let dir := ipm_retrieve D rhs
  let alpha_primal := ipm_step_length c h dir s.gmm
  let alpha_dual := alpha_primal
  let gmm := c.gmmp1 + c.gmmp2 * alpha_primal
  let v_plus_dv := cblas_daxpy D.nd alpha_primal dir.d_velocity (cblas_dcopy D.nd s.velocity (fun _ => 0))
  let r_plus_dr := cblas_daxpy D.nd alpha_dual dir.d_reaction (cblas_dcopy D.nd s.reaction (fun _ => 0))
  let barr_param_a := cblas_ddot D.nd v_plus_dv r_plus_dr / ((D.n : ℚ) : R)
  let e := if c.sgmp1 < h.barr_param
    then fmax ((1 : ℚ) : R) (c.sgmp2 * c.ext.pow (fmin alpha_primal alpha_dual) ((2 : ℚ) : R))
    else c.sgmp3
  let sigma := fmin ((1 : ℚ) : R) (c.ext.pow (barr_param_a / h.barr_param) e) / ((5 : ℚ) : R)
  { Jac := Jac, Q := Q, rhs := rhs, dir := dir, alpha_primal := alpha_primal,
    alpha_dual := alpha_dual, gmm := gmm, barr_param_a := barr_param_a, e := e, sigma := sigma }

/-- Values of the corrector step. -/
structure IPMCorrector (R : Type) where
  complemConstraint_1 : Vec R
  complemConstraint_2 : Vec R
  rhs : Vec R
  dir : IPMDirection R
  alpha_primal : R
  alpha_dual : R
  gmm : R

/-- Corrector step: complementarity right-hand side with the centering term and the
second-order term, second solve with the same Jacobian, step length and new `gmm`. -/
def ipm_corrector (c : IPMContext R) (h : IPMHead R) (p : IPMPredictor R) : IPMCorrector R :=
  let D := c.dims
  let z : Vec R := fun _ => 0
  let one : R := ((1 : ℚ) : R)
  let zero : R := ((0 : ℚ) : R)
  let two_mu_sigma : R := ((2 : ℚ) : R) * h.barr_param * p.sigma
  let cc : Vec R × Vec R :=
    if ipm_nt c h then
      let Qp_bar := NM_deref p.Q.1
      let Qp_tilde := NM_deref p.Q.2.2.1
      let velocity_1t := NM_gemv one Qp_bar h.velocity_1 zero z
      let velocity_2t := NM_gemv one Qp_tilde h.velocity_2 zero z
      let velocity_1t_inv := c.ext.JA_inv velocity_1t D.n_dminus2 D.n
      let velocity_2t_inv := c.ext.JA_inv velocity_2t D.n_dminus2 D.n
      let Qp_velocity_1t_inv :=
        cblas_dscal D.n_dminus2 two_mu_sigma (NM_gemv one Qp_bar velocity_1t_inv zero z)
      let Qp_velocity_2t_inv :=
        cblas_dscal D.n_dminus2 two_mu_sigma (NM_gemv one Qp_tilde velocity_2t_inv zero z)
      let d_velocity_1t := NM_gemv one Qp_bar p.dir.d_velocity_1 zero z
      let d_velocity_2t := NM_gemv one Qp_tilde p.dir.d_velocity_2 zero z
      let d_reaction_1t := c.ext.QNTpinvz h.velocity_1 h.reaction_1 p.dir.d_reaction_1 D.n_dminus2 D.n
      let d_reaction_2t := c.ext.QNTpinvz h.velocity_2 h.reaction_2 p.dir.d_reaction_2 D.n_dminus2 D.n
      let dvdr_jprod_1 := c.ext.JA_prod d_velocity_1t d_reaction_1t D.n_dminus2 D.n
      let dvdr_jprod_2 := c.ext.JA_prod d_velocity_2t d_reaction_2t D.n_dminus2 D.n
      let tmp1 := NV_sub h.reaction_1 Qp_velocity_1t_inv D.n_dminus2 z
      let tmp2 := NV_sub h.reaction_2 Qp_velocity_2t_inv D.n_dminus2 z
      (NV_add tmp1 dvdr_jprod_1 D.n_dminus2 z, NV_add tmp2 dvdr_jprod_2 D.n_dminus2 z)
    else
      let vr_jprod_1 := c.ext.JA_prod h.velocity_1 h.reaction_1 D.n_dminus2 D.n
      let vr_jprod_2 := c.ext.JA_prod h.velocity_2 h.reaction_2 D.n_dminus2 D.n
      let iden := cblas_dscal D.n_dminus2 two_mu_sigma (c.ext.JA_iden D.n_dminus2 D.n)
      let dvdr_jprod_1 := c.ext.JA_prod p.dir.d_velocity_1 p.dir.d_reaction_1 D.n_dminus2 D.n
      let dvdr_jprod_2 := c.ext.JA_prod p.dir.d_velocity_2 p.dir.d_reaction_2 D.n_dminus2 D.n
      let tmp1 := NV_sub vr_jprod_1 iden D.n_dminus2 z
      let tmp2 := NV_sub vr_jprod_2 iden D.n_dminus2 z
      (NV_add tmp1 dvdr_jprod_1 D.n_dminus2 z, NV_add tmp2 dvdr_jprod_2 D.n_dminus2 z)
  let rhs := ipm_solve c h p.Jac (ipm_rhs c h cc.1 cc.2 p.rhs)
  let dir := ipm_retrieve D rhs
  let alpha_primal := ipm_step_length c h dir p.gmm
  { complemConstraint_1 := cc.1, complemConstraint_2 := cc.2, rhs := rhs, dir := dir,
    alpha_primal := alpha_primal, alpha_dual := alpha_primal,
    gmm := c.gmmp1 + c.gmmp2 * alpha_primal }

/-- The block "Update variables": the five `cblas_daxpy` calls, with the scalars of the
pass stored. -/
def ipm_update (c : IPMContext R) (s : IPMState R) (h : IPMHead R) (p : IPMPredictor R)
    (k : IPMCorrector R) : IPMState R :=
  let D := c.dims
  { s with
    globalVelocity := cblas_daxpy D.m k.alpha_primal k.dir.d_globalVelocity s.globalVelocity
    velocity := cblas_daxpy D.nd k.alpha_primal k.dir.d_velocity s.velocity
    reaction := cblas_daxpy D.nd k.alpha_dual k.dir.d_reaction s.reaction
    t := cblas_daxpy D.n k.alpha_dual k.dir.d_t s.t
    t_prime := cblas_daxpy D.n k.alpha_dual k.dir.d_t_prime s.t_prime
    rhs := k.rhs
    iparam := h.iparam
    original_velocity := h.original_velocity
    original_reaction := h.original_reaction
    full_error := h.full_error
    fws := h.fws
    gmm := k.gmm
    alpha_primal := k.alpha_primal
    alpha_dual := k.alpha_dual
    sigma := p.sigma
    barr_param := h.barr_param
    Qp_bar := p.Q.1
    Qp2_bar := p.Q.2.1
    Qp_tilde := p.Q.2.2.1
    Qp2_tilde := p.Q.2.2.2
    updates := s.updates + 1 }

/-- The state after a pass that does not leave at the exit test, before the NaN check. -/
def ipm_pass (c : IPMContext R) (s : IPMState R) : IPMState R :=
  let h := ipm_head c s
  let p := ipm_predictor c s h
  ipm_update c s h p (ipm_corrector c h p)

/-- The check `NV_isnan(globalVelocity, m) | NV_isnan(velocity, nd) | NV_isnan(reaction, nd)`. -/
def ipm_nan_check (c : IPMContext R) (s : IPMState R) : Bool :=
  NV_isnan c.ext.isnan s.globalVelocity c.dims.m || NV_isnan c.ext.isnan s.velocity c.dims.nd
    || NV_isnan c.ext.isnan s.reaction c.dims.nd

/-- The state in which the loop leaves at the exit test: the values of the head are
stored and `hasNotConverged = 0`. -/
def ipm_exit_converged (s : IPMState R) (h : IPMHead R) : IPMState R :=
  { s with
    iparam := h.iparam
    original_velocity := h.original_velocity
    original_reaction := h.original_reaction
    full_error := h.full_error
    fws := h.fws
    barr_param := h.barr_param
    hasNotConverged := 0 }

/-- The loop `while (iteration < max_iter)` of `grfc3d_IPM`.  The first argument bounds
the number of passes; `max_iter - iteration` passes are always enough. -/
def ipm_loop (c : IPMContext R) : Nat → IPMState R → IPMState R
  | 0, s => s
  | fuel + 1, s =>
    if s.iteration < c.max_iter then
      let h := ipm_head c s
      if ipm_converged c h then ipm_exit_converged s h
      else
        let s1 := ipm_pass c s
        if ipm_nan_check c s1 then { s1 with hasNotConverged := 2 }
        else ipm_loop c fuel { s1 with iteration := s1.iteration + 1 }
    else s

/-- The four calls of `extract_vector` at the top of a pass run through (the two calls on
`d_reaction` after each solve have the same size arguments). -/
def ipm_head_defined (c : IPMContext R) : Bool :=
  extract_vector_defined c.dims.nd c.dims.n 2 3 && extract_vector_defined c.dims.nd c.dims.n 4 5

/-- The part of the pass from `s` after the exit test runs through: the assertion on the
size of `rhs` holds, the pointers `Qp2_bar`, `Qp2_tilde` handed to `NM_insert` are not NULL
when the scaled Jacobian is built (`iparam[NESTEROV_TODD_SCALING]` non-zero), and the
pointers `Qp_bar`, `Qp_tilde` handed to `NM_gemv` in the corrector are not NULL when
`iparam[NESTEROV_TODD_SCALING] > 0`. -/
def ipm_body_defined (c : IPMContext R) (s : IPMState R) : Bool :=
  let h := ipm_head c s
  let p := ipm_predictor c s h
  rhs_size_assert c.dims
    && (h.iparam c.cst.SICONOS_FRICTION_3D_IPM_IPARAM_NESTEROV_TODD_SCALING == 0
      || (p.Q.2.1.isSome && p.Q.2.2.2.isSome))
    && (!ipm_nt c h || (p.Q.1.isSome && p.Q.2.2.1.isSome))

/-- The loop started in `s` meets no failed assertion, no division by zero and hands no
NULL matrix pointer to a library routine.  The recursion is that of `ipm_loop`. -/
def ipm_loop_defined (c : IPMContext R) : Nat → IPMState R → Bool
  | 0, _ => true
  | fuel + 1, s =>
    if s.iteration < c.max_iter then
      ipm_head_defined c &&
        (if ipm_converged c (ipm_head c s) then true
          else ipm_body_defined c s &&
            (if ipm_nan_check c (ipm_pass c s) then true
              else ipm_loop_defined c fuel
                { ipm_pass c s with iteration := (ipm_pass c s).iteration + 1 }))
    else true

/-- The release of the scaling matrices after the loop, `NM_clear(Qp_bar)` ... under
`iparam[NESTEROV_TODD_SCALING] > 0`, is handed no NULL pointer. -/
def ipm_finish_defined (c : IPMContext R) (s : IPMState R) : Bool :=
  !decide (0 < s.iparam c.cst.SICONOS_FRICTION_3D_IPM_IPARAM_NESTEROV_TODD_SCALING)
    || (s.Qp_bar.isSome && s.Qp2_bar.isSome && s.Qp_tilde.isSome && s.Qp2_tilde.isSome)

/-- A call whose loop starts in `s0` runs through: the assertion `varsCount > 0` of
`compute_J_matrix(n)` holds, the loop runs through, and so does the release of the scaling
matrices. -/
def ipm_run_defined (c : IPMContext R) (s0 : IPMState R) : Bool :=
  decide (0 < c.dims.n) && ipm_loop_defined c c.max_iter s0
    && ipm_finish_defined c (ipm_loop c c.max_iter s0)

end Loop

/-! ## `grfc3d_IPM` -/

/-- What a call of `grfc3d_IPM` leaves behind: the problem (whose `M` may have been
replaced), the options, the three caller buffers, `*info`, and the final loop state. -/
structure IPMResult (R : Type) where
  problem : GlobalRollingFrictionContactProblem R
  options : SolverOptions R
  reaction : Vec R
  velocity : Vec R
  globalVelocity : Vec R
  info : Int
  final : IPMState R

section Main
variable {R : Type} [Zero R] [One R] [RatCast R] [Add R] [Sub R] [Mul R] [Div R]
  [LE R] [LT R] [DecidableRel (α := R) (· ≤ ·)] [DecidableRel (α := R) (· < ·)]

/-- Symmetrisation at the entry of `grfc3d_IPM`: when `NM_is_symmetric(problem->M)` fails,
`problem->M` is replaced by `NM_add(1/2, M, 1/2, M')`. -/
def ipm_symmetrize (ext : Externals R) (problem : GlobalRollingFrictionContactProblem R) :
    GlobalRollingFrictionContactProblem R :=
  if !ext.NM_is_symmetric problem.M then
    { problem with
      M := NM_add ((1 / 2 : ℚ) : R) problem.M ((1 / 2 : ℚ) : R) (NM_transpose problem.M) }
  else problem

/-- Whether `grfc3d_IPM` calls `grfc3d_IPM_init`: no work buffer, or one of the wrong size. -/
def ipm_needs_init (problem : GlobalRollingFrictionContactProblem R) (options : SolverOptions R) :
    Bool :=
  let D := dims_of problem
  options.dWork.isNone || options.dWorkSize != u32 (D.m + D.nd + D.n_dplus1)

/-- The loop context built by the code between the entry and the loop. -/
def ipm_context (ext : Externals R) (cst : Constants)
    (problem : GlobalRollingFrictionContactProblem R) (options : SolverOptions R)
    (data : Grfc3d_IPM_data R) : IPMContext R :=
  let D := dims_of problem
  let forced : Bool := options.iparam cst.SICONOS_FRICTION_3D_IPM_IPARAM_SPARSE_STORAGE
    == cst.SICONOS_FRICTION_3D_IPM_FORCED_SPARSE_STORAGE
  let M := if forced && problem.M.storageType == cst.NM_SPARSE_BLOCK
    then ext.NM_copy_to_sparse problem.M problem.M.size0 problem.M.size1 else problem.M
  let H_origin := if forced && problem.H.storageType == cst.NM_SPARSE_BLOCK
    then ext.NM_copy_to_sparse (NM_transpose problem.H) problem.H.size1 problem.H.size0
    else NM_transpose problem.H
  let P_mu := data.P_mu.mat
  let H := NM_multiply P_mu H_origin
  { ext := ext, cst := cst, problem := problem, dims := D, M := M, H := H,
    minus_H := NM_gemm ((-1 : ℚ) : R) H (NM_eye cst.NM_SPARSE H.size1) ((0 : ℚ) : R) H,
    J := compute_J_matrix cst.NM_SPARSE D.n,
    P_mu := P_mu, P_mu_inv := data.P_mu.inv_mat,
    w := NM_gemv ((1 : ℚ) : R) P_mu problem.b ((0 : ℚ) : R) (fun _ => 0),
    f := problem.q,
    tol := options.dparam cst.SICONOS_DPARAM_TOL,
    max_iter := ofInt32 (options.iparam cst.SICONOS_IPARAM_MAX_ITER),
    sgmp1 := options.dparam cst.SICONOS_FRICTION_3D_IPM_SIGMA_PARAMETER_1,
    sgmp2 := options.dparam cst.SICONOS_FRICTION_3D_IPM_SIGMA_PARAMETER_2,
    sgmp3 := options.dparam cst.SICONOS_FRICTION_3D_IPM_SIGMA_PARAMETER_3,
    gmmp1 := options.dparam cst.SICONOS_FRICTION_3D_IPM_GAMMA_PARAMETER_1,
    gmmp2 := options.dparam cst.SICONOS_FRICTION_3D_IPM_GAMMA_PARAMETER_2 }

/-- The loop state at the first evaluation of the loop condition: the caller buffers
overwritten by the starting point, `t = 2`, `t_prime = 1`, `gmm = 0.999`,
`full_error = 1e300`, `iteration = 0`, `hasNotConverged = 1`. -/
def ipm_initial_state (D : Dims) (options : SolverOptions R) (data : Grfc3d_IPM_data R)
    (rhs reaction velocity globalVelocity : Vec R) : IPMState R :=
  { globalVelocity := cblas_dcopy D.m data.starting_point.globalVelocity globalVelocity
    velocity := cblas_dcopy D.nd data.starting_point.velocity velocity
    reaction := cblas_dcopy D.nd data.starting_point.reaction reaction
    t := fun i => if i < D.n then ((2 : ℚ) : R) else 0
    t_prime := fun i => if i < D.n then ((1 : ℚ) : R) else 0
    rhs := rhs
    iparam := options.iparam
    original_velocity := data.original_point.velocity
    original_reaction := data.original_point.reaction
    full_error := ((10 ^ 300 : ℚ) : R)
    fws := false
    gmm := ((999 / 1000 : ℚ) : R)
    alpha_primal := data.internal_params.alpha_primal
    alpha_dual := data.internal_params.alpha_dual
    sigma := data.internal_params.sigma
    barr_param := data.internal_params.barr_param
    Qp_bar := none
    Qp_tilde := none
    Qp2_bar := none
    Qp2_tilde := none
    iteration := 0
    hasNotConverged := 1
    updates := 0 }

/-- The options after the conditional call of `grfc3d_IPM_init` at the entry. -/
def ipm_entry_options (ext : Externals R) (cst : Constants)
    (problem : GlobalRollingFrictionContactProblem R) (options : SolverOptions R) : SolverOptions R :=
  if ipm_needs_init (ipm_symmetrize ext problem) options
  then grfc3d_IPM_init cst (ipm_symmetrize ext problem) options else options

/-- The loop context of a call whose solver data is `data`. -/
def ipm_entry_context (ext : Externals R) (cst : Constants)
    (problem : GlobalRollingFrictionContactProblem R) (options : SolverOptions R)
    (data : Grfc3d_IPM_data R) : IPMContext R :=
  ipm_context ext cst (ipm_symmetrize ext problem) (ipm_entry_options ext cst problem options) data

/-- The loop state of a call at the first evaluation of the loop condition. -/
def ipm_entry_state (ext : Externals R) (cst : Constants)
    (problem : GlobalRollingFrictionContactProblem R) (reaction velocity globalVelocity : Vec R)
    (options : SolverOptions R) (data : Grfc3d_IPM_data R) : IPMState R :=
  ipm_initial_state (dims_of (ipm_symmetrize ext problem)) (ipm_entry_options ext cst problem options)
    data ((ipm_entry_options ext cst problem options).dWork.getD (fun _ => 0))
    reaction velocity globalVelocity

/-- The solver data of a call in which the pointer `options->solverData` is not NULL
after the conditional initialisation. -/
def ipm_entry_data (ext : Externals R) (cst : Constants)
    (problem : GlobalRollingFrictionContactProblem R) (options : SolverOptions R)
    (h : (ipm_entry_options ext cst problem options).solverData.isSome = true) :
    Grfc3d_IPM_data R :=
  Option.get _ h

/-- The code after the loop: `dparam[RESIDU] = full_error`, `iparam[ITER_DONE] = iteration`,
release of the internally allocated data, `*info = hasNotConverged`. -/
def ipm_finish (ext : Externals R) (cst : Constants)
    (problem : GlobalRollingFrictionContactProblem R) (options : SolverOptions R)
    (data : Grfc3d_IPM_data R) (s : IPMState R) : IPMResult R :=
  let options1 := ipm_entry_options ext cst problem options
  let iparam : Nat → Int := fun k =>
    if k = cst.SICONOS_IPARAM_ITER_DONE then toInt32 s.iteration else s.iparam k
  let dparam : Nat → R := fun k =>
    if k = cst.SICONOS_DPARAM_RESIDU then s.full_error else options1.dparam k
  let options2 : SolverOptions R :=
    if ipm_needs_init (ipm_symmetrize ext problem) options then
      { iparam := iparam, dparam := dparam, dWork := none, dWorkSize := 0, solverData := none }
    else
      { iparam := iparam, dparam := dparam, dWork := some s.rhs, dWorkSize := options1.dWorkSize,
        solverData := some { data with
          original_point := { data.original_point with
            velocity := s.original_velocity, reaction := s.original_reaction } } }
  { problem := ipm_symmetrize ext problem, options := options2, reaction := s.reaction,
    velocity := s.velocity, globalVelocity := s.globalVelocity, info := s.hasNotConverged,
    final := s }

/-- `grfc3d_IPM(problem, reaction, velocity, globalVelocity, info, options)`.  The result
is `none` when the call does not run through: the solver data pointer is NULL although no
initialisation takes place, or an assertion fails, or a division by zero or a NULL matrix
pointer handed to a library routine is met (`ipm_run_defined`). -/
def grfc3d_IPM (ext : Externals R) (cst : Constants)
    (problem : GlobalRollingFrictionContactProblem R) (reaction velocity globalVelocity : Vec R)
    (options : SolverOptions R) : Option (IPMResult R) :=
  match (ipm_entry_options ext cst problem options).solverData with
  | none => none
  | some data =>
    let c := ipm_entry_context ext cst problem options data
    let s0 := ipm_entry_state ext cst problem reaction velocity globalVelocity options data
    if ipm_run_defined c s0 then
      some (ipm_finish ext cst problem options data (ipm_loop c c.max_iter s0))
    else none

end Main

/-! ## Trajectory of the loop -/

section Trajectory
variable {R : Type} [Zero R] [RatCast R] [Add R] [Sub R] [Mul R] [Div R]
  [LE R] [LT R] [DecidableRel (α := R) (· ≤ ·)] [DecidableRel (α := R) (· < ·)]

/-- A pass that neither leaves at the exit test nor at the NaN check: the update
followed by `iteration++`. -/
def ipm_next (c : IPMContext R) (s : IPMState R) : IPMState R :=
  { ipm_pass c s with iteration := (ipm_pass c s).iteration + 1 }

/-- The state at the top of the pass number `k` (counted from 0) when no earlier pass
left the loop. -/
def ipm_state_at (c : IPMContext R) (s0 : IPMState R) : Nat → IPMState R
  | 0 => s0
  | k + 1 => ipm_next c (ipm_state_at c s0 k)

/-- The exit test succeeds at the top of the pass `k`. -/
def ipm_test_at (c : IPMContext R) (s0 : IPMState R) (k : Nat) : Bool :=
  ipm_converged c (ipm_head c (ipm_state_at c s0 k))

/-- The NaN check fires after the update of the pass `k`. -/
def ipm_nan_at (c : IPMContext R) (s0 : IPMState R) (k : Nat) : Bool :=
  ipm_nan_check c (ipm_pass c (ipm_state_at c s0 k))

/-- The loop gets to the top of the pass `k`: none of the passes before left it. -/
def ipm_reaches (c : IPMContext R) (s0 : IPMState R) (k : Nat) : Prop :=
  ∀ j, j < k → ipm_test_at c s0 j = false ∧ ipm_nan_at c s0 j = false

end Trajectory

/-! ## Doubles with infinities and NaN -/

/-- Values of a C `double` when rounding is left out: a rational number, one of the
two infinities, or NaN. -/
inductive Dbl where
  | fin (q : ℚ)
  | pinf
  | ninf
  | nan
  deriving DecidableEq

namespace Dbl

/-- C `isnan`. -/
def isnan : Dbl → Bool
  | nan => true
  | _ => false

/-- Unary minus. -/
def neg : Dbl → Dbl
  | fin q => fin (-q)
  | pinf => ninf
  | ninf => pinf
  | nan => nan

/-- Addition: opposite infinities give NaN. -/
def add : Dbl → Dbl → Dbl
  | fin a, fin b => fin (a + b)
  | fin _, pinf => pinf
  | fin _, ninf => ninf
  | pinf, fin _ => pinf
  | pinf, pinf => pinf
  | ninf, fin _ => ninf
  | ninf, ninf => ninf
  | _, _ => nan

/-- An infinity times the rational `q`: NaN for `q = 0`. -/
def scaleInf (positive : Bool) (q : ℚ) : Dbl :=
  if q = 0 then nan else if decide (0 < q) = positive then pinf else ninf

/-- Multiplication: zero times an infinity gives NaN. -/
def mul : Dbl → Dbl → Dbl
  | fin a, fin b => fin (a * b)
  | fin a, pinf => scaleInf true a
  | fin a, ninf => scaleInf false a
  | pinf, fin b => scaleInf true b
  | ninf, fin b => scaleInf false b
  | pinf, pinf => pinf
  | pinf, ninf => ninf
  | ninf, pinf => ninf
  | ninf, ninf => pinf
  | _, _ => nan

/-- Division: a non-zero number over zero is an infinity, `0/0` and `inf/inf` are NaN. -/
def div : Dbl → Dbl → Dbl
  | fin a, fin b => if b = 0 then scaleInf true a else fin (a / b)
  | fin _, pinf => fin 0
  | fin _, ninf => fin 0
  | pinf, fin b => if 0 ≤ b then pinf else ninf
  | ninf, fin b => if 0 ≤ b then ninf else pinf
  | _, _ => nan

/-- Comparison `<=`: false as soon as one side is NaN. -/
def le : Dbl → Dbl → Bool
  | fin a, fin b => decide (a ≤ b)
  | fin _, pinf => true
  | ninf, fin _ => true
  | ninf, ninf => true
  | ninf, pinf => true
  | pinf, pinf => true
  | _, _ => false

/-- Comparison `<`: false as soon as one side is NaN. -/
def lt : Dbl → Dbl → Bool
  | fin a, fin b => decide (a < b)
  | fin _, pinf => true
  | ninf, fin _ => true
  | ninf, pinf => true
  | _, _ => false

instance : Zero Dbl := ⟨fin 0⟩
instance : One Dbl := ⟨fin 1⟩
instance : RatCast Dbl := ⟨fin⟩
instance : Neg Dbl := ⟨neg⟩
instance : Add Dbl := ⟨add⟩
instance : Sub Dbl := ⟨fun a b => add a (neg b)⟩
instance : Mul Dbl := ⟨mul⟩
instance : Div Dbl := ⟨div⟩
instance : LE Dbl := ⟨fun a b => le a b = true⟩
instance : LT Dbl := ⟨fun a b => lt a b = true⟩
instance : DecidableRel (α := Dbl) (· ≤ ·) := fun a b => inferInstanceAs (Decidable (le a b = true))
instance : DecidableRel (α := Dbl) (· < ·) := fun a b => inferInstanceAs (Decidable (lt a b = true))

end Dbl

/-! ## Sample data for concrete runs -/

/-- Index and enumeration constants used in the concrete runs; the indices are
pairwise distinct within `iparam` and within `dparam`. -/
def sample_cst : Constants :=
  { SICONOS_IPARAM_MAX_ITER := 0
    SICONOS_IPARAM_ITER_DONE := 1
    SICONOS_DPARAM_TOL := 0
    SICONOS_DPARAM_RESIDU := 1
    SICONOS_FRICTION_3D_IPM_IPARAM_SPARSE_STORAGE := 12
    SICONOS_FRICTION_3D_IPM_FORCED_SPARSE_STORAGE := 1
    SICONOS_FRICTION_3D_IPM_IPARAM_FINISH_WITHOUT_SCALING := 16
    SICONOS_FRICTION_3D_IPM_IPARAM_NESTEROV_TODD_SCALING := 11
    SICONOS_FRICTION_3D_IPM_IPARAM_NESTEROV_TODD_SCALING_METHOD := 18
    SICONOS_FRICTION_3D_IPM_NESTEROV_TODD_SCALING_WITH_QP := 0
    SICONOS_FRICTION_3D_IPM_NESTEROV_TODD_SCALING_WITH_F := 1
    SICONOS_FRICTION_3D_IPM_IPARAM_UPDATE_S := 17
    SICONOS_FRICTION_3D_IPM_SIGMA_PARAMETER_1 := 8
    SICONOS_FRICTION_3D_IPM_SIGMA_PARAMETER_2 := 9
    SICONOS_FRICTION_3D_IPM_SIGMA_PARAMETER_3 := 10
    SICONOS_FRICTION_3D_IPM_GAMMA_PARAMETER_1 := 11
    SICONOS_FRICTION_3D_IPM_GAMMA_PARAMETER_2 := 12
    NM_SPARSE := 2
    NM_SPARSE_BLOCK := 1 }

section Samples
variable {R : Type} [Zero R] [One R] [RatCast R]

/-- External routines that return constants: residual norms `pinfeas`, every step
length `alpha`, every solved system the vector `sol`, empty matrices, `isnan` as given. -/
def const_ext (isnan : R → Bool) (pinfeas alpha : R) (sol : Vec R) : Externals R :=
  { isnan := isnan
    pow := fun x _ => x
    NM_is_symmetric := fun _ => true
    NM_copy_to_sparse := fun A _ _ => A
    primalResidual := fun _ _ _ _ => (fun _ => 0, pinfeas)
    dualResidual := fun _ _ _ _ _ => (fun _ => 0, pinfeas)
    complemResidualNorm := fun _ _ _ _ => 0
    computeError := fun _ _ _ _ _ _ => 0
    Nesterov_Todd_vector := fun _ _ _ _ _ => fun _ => 0
    QRmat := fun _ _ _ => NM_create 0 0 0
    NTmat := fun _ _ _ _ => NM_create 0 0 0
    NTmatsqr := fun _ _ _ _ => NM_create 0 0 0
    QNTpinvz := fun _ _ _ _ _ => fun _ => 0
    Arrow_repr := fun _ _ _ => NM_create 0 0 0
    JA_prod := fun _ _ _ _ => fun _ => 0
    JA_inv := fun _ _ _ => fun _ => 0
    JA_iden := fun _ _ => fun _ => 0
    getStepLength := fun _ _ _ _ _ => alpha
    NM_LDLT_solve := fun _ _ => sol
    NM_LU_solve := fun _ _ => sol }

/-- A problem with `n` contacts (`d = 5`, `nd = 5n`), one degree of freedom (`m = 1`),
`M = (1)`, `H = 0`, `q = b = 0` and `mu = mu_r = 1/2`. -/
def sample_problem (n : Nat) : GlobalRollingFrictionContactProblem R :=
  { dimension := 5
    numberOfContacts := n
    M := { storageType := 2, size0 := 1, size1 := 1, entry := fun i j => if i = 0 ∧ j = 0 then 1 else 0 }
    H := { storageType := 2, size0 := 1, size1 := 5 * n, entry := fun _ _ => 0 }
    q := fun _ => 0
    b := fun _ => 0
    mu := fun _ => ((1 / 2 : ℚ) : R)
    mu_r := fun _ => ((1 / 2 : ℚ) : R) }

/-- Options with `iparam[MAX_ITER] = max_iter`, every other `iparam` entry equal to
`other`, every `dparam` entry equal to `tol`, no work buffer and no solver data. -/
def sample_options (max_iter other : Int) (tol : R) : SolverOptions R :=
  { iparam := fun k => if k = 0 then max_iter else other
    dparam := fun _ => tol
    dWork := none
    dWorkSize := 0
    solverData := none }

end Samples

/-- External routines of the run `nan_run`: residual norms 1, step lengths 1, and
linear solves that return NaN everywhere. -/
def nan_ext : Externals Dbl := const_ext Dbl.isnan (Dbl.fin 1) (Dbl.fin 1) (fun _ => Dbl.nan)

/-- Options of the run `nan_run`: at most 10 passes, tolerance 0, other entries 0. -/
def nan_options : SolverOptions Dbl := sample_options 10 0 (Dbl.fin 0)

/-- The run in which the first linear solve returns NaN everywhere. -/
def nan_run : Option (IPMResult Dbl) :=
  grfc3d_IPM nan_ext sample_cst (sample_problem 1) (fun _ => 0) (fun _ => 0) (fun _ => 0) nan_options

/-- External routines of the runs `fe_run`: residual norms 1, step lengths 1, linear
solves that return the zero vector, and `grfc3d_compute_error` reporting `fe`. -/
def fe_ext (fe : Dbl) : Externals Dbl :=
  { const_ext Dbl.isnan (Dbl.fin 1) (Dbl.fin 1) (fun _ => 0) with
    computeError := fun _ _ _ _ _ _ => fe }

/-- Options of the runs `fe_run`: at most 2 passes, tolerance 0, and every other
`iparam` entry 1 (scaling on, method `WITH_F`, `FINISH_WITHOUT_SCALING` on). -/
def fe_options : SolverOptions Dbl := sample_options 2 1 (Dbl.fin 0)

/-- A run of two passes in which `grfc3d_compute_error` reports `fe`. -/
def fe_run (fe : Dbl) : Option (IPMResult Dbl) :=
  grfc3d_IPM (fe_ext fe) sample_cst (sample_problem 1) (fun _ => 0) (fun _ => 0) (fun _ => 0) fe_options

/-- External routines over the rationals: residual norms 1, step lengths 1, linear
solves returning the zero vector, and no NaN. -/
def rat_ext : Externals ℚ := const_ext (fun _ => false) 1 1 (fun _ => 0)

/-- Options over the rationals: at most 10 passes, tolerance 0, other entries 0. -/
def rat_options : SolverOptions ℚ := sample_options 10 0 0

/-- The loop context of a call on the sample problem with `n` contacts. -/
def rat_context (n : Nat) : IPMContext ℚ :=
  ipm_entry_context rat_ext sample_cst (sample_problem n) rat_options
    (ipm_entry_data rat_ext sample_cst (sample_problem n) rat_options rfl)

/-- The loop state at the entry of a call on the sample problem with `n` contacts. -/
def rat_state (n : Nat) : IPMState ℚ :=
  ipm_entry_state rat_ext sample_cst (sample_problem n) (fun _ => 0) (fun _ => 0) (fun _ => 0)
    rat_options (ipm_entry_data rat_ext sample_cst (sample_problem n) rat_options rfl)

/-! ## Closed forms of single loop passes -/

section Steps
variable {R : Type}

/-- The pass `i` of `extract_vector` on blocks of 5, as a function of the output only. -/
def extract_step (vec : Vec R) (a : Nat) (i : Nat) (out : Vec R) : Vec R :=
  setv (setv (setv out (3 * i) (vec (5 * i))) (3 * i + 1) (vec (5 * i + a)))
    (3 * i + 2) (vec (5 * i + (a + 1)))

/-- The writes to `d_velocity` made by the pass `i` of the loop in "Retrieve the
solutions". -/
def retrieve_step [Add R] (D : Dims) (dv1 dv2 : Vec R) (i : Nat) (v : Vec R) : Vec R :=
  setv (setv (setv (setv (setv v (i * D.d) (dv1 (i * D.d_minus_2) + dv2 (i * D.d_minus_2)))
    (i * D.d + 1) (dv1 (i * D.d_minus_2 + 1))) (i * D.d + 2) (dv1 (i * D.d_minus_2 + 2)))
    (i * D.d + 3) (dv2 (i * D.d_minus_2 + 1))) (i * D.d + 4) (dv2 (i * D.d_minus_2 + 2))

end Steps

/-! ## Cone membership -/

/-- The block `q` of `x` (the entries `3q`, `3q+1`, `3q+2`) lies strictly inside the
second-order cone: the first component is positive and exceeds the Euclidean norm of
the other two, written without the square root as `x1^2 + x2^2 < x0^2`. -/
def in_cone {R : Type} [Zero R] [Add R] [Mul R] [LT R] (x : Vec R) (q : Nat) : Prop :=
  0 < x (3 * q) ∧
    x (3 * q + 1) * x (3 * q + 1) + x (3 * q + 2) * x (3 * q + 2) < x (3 * q) * x (3 * q)

instance in_cone_decidable {R : Type} [Zero R] [Add R] [Mul R] [LT R]
    [DecidableRel (α := R) (· < ·)] (x : Vec R) (q : Nat) : Decidable (in_cone x q) := by
  unfold in_cone
  exact inferInstance

/-- The loop context of the run `nan_run`. -/
def nan_context : IPMContext Dbl :=
  ipm_entry_context nan_ext sample_cst (sample_problem 1) nan_options
    (ipm_entry_data nan_ext sample_cst (sample_problem 1) nan_options rfl)

/-- The loop state at the entry of the run `nan_run`. -/
def nan_state : IPMState Dbl :=
  ipm_entry_state nan_ext sample_cst (sample_problem 1) (fun _ => 0) (fun _ => 0) (fun _ => 0)
    nan_options (ipm_entry_data nan_ext sample_cst (sample_problem 1) nan_options rfl)

/-- External routines of the pass `t_nan_state`: residual norms 1, step lengths 1, and
linear solves whose solution is `-inf` in the entry of `d_t` (index `m + nd = 6`) and 0
elsewhere. -/
def t_nan_ext : Externals Dbl :=
  const_ext Dbl.isnan (Dbl.fin 1) (Dbl.fin 1) (fun i => if i = 6 then Dbl.ninf else 0)

/-- The loop context of the pass from `t_nan_state`: one contact, at most 1 pass. -/
def t_nan_context : IPMContext Dbl :=
  ipm_entry_context t_nan_ext sample_cst (sample_problem 1) (sample_options 1 0 (Dbl.fin 0))
    (ipm_entry_data t_nan_ext sample_cst (sample_problem 1) (sample_options 1 0 (Dbl.fin 0)) rfl)

/-- A loop state with the starting values of `v`, `u`, `r` in which the auxiliary
scalars have run off to `t = +inf` and `t_prime = -inf` (in double arithmetic this happens
when `t` and `t_prime` overflow in opposite directions while `u[0]`, updated by the sum
of their increments, stays finite). -/
def t_nan_state : IPMState Dbl :=
  { ipm_entry_state t_nan_ext sample_cst (sample_problem 1) (fun _ => 0) (fun _ => 0) (fun _ => 0)
      (sample_options 1 0 (Dbl.fin 0))
      (ipm_entry_data t_nan_ext sample_cst (sample_problem 1) (sample_options 1 0 (Dbl.fin 0)) rfl) with
    t := fun i => if i < 1 then Dbl.pinf else 0
    t_prime := fun i => if i < 1 then Dbl.ninf else 0 }

/-- External routines for the runs that test convergence: residual norms 0, step
lengths 1, zero directions, no NaN. -/
def test_ext : Externals ℚ := const_ext (fun _ => false) 0 1 (fun _ => 0)

/-- Options with tolerance `1.2` in every `dparam` entry and at most 10 passes. -/
def test_options : SolverOptions ℚ := sample_options 10 0 (12 / 10)

/-- The loop context of a call on the one-contact sample problem with tolerance `1.2`. -/
def test_context : IPMContext ℚ :=
  ipm_entry_context test_ext sample_cst (sample_problem 1) test_options
    (ipm_entry_data test_ext sample_cst (sample_problem 1) test_options rfl)

/-- The loop state at the entry of that call: `u[0] = 3`, `t = 2`, `t_prime = 1`. -/
def test_state : IPMState ℚ :=
  ipm_entry_state test_ext sample_cst (sample_problem 1) (fun _ => 0) (fun _ => 0) (fun _ => 0)
    test_options (ipm_entry_data test_ext sample_cst (sample_problem 1) test_options rfl)

/-- The same `(v, u, r)` with the other split `t = 1/4`, `t_prime = 11/4` of `u[0] = 3`. -/
def test_state_split : IPMState ℚ :=
  { test_state with
    t := fun i => if i < 1 then 1 / 4 else 0
    t_prime := fun i => if i < 1 then 11 / 4 else 0 }

/-- The one-contact sample problem with a frictionless contact: `mu = 0` (and
`mu_r = 1/2`). -/
def frictionless_problem : GlobalRollingFrictionContactProblem Dbl :=
  { (sample_problem 1 : GlobalRollingFrictionContactProblem Dbl) with mu := fun _ => Dbl.fin 0 }

/-- The solver data built by `grfc3d_IPM_init` for the frictionless problem. -/
def frictionless_data : Grfc3d_IPM_data Dbl :=
  Option.get (grfc3d_IPM_init sample_cst frictionless_problem nan_options).solverData rfl

/-! ## `newton_LSA` (Newton_methods.c) -/

/-- Struct `newton_LSA_param`. -/
structure newton_LSA_param (R : Type) where
  p : R
  sigma : R
  rho : R
  keep_H : Bool
  check_dir_quality : Bool

/-- The options of `newton_LSA`: `iparam`, `dparam`, the work buffer `dWork` (`none` for
NULL) and the solver parameters. -/
structure LSAOptions (R : Type) where
  iparam : Nat → Int
  dparam : Nat → R
  dWork : Option (Vec R)
  params : newton_LSA_param R

/-- Struct `functions_LSA`; `none` stands for a NULL pointer.  A callback is a function
of the buffers it reads and returns the contents of the buffer it fills (work buffers it
may scribble on are rewritten by `newton_LSA` before they are read again). -/
structure functions_LSA (R : Type) where
  /-- From `z` to `F(z)`. -/
  compute_F : Option (Vec R → Vec R)
  /-- From `z`, `F` to `F_merit`. -/
  compute_F_merit : Option (Vec R → Vec R → Vec R)
  /-- From `z`, `F` and the current `H` to the new `H`. -/
  compute_H : Option (Vec R → Vec R → NumericsMatrix R → NumericsMatrix R)
  /-- From `z`, `F`, `nabla_theta`, `tol` to `err`. -/
  compute_error : Option (Vec R → Vec R → Vec R → R → R)
  /-- From `z`, `F` to `F_desc`. -/
  compute_RHS_desc : Option (Vec R → Vec R → Vec R)
  /-- From `z`, `F` and the current `H` to `H_desc`. -/
  compute_H_desc : Option (Vec R → Vec R → NumericsMatrix R → NumericsMatrix R)
  /-- From `z`, `F` and the old direction buffer to the return code and the direction. -/
  compute_descent_direction : Option (Vec R → Vec R → Vec R → Int × Vec R)
  /-- From `z`, `F`, `F_merit` and the old gradient buffer to `JacThetaF_merit`. -/
  compute_JacTheta_merit : Option (Vec R → Vec R → Vec R → Vec R → Vec R)
  /-- Whether `get_set_from_problem_data` is supplied. -/
  get_set_from_problem_data : Bool

/-- The fields of `search_data` handed to the line search. -/
structure search_data (R : Type) where
  z : Vec R
  F : Vec R
  F_merit : Vec R
  desc_dir : Vec R
  alpha_min : R
  alpha0 : R
  sigma : R
  arcsearch : Bool

/-- Routines called by `newton_LSA` whose source is outside `Newton_methods.c`, and the
index constants of `SolverOptions.h`.  The type `L` is the state a line search keeps
between its calls (extra parameters, non-monotone reference values). -/
structure LSAExternals (R L : Type) where
  SICONOS_IPARAM_MAX_ITER : Nat
  SICONOS_IPARAM_ITER_DONE : Nat
  SICONOS_IPARAM_PREALLOC : Nat
  SICONOS_DPARAM_TOL : Nat
  SICONOS_DPARAM_RESIDU : Nat
  SICONOS_LSA_ARMIJO : Int
  SICONOS_LSA_GOLDSTEIN : Int
  /-- BLAS `cblas_dnrm2(n, x, 1)`. -/
  cblas_dnrm2 : Nat → Vec R → R
  /-- C `pow`. -/
  pow : R → R → R
  /-- C `isfinite`. -/
  isfinite : R → Bool
  /-- The comparison `INFINITY > x` of C with the macro `INFINITY` of `math.h`: false when
  `x` is `+inf` or NaN, true for every other value. -/
  INFINITY_gt : R → Bool
  /-- Routine `NM_LU_solve(keep_H ? NM_preserve(H) : H, b, 1)`: return code, contents of
  `b` and of `H` afterwards. -/
  NM_LU_solve : Bool → NumericsMatrix R → Vec R → Int × Vec R × NumericsMatrix R
  /-- State of the line search set up before the loop from `iparam`. -/
  ls_init : (Nat → Int) → L
  linesearch_Armijo2 : L → Nat → R → R → search_data R → L × R
  linesearch_Goldstein2 : L → Nat → R → R → search_data R → L × R

/-- The enumeration `SICONOS_NEWTON_IPARAM` of `Newton_methods.h`. -/
def SICONOS_IPARAM_LSA_NONMONOTONE_LS : Nat := 3
def SICONOS_IPARAM_LSA_NONMONOTONE_LS_M : Nat := 4
def SICONOS_IPARAM_LSA_FORCE_ARCSEARCH : Nat := 5
def SICONOS_IPARAM_LSA_SEARCH_CRITERION : Nat := 6
def SICONOS_IPARAM_STOPPING_CRITERION : Nat := 10

/-- The enumeration `SICONOS_STOPPING_CRITERION` of `Newton_methods.h`. -/
def SICONOS_STOPPING_CRITERION_RESIDU : Int := 0
def SICONOS_STOPPING_CRITERION_STATIONARITY : Int := 1
def SICONOS_STOPPING_CRITERION_RESIDU_AND_STATIONARITY : Int := 2
def SICONOS_STOPPING_CRITERION_USER_ROUTINE : Int := 3

/-- The enumeration `SICONOS_NEWTON_DPARAM` of `Newton_methods.h` (line-search part). -/
def SICONOS_DPARAM_LSA_ALPHA_MIN : Nat := 2

/-- The largest finite double, `DBL_MAX = 2^1024 - 2^971`. -/
def DBL_MAX : ℚ := 2 ^ 1024 - 2 ^ 971

/-- `NM_tgemv(alpha, A, x, beta, y)`: `y = alpha*A'*x + beta*y` on the columns of `A`. -/
def NM_tgemv {R : Type} [Zero R] [Add R] [Mul R] (alpha : R) (A : NumericsMatrix R) (x : Vec R)
    (beta : R) (y : Vec R) : Vec R :=
  fun j => if j < A.size1 then alpha * sumTo A.size0 (fun k => A.entry k j * x k) + beta * y j
    else y j

/-- The variables of `newton_LSA` that live across the passes of its loop.
`info_dir_search` is the code of the last direction search; `searches` and `solves` are
ghost counters of the calls of the line search and of `NM_LU_solve`. -/
structure LSAState (R L : Type) where
  z : Vec R
  F : Vec R
  F_merit : Vec R
  JacThetaF_merit : Vec R
  workV1 : Vec R
  workV2 : Vec R
  H : NumericsMatrix R
  theta : R
  err : R
  tau : R
  iter : Nat
  info_dir_search : Int
  ls : L
  searches : Nat
  solves : Nat

/-- What one pass of the loop of `newton_LSA` ends in: the next state, the jump to
`newton_LSA_free` after a failed direction search (`info = 2`), or the call of a NULL
function pointer. -/
inductive LSAStep (R L : Type) where
  | next (s : LSAState R L)
  | failed (s : LSAState R L)
  | null_call

/-- How the loop of `newton_LSA` was left. -/
inductive LSAExit where
  | loop_condition
  | direction_failure
  deriving DecidableEq

/-- What a call of `newton_LSA` leaves behind. -/
structure LSAResult (R L : Type) where
  z : Vec R
  F : Vec R
  info : Int
  iparam : Nat → Int
  dparam : Nat → R
  final : LSAState R L
  exit : LSAExit

section NewtonLSA
variable {R L : Type} [Zero R] [RatCast R] [Add R] [Mul R] [LE R] [LT R]
  [DecidableRel (α := R) (· ≤ ·)] [DecidableRel (α := R) (· < ·)]

/-- The direction `workV1 = -F_merit` and the solve `H d = -F_desc`:
`cblas_dcopy`, `cblas_dscal(-1)`, `NM_LU_solve`. -/
def lsa_solve (ext : LSAExternals R L) (n : Nat) (params : newton_LSA_param R)
    (s : LSAState R L) : LSAState R L :=
  let rhs := cblas_dscal n ((-1 : ℚ) : R) (cblas_dcopy n s.F_merit s.workV1)
  let r := ext.NM_LU_solve params.keep_H s.H rhs
  { s with workV1 := r.2.1, H := r.2.2, info_dir_search := r.1, solves := s.solves + 1 }

/-- "Computation descent direction": through `compute_descent_direction` when it is
supplied, else with `compute_H_desc` and `compute_RHS_desc` when `compute_RHS_desc` is
supplied, else with `compute_H`, followed by the linear solve. -/
def lsa_direction (ext : LSAExternals R L) (n : Nat) (params : newton_LSA_param R)
    (fn : functions_LSA R) (s : LSAState R L) : Option (LSAState R L) :=
  match fn.compute_descent_direction with
  | some cdd =>
    let r := cdd s.z s.F s.workV1
    some { s with info_dir_search := r.1, workV1 := r.2 }
  | none =>
    match fn.compute_RHS_desc with
    | some rhs_desc =>
      match fn.compute_H_desc with
      | none => none
      | some h_desc =>
        some (lsa_solve ext n params { s with H := h_desc s.z s.F s.H, F_merit := rhs_desc s.z s.F })
    | none =>
      match fn.compute_H with
      | none => none
      | some h =>
        let H := h s.z s.F s.H
        some (lsa_solve ext n params
          { s with H := H,
                   JacThetaF_merit := NM_tgemv ((1 : ℚ) : R) H s.F_merit ((0 : ℚ) : R) s.JacThetaF_merit })

/-- "Computation JacTheta F_merit": when `compute_RHS_desc` or
`compute_descent_direction` is supplied, the gradient of the merit function is obtained
from `compute_JacTheta_merit`, or else from `compute_H` and `compute_F_merit`. -/
def lsa_gradient (fn : functions_LSA R) (s : LSAState R L) : Option (LSAState R L) :=
  if fn.compute_RHS_desc.isSome || fn.compute_descent_direction.isSome then
    match fn.compute_JacTheta_merit with
    | some jt => some { s with JacThetaF_merit := jt s.z s.F s.F_merit s.JacThetaF_merit }
    | none =>
      match fn.compute_H, fn.compute_F_merit with
      | some h, some fm =>
        let H := h s.z s.F s.H
        let F_merit := fm s.z s.F
        some { s with H := H, F_merit := F_merit,
                      JacThetaF_merit := NM_tgemv ((1 : ℚ) : R) H F_merit ((0 : ℚ) : R) s.JacThetaF_merit }
      | _, _ => none
  else some s

/-- The trial point `z + d` of a successful direction search and its merit value
`theta_iter`, or the gradient step with `theta_iter = INFINITY` (`none`). -/
def lsa_trial (ext : LSAExternals R L) (n : Nat) (fn : functions_LSA R) (s : LSAState R L) :
    Option (LSAState R L × Option R) :=
  if s.info_dir_search = 0 then
    match fn.compute_F, fn.compute_F_merit with
    | some f, some fm =>
      let workV2 := cblas_daxpy n ((1 : ℚ) : R) s.workV1 (cblas_dcopy n s.z s.workV2)
      let F := f workV2
      let F_merit := fm workV2 F
      let nrm := ext.cblas_dnrm2 n F_merit
      some ({ s with workV2 := workV2, F := F, F_merit := F_merit },
        some (((1 / 2 : ℚ) : R) * nrm * nrm))
    | _, _ => none
  else
    some ({ s with workV1 := cblas_dscal n ((-1 : ℚ) : R) (cblas_dcopy n s.JacThetaF_merit s.workV1) },
      none)

/-- The condition `(theta_iter > sigma * theta) || (info_dir_search > 0 && compute_RHS_desc)`
under which the line search is run; for `theta_iter = INFINITY` (`none`) the first
comparison is `INFINITY > sigma * theta`. -/
def lsa_needs_search (ext : LSAExternals R L) (params : newton_LSA_param R) (fn : functions_LSA R)
    (s : LSAState R L) (theta_iter : Option R) : Bool :=
  (match theta_iter with
    | none => ext.INFINITY_gt (params.sigma * s.theta)
    | some t => decide (params.sigma * s.theta < t))
  || (decide (0 < s.info_dir_search) && fn.compute_RHS_desc.isSome)

/-- The line search of a pass: slope `preRHS`, test of the direction against
`-rho * ||d||^p`, replacement of the direction by the negative gradient, and the call of
the configured search; the result is the state and the step `tau`. -/
def lsa_search (ext : LSAExternals R L) (n : Nat) (opt : LSAOptions R) (s : LSAState R L) :
    LSAState R L × R :=
  let params := opt.params
  let preRHS := cblas_ddot n s.JacThetaF_merit s.workV1
  let threshold := ((-1 : ℚ) : R) * params.rho * ext.pow (ext.cblas_dnrm2 n s.workV1) params.p
  let bad : Bool := params.check_dir_quality && decide (threshold < preRHS)
  let workV1 := if bad then cblas_dscal n ((-1 : ℚ) : R) (cblas_dcopy n s.JacThetaF_merit s.workV1)
    else s.workV1
  let preRHS := if bad then cblas_ddot n s.JacThetaF_merit workV1 else preRHS
  let ls_data : search_data R :=
    { z := s.z, F := s.F, F_merit := s.F_merit, desc_dir := workV1,
      alpha_min := opt.dparam SICONOS_DPARAM_LSA_ALPHA_MIN, alpha0 := ((2 : ℚ) : R),
      sigma := params.sigma,
      arcsearch := opt.iparam SICONOS_IPARAM_LSA_FORCE_ARCSEARCH != 0 }
  let r := if opt.iparam SICONOS_IPARAM_LSA_SEARCH_CRITERION = ext.SICONOS_LSA_GOLDSTEIN
    then ext.linesearch_Goldstein2 s.ls n s.theta preRHS ls_data
    else ext.linesearch_Armijo2 s.ls n s.theta preRHS ls_data
  ({ s with workV1 := workV1, ls := r.1, searches := s.searches + 1 }, r.2)

/-- The end of a pass: update of `z` by `tau * d` (by `d` when `tau` is not finite), new
`F`, `F_merit`, `theta`, and the error selected by `iparam[STOPPING_CRITERION]`. -/
def lsa_finish_pass (ext : LSAExternals R L) (n : Nat) (opt : LSAOptions R) (fn : functions_LSA R)
    (s : LSAState R L) (tau : R) : Option (LSAState R L) :=
  match fn.compute_F, fn.compute_F_merit with
  | some f, some fm =>
    let z := if ext.isfinite tau then cblas_daxpy n tau s.workV1 s.z
      else cblas_daxpy n ((1 : ℚ) : R) s.workV1 s.z
    let F := f z
    let F_merit := fm z F
    let norm_F_merit := ext.cblas_dnrm2 n F_merit
    let theta := ((1 / 2 : ℚ) : R) * norm_F_merit * norm_F_merit
    let norm_JacThetaF_merit := ext.cblas_dnrm2 n s.JacThetaF_merit
    let crit := opt.iparam SICONOS_IPARAM_STOPPING_CRITERION
    let tol := opt.dparam ext.SICONOS_DPARAM_TOL
    if crit = SICONOS_STOPPING_CRITERION_RESIDU then
      some { s with z := z, F := F, F_merit := F_merit, theta := theta, tau := tau, err := norm_F_merit }
    else if crit = SICONOS_STOPPING_CRITERION_STATIONARITY then
      some { s with z := z, F := F, F_merit := F_merit, theta := theta, tau := tau,
                    err := norm_JacThetaF_merit }
    else if crit = SICONOS_STOPPING_CRITERION_RESIDU_AND_STATIONARITY then
      some { s with z := z, F := F, F_merit := F_merit, theta := theta, tau := tau,
                    err := fmax norm_F_merit norm_JacThetaF_merit }
    else if crit = SICONOS_STOPPING_CRITERION_USER_ROUTINE then
      match fn.compute_error with
      | some ce =>
        some { s with z := z, F := F, F_merit := F_merit, theta := theta, tau := tau,
                      err := ce z F s.JacThetaF_merit tol }
      | none => none
    else some { s with z := z, F := F, F_merit := F_merit, theta := theta, tau := tau }
  | _, _ => none

/-- One pass of the loop of `newton_LSA`, from `++iter` to the error evaluation. -/
def lsa_pass (ext : LSAExternals R L) (n : Nat) (opt : LSAOptions R) (fn : functions_LSA R)
    (s : LSAState R L) : LSAStep R L :=
  let s := { s with iter := s.iter + 1, info_dir_search := 0 }
  match lsa_direction ext n opt.params fn s with
  | none => LSAStep.null_call
  | some s1 =>
    match lsa_gradient fn s1 with
    | none => LSAStep.null_call
    | some s2 =>
      if s2.info_dir_search ≠ 0 ∧ fn.compute_RHS_desc.isNone then LSAStep.failed s2
      else
        let s3 := if s2.info_dir_search ≠ 0 then lsa_solve ext n opt.params s2 else s2
        match lsa_trial ext n fn s3 with
        | none => LSAStep.null_call
        | some (s4, theta_iter) =>
          let r := if lsa_needs_search ext opt.params fn s4 theta_iter then lsa_search ext n opt s4
            else (s4, ((1 : ℚ) : R))
          match lsa_finish_pass ext n opt fn r.1 r.2 with
          | none => LSAStep.null_call
          | some s5 => LSAStep.next s5

/-- The loop `while ((iter < itermax) && (err > tol))`; the first argument bounds the
number of passes.  The result is the final state with the way the loop was left, or `none`
after the call of a NULL pointer. -/
def lsa_loop (ext : LSAExternals R L) (n : Nat) (opt : LSAOptions R) (fn : functions_LSA R) :
    Nat → LSAState R L → Option (LSAState R L × LSAExit)
  | 0, s => some (s, LSAExit.loop_condition)
  | fuel + 1, s =>
    if (s.iter : Int) < opt.iparam ext.SICONOS_IPARAM_MAX_ITER
        ∧ opt.dparam ext.SICONOS_DPARAM_TOL < s.err then
      match lsa_pass ext n opt fn s with
      | LSAStep.next s1 => lsa_loop ext n opt fn fuel s1
      | LSAStep.failed s1 => some (s1, LSAExit.direction_failure)
      | LSAStep.null_call => none
    else some (s, LSAExit.loop_condition)

/-- The state of `newton_LSA` at the first evaluation of the loop condition: the work
vectors (taken from `dWork` when there is one, zero otherwise), `JacThetaF_merit[0] =
DBL_MAX`, `F`, `F_merit`, `theta` and the error of `compute_error` at the initial `z`. -/
def lsa_initial_state (ext : LSAExternals R L) (n : Nat) (z : Vec R) (H : NumericsMatrix R)
    (opt : LSAOptions R) (fn : functions_LSA R) : Option (LSAState R L) :=
  match fn.compute_F, fn.compute_F_merit, fn.compute_error with
  | some f, some fm, some ce =>
    if opt.iparam SICONOS_IPARAM_LSA_FORCE_ARCSEARCH != 0 && !fn.get_set_from_problem_data then none
    else
      let prealloc : Bool := opt.iparam ext.SICONOS_IPARAM_PREALLOC != 0 && opt.dWork.isNone
      let dWork : Option (Vec R) := if prealloc then some (fun _ => 0) else opt.dWork
      let workV1 : Vec R := match dWork with
        | some w => shift w n
        | none => fun _ => 0
      let workV2 : Vec R := match dWork with
        | some w => shift w (n + n)
        | none => fun _ => 0
      let Jac0 : Vec R := match dWork with
        | some w => shift w (n + n + n)
        | none => fun _ => 0
      let JacThetaF_merit := setv Jac0 0 ((DBL_MAX : ℚ) : R)
      let F := f z
      let F_merit := fm z F
      let norm_F_merit := ext.cblas_dnrm2 n F_merit
      some { z := z, F := F, F_merit := F_merit, JacThetaF_merit := JacThetaF_merit,
             workV1 := workV1, workV2 := workV2, H := H,
             theta := ((1 / 2 : ℚ) : R) * norm_F_merit * norm_F_merit,
             err := ce z F JacThetaF_merit (opt.dparam ext.SICONOS_DPARAM_TOL),
             tau := ((0 : ℚ) : R), iter := 0, info_dir_search := 0,
             ls := ext.ls_init opt.iparam, searches := 0, solves := 0 }
  | _, _, _ => none

/-- The code of `newton_LSA` after the loop: on the normal exit `iparam[ITER_DONE] = iter`,
`dparam[RESIDU] = err` and `info` is 1 when `err > tol` and 0 otherwise; on the jump after a
failed direction search `iparam[ITER_DONE] = iter`, `dparam[RESIDU] = theta`, `info = 2`. -/
def lsa_result (ext : LSAExternals R L) (opt : LSAOptions R) (s : LSAState R L) (exit : LSAExit) :
    LSAResult R L :=
  let iparam : Nat → Int := fun k => if k = ext.SICONOS_IPARAM_ITER_DONE then (s.iter : Int)
    else opt.iparam k
  match exit with
  | LSAExit.loop_condition =>
    { z := s.z, F := s.F, info := if opt.dparam ext.SICONOS_DPARAM_TOL < s.err then 1 else 0,
      iparam := iparam,
      dparam := fun k => if k = ext.SICONOS_DPARAM_RESIDU then s.err else opt.dparam k,
      final := s, exit := exit }
  | LSAExit.direction_failure =>
    { z := s.z, F := s.F, info := 2, iparam := iparam,
      dparam := fun k => if k = ext.SICONOS_DPARAM_RESIDU then s.theta else opt.dparam k,
      final := s, exit := exit }

/-- `newton_LSA(n, z, F, info, data, options, functions)` with the matrix
`H = options->solverData->H`; the contents of the buffer `F` at the entry are not read.
The entry assertions are not part of the run (they are the predicate
`lsa_entry_asserts`); the result is `none` when a NULL function pointer is called. -/
def newton_LSA (ext : LSAExternals R L) (n : Nat) (z : Vec R) (H : NumericsMatrix R)
    (opt : LSAOptions R) (fn : functions_LSA R) : Option (LSAResult R L) :=
  match lsa_initial_state ext n z H opt fn with
  | none => none
  | some s0 =>
    match lsa_loop ext n opt fn (opt.iparam ext.SICONOS_IPARAM_MAX_ITER).toNat s0 with
    | none => none
    | some (s, exit) => some (lsa_result ext opt s exit)

/-- The conjunction of the assertions on `functions` at the entry of `newton_LSA`. -/
def lsa_entry_asserts (fn : functions_LSA R) : Bool :=
  fn.compute_F.isSome && fn.compute_F_merit.isSome && fn.compute_error.isSome
  && (fn.compute_descent_direction.isSome
      || (fn.compute_RHS_desc.isSome && fn.compute_H_desc.isSome) || fn.compute_H.isSome)
  && ((!fn.compute_RHS_desc.isSome || !fn.compute_descent_direction.isSome)
      || (fn.compute_JacTheta_merit.isSome || fn.compute_H.isSome))

/-- The callbacks that a run of `newton_LSA` calls are all supplied: `compute_F`,
`compute_F_merit`, `compute_error`; for the direction `compute_descent_direction`, or
`compute_H_desc` when `compute_RHS_desc` is supplied, or `compute_H` otherwise; for the
gradient (needed with `compute_RHS_desc` or `compute_descent_direction`)
`compute_JacTheta_merit` or `compute_H`; and `get_set_from_problem_data` for an arc search. -/
def lsa_callbacks_supplied (opt : LSAOptions R) (fn : functions_LSA R) : Bool :=
  fn.compute_F.isSome && fn.compute_F_merit.isSome && fn.compute_error.isSome
  && (fn.compute_descent_direction.isSome
      || (if fn.compute_RHS_desc.isSome then fn.compute_H_desc.isSome else fn.compute_H.isSome))
  && (!(fn.compute_RHS_desc.isSome || fn.compute_descent_direction.isSome)
      || (fn.compute_JacTheta_merit.isSome || fn.compute_H.isSome))
  && (!(opt.iparam SICONOS_IPARAM_LSA_FORCE_ARCSEARCH != 0) || fn.get_set_from_problem_data)

end NewtonLSA

/-! ## Sample data for `newton_LSA` -/

/-- External routines for one unknown over the rationals: the norm of a vector of
length 1 is the absolute value of its entry, every number is finite, the linear solve
succeeds and returns the right-hand side (exact for `H = (1)`), and the line searches
return the step `1/2`. -/
def lsa_sample_ext : LSAExternals ℚ Unit :=
  { SICONOS_IPARAM_MAX_ITER := 0
    SICONOS_IPARAM_ITER_DONE := 1
    SICONOS_IPARAM_PREALLOC := 2
    SICONOS_DPARAM_TOL := 0
    SICONOS_DPARAM_RESIDU := 1
    SICONOS_LSA_ARMIJO := 0
    SICONOS_LSA_GOLDSTEIN := 1
    cblas_dnrm2 := fun _ x => |x 0|
    pow := fun x _ => x
    isfinite := fun _ => true
    INFINITY_gt := fun _ => true
    NM_LU_solve := fun _ H b => (0, b, H)
    ls_init := fun _ => ()
    linesearch_Armijo2 := fun _ _ _ _ _ => ((), 1 / 2)
    linesearch_Goldstein2 := fun _ _ _ _ _ => ((), 1 / 2) }

/-- The callbacks of the toy system `F(z) = z` with merit residual `F`, Jacobian
`H = (1)` and the error `|z[0]|`. -/
def lsa_sample_fn : functions_LSA ℚ :=
  { compute_F := some (fun z => z)
    compute_F_merit := some (fun _ F => F)
    compute_H := some (fun _ _ _ =>
      { storageType := 0, size0 := 1, size1 := 1, entry := fun i j => if i = 0 ∧ j = 0 then 1 else 0 })
    compute_error := some (fun z _ _ _ => |z 0|)
    compute_RHS_desc := none
    compute_H_desc := none
    compute_descent_direction := none
    compute_JacTheta_merit := none
    get_set_from_problem_data := false }

/-- Options with `iparam[MAX_ITER] = itermax`, the other `iparam` entries 0 (residual
stopping criterion, Armijo search), every `dparam` entry 0 (so `tol = 0`), no work
buffer, and the default parameters `p = 2.1`, `sigma = 0.9`, `rho = 1e-8`. -/
def lsa_sample_options (itermax : Int) : LSAOptions ℚ :=
  { iparam := fun k => if k = 0 then itermax else 0
    dparam := fun _ => 0
    dWork := none
    params := { p := 21 / 10, sigma := 9 / 10, rho := 1 / 100000000, keep_H := false,
                check_dir_quality := true } }

/-- The run of `newton_LSA` on the toy system from `z = 5` with at most `itermax` passes. -/
def lsa_sample_run (itermax : Int) : Option (LSAResult ℚ Unit) :=
  newton_LSA lsa_sample_ext 1 (fun i => if i = 0 then 5 else 0) (NM_create 0 1 1)
    (lsa_sample_options itermax) lsa_sample_fn

/-! ## The two Newton systems of `grfc3d_IPM`

The Jordan-algebra routines and the linear solvers are outside `grfc3d_ipm.c`; the
definitions below model them from their description. -/

section Jordan
variable {R : Type} [Zero R] [RatCast R] [Add R] [Sub R] [Mul R]

/-- Modelled from the spec: `Arrow_repr(vec, vecSize, varsCount)`, the block-diagonal
matrix of the arrow matrices `[x0 xb'; xb x0*I]` of the `varsCount` blocks of `vec`, the
matrix of the Jordan multiplication by `vec`. -/
def Arrow_repr_spec (vec : Vec R) (vecSize varsCount : Nat) : NumericsMatrix R :=
  let dim := vecSize / varsCount
  { storageType := 2, size0 := vecSize, size1 := vecSize,
    entry := fun i j =>
      if i < vecSize ∧ j < vecSize ∧ i / dim = j / dim then
        if i % dim = 0 then vec j
        else if j % dim = 0 then vec i
        else if i = j then vec (i - i % dim)
        else 0
      else 0 }

/-- Modelled from the spec: `JA_prod(x, y, vecSize, varsCount)`, the Jordan product
`x o y = (x'y, x0*yb + y0*xb)` of every block. -/
def JA_prod_spec (x y : Vec R) (vecSize varsCount : Nat) : Vec R :=
  let dim := vecSize / varsCount
  fun i =>
    if i < vecSize then
      if i % dim = 0 then sumTo dim (fun k => x (i + k) * y (i + k))
      else x (i - i % dim) * y i + y (i - i % dim) * x i
    else 0

/-- Modelled from the spec: the quadratic representation `2*w*w' - det(w)*diag(1,-1,..,-1)`
of every block of `w`, with `det(w) = w0^2 - |wb|^2`; for `w` inside the cone it is the
symmetric linear map of the Nesterov-Todd scaling that sends `u` to `r` when
`Q_w u = r`. -/
def Quad_repr_spec (w : Vec R) (vecSize varsCount : Nat) : NumericsMatrix R :=
  let dim := vecSize / varsCount
  { storageType := 2, size0 := vecSize, size1 := vecSize,
    entry := fun i j =>
      if i < vecSize ∧ j < vecSize ∧ i / dim = j / dim then
        let b := i - i % dim
        let det := w b * w b - sumTo (dim - 1) (fun k => w (b + 1 + k) * w (b + 1 + k))
        if i = j then
          if i % dim = 0 then ((2 : ℚ) : R) * (w i * w j) - det
          else ((2 : ℚ) : R) * (w i * w j) + det
        else ((2 : ℚ) : R) * (w i * w j)
      else 0 }

/-- Modelled from the spec: a linear solve in exact arithmetic returns a vector `x` with
`A x = b`, row by row. -/
def solves_system (A : NumericsMatrix R) (x b : Vec R) : Prop :=
  ∀ i, i < A.size0 → sumTo A.size1 (fun k => A.entry i k * x k) = b i

instance solves_system_decidable [DecidableEq R] (A : NumericsMatrix R) (x b : Vec R) :
    Decidable (solves_system A x b) := by
  unfold solves_system
  exact inferInstance

/-- The product `A v` of a 3 x 3 block with a vector of three entries. -/
def block_apply (A : NumericsMatrix R) (v : Vec R) (a : Nat) : R :=
  A.entry a 0 * v 0 + A.entry a 1 * v 1 + A.entry a 2 * v 2

end Jordan

/-! ## Sample data for the comparison of the two Newton systems -/

/-- The one-contact sample problem with `b = (2, 0, 0, 0, 0)`. -/
def nt_problem : GlobalRollingFrictionContactProblem ℚ :=
  { (sample_problem 1 : GlobalRollingFrictionContactProblem ℚ) with
    b := fun i => if i = 0 then 2 else 0 }

/-- The point `w = (2, 1, 1)` inside the cone. -/
def nt_point : Vec ℚ := fun i => if i = 0 then 2 else if i = 1 then 1 else if i = 2 then 1 else 0

/-- The vector `(0; -6, -4, -4, -4, -4; -1, 1, -1; -1, 1, -1)`. -/
def nt_scaled_solution : Vec ℚ := fun i =>
  ([0, -6, -4, -4, -4, -4, -1, 1, -1, -1, 1, -1] : List ℚ).getD i 0

/-- The vector `(0; -10, -8, 0, -8, 0; -1, 1, -1; -1, 1, -1)`. -/
def nt_unscaled_solution : Vec ℚ := fun i =>
  ([0, -10, -8, 0, -8, 0, -1, 1, -1, -1, 1, -1] : List ℚ).getD i 0

/-- External routines over the rationals for one pass on `nt_problem`: the residuals
`u - H v - w` and `M v - H' r + f` of the comment above the right-hand side (norm
output 1), the modelled Jordan-algebra routines, the scaling point `nt_point` for every
pair of blocks, `NM_LDLT_solve` returning `nt_scaled_solution` and `NM_LU_solve` returning
`nt_unscaled_solution`. -/
def nt_ext : Externals ℚ :=
  { const_ext (fun _ => false) 1 1 (fun _ => 0) with
    primalResidual := fun velocity H globalVelocity w =>
      (fun i => if i < H.size0
        then velocity i - sumTo H.size1 (fun k => H.entry i k * globalVelocity k) - w i else 0, 1)
    dualResidual := fun M globalVelocity H reaction f =>
      (fun i => if i < M.size0
        then sumTo M.size1 (fun k => M.entry i k * globalVelocity k)
          - sumTo H.size0 (fun k => H.entry k i * reaction k) + f i else 0, 1)
    Nesterov_Todd_vector := fun _ _ _ _ _ => nt_point
    QRmat := Quad_repr_spec
    NTmatsqr := fun _ _ vecSize varsCount => Quad_repr_spec nt_point vecSize varsCount
    Arrow_repr := Arrow_repr_spec
    JA_prod := JA_prod_spec
    NM_LDLT_solve := fun _ _ => nt_scaled_solution
    NM_LU_solve := fun _ _ => nt_unscaled_solution }

/-- The loop context of a call on `nt_problem`. -/
def nt_context : IPMContext ℚ :=
  ipm_entry_context nt_ext sample_cst nt_problem rat_options
    (ipm_entry_data nt_ext sample_cst nt_problem rat_options rfl)

/-- The iterate `v = 0`, `u = (4, -1, 1, -1, 1)`, `r = (12, 6, 10, 6, 10)`, `t = t' = 2`
with `iparam[NESTEROV_TODD_SCALING] = scaling` and the other `iparam` entries 0. -/
def nt_state (scaling : Int) : IPMState ℚ :=
  { ipm_entry_state nt_ext sample_cst nt_problem (fun _ => 0) (fun _ => 0) (fun _ => 0)
      rat_options (ipm_entry_data nt_ext sample_cst nt_problem rat_options rfl) with
    globalVelocity := fun _ => 0
    velocity := fun i => ([4, -1, 1, -1, 1] : List ℚ).getD i 0
    reaction := fun i => ([12, 6, 10, 6, 10] : List ℚ).getD i 0
    t := fun i => if i < 1 then 2 else 0
    t_prime := fun i => if i < 1 then 2 else 0
    iparam := fun k => if k = 11 then scaling else 0 }

/-- The head of the pass from `nt_state scaling`. -/
def nt_head (scaling : Int) : IPMHead ℚ := ipm_head nt_context (nt_state scaling)

/-- A left inverse of the Jacobian with scaling at `nt_state 1`. -/
def nt_scaled_inverse : Nat → Nat → ℚ := fun i j =>
  (([[1, 0, 0, 0, 0, 0, 0, 0, 0, 0, 0, 0],
     [0, -3, -2, -2, -2, -2, 1/2, 0, 0, 1/2, 0, 0],
     [0, -2, -8/3, -2/3, -4/3, -4/3, -1/3, 1, 0, 1/3, 0, 0],
     [0, -2, -2/3, -8/3, -4/3, -4/3, -1/3, 0, 1, 1/3, 0, 0],
     [0, -2, -4/3, -4/3, -8/3, -2/3, 1/3, 0, 0, -1/3, 1, 0],
     [0, -2, -4/3, -4/3, -2/3, -8/3, 1/3, 0, 0, -1/3, 0, 1],
     [0, 1/2, -1/3, -1/3, 1/3, 1/3, 1/12, 0, 0, -1/12, 0, 0],
     [0, 0, 1, 0, 0, 0, 0, 0, 0, 0, 0, 0],
     [0, 0, 0, 1, 0, 0, 0, 0, 0, 0, 0, 0],
     [0, 1/2, 1/3, 1/3, -1/3, -1/3, -1/12, 0, 0, 1/12, 0, 0],
     [0, 0, 0, 0, 1, 0, 0, 0, 0, 0, 0, 0],
     [0, 0, 0, 0, 0, 1, 0, 0, 0, 0, 0, 0]] : List (List ℚ)).getD i []).getD j 0

/-- A left inverse of the Jacobian without scaling at `nt_state 0`. -/
def nt_unscaled_inverse : Nat → Nat → ℚ := fun i j =>
  (([[1, 0, 0, 0, 0, 0, 0, 0, 0, 0, 0, 0],
     [0, -5, -6, -2, -6, -2, 1/2, 1/4, -1/4, 1/2, 1/4, -1/4],
     [0, -4, -36/5, -2/5, -24/5, -8/5, 1/10, 11/20, -1/20, 2/5, 1/5, -1/5],
     [0, 0, 6, -4, 0, 0, -1/2, -1/4, 3/4, 0, 0, 0],
     [0, -4, -24/5, -8/5, -36/5, -2/5, 2/5, 1/5, -1/5, 1/10, 11/20, -1/20],
     [0, 0, 0, 0, 6, -4, 0, 0, 0, -1/2, -1/4, 3/4],
     [0, 1/2, -3/5, -1/5, 3/5, 1/5, 1/20, 1/40, -1/40, -1/20, -1/40, 1/40],
     [0, 0, 1, 0, 0, 0, 0, 0, 0, 0, 0, 0],
     [0, 0, 0, 1, 0, 0, 0, 0, 0, 0, 0, 0],
     [0, 1/2, 3/5, 1/5, -3/5, -1/5, -1/20, -1/40, 1/40, 1/20, 1/40, -1/40],
     [0, 0, 0, 0, 1, 0, 0, 0, 0, 0, 0, 0],
     [0, 0, 0, 0, 0, 1, 0, 0, 0, 0, 0, 0]] : List (List ℚ)).getD i []).getD j 0

/-! ## Sample data for the fallback of `newton_LSA` -/

/-- External routines as `lsa_sample_ext`, with a linear solve that always fails: it
returns the code 1 and leaves the right-hand side and the matrix as they are. -/
def lsa_failing_ext : LSAExternals ℚ Unit :=
  { lsa_sample_ext with NM_LU_solve := fun _ H b => (1, b, H) }

/-- The callbacks of `lsa_sample_fn` together with a descent system: `F_desc(z) = 2 F(z)`,
`H_desc = (1)` and, when `with_JacTheta` holds, a `compute_JacTheta_merit` that returns the
gradient `z` of the merit function `1/2 z^2`. -/
def lsa_desc_fn (with_JacTheta : Bool) : functions_LSA ℚ :=
  { lsa_sample_fn with
    compute_RHS_desc := some (fun _ F i => 2 * F i)
    compute_H_desc := some (fun _ _ _ =>
      { storageType := 0, size0 := 1, size1 := 1, entry := fun i j => if i = 0 ∧ j = 0 then 1 else 0 })
    compute_JacTheta_merit := if with_JacTheta then some (fun z _ _ _ => z) else none }

/-- The state of the first pass of `newton_LSA` on the toy system from `z = 5` after the
direction search and the gradient block, with the failing solve and the callbacks
`lsa_desc_fn with_JacTheta`. -/
def lsa_desc_gradient_state (with_JacTheta : Bool) : Option (LSAState ℚ Unit) :=
  (lsa_initial_state lsa_failing_ext 1 (fun i => if i = 0 then 5 else 0) (NM_create 0 1 1)
      (lsa_sample_options 1) (lsa_desc_fn with_JacTheta)).bind
    (fun s0 =>
      (lsa_direction lsa_failing_ext 1 (lsa_sample_options 1).params (lsa_desc_fn with_JacTheta)
          { s0 with iter := s0.iter + 1, info_dir_search := 0 }).bind
        (fun sd => lsa_gradient (lsa_desc_fn with_JacTheta) sd))

/-- The run of `newton_LSA` with the failing solve and the callbacks `lsa_desc_fn false`
from `z = 5` with at most `itermax` passes. -/
def lsa_failing_run (itermax : Int) : Option (LSAResult ℚ Unit) :=
  newton_LSA lsa_failing_ext 1 (fun i => if i = 0 then 5 else 0) (NM_create 0 1 1)
    (lsa_sample_options itermax) (lsa_desc_fn false)

/-- A bundle with `compute_F`, `compute_F_merit`, `compute_error`, `compute_RHS_desc` and
`compute_H`, and without `compute_H_desc`. -/
def lsa_unchecked_fn : functions_LSA ℚ :=
  { lsa_sample_fn with compute_RHS_desc := some (fun _ F i => 2 * F i) }

/-- A bundle with `compute_F`, `compute_F_merit`, `compute_error` and
`compute_descent_direction` only. -/
def lsa_direction_only_fn : functions_LSA ℚ :=
  { lsa_sample_fn with
    compute_H := none
    compute_descent_direction := some (fun _ F _ => (0, fun i => - F i)) }

/-- The options `lsa_sample_options itermax` with `iparam[STOPPING_CRITERION]` set to
`criterion`. -/
def lsa_criterion_options (itermax criterion : Int) : LSAOptions ℚ :=
  { lsa_sample_options itermax with
    iparam := fun k => if k = 0 then itermax else if k = 10 then criterion else 0 }

/-! ## Sample data for a non-finite step of the line search -/

/-- C `isfinite` on `Dbl`. -/
def Dbl.isfinite : Dbl → Bool
  | Dbl.fin _ => true
  | _ => false

/-- C `fabs` on `Dbl`. -/
def Dbl.fabs : Dbl → Dbl
  | Dbl.fin q => Dbl.fin |q|
  | Dbl.nan => Dbl.nan
  | _ => Dbl.pinf

/-- External routines for one unknown over `Dbl`: the norm of a vector of length 1 is the
absolute value of its entry, the linear solve divides the right-hand side by the entry of
the 1 x 1 matrix (code 1 when that entry is zero), and both line searches return the
step `+inf`. -/
def lsa_cubic_ext : LSAExternals Dbl Unit :=
  { SICONOS_IPARAM_MAX_ITER := 0
    SICONOS_IPARAM_ITER_DONE := 1
    SICONOS_IPARAM_PREALLOC := 2
    SICONOS_DPARAM_TOL := 0
    SICONOS_DPARAM_RESIDU := 1
    SICONOS_LSA_ARMIJO := 0
    SICONOS_LSA_GOLDSTEIN := 1
    cblas_dnrm2 := fun _ x => Dbl.fabs (x 0)
    pow := fun x _ => x
    isfinite := Dbl.isfinite
    INFINITY_gt := fun x => decide (x < Dbl.pinf)
    NM_LU_solve := fun _ H b =>
      (if H.entry 0 0 = Dbl.fin 0 then 1 else 0, setv b 0 (b 0 / H.entry 0 0), H)
    ls_init := fun _ => ()
    linesearch_Armijo2 := fun _ _ _ _ _ => ((), Dbl.pinf)
    linesearch_Goldstein2 := fun _ _ _ _ _ => ((), Dbl.pinf) }

/-- The callbacks of the system `F(z) = z^3 - 2 z + 2` in one unknown with the merit residual
`F`, the Jacobian `H = (3 z^2 - 2)` and the error `|F(z)|`. -/
def lsa_cubic_fn : functions_LSA Dbl :=
  { compute_F := some (fun z i =>
      if i = 0 then z 0 * z 0 * z 0 - Dbl.fin 2 * z 0 + Dbl.fin 2 else Dbl.fin 0)
    compute_F_merit := some (fun _ F => F)
    compute_H := some (fun z _ _ =>
      { storageType := 0, size0 := 1, size1 := 1,
        entry := fun i j => if i = 0 ∧ j = 0 then Dbl.fin 3 * z 0 * z 0 - Dbl.fin 2 else Dbl.fin 0 })
    compute_error := some (fun _ F _ _ => Dbl.fabs (F 0))
    compute_RHS_desc := none
    compute_H_desc := none
    compute_descent_direction := none
    compute_JacTheta_merit := none
    get_set_from_problem_data := false }

/-- Options over `Dbl` with `iparam[MAX_ITER] = itermax`, the other `iparam` entries 0, every
`dparam` entry 0, no work buffer, and the parameters `p = 2.1`, `sigma = 0.9`,
`rho = 1e-8`. -/
def lsa_cubic_options (itermax : Int) : LSAOptions Dbl :=
  { iparam := fun k => if k = 0 then itermax else 0
    dparam := fun _ => Dbl.fin 0
    dWork := none
    params := { p := Dbl.fin (21 / 10), sigma := Dbl.fin (9 / 10), rho := Dbl.fin (1 / 100000000),
                keep_H := false, check_dir_quality := true } }

/-- The start `z = 1` of the runs on the cubic system. -/
def lsa_cubic_start : Vec Dbl := fun i => if i = 0 then Dbl.fin 1 else Dbl.fin 0

/-- The run of `newton_LSA` on the cubic system from `z = 1` with at most `itermax` passes. -/
def lsa_cubic_run (itermax : Int) : Option (LSAResult Dbl Unit) :=
  newton_LSA lsa_cubic_ext 1 lsa_cubic_start (NM_create 0 1 1) (lsa_cubic_options itermax)
    lsa_cubic_fn

/-! ## Kernel: the relation `LagrangianLinearTIR`

Embedding of `kernel/src/modelingTools/LagrangianLinearTIR.cpp`.  A `SiconosVector` or a
block of `linkToDSVariables()` is a `Vec`; the sizes are those of the matrices and of the
interaction.  The products `prod` of `SiconosAlgebraProd.hpp` are written out with their
standard meaning. -/

/-- `SimpleMatrix` of the kernel: a dense matrix with its sizes. -/
structure SimpleMatrix (R : Type) where
  size0 : Nat
  size1 : Nat
  entry : Nat → Nat → R

/-- Positions of the blocks of `linkToDSVariables()` that the relation uses, from the
enumeration `LagrangianR::LagrangianRDS` (declared in `LagrangianR.hpp`). -/
structure LagrangianRDS where
  z : Nat
  q0 : Nat
  p0 : Nat

/-- The parts of an `Interaction` that the relation reads and writes: `dimension()`, the
outputs `y(k)`, the multipliers `lambda(k)` and the blocks `linkToDSVariables()`. -/
structure Interaction (R : Type) where
  dimension : Nat
  y : Nat → Vec R
  lambda : Nat → Vec R
  DSlink : Nat → Vec R

/-- The data members of a `LagrangianLinearTIR`: `_jachq` (the matrix `C`) and
`_jachlambda` (the matrix `D`) of `LagrangianR`, `_F` and `_e`; `none` is the null
pointer. -/
structure LagrangianLinearTIR (R : Type) where
  _jachq : Option (SimpleMatrix R)
  _jachlambda : Option (SimpleMatrix R)
  _F : Option (SimpleMatrix R)
  _e : Option (Vec R)

section Relation
variable {R : Type}

/-- The default constructor `LagrangianLinearTIR()`. -/
def LagrangianLinearTIR.new : LagrangianLinearTIR R :=
  { _jachq := none, _jachlambda := none, _F := none, _e := none }

/-- The constructor `LagrangianLinearTIR(C)`. -/
def LagrangianLinearTIR.new_C (C : SimpleMatrix R) : LagrangianLinearTIR R :=
  { _jachq := some C, _jachlambda := none, _F := none, _e := none }

/-- The constructor `LagrangianLinearTIR(C, F, e)`. -/
def LagrangianLinearTIR.new_C_F_e (C F : SimpleMatrix R) (e : Vec R) : LagrangianLinearTIR R :=
  { _jachq := some C, _jachlambda := none, _F := some F, _e := some e }

/-- The constructor `LagrangianLinearTIR(C, e)`. -/
def LagrangianLinearTIR.new_C_e (C : SimpleMatrix R) (e : Vec R) : LagrangianLinearTIR R :=
  { _jachq := some C, _jachlambda := none, _F := none, _e := some e }

/-- The setter `setCPtr(newPtr)`. -/
def LagrangianLinearTIR.setCPtr (rel : LagrangianLinearTIR R) (newPtr : SimpleMatrix R) :
    LagrangianLinearTIR R :=
  { rel with _jachq := some newPtr }

/-- The setter `setDPtr(newPtr)`. -/
def LagrangianLinearTIR.setDPtr (rel : LagrangianLinearTIR R) (newPtr : SimpleMatrix R) :
    LagrangianLinearTIR R :=
  { rel with _jachlambda := some newPtr }

/-- The setter `setFPtr(newPtr)`. -/
def LagrangianLinearTIR.setFPtr (rel : LagrangianLinearTIR R) (newPtr : SimpleMatrix R) :
    LagrangianLinearTIR R :=
  { rel with _F := some newPtr }

/-- The setter `setEPtr(newPtr)`. -/
def LagrangianLinearTIR.setEPtr (rel : LagrangianLinearTIR R) (newPtr : Vec R) :
    LagrangianLinearTIR R :=
  { rel with _e := some newPtr }

variable [Zero R] [Add R] [Mul R]

/-- The entry `i` of the product `A*x`. -/
def matvec (A : SimpleMatrix R) (x : Vec R) : Vec R :=
  fun i => sumTo A.size1 (fun k => A.entry i k * x k)

/-- The entry `j` of the product `A'*x`. -/
def tmatvec (A : SimpleMatrix R) (x : Vec R) : Vec R :=
  fun j => sumTo A.size0 (fun k => A.entry k j * x k)

/-- `prod(A, x, y, init)`: `y = A*x` when `init` is true, `y += A*x` otherwise, on the
rows of `A`. -/
def prod (A : SimpleMatrix R) (x y : Vec R) (init : Bool) : Vec R :=
  fun i => if i < A.size0 then (if init then matvec A x i else y i + matvec A x i) else y i

/-- `prod(x, A, y, init)`, the product by the transpose: `y = A'*x` when `init` is true,
`y += A'*x` otherwise, on the columns of `A`. -/
def prod_trans (x : Vec R) (A : SimpleMatrix R) (y : Vec R) (init : Bool) : Vec R :=
  fun j => if j < A.size1 then (if init then tmatvec A x j else y j + tmatvec A x j) else y j

/-- `y += e` on vectors of size `n`. -/
def vector_add_assign (n : Nat) (y e : Vec R) : Vec R :=
  fun i => if i < n then y i + e i else y i

/-- `LagrangianLinearTIR::computeOutput(time, inter, derivativeNumber)`; `none` stands for
the dereference of a null `_jachq`. -/
def computeOutput (k : LagrangianRDS) (rel : LagrangianLinearTIR R) (_time : R)
    (inter : Interaction R) (derivativeNumber : Nat) : Option (Interaction R) :=
  match rel._jachq with
  | none => none
  | some C =>
    let y0 := prod C (inter.DSlink (k.q0 + derivativeNumber)) (inter.y derivativeNumber) true
    let y1 :=
      if derivativeNumber = 0 then
        let ye := match rel._e with
          | some e => vector_add_assign inter.dimension y0 e
          | none => y0
        match rel._F with
        | some F => prod F (inter.DSlink k.z) ye false
        | none => ye
      else y0
    let y2 := match rel._jachlambda with
      | some D => prod D (inter.lambda derivativeNumber) y1 false
      | none => y1
    some { inter with y := fun l => if l = derivativeNumber then y2 else inter.y l }

/-- `LagrangianLinearTIR::computeInput(time, inter, level)`; `none` stands for the
dereference of a null `_jachq`. -/
def computeInput (k : LagrangianRDS) (rel : LagrangianLinearTIR R) (_time : R)
    (inter : Interaction R) (level : Nat) : Option (Interaction R) :=
  match rel._jachq with
  | none => none
  | some C =>
    some { inter with
      DSlink := fun b =>
        if b = k.p0 + level then prod_trans (inter.lambda level) C (inter.DSlink (k.p0 + level)) false
        else inter.DSlink b }

end Relation

/-! ## Sample data for the relation -/

/-- The positions `z = 0`, `q0 = 1`, `p0 = 4` of the blocks. -/
def sample_RDS : LagrangianRDS := { z := 0, q0 := 1, p0 := 4 }

/-- The matrix `(a)` of size 1 x 1. -/
def sample_matrix (a : ℚ) : SimpleMatrix ℚ :=
  { size0 := 1, size1 := 1, entry := fun i j => if i = 0 ∧ j = 0 then a else 0 }

/-- The vector `(a)` of size 1. -/
def sample_vector (a : ℚ) : Vec ℚ := fun i => if i = 0 then a else 0

/-- An interaction of dimension 1 with `z = (6)`, `q = (2)`, `q' = (7)`, `p = (10)`,
`lambda(0) = (3)`, `lambda(1) = (4)` and outputs `y = (100)`. -/
def sample_interaction : Interaction ℚ :=
  { dimension := 1
    y := fun _ => sample_vector 100
    lambda := fun l => if l = 0 then sample_vector 3 else sample_vector 4
    DSlink := fun b =>
      if b = 0 then sample_vector 6 else if b = 1 then sample_vector 2
      else if b = 2 then sample_vector 7 else sample_vector 10 }

/-- The relation `LagrangianLinearTIR(C, F, e)` with `C = (1)`, `F = (5)`, `e = (1/2)`. -/
def sample_relation : LagrangianLinearTIR ℚ :=
  LagrangianLinearTIR.new_C_F_e (sample_matrix 1) (sample_matrix 5) (sample_vector (1 / 2))

/-- The relation `sample_relation` after `setDPtr(D)` with `D = (1)`. -/
def sample_relation_D : LagrangianLinearTIR ℚ :=
  LagrangianLinearTIR.setDPtr sample_relation (sample_matrix 1)

/-! ## Sample data for the damping factor and the point update -/

/-- External routines over the rationals: residual norms 1, every step length `1/2`, and
linear solves that return the vector `(1, 2, 3, ...)`. -/
def gmm_ext : Externals ℚ := const_ext (fun _ => false) 1 (1 / 2) (fun i => (i : ℚ) + 1)

/-- Options over the rationals: at most 10 passes, `dparam[GAMMA_PARAMETER_1] = 9/10`,
`dparam[GAMMA_PARAMETER_2] = 9/100`, every other entry 0. -/
def gmm_options : SolverOptions ℚ :=
  { sample_options 10 0 0 with
    dparam := fun k => if k = 11 then 9 / 10 else if k = 12 then 9 / 100 else 0 }

/-- The loop context of a call on the sample problem with one contact, the routines
`gmm_ext` and the options `gmm_options`. -/
def gmm_context : IPMContext ℚ :=
  ipm_entry_context gmm_ext sample_cst (sample_problem 1) gmm_options
    (ipm_entry_data gmm_ext sample_cst (sample_problem 1) gmm_options rfl)

/-- The loop state at the entry of that call. -/
def gmm_state : IPMState ℚ :=
  ipm_entry_state gmm_ext sample_cst (sample_problem 1) (fun _ => 0) (fun _ => 0) (fun _ => 0)
    gmm_options (ipm_entry_data gmm_ext sample_cst (sample_problem 1) gmm_options rfl)

section PassParts
variable {R : Type} [Zero R] [RatCast R] [Add R] [Sub R] [Mul R] [Div R]
  [LE R] [LT R] [DecidableRel (α := R) (· ≤ ·)] [DecidableRel (α := R) (· < ·)]

/-- The predictor step of the pass that starts in the state `s`. -/
def ipm_pass_predictor (c : IPMContext R) (s : IPMState R) : IPMPredictor R :=
  ipm_predictor c s (ipm_head c s)

/-- The corrector step of the pass that starts in the state `s`. -/
def ipm_pass_corrector (c : IPMContext R) (s : IPMState R) : IPMCorrector R :=
  ipm_corrector c (ipm_head c s) (ipm_pass_predictor c s)

end PassParts

/-! ## Trajectory of the loop of `newton_LSA` and default options -/

section NewtonTrajectory
variable {R L : Type} [Zero R] [RatCast R] [Add R] [Mul R] [LE R] [LT R]
  [DecidableRel (α := R) (· ≤ ·)] [DecidableRel (α := R) (· < ·)]

/-- The state of `newton_LSA` at the evaluation number `k` (counted from 0) of the loop
condition `(iter < itermax) && (err > tol)`, starting from `s0`; `none` when the loop was
left before that evaluation. -/
def lsa_state_at (ext : LSAExternals R L) (n : Nat) (opt : LSAOptions R) (fn : functions_LSA R)
    (s0 : LSAState R L) : Nat → Option (LSAState R L)
  | 0 => some s0
  | k + 1 =>
    match lsa_state_at ext n opt fn s0 k with
    | none => none
    | some s =>
      if (s.iter : Int) < opt.iparam ext.SICONOS_IPARAM_MAX_ITER
          ∧ opt.dparam ext.SICONOS_DPARAM_TOL < s.err then
        match lsa_pass ext n opt fn s with
        | LSAStep.next s1 => some s1
        | LSAStep.failed _ => none
        | LSAStep.null_call => none
      else none

/-- `newton_lsa_set_default(options)`: the six assignments in the order of the source; the
last one writes the array `dparam` at the index `SICONOS_IPARAM_STOPPING_CRITERION`. -/
def newton_lsa_set_default (ext : LSAExternals R L) (options : LSAOptions R) : LSAOptions R :=
  let iparam1 := setv options.iparam ext.SICONOS_IPARAM_MAX_ITER 1000
  let dparam1 := setv options.dparam ext.SICONOS_DPARAM_TOL ((1 / 10000000000 : ℚ) : R)
  let iparam2 := setv iparam1 SICONOS_IPARAM_LSA_NONMONOTONE_LS 0
  let iparam3 := setv iparam2 SICONOS_IPARAM_LSA_NONMONOTONE_LS_M 0
  let dparam2 := setv dparam1 SICONOS_DPARAM_LSA_ALPHA_MIN ((1 / 10000000000000000 : ℚ) : R)
  let dparam3 := setv dparam2 SICONOS_IPARAM_STOPPING_CRITERION
    ((SICONOS_STOPPING_CRITERION_RESIDU : ℚ) : R)
  { options with iparam := iparam3, dparam := dparam3 }

end NewtonTrajectory

/-! ## Sample data for the line search and the default options -/

/-- External routines as `lsa_sample_ext`, with line searches that record the reference
slope and the first entry of the direction they are handed and return the step `1/2`. -/
def lsa_probe_ext : LSAExternals ℚ (ℚ × ℚ) :=
  { SICONOS_IPARAM_MAX_ITER := 0
    SICONOS_IPARAM_ITER_DONE := 1
    SICONOS_IPARAM_PREALLOC := 2
    SICONOS_DPARAM_TOL := 0
    SICONOS_DPARAM_RESIDU := 1
    SICONOS_LSA_ARMIJO := 0
    SICONOS_LSA_GOLDSTEIN := 1
    cblas_dnrm2 := fun _ x => |x 0|
    pow := fun x _ => x
    isfinite := fun _ => true
    INFINITY_gt := fun _ => true
    NM_LU_solve := fun _ H b => (0, b, H)
    ls_init := fun _ => (0, 0)
    linesearch_Armijo2 := fun _ _ _ preRHS d => ((preRHS, d.desc_dir 0), 1 / 2)
    linesearch_Goldstein2 := fun _ _ _ preRHS d => ((preRHS, d.desc_dir 0), 1 / 2) }

/-- The callbacks of the toy system `F(z) = z` with a `compute_descent_direction` that
returns the ascent direction `d = F(z)` (code 0) and a `compute_JacTheta_merit` that returns
the gradient `z` of the merit function `1/2 z^2`. -/
def lsa_ascent_fn : functions_LSA ℚ :=
  { lsa_sample_fn with
    compute_descent_direction := some (fun _ F _ => (0, F))
    compute_JacTheta_merit := some (fun z _ _ _ => z) }

/-- The options `lsa_sample_options itermax` with the flag `check_dir_quality` as given. -/
def lsa_quality_options (itermax : Int) (check : Bool) : LSAOptions ℚ :=
  { lsa_sample_options itermax with
    params := { p := 21 / 10, sigma := 9 / 10, rho := 1 / 100000000, keep_H := false,
                check_dir_quality := check } }

/-- The run of one pass from `z = 5` with the ascent direction, the recording line search
and the flag `check_dir_quality` as given. -/
def lsa_probe_run (check : Bool) : Option (LSAResult ℚ (ℚ × ℚ)) :=
  newton_LSA lsa_probe_ext 1 (fun i => if i = 0 then 5 else 0) (NM_create 0 1 1)
    (lsa_quality_options 1 check) lsa_ascent_fn

/-- Options with `iparam[STOPPING_CRITERION] = STATIONARITY`, every other `iparam` entry 7
and every `dparam` entry 3. -/
def lsa_preset_options : LSAOptions ℚ :=
  { iparam := fun k => if k = 10 then 1 else 7
    dparam := fun _ => 3
    dWork := none
    params := { p := 21 / 10, sigma := 9 / 10, rho := 1 / 100000000, keep_H := false,
                check_dir_quality := true } }

/-! ## Sample data for the symmetrisation and the cone invariants -/

/-- Exact test of symmetry of the entries of a matrix. -/
def sym_check (A : NumericsMatrix ℚ) : Bool :=
  (List.range A.size0).all (fun i => (List.range A.size1).all
    (fun j => decide (A.entry i j = A.entry j i)))

/-- External routines as `rat_ext` with the exact symmetry test. -/
def sym_ext : Externals ℚ := { rat_ext with NM_is_symmetric := sym_check }

/-- A problem with one contact, two degrees of freedom and the matrix
`M = [1 2; 0 1]`, which is not symmetric. -/
def asym_problem : GlobalRollingFrictionContactProblem ℚ :=
  { sample_problem 1 with
    M := { storageType := 2, size0 := 2, size1 := 2,
           entry := fun i j => if i = 0 ∧ j = 0 then 1 else if i = 0 ∧ j = 1 then 2
             else if i = 1 ∧ j = 1 then 1 else 0 }
    H := { storageType := 2, size0 := 2, size1 := 5, entry := fun _ _ => 0 } }

/-- The call of `grfc3d_IPM` on `asym_problem` with at most one pass. -/
def asym_run : Option (IPMResult ℚ) :=
  grfc3d_IPM sym_ext sample_cst asym_problem (fun _ => 0) (fun _ => 0) (fun _ => 0)
    (sample_options 1 0 0)

/-- A step-length routine over the rationals: the full step 1 when every block of
`x + dx` is strictly inside the cone, the step 0 otherwise. -/
def cone_step (x dx : Vec ℚ) (n : Nat) : ℚ :=
  if (List.range n).all (fun q => decide (in_cone (fun i => x i + dx i) q)) then 1 else 0

/-- External routines over the rationals: residual norms 1, linear solves that return the
vector `(-1/10, -1/10, ...)`, `pow(x, y) = x`, and the step lengths of `cone_step`. -/
def cone_ext : Externals ℚ :=
  { const_ext (fun _ => false) 1 1 (fun _ => -(1 / 10)) with
    getStepLength := fun x dx _ n _ => cone_step x dx n }

/-- The loop context of a call on the sample problem with `n` contacts and the routines
`cone_ext`. -/
def cone_context (n : Nat) : IPMContext ℚ :=
  ipm_entry_context cone_ext sample_cst (sample_problem n) rat_options
    (ipm_entry_data cone_ext sample_cst (sample_problem n) rat_options rfl)

/-- The loop state at the entry of that call. -/
def cone_state (n : Nat) : IPMState ℚ :=
  ipm_entry_state cone_ext sample_cst (sample_problem n) (fun _ => 0) (fun _ => 0) (fun _ => 0)
    rat_options (ipm_entry_data cone_ext sample_cst (sample_problem n) rat_options rfl)

/-! ## Sample data for a direction search that fails in a later pass -/

/-- External routines as `lsa_sample_ext` with a linear solve for one unknown that divides
the right-hand side by the entry of the matrix and returns the code 1 when that entry is
zero. -/
def lsa_div_ext : LSAExternals ℚ Unit :=
  { lsa_sample_ext with
    NM_LU_solve := fun _ H b => (if H.entry 0 0 = 0 then 1 else 0, setv b 0 (b 0 / H.entry 0 0), H) }

/-- The callbacks of the toy system `F(z) = z` with the matrix `H = (z)` and an error that is
always 1. -/
def lsa_slope_fn : functions_LSA ℚ :=
  { lsa_sample_fn with
    compute_H := some (fun z _ _ =>
      { storageType := 0, size0 := 1, size1 := 1,
        entry := fun i j => if i = 0 ∧ j = 0 then z 0 else 0 })
    compute_error := some (fun _ _ _ _ => 1) }

/-- The run from `z = 2` with these routines and callbacks, the stopping criterion
USER_ROUTINE and at most `itermax` passes: the iterates are 2, 1, 0, and the solve of the
third pass fails. -/
def lsa_div_run (itermax : Int) : Option (LSAResult ℚ Unit) :=
  newton_LSA lsa_div_ext 1 (fun i => if i = 0 then 2 else 0) (NM_create 0 1 1)
    (lsa_criterion_options itermax 3) lsa_slope_fn

section StepCalls
variable {R : Type} [Zero R] [RatCast R] [Add R] [Sub R] [Mul R] [Div R]
  [LE R] [LT R] [DecidableRel (α := R) (· ≤ ·)] [DecidableRel (α := R) (· < ·)]

/-- The arguments `(x, dx, gamma)` of the eight calls of `getStepLength` in the pass that
starts in the state `s`: four after the predictor solve with the damping `gmm` of the
state, four after the corrector solve with the damping `gmm` set after the predictor. -/
def ipm_step_calls (c : IPMContext R) (s : IPMState R) : List (Vec R × Vec R × R) :=
  [((ipm_head c s).velocity_1, (ipm_pass_predictor c s).dir.d_velocity_1, s.gmm),
   ((ipm_head c s).velocity_2, (ipm_pass_predictor c s).dir.d_velocity_2, s.gmm),
   ((ipm_head c s).reaction_1, (ipm_pass_predictor c s).dir.d_reaction_1, s.gmm),
   ((ipm_head c s).reaction_2, (ipm_pass_predictor c s).dir.d_reaction_2, s.gmm),
   ((ipm_head c s).velocity_1, (ipm_pass_corrector c s).dir.d_velocity_1, (ipm_pass_predictor c s).gmm),
   ((ipm_head c s).velocity_2, (ipm_pass_corrector c s).dir.d_velocity_2, (ipm_pass_predictor c s).gmm),
   ((ipm_head c s).reaction_1, (ipm_pass_corrector c s).dir.d_reaction_1, (ipm_pass_predictor c s).gmm),
   ((ipm_head c s).reaction_2, (ipm_pass_corrector c s).dir.d_reaction_2, (ipm_pass_predictor c s).gmm)]

end StepCalls

/-! ## Sample data for runs of `newton_LSA` with infinite values -/

/-- External routines over `Dbl` as `lsa_cubic_ext`, with a linear solve that fails with
the negative code `-1` and leaves the right-hand side and the matrix as they are. -/
def lsa_neg_ext : LSAExternals Dbl Unit :=
  { lsa_cubic_ext with NM_LU_solve := fun _ H b => (-1, b, H) }

/-- The callbacks of the system `F(z) = z^2` in one unknown with the merit residual `F`,
the Jacobian `H = (2 z)`, the error `|F(z)|`, and a descent system that is the system
itself (`F_desc = F`, `H_desc = (2 z)`). -/
def lsa_square_fn : functions_LSA Dbl :=
  { compute_F := some (fun z i => if i = 0 then z 0 * z 0 else Dbl.fin 0)
    compute_F_merit := some (fun _ F => F)
    compute_H := some (fun z _ _ =>
      { storageType := 0, size0 := 1, size1 := 1,
        entry := fun i j => if i = 0 ∧ j = 0 then Dbl.fin 2 * z 0 else Dbl.fin 0 })
    compute_error := some (fun _ F _ _ => Dbl.fabs (F 0))
    compute_RHS_desc := some (fun _ F => F)
    compute_H_desc := some (fun z _ _ =>
      { storageType := 0, size0 := 1, size1 := 1,
        entry := fun i j => if i = 0 ∧ j = 0 then Dbl.fin 2 * z 0 else Dbl.fin 0 })
    compute_descent_direction := none
    compute_JacTheta_merit := none
    get_set_from_problem_data := false }

/-- The run of one pass of `newton_LSA` on the system `F(z) = z^2` from `z = +inf` with
the solve that fails with the code `-1`. -/
def lsa_neg_run : Option (LSAResult Dbl Unit) :=
  newton_LSA lsa_neg_ext 1 (fun _ => Dbl.pinf) (NM_create 0 1 1) (lsa_cubic_options 1)
    lsa_square_fn

/-- The run of `newton_LSA` on the cubic system `F(z) = z^3 - 2 z + 2` from `z = +inf`,
where `F(z)` and the error `|F(z)|` are NaN, with at most `itermax` passes. -/
def lsa_nan_error_run (itermax : Int) : Option (LSAResult Dbl Unit) :=
  newton_LSA lsa_cubic_ext 1 (fun _ => Dbl.pinf) (NM_create 0 1 1) (lsa_cubic_options itermax)
    lsa_cubic_fn

/-! ## Sample data for a call with a starting point supplied by the caller -/

/-- External routines of the run `offcone_run`: residual norms 2, the step lengths of
`cone_step`, `pow(x, y) = x` (the run calls it with `y = 1` only), and linear solves that
return the vector with the entry 2 at the index 1 (the first entry of `d_reaction` when
`m = 1`) and 0 elsewhere. -/
def offcone_ext : Externals ℚ :=
  { const_ext (fun _ => false) 2 1 (fun i => if i = 1 then 2 else 0) with
    getStepLength := fun x dx _ n _ => cone_step x dx n }

/-- Solver data as `grfc3d_IPM_init` builds them for the sample problem with one contact,
with the starting reaction replaced by `(-1, 0, 0, 0, 0)`, which is outside the cone. -/
def offcone_data : Grfc3d_IPM_data ℚ :=
  { ipm_entry_data rat_ext sample_cst (sample_problem 1) rat_options rfl with
    starting_point :=
      { (ipm_entry_data rat_ext sample_cst (sample_problem 1) rat_options rfl).starting_point with
        reaction := fun i => if i = 0 then -1 else 0 } }

/-- Options of a caller that supplies the work buffer (of the size `m + nd + n(d+1) = 12`
the code expects) and the solver data `offcone_data`: `max_iter = 1`, every other `iparam`
entry 0, every `dparam` entry 1 (tolerance 1, `sgmp1 = sgmp3 = 1`). -/
def offcone_options : SolverOptions ℚ :=
  { sample_options 1 0 1 with
    dWork := some (fun _ => 0), dWorkSize := 12, solverData := some offcone_data }

/-- The call on the sample problem with one contact, the routines `offcone_ext` and the
options `offcone_options`. -/
def offcone_run : Option (IPMResult ℚ) :=
  grfc3d_IPM offcone_ext sample_cst (sample_problem 1) (fun _ => 0) (fun _ => 0) (fun _ => 0)
    offcone_options

/-- The loop context of the call `offcone_run`. -/
def offcone_context : IPMContext ℚ :=
  ipm_entry_context offcone_ext sample_cst (sample_problem 1) offcone_options offcone_data

/-- The loop state at the entry of the call `offcone_run`. -/
def offcone_state : IPMState ℚ :=
  ipm_entry_state offcone_ext sample_cst (sample_problem 1) (fun _ => 0) (fun _ => 0) (fun _ => 0)
    offcone_options offcone_data

/-! # Theorems -/

section TrajectoryLemmas
variable {R : Type} [Zero R] [RatCast R] [Add R] [Sub R] [Mul R] [Div R]
  [LE R] [LT R] [DecidableRel (α := R) (· ≤ ·)] [DecidableRel (α := R) (· < ·)]

theorem ipm_pass_iteration (c : IPMContext R) (s : IPMState R) :
    (ipm_pass c s).iteration = s.iteration := rfl

theorem ipm_pass_hasNotConverged (c : IPMContext R) (s : IPMState R) :
    (ipm_pass c s).hasNotConverged = s.hasNotConverged := rfl

theorem ipm_pass_updates (c : IPMContext R) (s : IPMState R) :
    (ipm_pass c s).updates = s.updates + 1 := rfl

theorem ipm_state_at_succ (c : IPMContext R) (s : IPMState R) (k : Nat) :
    ipm_state_at c s (k + 1) = ipm_state_at c (ipm_next c s) k := by
  induction k with
  | zero => rfl
  | succ k ih =>
    show ipm_next c (ipm_state_at c s (k + 1)) = ipm_next c (ipm_state_at c (ipm_next c s) k)
    rw [ih]

theorem ipm_state_at_iteration (c : IPMContext R) (s : IPMState R) (k : Nat) :
    (ipm_state_at c s k).iteration = s.iteration + k := by
  induction k with
  | zero => rfl
  | succ k ih =>
    show (ipm_pass c (ipm_state_at c s k)).iteration + 1 = s.iteration + (k + 1)
    rw [ipm_pass_iteration, ih]; rfl

theorem ipm_state_at_hasNotConverged (c : IPMContext R) (s : IPMState R) (k : Nat) :
    (ipm_state_at c s k).hasNotConverged = s.hasNotConverged := by
  induction k with
  | zero => rfl
  | succ k ih =>
    show (ipm_pass c (ipm_state_at c s k)).hasNotConverged = s.hasNotConverged
    rw [ipm_pass_hasNotConverged, ih]

theorem ipm_state_at_updates (c : IPMContext R) (s : IPMState R) (k : Nat) :
    (ipm_state_at c s k).updates = s.updates + k := by
  induction k with
  | zero => rfl
  | succ k ih =>
    show (ipm_pass c (ipm_state_at c s k)).updates = s.updates + (k + 1)
    rw [ipm_pass_updates, ih]; rfl

theorem ipm_reaches_succ (c : IPMContext R) (s : IPMState R) (k : Nat)
    (h0 : ipm_converged c (ipm_head c s) = false) (h1 : ipm_nan_check c (ipm_pass c s) = false)
    (h : ipm_reaches c (ipm_next c s) k) : ipm_reaches c s (k + 1) := by
  intro j hj
  cases j with
  | zero => exact ⟨h0, h1⟩
  | succ j =>
    have := h j (by omega)
    simpa [ipm_test_at, ipm_nan_at, ipm_state_at_succ] using this

/-- The three ways in which the loop ends, for a bound on the passes that is large enough. -/
theorem ipm_loop_cases (c : IPMContext R) :
    ∀ (fuel : Nat) (s : IPMState R), c.max_iter ≤ s.iteration + fuel →
      (∃ k, s.iteration + k < c.max_iter ∧ ipm_reaches c s k ∧ ipm_test_at c s k = true ∧
        ipm_loop c fuel s
          = ipm_exit_converged (ipm_state_at c s k) (ipm_head c (ipm_state_at c s k)))
      ∨ (∃ k, s.iteration + k < c.max_iter ∧ ipm_reaches c s k ∧ ipm_test_at c s k = false ∧
          ipm_nan_at c s k = true ∧
          ipm_loop c fuel s = { ipm_pass c (ipm_state_at c s k) with hasNotConverged := 2 })
      ∨ (ipm_reaches c s (c.max_iter - s.iteration) ∧
          ipm_loop c fuel s = ipm_state_at c s (c.max_iter - s.iteration)) := by
  intro fuel
  induction fuel with
  | zero =>
    intro s hs
    right; right
    have h0 : c.max_iter - s.iteration = 0 := by omega
    rw [h0]
    exact ⟨fun j hj => absurd hj (Nat.not_lt_zero j), rfl⟩
  | succ fuel ih =>
    intro s hs
    by_cases hlt : s.iteration < c.max_iter
    · by_cases hconv : ipm_converged c (ipm_head c s) = true
      · left
        refine ⟨0, by simpa using hlt, fun j hj => absurd hj (Nat.not_lt_zero j), hconv, ?_⟩
        simp [ipm_loop, hlt, hconv, ipm_state_at]
      · have hconv : ipm_converged c (ipm_head c s) = false := by simpa using hconv
        by_cases hnan : ipm_nan_check c (ipm_pass c s) = true
        · right; left
          refine ⟨0, by simpa using hlt, fun j hj => absurd hj (Nat.not_lt_zero j), hconv, hnan, ?_⟩
          simp [ipm_loop, hlt, hconv, hnan, ipm_state_at]
        · have hnan : ipm_nan_check c (ipm_pass c s) = false := by simpa using hnan
          have hloop : ipm_loop c (fuel + 1) s = ipm_loop c fuel (ipm_next c s) := by
            simp [ipm_loop, hlt, hconv, hnan, ipm_next]
          have hit : (ipm_next c s).iteration = s.iteration + 1 := rfl
          rcases ih (ipm_next c s) (by rw [hit]; omega) with h | h | h
          · obtain ⟨k, hk, hr, ht, he⟩ := h
            left
            refine ⟨k + 1, by rw [hit] at hk; omega, ipm_reaches_succ c s k hconv hnan hr, ?_, ?_⟩
            · simpa [ipm_test_at, ipm_state_at_succ] using ht
            · rw [hloop, he, ipm_state_at_succ]
          · obtain ⟨k, hk, hr, ht, hn, he⟩ := h
            right; left
            refine ⟨k + 1, by rw [hit] at hk; omega, ipm_reaches_succ c s k hconv hnan hr, ?_, ?_, ?_⟩
            · simpa [ipm_test_at, ipm_state_at_succ] using ht
            · simpa [ipm_nan_at, ipm_state_at_succ] using hn
            · rw [hloop, he, ipm_state_at_succ]
          · obtain ⟨hr, he⟩ := h
            right; right
            have hk : c.max_iter - s.iteration = (c.max_iter - (ipm_next c s).iteration) + 1 := by
              rw [hit]; omega
            rw [hk]
            exact ⟨ipm_reaches_succ c s _ hconv hnan hr, by rw [hloop, he, ipm_state_at_succ]⟩
    · right; right
      have h0 : c.max_iter - s.iteration = 0 := by omega
      rw [h0]
      exact ⟨fun j hj => absurd hj (Nat.not_lt_zero j), by simp [ipm_loop, hlt, ipm_state_at]⟩

/-- Two exits of the loop cannot both happen: an exit at the test of the pass `k` and an
exit at the NaN check of a pass `k2`. -/
theorem ipm_exit_disjoint (c : IPMContext R) (s : IPMState R) (k k2 : Nat)
    (hr : ipm_reaches c s k) (ht : ipm_test_at c s k = true)
    (hr2 : ipm_reaches c s k2) (ht2 : ipm_test_at c s k2 = false) (hn2 : ipm_nan_at c s k2 = true) :
    False := by
  rcases Nat.lt_trichotomy k k2 with h | h | h
  · have := (hr2 k h).1
    rw [ht] at this; cases this
  · subst h
    rw [ht] at ht2; cases ht2
  · have := (hr k2 h).2
    rw [hn2] at this; cases this

/-- Outcome of the loop started with `iteration = 0`, `hasNotConverged = 1`,
`updates = 0`: exit code, counter and number of updates. -/
theorem ipm_loop_outcome (c : IPMContext R) (s0 : IPMState R) (hi : s0.iteration = 0)
    (hh : s0.hasNotConverged = 1) (hu : s0.updates = 0) :
    ((ipm_loop c c.max_iter s0).hasNotConverged = 0 ↔
        ∃ k, k < c.max_iter ∧ ipm_reaches c s0 k ∧ ipm_test_at c s0 k = true) ∧
    ((ipm_loop c c.max_iter s0).hasNotConverged = 2 ↔
        ∃ k, k < c.max_iter ∧ ipm_reaches c s0 k ∧ ipm_test_at c s0 k = false ∧
          ipm_nan_at c s0 k = true) ∧
    ((ipm_loop c c.max_iter s0).hasNotConverged = 1 ↔ ipm_reaches c s0 c.max_iter) ∧
    ((ipm_loop c c.max_iter s0).hasNotConverged = 0 ∨ (ipm_loop c c.max_iter s0).hasNotConverged = 1
      ∨ (ipm_loop c c.max_iter s0).hasNotConverged = 2) ∧
    ((ipm_loop c c.max_iter s0).hasNotConverged = 1 →
      (ipm_loop c c.max_iter s0).iteration = c.max_iter) ∧
    (ipm_loop c c.max_iter s0).iteration ≤ c.max_iter ∧
    (ipm_loop c c.max_iter s0).updates
      = (if (ipm_loop c c.max_iter s0).hasNotConverged = 2
          then (ipm_loop c c.max_iter s0).iteration + 1 else (ipm_loop c c.max_iter s0).iteration) ∧
    (ipm_loop c c.max_iter s0).updates ≤ c.max_iter := by
  rcases ipm_loop_cases c c.max_iter s0 (by omega) with h | h | h
  · obtain ⟨k, hk, hr, ht, he⟩ := h
    rw [hi, Nat.zero_add] at hk
    have e1 : (ipm_loop c c.max_iter s0).hasNotConverged = 0 := by rw [he]; rfl
    have e2 : (ipm_loop c c.max_iter s0).iteration = k := by
      rw [he]
      show (ipm_state_at c s0 k).iteration = k
      rw [ipm_state_at_iteration, hi, Nat.zero_add]
    have e3 : (ipm_loop c c.max_iter s0).updates = k := by
      rw [he]
      show (ipm_state_at c s0 k).updates = k
      rw [ipm_state_at_updates, hu, Nat.zero_add]
    rw [e1, e2, e3]
    refine ⟨⟨fun _ => ⟨k, hk, hr, ht⟩, fun _ => rfl⟩, ⟨fun h => (by omega), ?_⟩,
      ⟨fun h => (by omega), ?_⟩, Or.inl rfl, fun h => (by omega), le_of_lt hk, by simp, le_of_lt hk⟩
    · rintro ⟨k2, _, hr2, ht2, hn2⟩
      exact (ipm_exit_disjoint c s0 k k2 hr ht hr2 ht2 hn2).elim
    · intro hr2
      have := (hr2 k hk).1
      rw [ht] at this; cases this
  · obtain ⟨k, hk, hr, ht, hn, he⟩ := h
    rw [hi, Nat.zero_add] at hk
    have e1 : (ipm_loop c c.max_iter s0).hasNotConverged = 2 := by rw [he]
    have e2 : (ipm_loop c c.max_iter s0).iteration = k := by
      rw [he]
      show (ipm_pass c (ipm_state_at c s0 k)).iteration = k
      rw [ipm_pass_iteration, ipm_state_at_iteration, hi, Nat.zero_add]
    have e3 : (ipm_loop c c.max_iter s0).updates = k + 1 := by
      rw [he]
      show (ipm_pass c (ipm_state_at c s0 k)).updates = k + 1
      rw [ipm_pass_updates, ipm_state_at_updates, hu, Nat.zero_add]
    rw [e1, e2, e3]
    refine ⟨⟨fun h => (by omega), ?_⟩, ⟨fun _ => ⟨k, hk, hr, ht, hn⟩, fun _ => rfl⟩,
      ⟨fun h => (by omega), ?_⟩, Or.inr (Or.inr rfl), fun h => (by omega), le_of_lt hk, by simp, hk⟩
    · rintro ⟨k2, _, hr2, ht2⟩
      exact (ipm_exit_disjoint c s0 k2 k hr2 ht2 hr ht hn).elim
    · intro hr2
      have := (hr2 k hk).2
      rw [hn] at this; cases this
  · obtain ⟨hr, he⟩ := h
    rw [hi, Nat.sub_zero] at hr he
    have e1 : (ipm_loop c c.max_iter s0).hasNotConverged = 1 := by
      rw [he, ipm_state_at_hasNotConverged, hh]
    have e2 : (ipm_loop c c.max_iter s0).iteration = c.max_iter := by
      rw [he, ipm_state_at_iteration, hi, Nat.zero_add]
    have e3 : (ipm_loop c c.max_iter s0).updates = c.max_iter := by
      rw [he, ipm_state_at_updates, hu, Nat.zero_add]
    rw [e1, e2, e3]
    refine ⟨⟨fun h => (by omega), ?_⟩, ⟨fun h => (by omega), ?_⟩, ⟨fun _ => hr, fun _ => rfl⟩,
      Or.inr (Or.inl rfl), fun _ => rfl, le_refl _, by simp, le_refl _⟩
    · rintro ⟨k, hk, _, ht⟩
      have := (hr k hk).1
      rw [ht] at this; cases this
    · rintro ⟨k, hk, _, _, hn⟩
      have := (hr k hk).2
      rw [hn] at this; cases this

end TrajectoryLemmas

section InfoContract
variable {R : Type} [Zero R] [One R] [RatCast R] [Add R] [Sub R] [Mul R] [Div R]
  [LE R] [LT R] [DecidableRel (α := R) (· ≤ ·)] [DecidableRel (α := R) (· < ·)]

theorem grfc3d_IPM_eq (ext : Externals R) (cst : Constants)
    (problem : GlobalRollingFrictionContactProblem R) (reaction velocity globalVelocity : Vec R)
    (options : SolverOptions R)
    (h : (ipm_entry_options ext cst problem options).solverData.isSome = true) :
    grfc3d_IPM ext cst problem reaction velocity globalVelocity options
      = (if ipm_run_defined
            (ipm_entry_context ext cst problem options (ipm_entry_data ext cst problem options h))
            (ipm_entry_state ext cst problem reaction velocity globalVelocity options
              (ipm_entry_data ext cst problem options h))
          then some (ipm_finish ext cst problem options (ipm_entry_data ext cst problem options h)
            (ipm_loop (ipm_entry_context ext cst problem options (ipm_entry_data ext cst problem options h))
              (ipm_entry_context ext cst problem options (ipm_entry_data ext cst problem options h)).max_iter
              (ipm_entry_state ext cst problem reaction velocity globalVelocity options
                (ipm_entry_data ext cst problem options h))))
          else none) := by
  unfold grfc3d_IPM ipm_entry_data
  generalize (ipm_entry_options ext cst problem options).solverData = o at h ⊢
  cases o with
  | none => cases h
  | some d => rfl

omit [One R] [Sub R] [LT R] [DecidableRel (α := R) (· < ·)] in
/-- The head of a pass changes `iparam` at most at the index `NESTEROV_TODD_SCALING`, where
it writes 0. -/
theorem ipm_head_iparam (c : IPMContext R) (s : IPMState R) (k : Nat) :
    (ipm_head c s).iparam k = s.iparam k ∨
    (k = c.cst.SICONOS_FRICTION_3D_IPM_IPARAM_NESTEROV_TODD_SCALING ∧ (ipm_head c s).iparam k = 0) := by
  simp only [ipm_head]
  split
  · by_cases hk : k = c.cst.SICONOS_FRICTION_3D_IPM_IPARAM_NESTEROV_TODD_SCALING
    · right
      exact ⟨hk, by simp [hk]⟩
    · left
      simp [hk]
  · left
    rfl

omit [One R] in
/-- A loop all of whose passes run through: an invariant of the states that makes the part
after the exit test run through. -/
theorem ipm_loop_defined_of_invariant (c : IPMContext R) (P : IPMState R → Prop)
    (hhead : ipm_head_defined c = true)
    (hP : ∀ s, P s → ipm_body_defined c s = true ∧ P (ipm_next c s)) :
    ∀ (fuel : Nat) (s : IPMState R), P s → ipm_loop_defined c fuel s = true := by
  intro fuel
  induction fuel with
  | zero => intro s _; rfl
  | succ fuel ih =>
    intro s hs
    unfold ipm_loop_defined
    split
    · rw [hhead, Bool.true_and]
      split
      · rfl
      · rw [(hP s hs).1, Bool.true_and]
        split
        · rfl
        · exact ih _ (hP s hs).2
    · rfl

omit [One R] in
/-- An invariant of the passes that the two early exits keep holds at the end of the loop. -/
theorem ipm_loop_invariant (c : IPMContext R) (P : IPMState R → Prop)
    (hnext : ∀ s, P s → P (ipm_next c s))
    (hexit : ∀ s, P s → P (ipm_exit_converged s (ipm_head c s)))
    (hnan : ∀ s, P s → P { ipm_pass c s with hasNotConverged := 2 }) :
    ∀ (fuel : Nat) (s : IPMState R), P s → P (ipm_loop c fuel s) := by
  intro fuel
  induction fuel with
  | zero => intro s hs; exact hs
  | succ fuel ih =>
    intro s hs
    unfold ipm_loop
    split
    · dsimp only
      split
      · exact hexit s hs
      · split
        · exact hnan s hs
        · exact ih _ (hnext s hs)
    · exact hs

omit [One R] in
/-- A call without Nesterov-Todd scaling (`iparam[NESTEROV_TODD_SCALING] = 0` at the entry
of the loop) runs through when `n > 0`, the calls of `extract_vector` run through and the
assertion on the size of `rhs` holds. -/
theorem ipm_run_defined_unscaled (c : IPMContext R) (s0 : IPMState R) (hn : 0 < c.dims.n)
    (hhead : ipm_head_defined c = true) (hsize : rhs_size_assert c.dims = true)
    (h0 : s0.iparam c.cst.SICONOS_FRICTION_3D_IPM_IPARAM_NESTEROV_TODD_SCALING = 0) :
    ipm_run_defined c s0 = true := by
  have hh : ∀ s : IPMState R,
      s.iparam c.cst.SICONOS_FRICTION_3D_IPM_IPARAM_NESTEROV_TODD_SCALING = 0 →
      (ipm_head c s).iparam c.cst.SICONOS_FRICTION_3D_IPM_IPARAM_NESTEROV_TODD_SCALING = 0 := by
    intro s hs
    rcases ipm_head_iparam c s c.cst.SICONOS_FRICTION_3D_IPM_IPARAM_NESTEROV_TODD_SCALING with h | h
    · rw [h, hs]
    · exact h.2
  have hloop := ipm_loop_defined_of_invariant c
    (fun s => s.iparam c.cst.SICONOS_FRICTION_3D_IPM_IPARAM_NESTEROV_TODD_SCALING = 0) hhead
    (fun s hs => by
      refine ⟨?_, hh s hs⟩
      unfold ipm_body_defined
      simp only [hsize, Bool.true_and, ipm_nt, hh s hs]
      simp) c.max_iter s0 h0
  have hfin := ipm_loop_invariant c
    (fun s => s.iparam c.cst.SICONOS_FRICTION_3D_IPM_IPARAM_NESTEROV_TODD_SCALING = 0)
    (fun s hs => hh s hs) (fun s hs => hh s hs) (fun s hs => hh s hs) c.max_iter s0 h0
  unfold ipm_run_defined ipm_finish_defined
  rw [hloop, hfin]
  simp [hn]

omit [One R] [Sub R] in
/-- After a pass with a valid scaling method the method is still valid, and the scaling is
off or the four pointers `Qp_*` are set. -/
theorem ipm_pass_scaling (c : IPMContext R) (s : IPMState R)
    (hidx : c.cst.SICONOS_FRICTION_3D_IPM_IPARAM_NESTEROV_TODD_SCALING
      ≠ c.cst.SICONOS_FRICTION_3D_IPM_IPARAM_NESTEROV_TODD_SCALING_METHOD)
    (hm : s.iparam c.cst.SICONOS_FRICTION_3D_IPM_IPARAM_NESTEROV_TODD_SCALING_METHOD
        = c.cst.SICONOS_FRICTION_3D_IPM_NESTEROV_TODD_SCALING_WITH_QP
      ∨ s.iparam c.cst.SICONOS_FRICTION_3D_IPM_IPARAM_NESTEROV_TODD_SCALING_METHOD
        = c.cst.SICONOS_FRICTION_3D_IPM_NESTEROV_TODD_SCALING_WITH_F) :
    ((ipm_head c s).iparam c.cst.SICONOS_FRICTION_3D_IPM_IPARAM_NESTEROV_TODD_SCALING_METHOD
        = c.cst.SICONOS_FRICTION_3D_IPM_NESTEROV_TODD_SCALING_WITH_QP
      ∨ (ipm_head c s).iparam c.cst.SICONOS_FRICTION_3D_IPM_IPARAM_NESTEROV_TODD_SCALING_METHOD
        = c.cst.SICONOS_FRICTION_3D_IPM_NESTEROV_TODD_SCALING_WITH_F) ∧
    ((ipm_head c s).iparam c.cst.SICONOS_FRICTION_3D_IPM_IPARAM_NESTEROV_TODD_SCALING ≠ 0 →
      (ipm_predictor c s (ipm_head c s)).Q.1.isSome = true ∧
      (ipm_predictor c s (ipm_head c s)).Q.2.1.isSome = true ∧
      (ipm_predictor c s (ipm_head c s)).Q.2.2.1.isSome = true ∧
      (ipm_predictor c s (ipm_head c s)).Q.2.2.2.isSome = true) := by
  have hmh : (ipm_head c s).iparam c.cst.SICONOS_FRICTION_3D_IPM_IPARAM_NESTEROV_TODD_SCALING_METHOD
      = s.iparam c.cst.SICONOS_FRICTION_3D_IPM_IPARAM_NESTEROV_TODD_SCALING_METHOD := by
    rcases ipm_head_iparam c s c.cst.SICONOS_FRICTION_3D_IPM_IPARAM_NESTEROV_TODD_SCALING_METHOD
      with h | h
    · exact h
    · exact absurd h.1.symm hidx
  refine ⟨by rw [hmh]; exact hm, ?_⟩
  intro hnt
  have hq : (ipm_predictor c s (ipm_head c s)).Q = ipm_scaling_matrices c s (ipm_head c s) := by
    show (if (ipm_head c s).iparam c.cst.SICONOS_FRICTION_3D_IPM_IPARAM_NESTEROV_TODD_SCALING ≠ 0
      then ipm_scaling_matrices c s (ipm_head c s)
      else (s.Qp_bar, s.Qp2_bar, s.Qp_tilde, s.Qp2_tilde)) = _
    rw [if_pos hnt]
  rw [hq]
  unfold ipm_scaling_matrices
  dsimp only
  rw [hmh]
  rcases hm with h | h
  · rw [if_pos h]
    exact ⟨rfl, rfl, rfl, rfl⟩
  · by_cases hq2 : s.iparam c.cst.SICONOS_FRICTION_3D_IPM_IPARAM_NESTEROV_TODD_SCALING_METHOD
        = c.cst.SICONOS_FRICTION_3D_IPM_NESTEROV_TODD_SCALING_WITH_QP
    · rw [if_pos hq2]
      exact ⟨rfl, rfl, rfl, rfl⟩
    · rw [if_neg hq2, if_pos h]
      exact ⟨rfl, rfl, rfl, rfl⟩

omit [One R] in
/-- A call with Nesterov-Todd scaling and a valid method (`WITH_QP` or `WITH_F`) runs
through when `n > 0`, the calls of `extract_vector` run through, the assertion on the size
of `rhs` holds, and the scaling matrices are set before they are released: the first pass
goes beyond its exit test, or `iparam[NESTEROV_TODD_SCALING]` is negative or zero, in which
case nothing is released. -/
theorem ipm_run_defined_scaled (c : IPMContext R) (s0 : IPMState R) (hn : 0 < c.dims.n)
    (hhead : ipm_head_defined c = true) (hsize : rhs_size_assert c.dims = true)
    (hit : s0.iteration = 0)
    (hidx : c.cst.SICONOS_FRICTION_3D_IPM_IPARAM_NESTEROV_TODD_SCALING
      ≠ c.cst.SICONOS_FRICTION_3D_IPM_IPARAM_NESTEROV_TODD_SCALING_METHOD)
    (hm : s0.iparam c.cst.SICONOS_FRICTION_3D_IPM_IPARAM_NESTEROV_TODD_SCALING_METHOD
        = c.cst.SICONOS_FRICTION_3D_IPM_NESTEROV_TODD_SCALING_WITH_QP
      ∨ s0.iparam c.cst.SICONOS_FRICTION_3D_IPM_IPARAM_NESTEROV_TODD_SCALING_METHOD
        = c.cst.SICONOS_FRICTION_3D_IPM_NESTEROV_TODD_SCALING_WITH_F)
    (hrun : s0.iparam c.cst.SICONOS_FRICTION_3D_IPM_IPARAM_NESTEROV_TODD_SCALING ≤ 0
      ∨ (0 < c.max_iter ∧ ipm_converged c (ipm_head c s0) = false)) :
    ipm_run_defined c s0 = true := by
  have hloop := ipm_loop_defined_of_invariant c
    (fun s => s.iparam c.cst.SICONOS_FRICTION_3D_IPM_IPARAM_NESTEROV_TODD_SCALING_METHOD
        = c.cst.SICONOS_FRICTION_3D_IPM_NESTEROV_TODD_SCALING_WITH_QP
      ∨ s.iparam c.cst.SICONOS_FRICTION_3D_IPM_IPARAM_NESTEROV_TODD_SCALING_METHOD
        = c.cst.SICONOS_FRICTION_3D_IPM_NESTEROV_TODD_SCALING_WITH_F) hhead
    (fun s hs => by
      obtain ⟨a, b⟩ := ipm_pass_scaling c s hidx hs
      refine ⟨?_, a⟩
      unfold ipm_body_defined
      by_cases hnt : (ipm_head c s).iparam c.cst.SICONOS_FRICTION_3D_IPM_IPARAM_NESTEROV_TODD_SCALING = 0
      · simp [hsize, hnt, ipm_nt]
      · obtain ⟨b1, b2, b3, b4⟩ := b hnt
        simp [hsize, b1, b2, b3, b4]) c.max_iter s0 hm
  have hfin : ipm_finish_defined c (ipm_loop c c.max_iter s0) = true := by
    rcases hrun with hle | ⟨hpos, hconv⟩
    · have := ipm_loop_invariant c
        (fun s => ¬ 0 < s.iparam c.cst.SICONOS_FRICTION_3D_IPM_IPARAM_NESTEROV_TODD_SCALING)
        (fun s hs => by
          show ¬ 0 < (ipm_head c s).iparam _
          rcases ipm_head_iparam c s c.cst.SICONOS_FRICTION_3D_IPM_IPARAM_NESTEROV_TODD_SCALING
            with h | h
          · rw [h]; exact hs
          · rw [h.2]; decide)
        (fun s hs => by
          show ¬ 0 < (ipm_head c s).iparam _
          rcases ipm_head_iparam c s c.cst.SICONOS_FRICTION_3D_IPM_IPARAM_NESTEROV_TODD_SCALING
            with h | h
          · rw [h]; exact hs
          · rw [h.2]; decide)
        (fun s hs => by
          show ¬ 0 < (ipm_head c s).iparam _
          rcases ipm_head_iparam c s c.cst.SICONOS_FRICTION_3D_IPM_IPARAM_NESTEROV_TODD_SCALING
            with h | h
          · rw [h]; exact hs
          · rw [h.2]; decide)
        c.max_iter s0 (by omega)
      unfold ipm_finish_defined
      simp [this]
    · -- the invariant that holds after one pass
      have hP : ∀ s : IPMState R,
          (s.iparam c.cst.SICONOS_FRICTION_3D_IPM_IPARAM_NESTEROV_TODD_SCALING_METHOD
              = c.cst.SICONOS_FRICTION_3D_IPM_NESTEROV_TODD_SCALING_WITH_QP
            ∨ s.iparam c.cst.SICONOS_FRICTION_3D_IPM_IPARAM_NESTEROV_TODD_SCALING_METHOD
              = c.cst.SICONOS_FRICTION_3D_IPM_NESTEROV_TODD_SCALING_WITH_F) →
          ((ipm_pass c s).iparam c.cst.SICONOS_FRICTION_3D_IPM_IPARAM_NESTEROV_TODD_SCALING_METHOD
              = c.cst.SICONOS_FRICTION_3D_IPM_NESTEROV_TODD_SCALING_WITH_QP
            ∨ (ipm_pass c s).iparam c.cst.SICONOS_FRICTION_3D_IPM_IPARAM_NESTEROV_TODD_SCALING_METHOD
              = c.cst.SICONOS_FRICTION_3D_IPM_NESTEROV_TODD_SCALING_WITH_F) ∧
          (((ipm_pass c s).iparam c.cst.SICONOS_FRICTION_3D_IPM_IPARAM_NESTEROV_TODD_SCALING = 0 ∧
              (s.iparam c.cst.SICONOS_FRICTION_3D_IPM_IPARAM_NESTEROV_TODD_SCALING = 0 ∨ True))
            ∨ ((ipm_pass c s).Qp_bar.isSome = true ∧ (ipm_pass c s).Qp2_bar.isSome = true ∧
              (ipm_pass c s).Qp_tilde.isSome = true ∧ (ipm_pass c s).Qp2_tilde.isSome = true)) := by
        intro s hs
        obtain ⟨a, b⟩ := ipm_pass_scaling c s hidx hs
        refine ⟨a, ?_⟩
        by_cases hnt : (ipm_head c s).iparam c.cst.SICONOS_FRICTION_3D_IPM_IPARAM_NESTEROV_TODD_SCALING = 0
        · exact Or.inl ⟨hnt, Or.inr trivial⟩
        · obtain ⟨b1, b2, b3, b4⟩ := b hnt
          exact Or.inr ⟨b1, b2, b3, b4⟩
      have hinv := ipm_loop_invariant c
        (fun s =>
          (s.iparam c.cst.SICONOS_FRICTION_3D_IPM_IPARAM_NESTEROV_TODD_SCALING_METHOD
              = c.cst.SICONOS_FRICTION_3D_IPM_NESTEROV_TODD_SCALING_WITH_QP
            ∨ s.iparam c.cst.SICONOS_FRICTION_3D_IPM_IPARAM_NESTEROV_TODD_SCALING_METHOD
              = c.cst.SICONOS_FRICTION_3D_IPM_NESTEROV_TODD_SCALING_WITH_F) ∧
          (s.iparam c.cst.SICONOS_FRICTION_3D_IPM_IPARAM_NESTEROV_TODD_SCALING = 0
            ∨ (s.Qp_bar.isSome = true ∧ s.Qp2_bar.isSome = true ∧
              s.Qp_tilde.isSome = true ∧ s.Qp2_tilde.isSome = true)))
        (fun s hs => by
          obtain ⟨a, b⟩ := hP s hs.1
          exact ⟨a, b.imp (fun x => x.1) id⟩)
        (fun s hs => by
          obtain ⟨a, _⟩ := ipm_pass_scaling c s hidx hs.1
          refine ⟨a, ?_⟩
          rcases hs.2 with h0 | hq
          · left
            show (ipm_head c s).iparam _ = 0
            rcases ipm_head_iparam c s c.cst.SICONOS_FRICTION_3D_IPM_IPARAM_NESTEROV_TODD_SCALING
              with h | h
            · rw [h]; exact h0
            · exact h.2
          · exact Or.inr hq)
        (fun s hs => by
          obtain ⟨a, b⟩ := hP s hs.1
          exact ⟨a, b.imp (fun x => x.1) id⟩)
      have hfinal : ∀ s : IPMState R,
          (s.iparam c.cst.SICONOS_FRICTION_3D_IPM_IPARAM_NESTEROV_TODD_SCALING = 0
            ∨ (s.Qp_bar.isSome = true ∧ s.Qp2_bar.isSome = true ∧
              s.Qp_tilde.isSome = true ∧ s.Qp2_tilde.isSome = true)) →
          ipm_finish_defined c s = true := by
        intro s hs
        unfold ipm_finish_defined
        rcases hs with h | ⟨h1, h2, h3, h4⟩
        · simp [h]
        · simp [h1, h2, h3, h4]
      obtain ⟨m, hmx⟩ : ∃ m, c.max_iter = m + 1 := ⟨c.max_iter - 1, by omega⟩
      rw [hmx]
      unfold ipm_loop
      rw [if_pos (by rw [hit]; omega)]
      dsimp only
      rw [hconv]
      simp only [Bool.false_eq_true, if_false]
      obtain ⟨a, b⟩ := hP s0 hm
      split
      · exact hfinal _ (b.imp (fun x => x.1) id)
      · exact hfinal _ (hinv m { ipm_pass c s0 with iteration := (ipm_pass c s0).iteration + 1 }
          ⟨a, b.imp (fun x => x.1) id⟩).2
  unfold ipm_run_defined
  rw [hloop, hfin]
  simp [hn]

/-- C1 (amended): a call of `grfc3d_IPM` whose solver data pointer is usable returns exactly
when it runs through (`ipm_run_defined`: `n > 0`, no assertion fails and no NULL scaling
matrix is handed to a library routine or released).  It does run through when `n > 0`, the
calls of `extract_vector` and the assertion on the size of `rhs` pass, and either the
Nesterov-Todd scaling is off, or the scaling method is `WITH_QP` or `WITH_F` and the
scaling matrices are set before they are released (`iparam[NESTEROV_TODD_SCALING] <= 0`, or
the first pass goes beyond its exit test).  Whenever the call returns, its `info` is 0
exactly when the exit test succeeds at the top of a pass `k < max_iter` that the loop
reaches, 2 exactly when the NaN check fires after the update of such a pass, and 1
otherwise, which is exactly when all `max_iter` passes run and the counter equals
`max_iter` (also for `max_iter = 0`).  `iparam[ITER_DONE]` holds the iteration counter,
which is at most `max_iter`; the number of executed point updates equals the counter when
`info` is 0 or 1 and exceeds it by one when `info` is 2, and it is at most `max_iter`. -/
theorem grfc3d_IPM_info_contract (ext : Externals R) (cst : Constants)
    (problem : GlobalRollingFrictionContactProblem R) (reaction velocity globalVelocity : Vec R)
    (options : SolverOptions R)
    (h : (ipm_entry_options ext cst problem options).solverData.isSome = true) :
    ((∃ res, grfc3d_IPM ext cst problem reaction velocity globalVelocity options = some res) ↔
      ipm_run_defined (ipm_entry_context ext cst problem options (ipm_entry_data ext cst problem options h))
        (ipm_entry_state ext cst problem reaction velocity globalVelocity options
          (ipm_entry_data ext cst problem options h)) = true) ∧
    (0 < (ipm_entry_context ext cst problem options (ipm_entry_data ext cst problem options h)).dims.n →
      ipm_head_defined (ipm_entry_context ext cst problem options (ipm_entry_data ext cst problem options h)) = true →
      rhs_size_assert (ipm_entry_context ext cst problem options (ipm_entry_data ext cst problem options h)).dims = true →
      ((ipm_entry_state ext cst problem reaction velocity globalVelocity options
          (ipm_entry_data ext cst problem options h)).iparam cst.SICONOS_FRICTION_3D_IPM_IPARAM_NESTEROV_TODD_SCALING = 0 ∨
        (cst.SICONOS_FRICTION_3D_IPM_IPARAM_NESTEROV_TODD_SCALING ≠ cst.SICONOS_FRICTION_3D_IPM_IPARAM_NESTEROV_TODD_SCALING_METHOD ∧
          ((ipm_entry_state ext cst problem reaction velocity globalVelocity options
          (ipm_entry_data ext cst problem options h)).iparam cst.SICONOS_FRICTION_3D_IPM_IPARAM_NESTEROV_TODD_SCALING_METHOD = cst.SICONOS_FRICTION_3D_IPM_NESTEROV_TODD_SCALING_WITH_QP ∨
            (ipm_entry_state ext cst problem reaction velocity globalVelocity options
          (ipm_entry_data ext cst problem options h)).iparam cst.SICONOS_FRICTION_3D_IPM_IPARAM_NESTEROV_TODD_SCALING_METHOD = cst.SICONOS_FRICTION_3D_IPM_NESTEROV_TODD_SCALING_WITH_F) ∧
          ((ipm_entry_state ext cst problem reaction velocity globalVelocity options
          (ipm_entry_data ext cst problem options h)).iparam cst.SICONOS_FRICTION_3D_IPM_IPARAM_NESTEROV_TODD_SCALING ≤ 0 ∨
            (0 < (ipm_entry_context ext cst problem options (ipm_entry_data ext cst problem options h)).max_iter ∧
              ipm_test_at (ipm_entry_context ext cst problem options (ipm_entry_data ext cst problem options h))
                (ipm_entry_state ext cst problem reaction velocity globalVelocity options
          (ipm_entry_data ext cst problem options h)) 0 = false)))) →
      ∃ res, grfc3d_IPM ext cst problem reaction velocity globalVelocity options = some res) ∧
    (∀ res, grfc3d_IPM ext cst problem reaction velocity globalVelocity options = some res →
      (res.info = 0 ↔ ∃ k,
        k < (ipm_entry_context ext cst problem options (ipm_entry_data ext cst problem options h)).max_iter ∧
        ipm_reaches (ipm_entry_context ext cst problem options (ipm_entry_data ext cst problem options h))
          (ipm_entry_state ext cst problem reaction velocity globalVelocity options
          (ipm_entry_data ext cst problem options h)) k ∧
        ipm_test_at (ipm_entry_context ext cst problem options (ipm_entry_data ext cst problem options h))
          (ipm_entry_state ext cst problem reaction velocity globalVelocity options
          (ipm_entry_data ext cst problem options h)) k = true) ∧
      (res.info = 2 ↔ ∃ k,
        k < (ipm_entry_context ext cst problem options (ipm_entry_data ext cst problem options h)).max_iter ∧
        ipm_reaches (ipm_entry_context ext cst problem options (ipm_entry_data ext cst problem options h))
          (ipm_entry_state ext cst problem reaction velocity globalVelocity options
          (ipm_entry_data ext cst problem options h)) k ∧
        ipm_test_at (ipm_entry_context ext cst problem options (ipm_entry_data ext cst problem options h))
          (ipm_entry_state ext cst problem reaction velocity globalVelocity options
          (ipm_entry_data ext cst problem options h)) k = false ∧
        ipm_nan_at (ipm_entry_context ext cst problem options (ipm_entry_data ext cst problem options h))
          (ipm_entry_state ext cst problem reaction velocity globalVelocity options
          (ipm_entry_data ext cst problem options h)) k = true) ∧
      (res.info = 1 ↔
        ipm_reaches (ipm_entry_context ext cst problem options (ipm_entry_data ext cst problem options h))
          (ipm_entry_state ext cst problem reaction velocity globalVelocity options
          (ipm_entry_data ext cst problem options h))
          (ipm_entry_context ext cst problem options (ipm_entry_data ext cst problem options h)).max_iter) ∧
      (res.info = 0 ∨ res.info = 1 ∨ res.info = 2) ∧
      (res.info = 1 → res.final.iteration = ofInt32 (options.iparam cst.SICONOS_IPARAM_MAX_ITER)) ∧
      res.options.iparam cst.SICONOS_IPARAM_ITER_DONE = toInt32 res.final.iteration ∧
      res.final.iteration ≤ ofInt32 (options.iparam cst.SICONOS_IPARAM_MAX_ITER) ∧
      res.final.updates = (if res.info = 2 then res.final.iteration + 1 else res.final.iteration) ∧
      res.final.updates ≤ ofInt32 (options.iparam cst.SICONOS_IPARAM_MAX_ITER)) := by
  have hmax : (ipm_entry_context ext cst problem options (ipm_entry_data ext cst problem options h)).max_iter
      = ofInt32 (options.iparam cst.SICONOS_IPARAM_MAX_ITER) := by
    show ofInt32 ((ipm_entry_options ext cst problem options).iparam cst.SICONOS_IPARAM_MAX_ITER) = _
    unfold ipm_entry_options
    split <;> rfl
  have heq := grfc3d_IPM_eq ext cst problem reaction velocity globalVelocity options h
  have hiff : (∃ res, grfc3d_IPM ext cst problem reaction velocity globalVelocity options = some res) ↔
      ipm_run_defined (ipm_entry_context ext cst problem options (ipm_entry_data ext cst problem options h))
        (ipm_entry_state ext cst problem reaction velocity globalVelocity options
          (ipm_entry_data ext cst problem options h)) = true := by
    rw [heq]
    constructor
    · rintro ⟨res, hres⟩
      by_contra hd
      rw [if_neg hd] at hres
      cases hres
    · intro hd
      rw [if_pos hd]
      exact ⟨_, rfl⟩
  refine ⟨hiff, ?_, ?_⟩
  · intro hn hhead hsize hcase
    refine hiff.2 ?_
    rcases hcase with h0 | ⟨hidx, hm, hrun⟩
    · exact ipm_run_defined_unscaled _ _ hn hhead hsize h0
    · exact ipm_run_defined_scaled _ _ hn hhead hsize rfl hidx hm hrun
  · intro res hres
    have hd : ipm_run_defined (ipm_entry_context ext cst problem options (ipm_entry_data ext cst problem options h))
        (ipm_entry_state ext cst problem reaction velocity globalVelocity options
          (ipm_entry_data ext cst problem options h)) = true := hiff.1 ⟨res, hres⟩
    rw [heq, if_pos hd] at hres
    cases hres
    have key := ipm_loop_outcome
      (ipm_entry_context ext cst problem options (ipm_entry_data ext cst problem options h))
      (ipm_entry_state ext cst problem reaction velocity globalVelocity options
          (ipm_entry_data ext cst problem options h)) rfl rfl rfl
    rw [hmax] at key
    rw [hmax]
    obtain ⟨k0, k2, k1, k3, k4, k5, k6, k7⟩ := key
    refine ⟨k0, k2, k1, k3, k4, ?_, k5, k6, k7⟩
    simp [ipm_finish]
    split <;> simp

end InfoContract

/-- C1, witness: the contract applied to the run `nan_run` (scaling off), which returns
with `info = 2` after one point update and counter 0.  Calls that do not run through:
scaling on and `max_iter = 0` (the scaling matrices are released without having been set),
scaling on with a method that is neither `WITH_QP` nor `WITH_F`, and a problem without
contact. -/
theorem grfc3d_IPM_info_contract_witness :
    (ipm_entry_options nan_ext sample_cst (sample_problem 1) nan_options).solverData.isSome = true ∧
    (∃ res, grfc3d_IPM nan_ext sample_cst (sample_problem 1) (fun _ => 0) (fun _ => 0) (fun _ => 0)
        nan_options = some res ∧
      (res.info = 0 ∨ res.info = 1 ∨ res.info = 2) ∧
      res.options.iparam sample_cst.SICONOS_IPARAM_ITER_DONE = toInt32 res.final.iteration ∧
      res.final.updates = (if res.info = 2 then res.final.iteration + 1 else res.final.iteration) ∧
      res.final.updates ≤ ofInt32 (nan_options.iparam sample_cst.SICONOS_IPARAM_MAX_ITER)) ∧
    nan_run.map (fun r => (r.info, r.final.iteration, r.final.updates)) = some (2, 0, 1) ∧
    (grfc3d_IPM nan_ext sample_cst (sample_problem 1) (fun _ => 0) (fun _ => 0) (fun _ => 0)
      (sample_options 10 1 (Dbl.fin 0))).map (fun r => (r.info, r.final.iteration, r.final.updates))
      = some (2, 0, 1) ∧
    (grfc3d_IPM nan_ext sample_cst (sample_problem 1) (fun _ => 0) (fun _ => 0) (fun _ => 0)
      (sample_options 0 1 (Dbl.fin 0))).isSome = false ∧
    (grfc3d_IPM nan_ext sample_cst (sample_problem 1) (fun _ => 0) (fun _ => 0) (fun _ => 0)
      (sample_options 10 7 (Dbl.fin 0))).isSome = false ∧
    (grfc3d_IPM nan_ext sample_cst (sample_problem 0) (fun _ => 0) (fun _ => 0) (fun _ => 0)
      nan_options).isSome = false := by
  refine ⟨rfl, ?_, by decide!, by decide!, by decide!, by decide!, by decide!⟩
  have T := grfc3d_IPM_info_contract nan_ext sample_cst (sample_problem 1) (fun _ => 0)
    (fun _ => 0) (fun _ => 0) nan_options rfl
  obtain ⟨res, hres⟩ := T.2.1 (by decide) (by decide) (by decide) (Or.inl rfl)
  have hr := T.2.2 res hres
  exact ⟨res, hres, hr.2.2.2.1, hr.2.2.2.2.2.1, hr.2.2.2.2.2.2.2.1, hr.2.2.2.2.2.2.2.2⟩

/-- C1, counterexample: in the run `nan_run` the first linear solve returns NaN, the
point update is executed once and the NaN check fires; the call returns `info = 2` with
`iparam[ITER_DONE] = 0`, which is not the number (one) of point updates carried out. -/
theorem grfc3d_IPM_iter_done_counterexample :
    ∃ res, nan_run = some res ∧ res.info = 2 ∧
      res.options.iparam sample_cst.SICONOS_IPARAM_ITER_DONE = 0 ∧ res.final.updates = 1 ∧
      res.options.iparam sample_cst.SICONOS_IPARAM_ITER_DONE ≠ (res.final.updates : Int) := by
  have h : nan_run.map (fun r => (r.info, r.options.iparam 1, r.final.updates)) = some (2, 0, 1) := by
    decide!
  cases hr : nan_run with
  | none => rw [hr] at h; cases h
  | some res =>
    rw [hr] at h
    simp only [Option.map_some', Option.some.injEq, Prod.mk.injEq] at h
    exact ⟨res, rfl, h.1, h.2.1, h.2.2, by
      show res.options.iparam 1 ≠ _
      rw [h.2.1, h.2.2]; decide⟩

section ExitTest
variable {R : Type} [LinearOrderedField R]

theorem cblas_ddot_eq_sum (n : Nat) (x y : Vec R) :
    cblas_ddot n x y = ∑ i in Finset.range n, x i * y i := by
  induction n with
  | zero => simp [cblas_ddot]
  | succ n ih => rw [cblas_ddot, ih, Finset.sum_range_succ]

theorem NV_max_four (e : Vec R) : NV_max e 4 = max (max (max (e 0) (e 1)) (e 2)) (e 3) := by
  have hmax : ∀ a b : R, (if a < b then b else a) = max a b := by
    intro a b
    rcases lt_or_le a b with h | h
    · rw [if_pos h, max_eq_right (le_of_lt h)]
    · rw [if_neg (not_lt.mpr h), max_eq_left h]
  simp only [NV_max, hmax]

/-- C2 (amended): at the top of a pass the exit test succeeds exactly when
`max(pinfeas, dinfeas, <u1,r1>, <u2,r2>) <= tol`, with `pinfeas`, `dinfeas` the norms
returned by `primalResidual` and `dualResidual` and `u_k`, `r_k` the cone sub-blocks; when
it succeeds the loop is left with `hasNotConverged = 0`, otherwise the pass goes on.  The
test does not depend on `complemResidualNorm`, on `computeError` or on the stored
`full_error`.  `full_error` is reported in `dparam[RESIDU]`, and it also drives the switch
to the system without scaling: with `iparam[FINISH_WITHOUT_SCALING] == 1`, a value
`full_error <= 1e-6` sets `iparam[NESTEROV_TODD_SCALING] = 0` (once per call). -/
theorem grfc3d_IPM_exit_test (c : IPMContext R) (s : IPMState R) (fuel : Nat)
    (crn : Vec R → Vec R → Nat → Nat → R)
    (ce : GlobalRollingFrictionContactProblem R → Vec R → Vec R → Vec R → R → Int → R) (fe : R)
    (ext : Externals R) (cst : Constants) (problem : GlobalRollingFrictionContactProblem R)
    (options : SolverOptions R) (data : Grfc3d_IPM_data R) :
    (ipm_converged c (ipm_head c s) = true ↔
      max (max (max (c.ext.primalResidual s.velocity c.H s.globalVelocity c.w).2
        (c.ext.dualResidual c.M s.globalVelocity c.H s.reaction c.f).2)
        (∑ i in Finset.range c.dims.n_dminus2, (ipm_head c s).velocity_1 i * (ipm_head c s).reaction_1 i))
        (∑ i in Finset.range c.dims.n_dminus2, (ipm_head c s).velocity_2 i * (ipm_head c s).reaction_2 i)
        ≤ c.tol) ∧
    ipm_loop c (fuel + 1) s =
      (if s.iteration < c.max_iter then
        if ipm_converged c (ipm_head c s) = true then ipm_exit_converged s (ipm_head c s)
        else if ipm_nan_check c (ipm_pass c s) = true then { ipm_pass c s with hasNotConverged := 2 }
        else ipm_loop c fuel (ipm_next c s)
      else s) ∧
    (ipm_exit_converged s (ipm_head c s)).hasNotConverged = 0 ∧
    (ipm_finish ext cst problem options data s).info = s.hasNotConverged ∧
    ipm_converged { c with ext := { c.ext with complemResidualNorm := crn, computeError := ce } }
        (ipm_head { c with ext := { c.ext with complemResidualNorm := crn, computeError := ce } }
          { s with full_error := fe })
      = ipm_converged c (ipm_head c s) ∧
    (ipm_finish ext cst problem options data s).options.dparam cst.SICONOS_DPARAM_RESIDU
      = s.full_error ∧
    (ipm_head c s).iparam =
      (if s.iparam c.cst.SICONOS_FRICTION_3D_IPM_IPARAM_FINISH_WITHOUT_SCALING = 1
          ∧ s.full_error ≤ ((1 / 1000000 : ℚ) : R) ∧ s.fws = false
        then fun k => if k = c.cst.SICONOS_FRICTION_3D_IPM_IPARAM_NESTEROV_TODD_SCALING then 0
          else s.iparam k
        else s.iparam) := by
  refine ⟨?_, ?_, rfl, rfl, ?_, ?_, ?_⟩
  · simp only [ipm_converged, decide_eq_true_eq, NV_max_four, ← cblas_ddot_eq_sum]
    rfl
  · rw [ipm_loop]
    by_cases h1 : s.iteration < c.max_iter
    · by_cases h2 : ipm_converged c (ipm_head c s) = true
      · simp [h1, h2]
      · by_cases h3 : ipm_nan_check c (ipm_pass c s) = true
        · simp [h1, h2, h3]
        · simp [h1, h2, h3, ipm_next]
    · simp [h1]
  · simp only [ipm_converged, NV_max_four]
    rfl
  · simp [ipm_finish]
    split <;> simp
  · simp only [ipm_head]
    by_cases h : s.iparam c.cst.SICONOS_FRICTION_3D_IPM_IPARAM_FINISH_WITHOUT_SCALING = 1
          ∧ s.full_error ≤ ((1 / 1000000 : ℚ) : R) ∧ s.fws = false
    · obtain ⟨h1, h2, h3⟩ := h
      simp [h1, h2, h3]
    · rw [if_neg h]
      have : (s.iparam c.cst.SICONOS_FRICTION_3D_IPM_IPARAM_FINISH_WITHOUT_SCALING == 1
          && decide (s.full_error ≤ ((1 / 1000000 : ℚ) : R)) && !s.fws) = false := by
        rw [Bool.eq_false_iff]
        intro hc
        apply h
        simpa [Bool.and_eq_true, and_assoc] using hc
      simp only [this]
      rfl

end ExitTest

/-- C2, counterexample: two calls that differ only in the value reported by
`grfc3d_compute_error` (0 against 1).  Both return `info = 1`, but the first one has
switched `iparam[NESTEROV_TODD_SCALING]` from 1 to 0 and the second one has not:
`full_error` is not only reported in `dparam[RESIDU]`. -/
theorem grfc3d_IPM_full_error_counterexample :
    ∃ a b, fe_run (Dbl.fin 0) = some a ∧ fe_run (Dbl.fin 1) = some b ∧
      a.info = 1 ∧ b.info = 1 ∧
      fe_options.iparam sample_cst.SICONOS_FRICTION_3D_IPM_IPARAM_NESTEROV_TODD_SCALING = 1 ∧
      a.options.iparam sample_cst.SICONOS_FRICTION_3D_IPM_IPARAM_NESTEROV_TODD_SCALING = 0 ∧
      b.options.iparam sample_cst.SICONOS_FRICTION_3D_IPM_IPARAM_NESTEROV_TODD_SCALING = 1 := by
  have ha : (fe_run (Dbl.fin 0)).map (fun r => (r.info, r.options.iparam 11)) = some (1, 0) := by
    decide!
  have hb : (fe_run (Dbl.fin 1)).map (fun r => (r.info, r.options.iparam 11)) = some (1, 1) := by
    decide!
  cases hra : fe_run (Dbl.fin 0) with
  | none => rw [hra] at ha; cases ha
  | some a =>
    cases hrb : fe_run (Dbl.fin 1) with
    | none => rw [hrb] at hb; cases hb
    | some b =>
      rw [hra] at ha
      rw [hrb] at hb
      simp only [Option.map_some', Option.some.injEq, Prod.mk.injEq] at ha hb
      exact ⟨a, b, rfl, rfl, ha.1, hb.1, rfl, ha.2, hb.2⟩

section Barrier
variable {R : Type} [LinearOrderedField R]

/-- C3: in every pass the barrier parameter is `dot(reaction, velocity) / n` with `n` the
number of contacts, the affine barrier value of the predictor is
`dot(u + alpha*du, r + alpha*dr) / n` with the same divisor and one common step length
`alpha`, and for `n = 2` the barrier parameter is half the complementarity gap. -/
theorem grfc3d_IPM_barrier_parameter (c : IPMContext R) (s : IPMState R) :
    (ipm_head c s).gapVal = ∑ i in Finset.range c.dims.nd, s.reaction i * s.velocity i ∧
    (ipm_head c s).barr_param
      = (∑ i in Finset.range c.dims.nd, s.reaction i * s.velocity i) / (c.dims.n : R) ∧
    (ipm_pass c s).barr_param = (ipm_head c s).barr_param ∧
    (ipm_predictor c s (ipm_head c s)).alpha_dual = (ipm_predictor c s (ipm_head c s)).alpha_primal ∧
    (ipm_predictor c s (ipm_head c s)).barr_param_a
      = (∑ i in Finset.range c.dims.nd,
          (s.velocity i + (ipm_predictor c s (ipm_head c s)).alpha_primal
              * (ipm_predictor c s (ipm_head c s)).dir.d_velocity i)
          * (s.reaction i + (ipm_predictor c s (ipm_head c s)).alpha_primal
              * (ipm_predictor c s (ipm_head c s)).dir.d_reaction i)) / (c.dims.n : R) ∧
    (c.dims.n = 2 → (ipm_head c s).barr_param = (ipm_head c s).gapVal / 2) := by
  refine ⟨cblas_ddot_eq_sum _ _ _, ?_, rfl, rfl, ?_, ?_⟩
  · show cblas_ddot c.dims.nd s.reaction s.velocity / (((c.dims.n : ℚ) : R)) = _
    rw [cblas_ddot_eq_sum, Rat.cast_natCast]
  · show cblas_ddot c.dims.nd _ _ / (((c.dims.n : ℚ) : R)) = _
    rw [cblas_ddot_eq_sum, Rat.cast_natCast]
    congr 1
    apply Finset.sum_congr rfl
    intro i hi
    have hi : i < c.dims.nd := Finset.mem_range.mp hi
    simp only [cblas_daxpy, cblas_dcopy, hi, if_true]
    rfl
  · intro hn
    show cblas_ddot c.dims.nd s.reaction s.velocity / (((c.dims.n : ℚ) : R)) = _
    rw [hn]
    norm_num
    rfl

end Barrier

/-- C3, witness: on the sample problem with two contacts the barrier parameter at the
starting point is half the gap `3.00032`, that is `1.50016` (and not `0.300032`, the gap
over `nd = 10`). -/
theorem grfc3d_IPM_barrier_parameter_witness :
    (rat_context 2).dims.n = 2 ∧ (rat_context 2).dims.nd = 10 ∧
    (ipm_head (rat_context 2) (rat_state 2)).barr_param
      = (ipm_head (rat_context 2) (rat_state 2)).gapVal / 2 ∧
    (ipm_head (rat_context 2) (rat_state 2)).gapVal = 300032 / 100000 ∧
    (ipm_head (rat_context 2) (rat_state 2)).barr_param = 150016 / 100000 :=
  ⟨rfl, rfl, (grfc3d_IPM_barrier_parameter (rat_context 2) (rat_state 2)).2.2.2.2.2 rfl,
    by decide!, by decide!⟩

/-! ### Closed forms of the index loops -/

section IndexLoops
variable {R : Type}

/-- A loop whose pass `i` overwrites the positions `idx` with `P i idx` by a value `g idx`
that depends on the position only. -/
theorem foldl_writes (P : Nat → Nat → Prop) [∀ i idx, Decidable (P i idx)]
    (F : Nat → Vec R → Vec R) (g : Vec R) :
    ∀ (n : Nat), (∀ i, i < n → ∀ v idx, F i v idx = if P i idx then g idx else v idx) →
      ∀ (v : Vec R) (idx : Nat),
      ((List.range n).foldl (fun v i => F i v) v) idx
        = if ∃ i, i < n ∧ P i idx then g idx else v idx := by
  intro n
  induction n with
  | zero => intro _ v idx; simp
  | succ n ih =>
    intro hF v idx
    rw [List.range_succ, List.foldl_append]
    simp only [List.foldl_cons, List.foldl_nil]
    rw [hF n (Nat.lt_succ_self n), ih (fun i hi => hF i (Nat.lt_succ_of_lt hi))]
    by_cases h1 : P n idx
    · rw [if_pos h1, if_pos ⟨n, Nat.lt_succ_self n, h1⟩]
    · rw [if_neg h1]
      by_cases h2 : ∃ i, i < n ∧ P i idx
      · obtain ⟨i, hi, hp⟩ := h2
        rw [if_pos ⟨i, hi, hp⟩, if_pos ⟨i, Nat.lt_succ_of_lt hi, hp⟩]
      · rw [if_neg h2, if_neg]
        rintro ⟨i, hi, hp⟩
        rcases Nat.lt_succ_iff_lt_or_eq.mp hi with h | h
        · exact h2 ⟨i, h, hp⟩
        · subst h; exact h1 hp

theorem extract_outer_five (vec : Vec R) (a : Nat) (out : Vec R) (X Y : Nat) :
    extract_outer vec 5 (a + 1) (a + 2) (out, X, Y)
      = (setv (setv (setv out X (vec Y)) (X + 1) (vec (Y + a))) (X + 2) (vec (Y + (a + 1))),
          X + 3, Y + 5) := by
  simp [extract_outer, extract_inner, List.range']

theorem extract_fold_five (vec : Vec R) (a : Nat) (out : Vec R) (n : Nat) :
    (List.range n).foldl (fun st _ => extract_outer vec 5 (a + 1) (a + 2) st) (out, 0, 0)
      = ((List.range n).foldl (fun v i => extract_step vec a i v) out, 3 * n, 5 * n) := by
  induction n with
  | zero => rfl
  | succ n ih =>
    rw [List.range_succ, List.foldl_append, List.foldl_append, ih]
    simp only [List.foldl_cons, List.foldl_nil, extract_outer_five, extract_step]
    rw [Nat.mul_succ, Nat.mul_succ]

/-- Closed form of `extract_vector` on `n` blocks of 5 with `i = a+1`, `j = a+2`: the
block `q` of the output is `(vec[5q], vec[5q+a], vec[5q+a+1])`. -/
theorem extract_vector_five (vec : Vec R) (a n : Nat) (out : Vec R) (q : Nat) (hq : q < n) :
    extract_vector vec (5 * n) n (a + 1) (a + 2) out (3 * q) = vec (5 * q) ∧
    extract_vector vec (5 * n) n (a + 1) (a + 2) out (3 * q + 1) = vec (5 * q + a) ∧
    extract_vector vec (5 * n) n (a + 1) (a + 2) out (3 * q + 2) = vec (5 * q + (a + 1)) := by
  have hn : 0 < n := by omega
  have hdiv : 5 * n / n = 5 := Nat.mul_div_cancel 5 hn
  have key : ∀ idx, extract_vector vec (5 * n) n (a + 1) (a + 2) out idx
      = if ∃ i, i < n ∧ (3 * i ≤ idx ∧ idx < 3 * i + 3)
        then (if idx % 3 = 0 then vec (5 * (idx / 3))
          else if idx % 3 = 1 then vec (5 * (idx / 3) + a) else vec (5 * (idx / 3) + (a + 1)))
        else out idx := by
    intro idx
    unfold extract_vector
    simp only [hdiv]
    rw [extract_fold_five]
    apply foldl_writes (fun i idx => 3 * i ≤ idx ∧ idx < 3 * i + 3)
    intro i _ v idx
    by_cases h : 3 * i ≤ idx ∧ idx < 3 * i + 3
    · rw [if_pos h]
      obtain ⟨h1, h2⟩ := h
      have hcases : idx = 3 * i ∨ idx = 3 * i + 1 ∨ idx = 3 * i + 2 := by omega
      rcases hcases with h | h | h
      · subst h
        have e1 : 3 * i % 3 = 0 := by omega
        have e2 : 3 * i / 3 = i := by omega
        simp [extract_step, setv, e1, e2]
      · subst h
        have e1 : (3 * i + 1) % 3 = 1 := by omega
        have e2 : (3 * i + 1) / 3 = i := by omega
        simp [extract_step, setv, e1, e2]
      · subst h
        have e1 : (3 * i + 2) % 3 = 2 := by omega
        have e2 : (3 * i + 2) / 3 = i := by omega
        simp [extract_step, setv, e1, e2]
    · rw [if_neg h]
      have h1 : idx ≠ 3 * i := by omega
      have h2 : idx ≠ 3 * i + 1 := by omega
      have h3 : idx ≠ 3 * i + 2 := by omega
      simp [extract_step, setv, h1, h2, h3]
  refine ⟨?_, ?_, ?_⟩
  · rw [key, if_pos ⟨q, hq, by omega, by omega⟩]
    have e1 : 3 * q % 3 = 0 := by omega
    have e2 : 3 * q / 3 = q := by omega
    simp [e1, e2]
  · rw [key, if_pos ⟨q, hq, by omega, by omega⟩]
    have e1 : (3 * q + 1) % 3 = 1 := by omega
    have e2 : (3 * q + 1) / 3 = q := by omega
    simp [e1, e2]
  · rw [key, if_pos ⟨q, hq, by omega, by omega⟩]
    have e1 : (3 * q + 2) % 3 = 2 := by omega
    have e2 : (3 * q + 2) / 3 = q := by omega
    simp [e1, e2]

theorem u32_of_lt (x : Nat) (h : x < 4294967296) : u32 x = x := Nat.mod_eq_of_lt h

/-- Closed form of the loop that puts `t[q]` in front of the block `q` (blocks of 3). -/
theorem set_leading_three (D : Dims) (hd : D.d_minus_2 = 3) (hsz : 3 * D.n < 4294967296)
    (vec t : Vec R) (q : Nat) (hq : q < D.n) :
    set_leading D vec t (3 * q) = t q ∧
    set_leading D vec t (3 * q + 1) = vec (3 * q + 1) ∧
    set_leading D vec t (3 * q + 2) = vec (3 * q + 2) := by
  have key : ∀ idx, set_leading D vec t idx
      = if ∃ i, i < D.n ∧ idx = 3 * i then t (idx / 3) else vec idx := by
    intro idx
    unfold set_leading
    apply foldl_writes (fun i idx => idx = 3 * i) (fun i v => setv v (u32 (i * D.d_minus_2)) (t i))
    intro i hi v idx
    have hu : u32 (i * D.d_minus_2) = 3 * i := by
      rw [hd, u32_of_lt _ (by omega)]; omega
    rw [hu]
    by_cases h : idx = 3 * i
    · subst h
      have e2 : 3 * i / 3 = i := by omega
      simp [setv, e2]
    · simp [setv, h]
  refine ⟨?_, ?_, ?_⟩
  · rw [key, if_pos ⟨q, hq, rfl⟩]
    have e2 : 3 * q / 3 = q := by omega
    rw [e2]
  · rw [key, if_neg]
    rintro ⟨i, _, h⟩; omega
  · rw [key, if_neg]
    rintro ⟨i, _, h⟩; omega

theorem retrieve_fold_split [Add R] (D : Dims) (dv1 dv2 : Vec R) (n : Nat) (b : Vec R × Vec R × Vec R) :
    (List.range n).foldl
      (fun (b : Vec R × Vec R × Vec R) i =>
        (setv (setv (setv (setv (setv b.1 (i * D.d) (dv1 (i * D.d_minus_2) + dv2 (i * D.d_minus_2)))
            (i * D.d + 1) (dv1 (i * D.d_minus_2 + 1))) (i * D.d + 2) (dv1 (i * D.d_minus_2 + 2)))
            (i * D.d + 3) (dv2 (i * D.d_minus_2 + 1))) (i * D.d + 4) (dv2 (i * D.d_minus_2 + 2)),
         setv b.2.1 i (dv1 (i * D.d_minus_2)), setv b.2.2 i (dv2 (i * D.d_minus_2)))) b
    = ((List.range n).foldl (fun v i => retrieve_step D dv1 dv2 i v) b.1,
       (List.range n).foldl (fun v i => setv v i (dv1 (i * D.d_minus_2))) b.2.1,
       (List.range n).foldl (fun v i => setv v i (dv2 (i * D.d_minus_2))) b.2.2) := by
  induction n with
  | zero => rfl
  | succ n ih =>
    rw [List.range_succ, List.foldl_append, List.foldl_append, List.foldl_append,
      List.foldl_append, ih]
    rfl

/-- Closed form of "Retrieve the solutions" for `d = 5`: per contact `q`,
`d_velocity = (du1[3q] + du2[3q], du1[3q+1], du1[3q+2], du2[3q+1], du2[3q+2])`,
`d_t[q] = du1[3q]` and `d_t_prime[q] = du2[3q]`. -/
theorem ipm_retrieve_five [Zero R] [Add R] (D : Dims) (hd : D.d = 5) (hd2 : D.d_minus_2 = 3)
    (rhs : Vec R) (q : Nat) (hq : q < D.n) :
    (ipm_retrieve D rhs).d_velocity (5 * q)
      = (ipm_retrieve D rhs).d_velocity_1 (3 * q) + (ipm_retrieve D rhs).d_velocity_2 (3 * q) ∧
    (ipm_retrieve D rhs).d_velocity (5 * q + 1) = (ipm_retrieve D rhs).d_velocity_1 (3 * q + 1) ∧
    (ipm_retrieve D rhs).d_velocity (5 * q + 2) = (ipm_retrieve D rhs).d_velocity_1 (3 * q + 2) ∧
    (ipm_retrieve D rhs).d_velocity (5 * q + 3) = (ipm_retrieve D rhs).d_velocity_2 (3 * q + 1) ∧
    (ipm_retrieve D rhs).d_velocity (5 * q + 4) = (ipm_retrieve D rhs).d_velocity_2 (3 * q + 2) ∧
    (ipm_retrieve D rhs).d_t q = (ipm_retrieve D rhs).d_velocity_1 (3 * q) ∧
    (ipm_retrieve D rhs).d_t_prime q = (ipm_retrieve D rhs).d_velocity_2 (3 * q) := by
  generalize hdv1 : (ipm_retrieve D rhs).d_velocity_1 = dv1
  generalize hdv2 : (ipm_retrieve D rhs).d_velocity_2 = dv2
  have e1 : (ipm_retrieve D rhs).d_velocity
      = (List.range D.n).foldl (fun v i => retrieve_step D dv1 dv2 i v) (fun _ => 0) := by
    rw [← hdv1, ← hdv2]
    simp only [ipm_retrieve]
    rw [retrieve_fold_split]
  have e2 : (ipm_retrieve D rhs).d_t
      = (List.range D.n).foldl (fun v i => setv v i (dv1 (i * D.d_minus_2))) (fun _ => 0) := by
    rw [← hdv1]
    simp only [ipm_retrieve]
    rw [retrieve_fold_split]
  have e3 : (ipm_retrieve D rhs).d_t_prime
      = (List.range D.n).foldl (fun v i => setv v i (dv2 (i * D.d_minus_2))) (fun _ => 0) := by
    rw [← hdv2]
    simp only [ipm_retrieve]
    rw [retrieve_fold_split]
  have k1 : ∀ idx, (ipm_retrieve D rhs).d_velocity idx
      = if ∃ i, i < D.n ∧ (5 * i ≤ idx ∧ idx < 5 * i + 5)
        then (if idx % 5 = 0 then dv1 (3 * (idx / 5)) + dv2 (3 * (idx / 5))
          else if idx % 5 = 1 then dv1 (3 * (idx / 5) + 1)
          else if idx % 5 = 2 then dv1 (3 * (idx / 5) + 2)
          else if idx % 5 = 3 then dv2 (3 * (idx / 5) + 1) else dv2 (3 * (idx / 5) + 2))
        else 0 := by
    intro idx
    rw [e1]
    apply foldl_writes (fun i idx => 5 * i ≤ idx ∧ idx < 5 * i + 5)
    intro i _ v idx
    have m5 : i * D.d = 5 * i := by rw [hd]; omega
    have m3 : i * D.d_minus_2 = 3 * i := by rw [hd2]; omega
    by_cases h : 5 * i ≤ idx ∧ idx < 5 * i + 5
    · rw [if_pos h]
      obtain ⟨h1, h2⟩ := h
      have hcases : idx = 5 * i ∨ idx = 5 * i + 1 ∨ idx = 5 * i + 2 ∨ idx = 5 * i + 3
          ∨ idx = 5 * i + 4 := by omega
      rcases hcases with h | h | h | h | h
      · subst h
        have a1 : 5 * i % 5 = 0 := by omega
        have a2 : 5 * i / 5 = i := by omega
        simp [retrieve_step, setv, m5, m3, a1, a2]
      · subst h
        have a1 : (5 * i + 1) % 5 = 1 := by omega
        have a2 : (5 * i + 1) / 5 = i := by omega
        simp [retrieve_step, setv, m5, m3, a1, a2]
      · subst h
        have a1 : (5 * i + 2) % 5 = 2 := by omega
        have a2 : (5 * i + 2) / 5 = i := by omega
        simp [retrieve_step, setv, m5, m3, a1, a2]
      · subst h
        have a1 : (5 * i + 3) % 5 = 3 := by omega
        have a2 : (5 * i + 3) / 5 = i := by omega
        simp [retrieve_step, setv, m5, m3, a1, a2]
      · subst h
        have a1 : (5 * i + 4) % 5 = 4 := by omega
        have a2 : (5 * i + 4) / 5 = i := by omega
        simp [retrieve_step, setv, m5, m3, a1, a2]
    · rw [if_neg h]
      have h1 : idx ≠ 5 * i := by omega
      have h2 : idx ≠ 5 * i + 1 := by omega
      have h3 : idx ≠ 5 * i + 2 := by omega
      have h4 : idx ≠ 5 * i + 3 := by omega
      have h5 : idx ≠ 5 * i + 4 := by omega
      simp [retrieve_step, setv, m5, h1, h2, h3, h4, h5]
  have k2 : ∀ (dv : Vec R) (idx : Nat),
      ((List.range D.n).foldl (fun v i => setv v i (dv (i * D.d_minus_2))) (fun _ => 0)) idx
        = if ∃ i, i < D.n ∧ idx = i then dv (3 * idx) else 0 := by
    intro dv idx
    apply foldl_writes (fun i idx => idx = i) (fun i v => setv v i (dv (i * D.d_minus_2)))
    intro i _ v idx
    have m3 : i * D.d_minus_2 = 3 * i := by rw [hd2]; omega
    by_cases h : idx = i
    · subst h; simp [setv, m3]
    · simp [setv, h]
  have hex : ∃ i, i < D.n ∧ q = i := ⟨q, hq, rfl⟩
  refine ⟨?_, ?_, ?_, ?_, ?_, ?_, ?_⟩
  · rw [k1, if_pos ⟨q, hq, by omega, by omega⟩]
    have a1 : 5 * q % 5 = 0 := by omega
    have a2 : 5 * q / 5 = q := by omega
    simp [a1, a2]
  · rw [k1, if_pos ⟨q, hq, by omega, by omega⟩]
    have a1 : (5 * q + 1) % 5 = 1 := by omega
    have a2 : (5 * q + 1) / 5 = q := by omega
    simp [a1, a2]
  · rw [k1, if_pos ⟨q, hq, by omega, by omega⟩]
    have a1 : (5 * q + 2) % 5 = 2 := by omega
    have a2 : (5 * q + 2) / 5 = q := by omega
    simp [a1, a2]
  · rw [k1, if_pos ⟨q, hq, by omega, by omega⟩]
    have a1 : (5 * q + 3) % 5 = 3 := by omega
    have a2 : (5 * q + 3) / 5 = q := by omega
    simp [a1, a2]
  · rw [k1, if_pos ⟨q, hq, by omega, by omega⟩]
    have a1 : (5 * q + 4) % 5 = 4 := by omega
    have a2 : (5 * q + 4) / 5 = q := by omega
    simp [a1, a2]
  · rw [e2, k2, if_pos hex]
  · rw [e3, k2, if_pos hex]

end IndexLoops

section Cone
variable {R : Type} [LinearOrderedField R]

/-- Over the reals `in_cone` says that the first component exceeds the Euclidean norm of
the other two. -/
theorem in_cone_iff_sqrt (x : Vec ℝ) (q : Nat) :
    in_cone x q ↔ Real.sqrt (x (3 * q + 1) ^ 2 + x (3 * q + 2) ^ 2) < x (3 * q) := by
  unfold in_cone
  constructor
  · rintro ⟨h0, h1⟩
    rw [Real.sqrt_lt' h0]
    nlinarith
  · intro h
    have h0 : 0 < x (3 * q) := lt_of_le_of_lt (Real.sqrt_nonneg _) h
    refine ⟨h0, ?_⟩
    rw [Real.sqrt_lt' h0] at h
    nlinarith

theorem cone_cauchy (p0 p1 p2 r0 r1 r2 : R) (hp0 : 0 < p0) (hp : p1 * p1 + p2 * p2 < p0 * p0)
    (hr0 : 0 < r0) (hr : r1 * r1 + r2 * r2 < r0 * r0) : p1 * r1 + p2 * r2 < p0 * r0 := by
  have h1 : (p1 * r1 + p2 * r2) ^ 2 ≤ (p1 * p1 + p2 * p2) * (r1 * r1 + r2 * r2) := by
    nlinarith [sq_nonneg (p1 * r2 - p2 * r1)]
  have hA : 0 ≤ p1 * p1 + p2 * p2 := by nlinarith [mul_self_nonneg p1, mul_self_nonneg p2]
  have h2 : (p1 * p1 + p2 * p2) * (r1 * r1 + r2 * r2) < (p0 * r0) ^ 2 := by
    have h3 : (p1 * p1 + p2 * p2) * (r1 * r1 + r2 * r2) ≤ (p1 * p1 + p2 * p2) * (r0 * r0) :=
      mul_le_mul_of_nonneg_left (le_of_lt hr) hA
    have h4 : (p1 * p1 + p2 * p2) * (r0 * r0) < (p0 * p0) * (r0 * r0) :=
      mul_lt_mul_of_pos_right hp (mul_pos hr0 hr0)
    calc (p1 * p1 + p2 * p2) * (r1 * r1 + r2 * r2) ≤ (p1 * p1 + p2 * p2) * (r0 * r0) := h3
      _ < (p0 * p0) * (r0 * r0) := h4
      _ = (p0 * r0) ^ 2 := by ring
  have h5 : (p1 * r1 + p2 * r2) ^ 2 < (p0 * r0) ^ 2 := lt_of_le_of_lt h1 h2
  exact (abs_lt.mp (abs_lt_of_sq_lt_sq h5 (le_of_lt (mul_pos hp0 hr0)))).2

/-- The open cone is convex along a step: if `x` and `x + a*dx` are strictly inside and
`0 <= b <= a`, then `x + b*dx` is strictly inside. -/
theorem in_cone_segment (x dx : Vec R) (q : Nat) (a b : R) (hb0 : 0 ≤ b) (hba : b ≤ a)
    (h0 : in_cone x q) (ha : in_cone (fun i => x i + a * dx i) q) :
    in_cone (fun i => x i + b * dx i) q := by
  unfold in_cone at *
  obtain ⟨hp0, hp⟩ := h0
  obtain ⟨hr0, hr⟩ := ha
  simp only at hr0 hr ⊢
  rcases eq_or_lt_of_le (le_trans hb0 hba) with ha0 | ha0
  · have hb : b = 0 := le_antisymm (by rw [ha0]; exact hba) hb0
    subst hb
    simpa using And.intro hp0 hp
  · have hu : 0 ≤ a - b := sub_nonneg.mpr hba
    have hc := cone_cauchy _ _ _ _ _ _ hp0 hp hr0 hr
    have hz0 : 0 < a * (x (3 * q) + b * dx (3 * q)) := by
      have e : a * (x (3 * q) + b * dx (3 * q))
          = (a - b) * x (3 * q) + b * (x (3 * q) + a * dx (3 * q)) := by ring
      rw [e]
      rcases eq_or_lt_of_le hu with h | h
      · have hb : b = a := by linarith
        rw [← h, zero_mul, zero_add, hb]
        exact mul_pos ha0 hr0
      · have := mul_pos h hp0
        have := mul_nonneg hb0 (le_of_lt hr0)
        linarith
    have hz0' : 0 < x (3 * q) + b * dx (3 * q) := pos_of_mul_pos_right hz0 (le_of_lt ha0)
    refine ⟨hz0', ?_⟩
    have hE : 0 < (a - b) ^ 2 * (x (3 * q) * x (3 * q) - (x (3 * q + 1) * x (3 * q + 1)
          + x (3 * q + 2) * x (3 * q + 2)))
        + b ^ 2 * ((x (3 * q) + a * dx (3 * q)) * (x (3 * q) + a * dx (3 * q))
          - ((x (3 * q + 1) + a * dx (3 * q + 1)) * (x (3 * q + 1) + a * dx (3 * q + 1))
            + (x (3 * q + 2) + a * dx (3 * q + 2)) * (x (3 * q + 2) + a * dx (3 * q + 2))))
        + 2 * ((a - b) * b) * (x (3 * q) * (x (3 * q) + a * dx (3 * q))
          - (x (3 * q + 1) * (x (3 * q + 1) + a * dx (3 * q + 1))
            + x (3 * q + 2) * (x (3 * q + 2) + a * dx (3 * q + 2)))) := by
      have t3 : 0 ≤ 2 * ((a - b) * b) * (x (3 * q) * (x (3 * q) + a * dx (3 * q))
          - (x (3 * q + 1) * (x (3 * q + 1) + a * dx (3 * q + 1))
            + x (3 * q + 2) * (x (3 * q + 2) + a * dx (3 * q + 2)))) :=
        mul_nonneg (mul_nonneg (by norm_num) (mul_nonneg hu hb0)) (le_of_lt (sub_pos.mpr hc))
      rcases eq_or_lt_of_le hu with h | h
      · have hb : b = a := by linarith
        have t2 := mul_pos (pow_pos ha0 2) (sub_pos.mpr hr)
        rw [← h, hb] at *
        simp only [ne_eq, OfNat.ofNat_ne_zero, not_false_eq_true, zero_pow, zero_mul, zero_add,
          mul_zero, add_zero]
        linarith
      · have t1 := mul_pos (pow_pos h 2) (sub_pos.mpr hp)
        have t2 := mul_nonneg (sq_nonneg b) (le_of_lt (sub_pos.mpr hr))
        linarith
    have hE2 : 0 < a ^ 2 * ((x (3 * q) + b * dx (3 * q)) * (x (3 * q) + b * dx (3 * q))
        - ((x (3 * q + 1) + b * dx (3 * q + 1)) * (x (3 * q + 1) + b * dx (3 * q + 1))
          + (x (3 * q + 2) + b * dx (3 * q + 2)) * (x (3 * q + 2) + b * dx (3 * q + 2)))) := by
      have e : a ^ 2 * ((x (3 * q) + b * dx (3 * q)) * (x (3 * q) + b * dx (3 * q))
        - ((x (3 * q + 1) + b * dx (3 * q + 1)) * (x (3 * q + 1) + b * dx (3 * q + 1))
          + (x (3 * q + 2) + b * dx (3 * q + 2)) * (x (3 * q + 2) + b * dx (3 * q + 2))))
        = (a - b) ^ 2 * (x (3 * q) * x (3 * q) - (x (3 * q + 1) * x (3 * q + 1)
          + x (3 * q + 2) * x (3 * q + 2)))
        + b ^ 2 * ((x (3 * q) + a * dx (3 * q)) * (x (3 * q) + a * dx (3 * q))
          - ((x (3 * q + 1) + a * dx (3 * q + 1)) * (x (3 * q + 1) + a * dx (3 * q + 1))
            + (x (3 * q + 2) + a * dx (3 * q + 2)) * (x (3 * q + 2) + a * dx (3 * q + 2))))
        + 2 * ((a - b) * b) * (x (3 * q) * (x (3 * q) + a * dx (3 * q))
          - (x (3 * q + 1) * (x (3 * q + 1) + a * dx (3 * q + 1))
            + x (3 * q + 2) * (x (3 * q + 2) + a * dx (3 * q + 2)))) := by ring
      rw [e]; exact hE
    have := pos_of_mul_pos_right hE2 (le_of_lt (pow_pos ha0 2))
    linarith

end Cone

section ConeInvariant
variable {R : Type} [LinearOrderedField R]

theorem fmin_eq_min (a b : R) : fmin a b = min a b := by
  unfold fmin
  rcases le_total a b with h | h
  · rw [if_pos h, min_eq_left h]
  · rcases eq_or_lt_of_le h with e | l
    · subst e; simp
    · rw [if_neg (not_le.mpr l), min_eq_right h]

theorem in_cone_congr (x y : Vec R) (q : Nat) (h0 : x (3 * q) = y (3 * q))
    (h1 : x (3 * q + 1) = y (3 * q + 1)) (h2 : x (3 * q + 2) = y (3 * q + 2)) :
    in_cone x q ↔ in_cone y q := by
  unfold in_cone
  rw [h0, h1, h2]

/-- The sub-blocks at the top of the next pass are the sub-blocks of this pass moved by
the common step length along the corrector directions (`d = 5`). -/
theorem ipm_subblock_update (c : IPMContext R) (s : IPMState R)
    (hd : c.dims.d = 5) (hd2 : c.dims.d_minus_2 = 3) (hnd : c.dims.nd = 5 * c.dims.n)
    (hsz : 5 * c.dims.n < 4294967296) (q : Nat) (hq : q < c.dims.n) (j : Nat) (hj : j < 3) :
    (ipm_head c (ipm_next c s)).velocity_1 (3 * q + j)
      = (ipm_head c s).velocity_1 (3 * q + j)
        + (ipm_corrector c (ipm_head c s) (ipm_predictor c s (ipm_head c s))).alpha_primal
          * (ipm_corrector c (ipm_head c s) (ipm_predictor c s (ipm_head c s))).dir.d_velocity_1 (3 * q + j) ∧
    (ipm_head c (ipm_next c s)).velocity_2 (3 * q + j)
      = (ipm_head c s).velocity_2 (3 * q + j)
        + (ipm_corrector c (ipm_head c s) (ipm_predictor c s (ipm_head c s))).alpha_primal
          * (ipm_corrector c (ipm_head c s) (ipm_predictor c s (ipm_head c s))).dir.d_velocity_2 (3 * q + j) ∧
    (ipm_head c (ipm_next c s)).reaction_1 (3 * q + j)
      = (ipm_head c s).reaction_1 (3 * q + j)
        + (ipm_corrector c (ipm_head c s) (ipm_predictor c s (ipm_head c s))).alpha_primal
          * (ipm_corrector c (ipm_head c s) (ipm_predictor c s (ipm_head c s))).dir.d_reaction_1 (3 * q + j) ∧
    (ipm_head c (ipm_next c s)).reaction_2 (3 * q + j)
      = (ipm_head c s).reaction_2 (3 * q + j)
        + (ipm_corrector c (ipm_head c s) (ipm_predictor c s (ipm_head c s))).alpha_primal
          * (ipm_corrector c (ipm_head c s) (ipm_predictor c s (ipm_head c s))).dir.d_reaction_2 (3 * q + j) := by
  generalize hk : ipm_corrector c (ipm_head c s) (ipm_predictor c s (ipm_head c s)) = k
  have hdir : k.dir = ipm_retrieve c.dims k.rhs := by rw [← hk]; rfl
  have hvel : (ipm_next c s).velocity = cblas_daxpy c.dims.nd k.alpha_primal k.dir.d_velocity s.velocity := by
    rw [← hk]; rfl
  have hrea : (ipm_next c s).reaction = cblas_daxpy c.dims.nd k.alpha_primal k.dir.d_reaction s.reaction := by
    rw [← hk]; rfl
  have ht : (ipm_next c s).t = cblas_daxpy c.dims.n k.alpha_primal k.dir.d_t s.t := by
    rw [← hk]; rfl
  have htp : (ipm_next c s).t_prime = cblas_daxpy c.dims.n k.alpha_primal k.dir.d_t_prime s.t_prime := by
    rw [← hk]; rfl
  have hdr1 : k.dir.d_reaction_1 = extract_vector k.dir.d_reaction c.dims.nd c.dims.n 2 3 (fun _ => 0) := by
    rw [hdir]; rfl
  have hdr2 : k.dir.d_reaction_2 = extract_vector k.dir.d_reaction c.dims.nd c.dims.n 4 5 (fun _ => 0) := by
    rw [hdir]; rfl
  have hsz3 : 3 * c.dims.n < 4294967296 := by omega
  obtain ⟨r0, r1, r2, r3, r4, r5, r6⟩ := ipm_retrieve_five c.dims hd hd2 k.rhs q hq
  rw [← hdir] at r0 r1 r2 r3 r4 r5 r6
  have hv1 : ∀ st : IPMState R, (ipm_head c st).velocity_1
      = set_leading c.dims (extract_vector st.velocity (5 * c.dims.n) c.dims.n (1 + 1) (1 + 2) (fun _ => 0)) st.t := by
    intro st; rw [← hnd]; rfl
  have hv2 : ∀ st : IPMState R, (ipm_head c st).velocity_2
      = set_leading c.dims (extract_vector st.velocity (5 * c.dims.n) c.dims.n (3 + 1) (3 + 2) (fun _ => 0)) st.t_prime := by
    intro st; rw [← hnd]; rfl
  have hr1 : ∀ st : IPMState R, (ipm_head c st).reaction_1
      = extract_vector st.reaction (5 * c.dims.n) c.dims.n (1 + 1) (1 + 2) (fun _ => 0) := by
    intro st; rw [← hnd]; rfl
  have hr2 : ∀ st : IPMState R, (ipm_head c st).reaction_2
      = extract_vector st.reaction (5 * c.dims.n) c.dims.n (3 + 1) (3 + 2) (fun _ => 0) := by
    intro st; rw [← hnd]; rfl
  have hdr1' : k.dir.d_reaction_1
      = extract_vector k.dir.d_reaction (5 * c.dims.n) c.dims.n (1 + 1) (1 + 2) (fun _ => 0) := by
    rw [hdr1, hnd]
  have hdr2' : k.dir.d_reaction_2
      = extract_vector k.dir.d_reaction (5 * c.dims.n) c.dims.n (3 + 1) (3 + 2) (fun _ => 0) := by
    rw [hdr2, hnd]
  have b0 : 5 * q < c.dims.nd := by omega
  have b1 : 5 * q + 1 < c.dims.nd := by omega
  have b2 : 5 * q + 2 < c.dims.nd := by omega
  have b3 : 5 * q + 3 < c.dims.nd := by omega
  have b4 : 5 * q + 4 < c.dims.nd := by omega
  have hjc : j = 0 ∨ j = 1 ∨ j = 2 := by omega
  rw [hv1, hv1, hv2, hv2, hr1, hr1, hr2, hr2, hdr1', hdr2', hvel, hrea, ht, htp]
  obtain ⟨x0, x1, x2⟩ := extract_vector_five s.velocity 1 c.dims.n (fun _ => 0) q hq
  obtain ⟨y0, y1, y2⟩ := extract_vector_five s.velocity 3 c.dims.n (fun _ => 0) q hq
  obtain ⟨x0', x1', x2'⟩ := extract_vector_five
    (cblas_daxpy c.dims.nd k.alpha_primal k.dir.d_velocity s.velocity) 1 c.dims.n (fun _ => 0) q hq
  obtain ⟨y0', y1', y2'⟩ := extract_vector_five
    (cblas_daxpy c.dims.nd k.alpha_primal k.dir.d_velocity s.velocity) 3 c.dims.n (fun _ => 0) q hq
  obtain ⟨u0, u1, u2⟩ := extract_vector_five s.reaction 1 c.dims.n (fun _ => 0) q hq
  obtain ⟨w0, w1, w2⟩ := extract_vector_five s.reaction 3 c.dims.n (fun _ => 0) q hq
  obtain ⟨u0', u1', u2'⟩ := extract_vector_five
    (cblas_daxpy c.dims.nd k.alpha_primal k.dir.d_reaction s.reaction) 1 c.dims.n (fun _ => 0) q hq
  obtain ⟨w0', w1', w2'⟩ := extract_vector_five
    (cblas_daxpy c.dims.nd k.alpha_primal k.dir.d_reaction s.reaction) 3 c.dims.n (fun _ => 0) q hq
  obtain ⟨e0, e1, e2⟩ := extract_vector_five k.dir.d_reaction 1 c.dims.n (fun _ => 0) q hq
  obtain ⟨f0, f1, f2⟩ := extract_vector_five k.dir.d_reaction 3 c.dims.n (fun _ => 0) q hq
  rcases hjc with h | h | h <;> subst h
  · simp only [Nat.add_zero]
    refine ⟨?_, ?_, ?_, ?_⟩
    · rw [(set_leading_three c.dims hd2 hsz3 _ _ q hq).1,
        (set_leading_three c.dims hd2 hsz3 _ _ q hq).1, ← r5]
      simp [cblas_daxpy, hq]
    · rw [(set_leading_three c.dims hd2 hsz3 _ _ q hq).1,
        (set_leading_three c.dims hd2 hsz3 _ _ q hq).1, ← r6]
      simp [cblas_daxpy, hq]
    · rw [u0', u0, e0]
      simp [cblas_daxpy, b0]
    · rw [w0', w0, f0]
      simp [cblas_daxpy, b0]
  · refine ⟨?_, ?_, ?_, ?_⟩
    · rw [(set_leading_three c.dims hd2 hsz3 _ _ q hq).2.1,
        (set_leading_three c.dims hd2 hsz3 _ _ q hq).2.1, x1', x1, ← r1]
      simp [cblas_daxpy, b1]
    · rw [(set_leading_three c.dims hd2 hsz3 _ _ q hq).2.1,
        (set_leading_three c.dims hd2 hsz3 _ _ q hq).2.1, y1', y1, ← r3]
      simp [cblas_daxpy, b3]
    · rw [u1', u1, e1]
      simp [cblas_daxpy, b1]
    · rw [w1', w1, f1]
      simp [cblas_daxpy, b3]
  · refine ⟨?_, ?_, ?_, ?_⟩
    · rw [(set_leading_three c.dims hd2 hsz3 _ _ q hq).2.2,
        (set_leading_three c.dims hd2 hsz3 _ _ q hq).2.2, x2', x2, ← r2]
      simp [cblas_daxpy, b2]
    · rw [(set_leading_three c.dims hd2 hsz3 _ _ q hq).2.2,
        (set_leading_three c.dims hd2 hsz3 _ _ q hq).2.2, y2', y2, ← r4]
      simp [cblas_daxpy, b4]
    · rw [u2', u2, e2]
      simp [cblas_daxpy, b2]
    · rw [w2', w2, f2]
      simp [cblas_daxpy, b4]

end ConeInvariant

section ConeTheorem
variable {R : Type} [LinearOrderedField R]

theorem ipm_context_dims_five (ext : Externals R) (cst : Constants)
    (problem : GlobalRollingFrictionContactProblem R) (options : SolverOptions R)
    (data : Grfc3d_IPM_data R) (h5 : problem.dimension = 5)
    (hnd : problem.H.size1 = 5 * problem.numberOfContacts)
    (hsz : 5 * problem.numberOfContacts < 4294967296) :
    (ipm_context ext cst problem options data).dims.d = 5 ∧
    (ipm_context ext cst problem options data).dims.d_minus_2 = 3 ∧
    (ipm_context ext cst problem options data).dims.nd
      = 5 * (ipm_context ext cst problem options data).dims.n ∧
    (ipm_context ext cst problem options data).dims.n = problem.numberOfContacts ∧
    (ipm_context ext cst problem options data).dims.n_dminus2 = 3 * problem.numberOfContacts := by
  refine ⟨h5, ?_, hnd, rfl, ?_⟩
  · show u32 (problem.dimension + 4294967296 - 2) = 3
    rw [h5]; rfl
  · show u32 (problem.numberOfContacts * u32 (problem.dimension + 4294967296 - 2)) = _
    rw [h5]
    have : u32 (5 + 4294967296 - 2) = 3 := rfl
    rw [this, u32_of_lt _ (by omega)]; omega

/-- The step of a pass keeps one sub-block family inside the cone. -/
theorem in_cone_step (x dx xnew : Vec R) (n : Nat) (a b : R) (hb0 : 0 ≤ b) (hba : b ≤ a)
    (hx : ∀ q, q < n → in_cone x q) (ha : ∀ q, q < n → in_cone (fun i => x i + a * dx i) q)
    (hnew : ∀ q, q < n → ∀ j, j < 3 → xnew (3 * q + j) = x (3 * q + j) + b * dx (3 * q + j)) :
    ∀ q, q < n → in_cone xnew q := by
  intro q hq
  have := in_cone_segment x dx q a b hb0 hba (hx q hq) (ha q hq)
  refine (in_cone_congr xnew (fun i => x i + b * dx i) q ?_ ?_ ?_).mpr this
  · simpa using hnew q hq 0 (by omega)
  · exact hnew q hq 1 (by omega)
  · exact hnew q hq 2 (by omega)

/-- C4: for `d = 5` (and `nd = 5n` within the range of `unsigned int`) the four
sub-blocks `(t, u_bar)`, `(t', u_tilde)`, `(r0, r_bar)`, `(r0, r_tilde)` of every contact
are strictly inside the second-order cone at the fixed starting point built by
`grfc3d_IPM_init`, and they are so at the top of the next pass whenever they are so at the
top of a pass and each of the four values returned by `getStepLength` in the corrector is
a non-negative step that keeps its sub-block `x + alpha*dx` inside the cone. -/
theorem grfc3d_IPM_cone_invariant (ext : Externals R) (cst : Constants)
    (problem : GlobalRollingFrictionContactProblem R) (options : SolverOptions R)
    (data : Grfc3d_IPM_data R) (h5 : problem.dimension = 5)
    (hnd : problem.H.size1 = 5 * problem.numberOfContacts)
    (hsz : 5 * problem.numberOfContacts < 4294967296) :
    (∀ (options0 : SolverOptions R) (rhs reaction velocity globalVelocity : Vec R),
      (grfc3d_IPM_init cst problem options0).solverData = some data →
      ∀ q, q < problem.numberOfContacts →
        in_cone (ipm_head (ipm_context ext cst problem options data)
          (ipm_initial_state (dims_of problem) options data rhs reaction velocity globalVelocity)).velocity_1 q ∧
        in_cone (ipm_head (ipm_context ext cst problem options data)
          (ipm_initial_state (dims_of problem) options data rhs reaction velocity globalVelocity)).velocity_2 q ∧
        in_cone (ipm_head (ipm_context ext cst problem options data)
          (ipm_initial_state (dims_of problem) options data rhs reaction velocity globalVelocity)).reaction_1 q ∧
        in_cone (ipm_head (ipm_context ext cst problem options data)
          (ipm_initial_state (dims_of problem) options data rhs reaction velocity globalVelocity)).reaction_2 q) ∧
    (∀ (c : IPMContext R) (s : IPMState R) (h : IPMHead R) (k : IPMCorrector R),
      c = ipm_context ext cst problem options data → h = ipm_head c s →
      k = ipm_corrector c h (ipm_predictor c s h) →
      (∀ q, q < problem.numberOfContacts →
        in_cone h.velocity_1 q ∧ in_cone h.velocity_2 q ∧ in_cone h.reaction_1 q ∧ in_cone h.reaction_2 q) →
      (∀ x dx : Vec R,
        (x, dx) ∈ [(h.velocity_1, k.dir.d_velocity_1), (h.velocity_2, k.dir.d_velocity_2),
          (h.reaction_1, k.dir.d_reaction_1), (h.reaction_2, k.dir.d_reaction_2)] →
        0 ≤ c.ext.getStepLength x dx c.dims.n_dminus2 c.dims.n (ipm_predictor c s h).gmm ∧
        ∀ q, q < problem.numberOfContacts → in_cone (fun i => x i
          + c.ext.getStepLength x dx c.dims.n_dminus2 c.dims.n (ipm_predictor c s h).gmm * dx i) q) →
      ∀ q, q < problem.numberOfContacts →
        in_cone (ipm_head c (ipm_next c s)).velocity_1 q ∧
        in_cone (ipm_head c (ipm_next c s)).velocity_2 q ∧
        in_cone (ipm_head c (ipm_next c s)).reaction_1 q ∧
        in_cone (ipm_head c (ipm_next c s)).reaction_2 q) := by
  obtain ⟨hd, hd2, hnd', hn, -⟩ := ipm_context_dims_five ext cst problem options data h5 hnd hsz
  constructor
  · intro options0 rhs reaction velocity globalVelocity hdata q hq
    have hsp : data.starting_point = 
        { globalVelocity := fun i => if i < problem.M.size0 then ((1 / 100 : ℚ) : R) else 0
          velocity := fun i => if i < problem.H.size1
            then (if i % problem.dimension = 0 then ((3 : ℚ) : R) else ((1 / 1000 : ℚ) : R)) else 0
          reaction := fun i => if i < problem.H.size1
            then (if i % problem.dimension = 0 then ((1 / 2 : ℚ) : R) else ((4 / 100 : ℚ) : R)) else 0 } := by
      have : some data = (grfc3d_IPM_init cst problem options0).solverData := hdata.symm
      simp only [grfc3d_IPM_init, Option.some.injEq] at this
      rw [this]
    generalize hc : ipm_context ext cst problem options data = c at hd hd2 hnd' hn
    have hqc : q < c.dims.n := by rw [hn]; exact hq
    have hsz3 : 3 * c.dims.n < 4294967296 := by rw [hn]; omega
    have hD : c.dims = dims_of problem := by rw [← hc]; rfl
    generalize hs : ipm_initial_state (dims_of problem) options data rhs reaction velocity globalVelocity = s0
    have hvel : ∀ i, i < 5 * c.dims.n → s0.velocity i
        = if i % 5 = 0 then ((3 : ℚ) : R) else ((1 / 1000 : ℚ) : R) := by
      intro i hi
      rw [← hs]
      have hi' : i < (dims_of problem).nd := by rw [← hD, hnd']; exact hi
      have hi2 : i < problem.H.size1 := hi'
      simp only [ipm_initial_state, cblas_dcopy, hi', if_true, hsp, hi2, h5]
    have hrea : ∀ i, i < 5 * c.dims.n → s0.reaction i
        = if i % 5 = 0 then ((1 / 2 : ℚ) : R) else ((4 / 100 : ℚ) : R) := by
      intro i hi
      rw [← hs]
      have hi' : i < (dims_of problem).nd := by rw [← hD, hnd']; exact hi
      have hi2 : i < problem.H.size1 := hi'
      simp only [ipm_initial_state, cblas_dcopy, hi', if_true, hsp, hi2, h5]
    have ht : s0.t q = ((2 : ℚ) : R) := by
      rw [← hs]
      have hq' : q < (dims_of problem).n := hq
      simp only [ipm_initial_state, hq', if_true]
    have htp : s0.t_prime q = ((1 : ℚ) : R) := by
      rw [← hs]
      have hq' : q < (dims_of problem).n := hq
      simp only [ipm_initial_state, hq', if_true]
    have hv1 : (ipm_head c s0).velocity_1
        = set_leading c.dims (extract_vector s0.velocity (5 * c.dims.n) c.dims.n (1 + 1) (1 + 2) (fun _ => 0)) s0.t := by
      rw [← hnd']; rfl
    have hv2 : (ipm_head c s0).velocity_2
        = set_leading c.dims (extract_vector s0.velocity (5 * c.dims.n) c.dims.n (3 + 1) (3 + 2) (fun _ => 0)) s0.t_prime := by
      rw [← hnd']; rfl
    have hr1 : (ipm_head c s0).reaction_1
        = extract_vector s0.reaction (5 * c.dims.n) c.dims.n (1 + 1) (1 + 2) (fun _ => 0) := by
      rw [← hnd']; rfl
    have hr2 : (ipm_head c s0).reaction_2
        = extract_vector s0.reaction (5 * c.dims.n) c.dims.n (3 + 1) (3 + 2) (fun _ => 0) := by
      rw [← hnd']; rfl
    obtain ⟨x0, x1, x2⟩ := extract_vector_five s0.velocity 1 c.dims.n (fun _ => 0) q hqc
    obtain ⟨y0, y1, y2⟩ := extract_vector_five s0.velocity 3 c.dims.n (fun _ => 0) q hqc
    obtain ⟨u0, u1, u2⟩ := extract_vector_five s0.reaction 1 c.dims.n (fun _ => 0) q hqc
    obtain ⟨w0, w1, w2⟩ := extract_vector_five s0.reaction 3 c.dims.n (fun _ => 0) q hqc
    have m0 : (5 * q) % 5 = 0 := by omega
    have m1 : (5 * q + 1) % 5 ≠ 0 := by omega
    have m2 : (5 * q + (1 + 1)) % 5 ≠ 0 := by omega
    have m3 : (5 * q + 3) % 5 ≠ 0 := by omega
    have m4 : (5 * q + (3 + 1)) % 5 ≠ 0 := by omega
    refine ⟨?_, ?_, ?_, ?_⟩
    · unfold in_cone
      rw [hv1, (set_leading_three c.dims hd2 hsz3 _ _ q hqc).1,
        (set_leading_three c.dims hd2 hsz3 _ _ q hqc).2.1,
        (set_leading_three c.dims hd2 hsz3 _ _ q hqc).2.2, ht, x1, x2,
        hvel _ (by omega), hvel _ (by omega), if_neg m1, if_neg m2]
      norm_num
    · unfold in_cone
      rw [hv2, (set_leading_three c.dims hd2 hsz3 _ _ q hqc).1,
        (set_leading_three c.dims hd2 hsz3 _ _ q hqc).2.1,
        (set_leading_three c.dims hd2 hsz3 _ _ q hqc).2.2, htp, y1, y2,
        hvel _ (by omega), hvel _ (by omega), if_neg m3, if_neg m4]
      norm_num
    · unfold in_cone
      rw [hr1, u0, u1, u2, hrea _ (by omega), hrea _ (by omega), hrea _ (by omega),
        if_pos m0, if_neg m1, if_neg m2]
      norm_num
    · unfold in_cone
      rw [hr2, w0, w1, w2, hrea _ (by omega), hrea _ (by omega), hrea _ (by omega),
        if_pos m0, if_neg m3, if_neg m4]
      norm_num
  · intro c s h k hc hh hk hin hstep
    subst hc
    subst hh
    subst hk
    generalize hcc : ipm_context ext cst problem options data = c at *
    have hnq : ∀ q, q < problem.numberOfContacts → q < c.dims.n := fun q hq => by rw [hn]; exact hq
    generalize hkk : ipm_corrector c (ipm_head c s) (ipm_predictor c s (ipm_head c s)) = k at *
    generalize hg : (ipm_predictor c s (ipm_head c s)).gmm = gmm at *
    have hal : k.alpha_primal
        = min (c.ext.getStepLength (ipm_head c s).velocity_1 k.dir.d_velocity_1 c.dims.n_dminus2 c.dims.n gmm)
          (min (c.ext.getStepLength (ipm_head c s).velocity_2 k.dir.d_velocity_2 c.dims.n_dminus2 c.dims.n gmm)
          (min (c.ext.getStepLength (ipm_head c s).reaction_1 k.dir.d_reaction_1 c.dims.n_dminus2 c.dims.n gmm)
            (c.ext.getStepLength (ipm_head c s).reaction_2 k.dir.d_reaction_2 c.dims.n_dminus2 c.dims.n gmm))) := by
      rw [← hkk, ← hg, ← fmin_eq_min, ← fmin_eq_min, ← fmin_eq_min]
      rfl
    have s1 := hstep _ _ (List.mem_cons_self _ _)
    have s2 := hstep _ _ (List.mem_cons_of_mem _ (List.mem_cons_self _ _))
    have s3 := hstep _ _ (List.mem_cons_of_mem _ (List.mem_cons_of_mem _ (List.mem_cons_self _ _)))
    have s4 := hstep _ _ (List.mem_cons_of_mem _ (List.mem_cons_of_mem _
      (List.mem_cons_of_mem _ (List.mem_cons_self _ _))))
    have hb0 : 0 ≤ k.alpha_primal := by
      rw [hal]
      exact le_min s1.1 (le_min s2.1 (le_min s3.1 s4.1))
    have hupd : ∀ q, q < problem.numberOfContacts → ∀ j, j < 3 → _ :=
      fun q hq j hj => ipm_subblock_update c s hd hd2 hnd' (by rw [hn]; exact hsz) q (hnq q hq) j hj
    rw [hkk] at hupd
    have r1 := in_cone_step _ _ (ipm_head c (ipm_next c s)).velocity_1 problem.numberOfContacts _
      k.alpha_primal hb0 (by rw [hal]; exact min_le_left _ _) (fun q hq => (hin q hq).1) s1.2
      (fun q hq j hj => (hupd q hq j hj).1)
    have r2 := in_cone_step _ _ (ipm_head c (ipm_next c s)).velocity_2 problem.numberOfContacts _
      k.alpha_primal hb0 (by rw [hal]; exact le_trans (min_le_right _ _) (min_le_left _ _))
      (fun q hq => (hin q hq).2.1) s2.2 (fun q hq j hj => (hupd q hq j hj).2.1)
    have r3 := in_cone_step _ _ (ipm_head c (ipm_next c s)).reaction_1 problem.numberOfContacts _
      k.alpha_primal hb0
      (by rw [hal]; exact le_trans (min_le_right _ _) (le_trans (min_le_right _ _) (min_le_left _ _)))
      (fun q hq => (hin q hq).2.2.1) s3.2 (fun q hq j hj => (hupd q hq j hj).2.2.1)
    have r4 := in_cone_step _ _ (ipm_head c (ipm_next c s)).reaction_2 problem.numberOfContacts _
      k.alpha_primal hb0
      (by rw [hal]; exact le_trans (min_le_right _ _) (le_trans (min_le_right _ _) (min_le_right _ _)))
      (fun q hq => (hin q hq).2.2.2) s4.2 (fun q hq j hj => (hupd q hq j hj).2.2.2)
    exact fun q hq => ⟨r1 q hq, r2 q hq, r3 q hq, r4 q hq⟩

end ConeTheorem

section NanExit
variable {R : Type} [Zero R] [RatCast R] [Add R] [Sub R] [Mul R] [Div R]
  [LE R] [LT R] [DecidableRel (α := R) (· ≤ ·)] [DecidableRel (α := R) (· < ·)]

omit [Zero R] [RatCast R] [Add R] [Sub R] [Mul R] [Div R] [LE R] [LT R]
  [DecidableRel (α := R) (· ≤ ·)] [DecidableRel (α := R) (· < ·)] in
theorem NV_isnan_iff (isnan : R → Bool) (vec : Vec R) (n : Nat) :
    NV_isnan isnan vec n = true ↔ ∃ i, i < n ∧ isnan (vec i) = true := by
  simp [NV_isnan, List.any_eq_true]

end NanExit

section EntryOverwrite
variable {R : Type} [Zero R] [One R] [RatCast R] [Add R] [Sub R] [Mul R] [Div R]
  [LE R] [LT R] [DecidableRel (α := R) (· ≤ ·)] [DecidableRel (α := R) (· < ·)]

omit [Zero R] [One R] [RatCast R] [Add R] [Sub R] [Mul R] [Div R] [LE R] [LT R]
  [DecidableRel (α := R) (· ≤ ·)] [DecidableRel (α := R) (· < ·)] in
theorem cblas_dcopy_congr (n : Nat) (x y y2 : Vec R) (h : ∀ i, n ≤ i → y i = y2 i) :
    cblas_dcopy n x y = cblas_dcopy n x y2 := by
  funext i
  unfold cblas_dcopy
  by_cases hi : i < n
  · rw [if_pos hi, if_pos hi]
  · rw [if_neg hi, if_neg hi]; exact h i (by omega)

/-- C7: two calls of `grfc3d_IPM` that differ only in the contents of the buffers
`reaction`, `velocity` (`nd` entries each) and `globalVelocity` (`m` entries) return the
same result (buffers, `info`, options): the buffers are overwritten at the entry by the
starting point of the solver data.  With solver data built by `grfc3d_IPM_init` the start
is `v[j] = 0.01`, `u = 3` and `r = 0.5` at the first entry of each block of `d` and
`u = 0.001`, `r = 0.04` elsewhere, `t = 2`, `t_prime = 1`; these values depend on the
sizes `m`, `nd`, `d`, `n` only, not on the entries of `M`, `H`, `f`, `w`, `mu`, `mu_r`. -/
theorem grfc3d_IPM_start_overwrite (ext : Externals R) (cst : Constants)
    (problem : GlobalRollingFrictionContactProblem R) (options : SolverOptions R)
    (reaction velocity globalVelocity reaction2 velocity2 globalVelocity2 : Vec R)
    (hr : ∀ i, problem.H.size1 ≤ i → reaction i = reaction2 i)
    (hu : ∀ i, problem.H.size1 ≤ i → velocity i = velocity2 i)
    (hv : ∀ i, problem.M.size0 ≤ i → globalVelocity i = globalVelocity2 i) :
    grfc3d_IPM ext cst problem reaction velocity globalVelocity options
      = grfc3d_IPM ext cst problem reaction2 velocity2 globalVelocity2 options ∧
    (∀ (options0 : SolverOptions R) (data : Grfc3d_IPM_data R),
      (grfc3d_IPM_init cst (ipm_symmetrize ext problem) options0).solverData = some data →
      (∀ j, j < problem.M.size0 →
        (ipm_entry_state ext cst problem reaction velocity globalVelocity options data).globalVelocity j
          = ((1 / 100 : ℚ) : R)) ∧
      (∀ i, i < problem.H.size1 →
        (ipm_entry_state ext cst problem reaction velocity globalVelocity options data).velocity i
          = (if i % problem.dimension = 0 then ((3 : ℚ) : R) else ((1 / 1000 : ℚ) : R)) ∧
        (ipm_entry_state ext cst problem reaction velocity globalVelocity options data).reaction i
          = (if i % problem.dimension = 0 then ((1 / 2 : ℚ) : R) else ((4 / 100 : ℚ) : R))) ∧
      (∀ q, q < problem.numberOfContacts →
        (ipm_entry_state ext cst problem reaction velocity globalVelocity options data).t q
          = ((2 : ℚ) : R) ∧
        (ipm_entry_state ext cst problem reaction velocity globalVelocity options data).t_prime q
          = ((1 : ℚ) : R))) ∧
    (∀ (problem2 : GlobalRollingFrictionContactProblem R) (options2 : SolverOptions R)
      (data data2 : Grfc3d_IPM_data R),
      problem2.M.size0 = problem.M.size0 → problem2.H.size1 = problem.H.size1 →
      problem2.dimension = problem.dimension →
      (grfc3d_IPM_init cst problem options).solverData = some data →
      (grfc3d_IPM_init cst problem2 options2).solverData = some data2 →
      data2.starting_point = data.starting_point) := by
  have hsym0 : (ipm_symmetrize ext problem).M.size0 = problem.M.size0 := by
    unfold ipm_symmetrize; split <;> rfl
  have hsym1 : (ipm_symmetrize ext problem).H.size1 = problem.H.size1 := by
    unfold ipm_symmetrize; split <;> rfl
  have hsymd : (ipm_symmetrize ext problem).dimension = problem.dimension := by
    unfold ipm_symmetrize; split <;> rfl
  have hsymn : (ipm_symmetrize ext problem).numberOfContacts = problem.numberOfContacts := by
    unfold ipm_symmetrize; split <;> rfl
  have hstate : ∀ data, ipm_entry_state ext cst problem reaction velocity globalVelocity options data
      = ipm_entry_state ext cst problem reaction2 velocity2 globalVelocity2 options data := by
    intro data
    unfold ipm_entry_state ipm_initial_state
    have e1 := cblas_dcopy_congr (dims_of (ipm_symmetrize ext problem)).m
      data.starting_point.globalVelocity globalVelocity globalVelocity2
      (fun i hi => hv i (by rw [← hsym0]; exact hi))
    have e2 := cblas_dcopy_congr (dims_of (ipm_symmetrize ext problem)).nd
      data.starting_point.velocity velocity velocity2
      (fun i hi => hu i (by rw [← hsym1]; exact hi))
    have e3 := cblas_dcopy_congr (dims_of (ipm_symmetrize ext problem)).nd
      data.starting_point.reaction reaction reaction2
      (fun i hi => hr i (by rw [← hsym1]; exact hi))
    rw [e1, e2, e3]
  refine ⟨?_, ?_, ?_⟩
  · unfold grfc3d_IPM
    cases (ipm_entry_options ext cst problem options).solverData with
    | none => rfl
    | some data => simp only [hstate]
  · intro options0 data hdata
    have hsp : data.starting_point =
        { globalVelocity := fun i => if i < (ipm_symmetrize ext problem).M.size0
            then ((1 / 100 : ℚ) : R) else 0
          velocity := fun i => if i < (ipm_symmetrize ext problem).H.size1
            then (if i % (ipm_symmetrize ext problem).dimension = 0 then ((3 : ℚ) : R)
              else ((1 / 1000 : ℚ) : R)) else 0
          reaction := fun i => if i < (ipm_symmetrize ext problem).H.size1
            then (if i % (ipm_symmetrize ext problem).dimension = 0 then ((1 / 2 : ℚ) : R)
              else ((4 / 100 : ℚ) : R)) else 0 } := by
      have : some data = (grfc3d_IPM_init cst (ipm_symmetrize ext problem) options0).solverData :=
        hdata.symm
      simp only [grfc3d_IPM_init, Option.some.injEq] at this
      rw [this]
    refine ⟨?_, ?_, ?_⟩
    · intro j hj
      have hj' : j < (dims_of (ipm_symmetrize ext problem)).m := by rw [← hsym0] at hj; exact hj
      have hj2 : j < (ipm_symmetrize ext problem).M.size0 := hj'
      simp only [ipm_entry_state, ipm_initial_state, cblas_dcopy, hj', if_true, hsp, hj2]
    · intro i hi
      have hi' : i < (dims_of (ipm_symmetrize ext problem)).nd := by rw [← hsym1] at hi; exact hi
      have hi2 : i < (ipm_symmetrize ext problem).H.size1 := hi'
      simp only [ipm_entry_state, ipm_initial_state, cblas_dcopy, hi', if_true, hsp, hi2, hsymd]
      refine ⟨?_, ?_⟩ <;> first | rfl | trivial
    · intro q hq
      have hq' : q < (dims_of (ipm_symmetrize ext problem)).n := by rw [← hsymn] at hq; exact hq
      simp only [ipm_entry_state, ipm_initial_state, hq', if_true]
      refine ⟨?_, ?_⟩ <;> first | rfl | trivial
  · intro problem2 options2 data data2 h0 h1 hd hdata hdata2
    have e1 : some data = (grfc3d_IPM_init cst problem options).solverData := hdata.symm
    have e2 : some data2 = (grfc3d_IPM_init cst problem2 options2).solverData := hdata2.symm
    simp only [grfc3d_IPM_init, Option.some.injEq] at e1 e2
    rw [e1, e2, h0, h1, hd]

end EntryOverwrite

/-- C7, witness: two calls on the sample problem whose buffers differ in their first
entries return the same result. -/
theorem grfc3d_IPM_start_overwrite_witness :
    (∀ i, (sample_problem 1 : GlobalRollingFrictionContactProblem ℚ).H.size1 ≤ i →
      (fun k => if k < 5 then (7 : ℚ) else 0) i = (fun _ => (0 : ℚ)) i) ∧
    grfc3d_IPM rat_ext sample_cst (sample_problem 1) (fun k => if k < 5 then (7 : ℚ) else 0)
        (fun k => if k < 5 then (8 : ℚ) else 0) (fun k => if k < 1 then (9 : ℚ) else 0) rat_options
      = grfc3d_IPM rat_ext sample_cst (sample_problem 1) (fun _ => 0) (fun _ => 0) (fun _ => 0)
          rat_options :=
  have h5 : ∀ (a : ℚ) (i : Nat), (sample_problem 1 : GlobalRollingFrictionContactProblem ℚ).H.size1 ≤ i →
      (fun k => if k < 5 then a else 0) i = (fun _ => (0 : ℚ)) i := by
    intro a i hi
    have : ¬ i < 5 := by
      have : (5 : Nat) ≤ i := hi
      omega
    simp [this]
  have h1 : ∀ i, (sample_problem 1 : GlobalRollingFrictionContactProblem ℚ).M.size0 ≤ i →
      (fun k => if k < 1 then (9 : ℚ) else 0) i = (fun _ => (0 : ℚ)) i := by
    intro i hi
    have : ¬ i < 1 := by
      have : (1 : Nat) ≤ i := hi
      omega
    simp [this]
  ⟨h5 7, (grfc3d_IPM_start_overwrite rat_ext sample_cst (sample_problem 1) rat_options _ _ _ _ _ _
    (h5 7) (h5 8) h1).1⟩

section TestDeterminism
variable {R : Type} [Zero R] [RatCast R] [Add R] [Mul R] [Div R]
  [LE R] [LT R] [DecidableRel (α := R) (· ≤ ·)] [DecidableRel (α := R) (· < ·)]

/-- C8 (amended): the exit test is a function of `(u, r, v, t, t_prime)` (with the
problem data and the tolerance of the call): two loop states that agree on these five
vectors give the same verdict, so re-running the test on the state at which the loop
reported convergence, without any update, reports convergence again. -/
theorem grfc3d_IPM_test_deterministic (c : IPMContext R) (s s2 : IPMState R)
    (hv : s2.globalVelocity = s.globalVelocity) (hu : s2.velocity = s.velocity)
    (hr : s2.reaction = s.reaction) (ht : s2.t = s.t) (htp : s2.t_prime = s.t_prime) :
    ipm_converged c (ipm_head c s2) = ipm_converged c (ipm_head c s) ∧
    (ipm_converged c (ipm_head c s) = true → ipm_converged c (ipm_head c s2) = true) ∧
    (ipm_converged c (ipm_head c s) = true →
      ipm_converged c (ipm_head c (ipm_exit_converged s (ipm_head c s))) = true) := by
  have h1 : ipm_converged c (ipm_head c s2) = ipm_converged c (ipm_head c s) := by
    simp only [ipm_converged, ipm_head, NV_max, hv, hu, hr, ht, htp]
  exact ⟨h1, fun h => by rw [h1]; exact h, fun h => h⟩

end TestDeterminism

/-- C8, witness: the entry state of the sample call passes the exit test, and so does a
state with the same five vectors and other stored scalars. -/
theorem grfc3d_IPM_test_deterministic_witness :
    ipm_converged test_context (ipm_head test_context test_state) = true ∧
    ipm_converged test_context (ipm_head test_context { test_state with full_error := 5, gmm := 0 })
      = true :=
  ⟨by decide!,
    (grfc3d_IPM_test_deterministic test_context test_state { test_state with full_error := 5, gmm := 0 }
      rfl rfl rfl rfl rfl).2.1 (by decide!)⟩

/-- C8, counterexample: the states `test_state` and `test_state_split` have the same
`(u, r, v)` (and both satisfy `u[0] = t + t_prime`), the first passes the exit test with
tolerance `1.2` (`<u1,r1> = 1.00008`, `<u2,r2> = 0.50008`) and the second fails it
(`<u2,r2> = 1.37508`): the test is not a function of `(u, r, v)` alone. -/
theorem grfc3d_IPM_test_counterexample :
    test_state_split.velocity = test_state.velocity ∧
    test_state_split.reaction = test_state.reaction ∧
    test_state_split.globalVelocity = test_state.globalVelocity ∧
    test_state.velocity 0 = test_state.t 0 + test_state.t_prime 0 ∧
    test_state_split.velocity 0 = test_state_split.t 0 + test_state_split.t_prime 0 ∧
    ipm_converged test_context (ipm_head test_context test_state) = true ∧
    ipm_converged test_context (ipm_head test_context test_state_split) = false ∧
    (ipm_head test_context test_state_split).u2dotr2 = 137508 / 100000 := by
  refine ⟨rfl, rfl, rfl, by decide!, by decide!, by decide!, by decide!, by decide!⟩

section ChangeOfVariable
variable {R : Type} [Field R]

theorem sumTo_eq_sum (n : Nat) (f : Nat → R) : sumTo n f = ∑ i in Finset.range n, f i := by
  induction n with
  | zero => simp [sumTo]
  | succ n ih => rw [sumTo, ih, Finset.sum_range_succ]

theorem NM_entry_entry (A : NumericsMatrix R) (i j : Nat) (v : R) (a b : Nat) :
    (NM_entry A i j v).entry a b = if a = i ∧ b = j then A.entry a b + v else A.entry a b := rfl

theorem diag_fold_entry (f : Nat → R) (st : Int) (r c : Nat) :
    ∀ (n a b : Nat),
      ((List.range n).foldl (fun A i => NM_entry A i i (f i)) (NM_create st r c)).entry a b
        = if a = b ∧ a < n then f a else 0 := by
  intro n
  induction n with
  | zero => intro a b; simp [NM_create]
  | succ n ih =>
    intro a b
    rw [List.range_succ, List.foldl_append]
    simp only [List.foldl_cons, List.foldl_nil]
    rw [NM_entry_entry, ih]
    by_cases h1 : a = n ∧ b = n
    · obtain ⟨ha, hb⟩ := h1
      subst ha; subst hb
      simp
    · rw [if_neg h1]
      by_cases h2 : a = b ∧ a < n
      · rw [if_pos h2, if_pos ⟨h2.1, by omega⟩]
      · rw [if_neg h2, if_neg]
        rintro ⟨hab, han⟩
        subst hab
        rcases Nat.lt_succ_iff_lt_or_eq.mp han with h | h
        · exact h2 ⟨rfl, h⟩
        · exact h1 ⟨h, h⟩

theorem diag_fold_sizes (f : Nat → R) (st : Int) (r c : Nat) (n : Nat) :
    ((List.range n).foldl (fun A i => NM_entry A i i (f i)) (NM_create st r c)).size0 = r ∧
    ((List.range n).foldl (fun A i => NM_entry A i i (f i)) (NM_create st r c)).size1 = c := by
  induction n with
  | zero => exact ⟨rfl, rfl⟩
  | succ n ih =>
    rw [List.range_succ, List.foldl_append]
    exact ih

/-- C9 (amended): for `d = 5` and `nd = 5n`, `grfc3d_IPM_init` builds `P_mu` as the
`nd x nd` diagonal matrix whose block for the contact `i` is
`diag(1, mu[i], mu[i], mu_r[i], mu_r[i])` and `P_mu_inv` as the diagonal matrix with block
`diag(1, 1/mu[i], 1/mu[i], 1/mu_r[i], 1/mu_r[i])`; when no `mu[i]` and no `mu_r[i]` is
zero, `P_mu * P_mu_inv` is the identity. -/
theorem grfc3d_IPM_init_P_mu (cst : Constants) (problem : GlobalRollingFrictionContactProblem R)
    (options : SolverOptions R) (data : Grfc3d_IPM_data R) (n : Nat)
    (h5 : problem.dimension = 5) (hnd : problem.H.size1 = 5 * n)
    (hdata : (grfc3d_IPM_init cst problem options).solverData = some data) :
    (data.P_mu.mat.size0 = 5 * n ∧ data.P_mu.mat.size1 = 5 * n ∧
      data.P_mu.inv_mat.size0 = 5 * n ∧ data.P_mu.inv_mat.size1 = 5 * n) ∧
    (∀ a b, a ≠ b ∨ 5 * n ≤ a → data.P_mu.mat.entry a b = 0 ∧ data.P_mu.inv_mat.entry a b = 0) ∧
    (∀ i, i < n →
      data.P_mu.mat.entry (5 * i) (5 * i) = 1 ∧
      data.P_mu.mat.entry (5 * i + 1) (5 * i + 1) = problem.mu i ∧
      data.P_mu.mat.entry (5 * i + 2) (5 * i + 2) = problem.mu i ∧
      data.P_mu.mat.entry (5 * i + 3) (5 * i + 3) = problem.mu_r i ∧
      data.P_mu.mat.entry (5 * i + 4) (5 * i + 4) = problem.mu_r i ∧
      data.P_mu.inv_mat.entry (5 * i) (5 * i) = 1 ∧
      data.P_mu.inv_mat.entry (5 * i + 1) (5 * i + 1) = 1 / problem.mu i ∧
      data.P_mu.inv_mat.entry (5 * i + 2) (5 * i + 2) = 1 / problem.mu i ∧
      data.P_mu.inv_mat.entry (5 * i + 3) (5 * i + 3) = 1 / problem.mu_r i ∧
      data.P_mu.inv_mat.entry (5 * i + 4) (5 * i + 4) = 1 / problem.mu_r i) ∧
    ((∀ i, i < n → problem.mu i ≠ 0 ∧ problem.mu_r i ≠ 0) →
      ∀ a b, (NM_multiply data.P_mu.mat data.P_mu.inv_mat).entry a b
        = if a = b ∧ a < 5 * n then 1 else 0) := by
  have e : some data = (grfc3d_IPM_init cst problem options).solverData := hdata.symm
  simp only [grfc3d_IPM_init, Option.some.injEq] at e
  have hP : data.P_mu.mat = (List.range (5 * n)).foldl
      (fun A i => NM_entry A i i (P_mu_diag 5 problem.mu problem.mu_r i))
      (NM_create cst.NM_SPARSE (5 * n) (5 * n)) := by rw [e, hnd, h5]
  have hQ : data.P_mu.inv_mat = (List.range (5 * n)).foldl
      (fun A i => NM_entry A i i (P_mu_inv_diag 5 problem.mu problem.mu_r i))
      (NM_create cst.NM_SPARSE (5 * n) (5 * n)) := by rw [e, hnd, h5]
  have hPe : ∀ a b, data.P_mu.mat.entry a b
      = if a = b ∧ a < 5 * n then P_mu_diag 5 problem.mu problem.mu_r a else 0 := by
    intro a b; rw [hP]; exact diag_fold_entry _ _ _ _ _ a b
  have hQe : ∀ a b, data.P_mu.inv_mat.entry a b
      = if a = b ∧ a < 5 * n then P_mu_inv_diag 5 problem.mu problem.mu_r a else 0 := by
    intro a b; rw [hQ]; exact diag_fold_entry _ _ _ _ _ a b
  have hblock : ∀ i, i < n →
      P_mu_diag 5 problem.mu problem.mu_r (5 * i) = 1 ∧
      P_mu_diag 5 problem.mu problem.mu_r (5 * i + 1) = problem.mu i ∧
      P_mu_diag 5 problem.mu problem.mu_r (5 * i + 2) = problem.mu i ∧
      P_mu_diag 5 problem.mu problem.mu_r (5 * i + 3) = problem.mu_r i ∧
      P_mu_diag 5 problem.mu problem.mu_r (5 * i + 4) = problem.mu_r i ∧
      P_mu_inv_diag 5 problem.mu problem.mu_r (5 * i) = 1 ∧
      P_mu_inv_diag 5 problem.mu problem.mu_r (5 * i + 1) = 1 / problem.mu i ∧
      P_mu_inv_diag 5 problem.mu problem.mu_r (5 * i + 2) = 1 / problem.mu i ∧
      P_mu_inv_diag 5 problem.mu problem.mu_r (5 * i + 3) = 1 / problem.mu_r i ∧
      P_mu_inv_diag 5 problem.mu problem.mu_r (5 * i + 4) = 1 / problem.mu_r i := by
    intro i _
    have m0 : 5 * i % 5 = 0 := by omega
    have m1 : (5 * i + 1) % 5 = 1 := by omega
    have m2 : (5 * i + 2) % 5 = 2 := by omega
    have m3 : (5 * i + 3) % 5 = 3 := by omega
    have m4 : (5 * i + 4) % 5 = 4 := by omega
    have d0 : 5 * i / 5 = i := by omega
    have d1 : (5 * i + 1) / 5 = i := by omega
    have d2 : (5 * i + 2) / 5 = i := by omega
    have d3 : (5 * i + 3) / 5 = i := by omega
    have d4 : (5 * i + 4) / 5 = i := by omega
    simp [P_mu_diag, P_mu_inv_diag, m0, m1, m2, m3, m4, d0, d1, d2, d3, d4]
  refine ⟨?_, ?_, ?_, ?_⟩
  · rw [hP, hQ]
    exact ⟨(diag_fold_sizes _ _ _ _ _).1, (diag_fold_sizes _ _ _ _ _).2,
      (diag_fold_sizes _ _ _ _ _).1, (diag_fold_sizes _ _ _ _ _).2⟩
  · intro a b hab
    rw [hPe, hQe, if_neg, if_neg]
    · exact ⟨rfl, rfl⟩
    · rintro ⟨h1, h2⟩; rcases hab with h | h
      · exact h h1
      · omega
    · rintro ⟨h1, h2⟩; rcases hab with h | h
      · exact h h1
      · omega
  · intro i hi
    obtain ⟨b0, b1, b2, b3, b4, c0, c1, c2, c3, c4⟩ := hblock i hi
    exact ⟨(hPe _ _).trans ((if_pos ⟨rfl, by omega⟩).trans b0),
      (hPe _ _).trans ((if_pos ⟨rfl, by omega⟩).trans b1),
      (hPe _ _).trans ((if_pos ⟨rfl, by omega⟩).trans b2),
      (hPe _ _).trans ((if_pos ⟨rfl, by omega⟩).trans b3),
      (hPe _ _).trans ((if_pos ⟨rfl, by omega⟩).trans b4),
      (hQe _ _).trans ((if_pos ⟨rfl, by omega⟩).trans c0),
      (hQe _ _).trans ((if_pos ⟨rfl, by omega⟩).trans c1),
      (hQe _ _).trans ((if_pos ⟨rfl, by omega⟩).trans c2),
      (hQe _ _).trans ((if_pos ⟨rfl, by omega⟩).trans c3),
      (hQe _ _).trans ((if_pos ⟨rfl, by omega⟩).trans c4)⟩
  · intro hmu a b
    have hs1 : data.P_mu.mat.size1 = 5 * n := by rw [hP]; exact (diag_fold_sizes _ _ _ _ _).2
    show sumTo data.P_mu.mat.size1 (fun k => data.P_mu.mat.entry a k * data.P_mu.inv_mat.entry k b) = _
    rw [hs1, sumTo_eq_sum]
    by_cases hab : a = b ∧ a < 5 * n
    · obtain ⟨h1, h2⟩ := hab
      subst h1
      rw [if_pos ⟨rfl, h2⟩, Finset.sum_eq_single a]
      · rw [hPe, hQe, if_pos ⟨rfl, h2⟩, if_pos ⟨rfl, h2⟩]
        have hi : a / 5 < n := by omega
        obtain ⟨b0, b1, b2, b3, b4, c0, c1, c2, c3, c4⟩ := hblock (a / 5) hi
        obtain ⟨hm, hmr⟩ := hmu (a / 5) hi
        have hcases : a = 5 * (a / 5) ∨ a = 5 * (a / 5) + 1 ∨ a = 5 * (a / 5) + 2
            ∨ a = 5 * (a / 5) + 3 ∨ a = 5 * (a / 5) + 4 := by omega
        rcases hcases with h | h | h | h | h <;> rw [h]
        · rw [b0, c0, mul_one]
        · rw [b1, c1]; field_simp
        · rw [b2, c2]; field_simp
        · rw [b3, c3]; field_simp
        · rw [b4, c4]; field_simp
      · intro k _ hk
        rw [hPe, if_neg (fun h => hk h.1.symm), zero_mul]
      · intro h
        exact absurd (Finset.mem_range.mpr h2) h
    · rw [if_neg hab]
      apply Finset.sum_eq_zero
      intro k _
      rw [hPe, hQe]
      by_cases h1 : a = k ∧ a < 5 * n
      · by_cases h2 : k = b ∧ k < 5 * n
        · exfalso
          exact hab ⟨h1.1.trans h2.1, h1.2⟩
        · rw [if_neg h2, mul_zero]
      · rw [if_neg h1, zero_mul]

end ChangeOfVariable

/-- C9, witness: the sample problem with one contact over the rationals
(`mu = mu_r = 1/2`): the second diagonal entries of `P_mu` and `P_mu_inv` are `1/2` and
`2`, and the product is the identity. -/
theorem grfc3d_IPM_init_P_mu_witness :
    (sample_problem 1 : GlobalRollingFrictionContactProblem ℚ).dimension = 5 ∧
    (ipm_entry_data rat_ext sample_cst (sample_problem 1) rat_options rfl).P_mu.mat.entry 1 1 = 1 / 2 ∧
    (ipm_entry_data rat_ext sample_cst (sample_problem 1) rat_options rfl).P_mu.inv_mat.entry 1 1 = 2 ∧
    ∀ a b, (NM_multiply (ipm_entry_data rat_ext sample_cst (sample_problem 1) rat_options rfl).P_mu.mat
        (ipm_entry_data rat_ext sample_cst (sample_problem 1) rat_options rfl).P_mu.inv_mat).entry a b
      = if a = b ∧ a < 5 * 1 then 1 else 0 :=
  ⟨rfl, by decide!, by decide!,
    (grfc3d_IPM_init_P_mu sample_cst (sample_problem 1) rat_options
      (ipm_entry_data rat_ext sample_cst (sample_problem 1) rat_options rfl) 1 rfl rfl rfl).2.2.2
      (fun _ _ => ⟨by show ((1 / 2 : ℚ) : ℚ) ≠ 0; norm_num, by show ((1 / 2 : ℚ) : ℚ) ≠ 0; norm_num⟩)⟩

/-- C9, counterexample: for a frictionless contact (`mu = 0`) the entry `(1, 1)` of
`P_mu_inv` is `1/0 = +inf` and the entry `(1, 1)` of `P_mu * P_mu_inv` is `0 * inf = NaN`,
not 1. -/
theorem grfc3d_IPM_init_P_mu_counterexample :
    frictionless_problem.dimension = 5 ∧ frictionless_problem.H.size1 = 5 * 1 ∧
    frictionless_data.P_mu.mat.entry 1 1 = Dbl.fin 0 ∧
    frictionless_data.P_mu.inv_mat.entry 1 1 = Dbl.pinf ∧
    (NM_multiply frictionless_data.P_mu.mat frictionless_data.P_mu.inv_mat).entry 1 1 = Dbl.nan ∧
    (NM_multiply frictionless_data.P_mu.mat frictionless_data.P_mu.inv_mat).entry 1 1 ≠ 1 := by
  refine ⟨rfl, rfl, by decide!, by decide!, by decide!, by decide!⟩

section NewtonLemmas
variable {R L : Type} [Zero R] [RatCast R] [Add R] [Mul R] [LE R] [LT R]
  [DecidableRel (α := R) (· ≤ ·)] [DecidableRel (α := R) (· < ·)]

omit [LE R] [LT R] [DecidableRel (α := R) (· ≤ ·)] [DecidableRel (α := R) (· < ·)] in
theorem lsa_direction_iter (ext : LSAExternals R L) (n : Nat) (params : newton_LSA_param R)
    (fn : functions_LSA R) (s s1 : LSAState R L) (h : lsa_direction ext n params fn s = some s1) :
    s1.iter = s.iter := by
  unfold lsa_direction at h
  split at h
  · cases h; rfl
  · split at h
    · split at h
      · cases h
      · cases h; rfl
    · split at h
      · cases h
      · cases h; rfl

omit [LE R] [LT R] [DecidableRel (α := R) (· ≤ ·)] [DecidableRel (α := R) (· < ·)] in
theorem lsa_gradient_iter (fn : functions_LSA R) (s s1 : LSAState R L)
    (h : lsa_gradient fn s = some s1) :
    s1.iter = s.iter ∧ s1.info_dir_search = s.info_dir_search := by
  unfold lsa_gradient at h
  split at h
  · split at h
    · cases h; exact ⟨rfl, rfl⟩
    · split at h
      · cases h; exact ⟨rfl, rfl⟩
      · cases h
  · cases h; exact ⟨rfl, rfl⟩

omit [Zero R] [LE R] [LT R] [DecidableRel (α := R) (· ≤ ·)] [DecidableRel (α := R) (· < ·)] in
theorem lsa_trial_iter (ext : LSAExternals R L) (n : Nat) (fn : functions_LSA R)
    (s s1 : LSAState R L) (t : Option R) (h : lsa_trial ext n fn s = some (s1, t)) :
    s1.iter = s.iter := by
  unfold lsa_trial at h
  split at h
  · split at h
    · cases h; rfl
    · cases h
  · cases h; rfl

omit [Zero R] [LT R] [DecidableRel (α := R) (· < ·)] in
theorem lsa_finish_pass_iter (ext : LSAExternals R L) (n : Nat) (opt : LSAOptions R)
    (fn : functions_LSA R) (s s1 : LSAState R L) (tau : R)
    (h : lsa_finish_pass ext n opt fn s tau = some s1) : s1.iter = s.iter := by
  unfold lsa_finish_pass at h
  split at h
  · dsimp only at h
    split at h
    · cases h; rfl
    · split at h
      · cases h; rfl
      · split at h
        · cases h; rfl
        · split at h
          · split at h
            · cases h; rfl
            · cases h
          · cases h; rfl
  · cases h

/-- A pass of `newton_LSA` increments `iter` by one; it ends in the jump to
`newton_LSA_free` exactly when the direction search returns a non-zero code while
`compute_RHS_desc` is NULL. -/
theorem lsa_pass_spec (ext : LSAExternals R L) (n : Nat) (opt : LSAOptions R)
    (fn : functions_LSA R) (s : LSAState R L) :
    (∀ s1, lsa_pass ext n opt fn s = LSAStep.next s1 → s1.iter = s.iter + 1) ∧
    (∀ s1, lsa_pass ext n opt fn s = LSAStep.failed s1 ↔
      ∃ sd, lsa_direction ext n opt.params fn { s with iter := s.iter + 1, info_dir_search := 0 }
          = some sd ∧
        lsa_gradient fn sd = some s1 ∧ s1.info_dir_search ≠ 0 ∧ fn.compute_RHS_desc = none) ∧
    (∀ s1, lsa_pass ext n opt fn s = LSAStep.failed s1 →
      s1.iter = s.iter + 1 ∧ s1.z = s.z ∧ s1.theta = s.theta ∧ s1.err = s.err) := by
  have hz : ∀ sd s1, lsa_direction ext n opt.params fn
        { s with iter := s.iter + 1, info_dir_search := 0 } = some sd →
      lsa_gradient fn sd = some s1 →
      s1.iter = s.iter + 1 ∧ s1.z = s.z ∧ s1.theta = s.theta ∧ s1.err = s.err := by
    intro sd s1 hd hg
    have a : sd.iter = s.iter + 1 ∧ sd.z = s.z ∧ sd.theta = s.theta ∧ sd.err = s.err := by
      unfold lsa_direction at hd
      split at hd
      · cases hd; exact ⟨rfl, rfl, rfl, rfl⟩
      · split at hd
        · split at hd
          · cases hd
          · cases hd; exact ⟨rfl, rfl, rfl, rfl⟩
        · split at hd
          · cases hd
          · cases hd; exact ⟨rfl, rfl, rfl, rfl⟩
    have b : s1.iter = sd.iter ∧ s1.z = sd.z ∧ s1.theta = sd.theta ∧ s1.err = sd.err := by
      unfold lsa_gradient at hg
      split at hg
      · split at hg
        · cases hg; exact ⟨rfl, rfl, rfl, rfl⟩
        · split at hg
          · cases hg; exact ⟨rfl, rfl, rfl, rfl⟩
          · cases hg
      · cases hg; exact ⟨rfl, rfl, rfl, rfl⟩
    exact ⟨b.1.trans a.1, b.2.1.trans a.2.1, b.2.2.1.trans a.2.2.1, b.2.2.2.trans a.2.2.2⟩
  have hfail : ∀ s1, lsa_pass ext n opt fn s = LSAStep.failed s1 ↔
      ∃ sd, lsa_direction ext n opt.params fn { s with iter := s.iter + 1, info_dir_search := 0 }
          = some sd ∧
        lsa_gradient fn sd = some s1 ∧ s1.info_dir_search ≠ 0 ∧ fn.compute_RHS_desc = none := by
    intro s1
    unfold lsa_pass
    dsimp only
    cases hd : lsa_direction ext n opt.params fn { s with iter := s.iter + 1, info_dir_search := 0 } with
    | none => simp
    | some sd =>
      dsimp only
      cases hg : lsa_gradient fn sd with
      | none => simp [hg]
      | some s2 =>
        dsimp only
        by_cases hc : s2.info_dir_search ≠ 0 ∧ fn.compute_RHS_desc.isNone = true
        · rw [if_pos hc]
          constructor
          · intro h
            cases h
            exact ⟨sd, rfl, hg, hc.1, Option.isNone_iff_eq_none.mp hc.2⟩
          · rintro ⟨sd2, h1, h2, _, _⟩
            cases h1
            rw [hg] at h2
            cases h2
            rfl
        · rw [if_neg hc]
          constructor
          · intro h
            split at h
            · cases h
            · split at h <;> cases h
          · rintro ⟨sd2, h1, h2, h3, h4⟩
            cases h1
            rw [hg] at h2
            cases h2
            exact absurd ⟨h3, Option.isNone_iff_eq_none.mpr h4⟩ hc
  refine ⟨?_, hfail, ?_⟩
  · intro s1 h
    unfold lsa_pass at h
    dsimp only at h
    cases hd : lsa_direction ext n opt.params fn { s with iter := s.iter + 1, info_dir_search := 0 } with
    | none => rw [hd] at h; cases h
    | some sd =>
      rw [hd] at h
      dsimp only at h
      cases hg : lsa_gradient fn sd with
      | none => rw [hg] at h; cases h
      | some s2 =>
        rw [hg] at h
        dsimp only at h
        have i2 := (hz sd s2 hd hg).1
        split at h
        · cases h
        · split at h
          · cases h
          · rename_i s4 theta_iter ht
            have i4 := lsa_trial_iter ext n fn _ s4 theta_iter ht
            split at h
            · cases h
            · rename_i s5 hf
              cases h
              have i5 := lsa_finish_pass_iter ext n opt fn _ _ _ hf
              rw [i5]
              have i3 : (if s2.info_dir_search ≠ 0 then lsa_solve ext n opt.params s2 else s2).iter
                  = s2.iter := by
                split <;> rfl
              split
              · show (lsa_search ext n opt s4).1.iter = _
                have : (lsa_search ext n opt s4).1.iter = s4.iter := rfl
                rw [this, i4, i3, i2]
              · show s4.iter = _
                rw [i4, i3, i2]
  · intro s1 h
    obtain ⟨sd, h1, h2, _, _⟩ := (hfail s1).mp h
    exact hz sd s1 h1 h2

omit [Zero R] [LE R] [LT R] [DecidableRel (α := R) (· ≤ ·)] [DecidableRel (α := R) (· < ·)] in
theorem lsa_trial_info (ext : LSAExternals R L) (n : Nat) (fn : functions_LSA R)
    (s s1 : LSAState R L) (t : Option R) (h : lsa_trial ext n fn s = some (s1, t)) :
    s1.info_dir_search = s.info_dir_search := by
  unfold lsa_trial at h
  split at h
  · split at h
    · cases h; rfl
    · cases h
  · cases h; rfl

omit [Zero R] [LT R] [DecidableRel (α := R) (· < ·)] in
theorem lsa_finish_pass_info (ext : LSAExternals R L) (n : Nat) (opt : LSAOptions R)
    (fn : functions_LSA R) (s s1 : LSAState R L) (tau : R)
    (h : lsa_finish_pass ext n opt fn s tau = some s1) :
    s1.info_dir_search = s.info_dir_search := by
  unfold lsa_finish_pass at h
  split at h
  · dsimp only at h
    split at h
    · cases h; rfl
    · split at h
      · cases h; rfl
      · split at h
        · cases h; rfl
        · split at h
          · split at h
            · cases h; rfl
            · cases h
          · cases h; rfl
  · cases h

/-- After a completed pass the code of the direction search is zero unless
`compute_RHS_desc` is supplied. -/
theorem lsa_pass_next_info (ext : LSAExternals R L) (n : Nat) (opt : LSAOptions R)
    (fn : functions_LSA R) (s s1 : LSAState R L) (h : lsa_pass ext n opt fn s = LSAStep.next s1) :
    s1.info_dir_search = 0 ∨ fn.compute_RHS_desc ≠ none := by
  unfold lsa_pass at h
  dsimp only at h
  split at h
  · cases h
  · split at h
    · cases h
    · rename_i s2 _
      split at h
      · cases h
      · rename_i hc
        by_cases hr : fn.compute_RHS_desc = none
        · left
          have h0 : s2.info_dir_search = 0 := by
            by_contra h0
            exact hc ⟨h0, Option.isNone_iff_eq_none.mpr hr⟩
          split at h
          · cases h
          · rename_i s4 theta_iter ht
            have i4 := lsa_trial_info ext n fn _ s4 theta_iter ht
            rw [if_neg (not_not.mpr h0)] at i4
            split at h
            · cases h
            · rename_i s5 hf
              cases h
              rw [lsa_finish_pass_info ext n opt fn _ _ _ hf]
              split
              · show (lsa_search ext n opt s4).1.info_dir_search = 0
                have : (lsa_search ext n opt s4).1.info_dir_search = s4.info_dir_search := rfl
                rw [this, i4, h0]
              · show s4.info_dir_search = 0
                rw [i4, h0]
        · exact Or.inr hr

/-- With the callbacks of `lsa_callbacks_supplied` no pass of `newton_LSA` calls a NULL
pointer. -/
theorem lsa_pass_no_null (ext : LSAExternals R L) (n : Nat) (opt : LSAOptions R)
    (fn : functions_LSA R) (s : LSAState R L) (hcb : lsa_callbacks_supplied opt fn = true) :
    lsa_pass ext n opt fn s ≠ LSAStep.null_call := by
  obtain ⟨f, hf⟩ : ∃ f, fn.compute_F = some f := by
    cases h : fn.compute_F with
    | none => simp [lsa_callbacks_supplied, h] at hcb
    | some f => exact ⟨f, rfl⟩
  obtain ⟨fm, hfm⟩ : ∃ f, fn.compute_F_merit = some f := by
    cases h : fn.compute_F_merit with
    | none => simp [lsa_callbacks_supplied, h] at hcb
    | some f => exact ⟨f, rfl⟩
  obtain ⟨ce, hce⟩ : ∃ f, fn.compute_error = some f := by
    cases h : fn.compute_error with
    | none => simp [lsa_callbacks_supplied, h] at hcb
    | some f => exact ⟨f, rfl⟩
  have hdir : ∀ s0 : LSAState R L, lsa_direction ext n opt.params fn s0 ≠ none := by
    intro s0
    unfold lsa_direction
    cases h1 : fn.compute_descent_direction with
    | some cdd => simp
    | none =>
      cases h2 : fn.compute_RHS_desc with
      | some r =>
        cases h3 : fn.compute_H_desc with
        | some hd => simp
        | none => simp [lsa_callbacks_supplied, h1, h2, h3] at hcb
      | none =>
        cases h3 : fn.compute_H with
        | some hh => simp
        | none => simp [lsa_callbacks_supplied, h1, h2, h3] at hcb
  have hgrad : ∀ s0 : LSAState R L, lsa_gradient fn s0 ≠ none := by
    intro s0
    unfold lsa_gradient
    split
    · rename_i hc
      cases h1 : fn.compute_JacTheta_merit with
      | some jt => simp
      | none =>
        cases h2 : fn.compute_H with
        | some hh => simp [hfm]
        | none =>
          exfalso
          simp only [Bool.or_eq_true] at hc
          simp [lsa_callbacks_supplied, h1, h2, hf, hfm, hce] at hcb
          rcases hc with hc | hc <;> simp [hcb.1.2.1, hcb.1.2.2] at hc
    · simp
  have htrial : ∀ s0 : LSAState R L, lsa_trial ext n fn s0 ≠ none := by
    intro s0
    unfold lsa_trial
    split
    · simp [hf, hfm]
    · simp
  have hfin : ∀ (s0 : LSAState R L) (tau : R), lsa_finish_pass ext n opt fn s0 tau ≠ none := by
    intro s0 tau
    unfold lsa_finish_pass
    simp only [hf, hfm, hce]
    split_ifs <;> simp
  intro h
  unfold lsa_pass at h
  dsimp only at h
  split at h
  · rename_i hd
    exact hdir _ hd
  · split at h
    · rename_i hg
      exact hgrad _ hg
    · split at h
      · cases h
      · split at h
        · rename_i ht
          exact htrial _ ht
        · split at h
          · rename_i hfp
            exact hfin _ _ hfp
          · cases h

/-- The loop of `newton_LSA` with enough fuel: it ends, the counter stays at most
`itermax`, the loop condition is false at a normal exit, and the jump after a failed
direction search is taken with a non-zero code and `compute_RHS_desc` NULL. -/
theorem lsa_loop_spec (ext : LSAExternals R L) (n : Nat) (opt : LSAOptions R)
    (fn : functions_LSA R) (hcb : lsa_callbacks_supplied opt fn = true) :
    ∀ (fuel : Nat) (s : LSAState R L),
      (opt.iparam ext.SICONOS_IPARAM_MAX_ITER).toNat ≤ s.iter + fuel →
      (s.iter : Int) ≤ opt.iparam ext.SICONOS_IPARAM_MAX_ITER →
      (s.info_dir_search = 0 ∨ fn.compute_RHS_desc ≠ none) →
      ∃ sf e, lsa_loop ext n opt fn fuel s = some (sf, e) ∧
        (sf.iter : Int) ≤ opt.iparam ext.SICONOS_IPARAM_MAX_ITER ∧
        (e = LSAExit.loop_condition →
          ¬ ((sf.iter : Int) < opt.iparam ext.SICONOS_IPARAM_MAX_ITER
              ∧ opt.dparam ext.SICONOS_DPARAM_TOL < sf.err)) ∧
        (e = LSAExit.loop_condition → (sf.info_dir_search = 0 ∨ fn.compute_RHS_desc ≠ none)) ∧
        (e = LSAExit.direction_failure →
          sf.info_dir_search ≠ 0 ∧ fn.compute_RHS_desc = none) := by
  intro fuel
  induction fuel with
  | zero =>
    intro s hfuel hiter hinfo
    refine ⟨s, LSAExit.loop_condition, rfl, hiter, fun _ hc => ?_, fun _ => hinfo,
      fun h => by cases h⟩
    have := hc.1
    omega
  | succ k ih =>
    intro s hfuel hiter hinfo
    unfold lsa_loop
    by_cases hc : (s.iter : Int) < opt.iparam ext.SICONOS_IPARAM_MAX_ITER
        ∧ opt.dparam ext.SICONOS_DPARAM_TOL < s.err
    · rw [if_pos hc]
      have hspec := lsa_pass_spec ext n opt fn s
      cases hp : lsa_pass ext n opt fn s with
      | next s1 =>
        dsimp only
        have i1 := hspec.1 s1 hp
        refine ih s1 (by omega) (by have := hc.1; omega) (lsa_pass_next_info ext n opt fn s s1 hp)
      | failed s1 =>
        dsimp only
        have i1 := (hspec.2.2 s1 hp).1
        obtain ⟨sd, _, _, h3, h4⟩ := (hspec.2.1 s1).mp hp
        refine ⟨s1, LSAExit.direction_failure, rfl, by have := hc.1; omega,
          (fun h => by cases h), (fun h => by cases h), fun _ => ⟨h3, h4⟩⟩
      | null_call => exact absurd hp (lsa_pass_no_null ext n opt fn s hcb)
    · rw [if_neg hc]
      exact ⟨s, LSAExit.loop_condition, rfl, hiter, fun _ => hc, fun _ => hinfo,
        fun h => by cases h⟩

end NewtonLemmas

/-- An initial state exists once `compute_F`, `compute_F_merit`, `compute_error` (and
`get_set_from_problem_data` for an arc search) are supplied; it has `iter = 0` and the
direction-search code 0. -/
theorem lsa_initial_state_spec {R L : Type} [Zero R] [RatCast R] [Add R] [Mul R] [LE R] [LT R]
    [DecidableRel (α := R) (· ≤ ·)] [DecidableRel (α := R) (· < ·)]
    (ext : LSAExternals R L) (n : Nat) (z : Vec R) (H : NumericsMatrix R)
    (opt : LSAOptions R) (fn : functions_LSA R) (hcb : lsa_callbacks_supplied opt fn = true) :
    ∃ s0, lsa_initial_state ext n z H opt fn = some s0 ∧ s0.iter = 0 ∧ s0.info_dir_search = 0 := by
  unfold lsa_initial_state
  cases hf : fn.compute_F with
  | none => simp [lsa_callbacks_supplied, hf] at hcb
  | some f =>
    cases hfm : fn.compute_F_merit with
    | none => simp [lsa_callbacks_supplied, hfm] at hcb
    | some fm =>
      cases hce : fn.compute_error with
      | none => simp [lsa_callbacks_supplied, hce] at hcb
      | some ce =>
        dsimp only
        have harc : (opt.iparam SICONOS_IPARAM_LSA_FORCE_ARCSEARCH != 0
            && !fn.get_set_from_problem_data) = false := by
          simp only [lsa_callbacks_supplied, Bool.and_eq_true, Bool.or_eq_true] at hcb
          rcases hcb.2 with h | h
          · have h1 : (opt.iparam SICONOS_IPARAM_LSA_FORCE_ARCSEARCH != 0) = false := by
              simpa using h
            rw [h1]
            rfl
          · rw [h]
            simp
        rw [harc]
        exact ⟨_, rfl, rfl, rfl⟩

/-- C10 (amended to `itermax >= 0`, exact arithmetic): with the callbacks it calls supplied
and `iparam[MAX_ITER] >= 0`, `newton_LSA` returns; `info` is 0, 1 or 2; `info = 0` exactly
when the loop is left through its condition with `err <= tol`; `info = 1` exactly when it is
left through its condition with `err > tol`, and then the iteration counter equals `itermax`;
`info = 2` exactly when the loop is left by the jump after a direction search that returned a
non-zero code while `compute_RHS_desc` is NULL; and `iparam[ITER_DONE]` is the iteration
counter, at most `itermax`. -/
theorem newton_LSA_info_contract {R L : Type} [LinearOrderedField R]
    (ext : LSAExternals R L) (n : Nat) (z : Vec R) (H : NumericsMatrix R)
    (opt : LSAOptions R) (fn : functions_LSA R)
    (hcb : lsa_callbacks_supplied opt fn = true)
    (hmax : 0 ≤ opt.iparam ext.SICONOS_IPARAM_MAX_ITER) :
    ∃ res, newton_LSA ext n z H opt fn = some res ∧
      (res.info = 0 ∨ res.info = 1 ∨ res.info = 2) ∧
      (res.info = 0 ↔ res.exit = LSAExit.loop_condition
        ∧ res.final.err ≤ opt.dparam ext.SICONOS_DPARAM_TOL) ∧
      (res.info = 1 ↔ res.exit = LSAExit.loop_condition
        ∧ opt.dparam ext.SICONOS_DPARAM_TOL < res.final.err) ∧
      (res.info = 1 → (res.final.iter : Int) = opt.iparam ext.SICONOS_IPARAM_MAX_ITER) ∧
      (res.info = 2 ↔ res.exit = LSAExit.direction_failure) ∧
      (res.exit = LSAExit.direction_failure ↔
        res.final.info_dir_search ≠ 0 ∧ fn.compute_RHS_desc = none) ∧
      res.iparam ext.SICONOS_IPARAM_ITER_DONE = (res.final.iter : Int) ∧
      res.iparam ext.SICONOS_IPARAM_ITER_DONE ≤ opt.iparam ext.SICONOS_IPARAM_MAX_ITER := by
  obtain ⟨s0, h0, hi0, hd0⟩ := lsa_initial_state_spec ext n z H opt fn hcb
  obtain ⟨sf, e, hl, hle, hcond, hinfo, hfail⟩ :=
    lsa_loop_spec ext n opt fn hcb (opt.iparam ext.SICONOS_IPARAM_MAX_ITER).toNat s0
      (by omega) (by rw [hi0]; simpa using hmax) (Or.inl hd0)
  refine ⟨lsa_result ext opt sf e, ?_, ?_⟩
  · unfold newton_LSA
    rw [h0]
    dsimp only
    rw [hl]
  · have hID : (if ext.SICONOS_IPARAM_ITER_DONE = ext.SICONOS_IPARAM_ITER_DONE then (sf.iter : Int)
        else opt.iparam ext.SICONOS_IPARAM_ITER_DONE) = (sf.iter : Int) := if_pos rfl
    cases e with
    | loop_condition =>
      have hc := hcond rfl
      have hin := hinfo rfl
      dsimp only [lsa_result]
      rw [hID]
      by_cases ht : opt.dparam ext.SICONOS_DPARAM_TOL < sf.err
      · have hit : (sf.iter : Int) = opt.iparam ext.SICONOS_IPARAM_MAX_ITER := by
          have : ¬ (sf.iter : Int) < opt.iparam ext.SICONOS_IPARAM_MAX_ITER := fun h => hc ⟨h, ht⟩
          omega
        rw [if_pos ht]
        refine ⟨Or.inr (Or.inl rfl), ?_, ?_, fun _ => hit, ?_, ?_, rfl, hle⟩
        · exact ⟨fun h => by omega, fun h => absurd ht (not_lt.mpr h.2)⟩
        · exact ⟨fun _ => ⟨rfl, ht⟩, fun _ => rfl⟩
        · exact ⟨fun h => by omega, fun h => by cases h⟩
        · refine ⟨(fun h => by cases h), fun h => ?_⟩
          rcases hin with h1 | h1
          · exact absurd h1 h.1
          · exact absurd h.2 h1
      · rw [if_neg ht]
        refine ⟨Or.inl rfl, ?_, ?_, fun h => by omega, ?_, ?_, rfl, hle⟩
        · exact ⟨fun _ => ⟨rfl, not_lt.mp ht⟩, fun _ => rfl⟩
        · exact ⟨fun h => by omega, fun h => absurd h.2 ht⟩
        · exact ⟨fun h => by omega, fun h => by cases h⟩
        · refine ⟨(fun h => by cases h), fun h => ?_⟩
          rcases hin with h1 | h1
          · exact absurd h1 h.1
          · exact absurd h.2 h1
    | direction_failure =>
      have hf := hfail rfl
      dsimp only [lsa_result]
      rw [hID]
      refine ⟨Or.inr (Or.inr rfl), ?_, ?_, fun h => by omega, ?_, ?_, rfl, hle⟩
      · exact ⟨fun h => by omega, fun h => by cases h.1⟩
      · exact ⟨fun h => by omega, fun h => by cases h.1⟩
      · exact ⟨fun _ => rfl, fun _ => rfl⟩
      · exact ⟨fun _ => hf, fun _ => rfl⟩

/-- Witness for C10: the toy system `F(z) = z` from `z = 5` with `itermax = 3`, `tol = 0`
has all callbacks it calls and a non-negative `itermax`; the run takes one Newton pass and
returns `info = 0` with `iparam[ITER_DONE] = 1`. -/
theorem newton_LSA_info_contract_witness :
    (lsa_callbacks_supplied (lsa_sample_options 3) lsa_sample_fn = true
      ∧ (0 : Int) ≤ (lsa_sample_options 3).iparam lsa_sample_ext.SICONOS_IPARAM_MAX_ITER)
    ∧ (∃ res, newton_LSA lsa_sample_ext 1 (fun i => if i = 0 then 5 else 0) (NM_create 0 1 1)
          (lsa_sample_options 3) lsa_sample_fn = some res ∧
        (res.info = 0 ∨ res.info = 1 ∨ res.info = 2) ∧
        (res.info = 0 ↔ res.exit = LSAExit.loop_condition
          ∧ res.final.err ≤ (lsa_sample_options 3).dparam lsa_sample_ext.SICONOS_DPARAM_TOL) ∧
        (res.info = 1 ↔ res.exit = LSAExit.loop_condition
          ∧ (lsa_sample_options 3).dparam lsa_sample_ext.SICONOS_DPARAM_TOL < res.final.err) ∧
        (res.info = 1 →
          (res.final.iter : Int) = (lsa_sample_options 3).iparam lsa_sample_ext.SICONOS_IPARAM_MAX_ITER) ∧
        (res.info = 2 ↔ res.exit = LSAExit.direction_failure) ∧
        (res.exit = LSAExit.direction_failure ↔
          res.final.info_dir_search ≠ 0 ∧ lsa_sample_fn.compute_RHS_desc = none) ∧
        res.iparam lsa_sample_ext.SICONOS_IPARAM_ITER_DONE = (res.final.iter : Int) ∧
        res.iparam lsa_sample_ext.SICONOS_IPARAM_ITER_DONE
          ≤ (lsa_sample_options 3).iparam lsa_sample_ext.SICONOS_IPARAM_MAX_ITER)
    ∧ (lsa_sample_run 3).map (fun r => (r.info, r.final.iter, r.z 0, r.iparam 1))
        = some (0, 1, 0, 1) :=
  ⟨⟨by decide, by decide⟩,
   newton_LSA_info_contract lsa_sample_ext 1 (fun i => if i = 0 then 5 else 0) (NM_create 0 1 1)
     (lsa_sample_options 3) lsa_sample_fn (by decide) (by decide),
   by decide!⟩

/-- Counterexample to C10 as stated: with `iparam[MAX_ITER] = -1` (the C variable `itermax`
is a signed `int`), `tol = 0` and the start `z = 5` of the toy system, the callbacks are all
supplied, the loop body never runs and `newton_LSA` returns `info = 1` with the iteration
counter `0`, which is not `itermax`, and `iparam[ITER_DONE] = 0 > itermax`. -/
theorem newton_LSA_negative_itermax_counterexample :
    lsa_callbacks_supplied (lsa_sample_options (-1)) lsa_sample_fn = true ∧
    lsa_entry_asserts lsa_sample_fn = true ∧
    ∃ res, lsa_sample_run (-1) = some res ∧
      res.info = 1 ∧ res.exit = LSAExit.loop_condition ∧
      (res.final.iter : Int) ≠ (lsa_sample_options (-1)).iparam lsa_sample_ext.SICONOS_IPARAM_MAX_ITER ∧
      res.iparam lsa_sample_ext.SICONOS_IPARAM_ITER_DONE = 0 ∧
      ¬ (res.iparam lsa_sample_ext.SICONOS_IPARAM_ITER_DONE
          ≤ (lsa_sample_options (-1)).iparam lsa_sample_ext.SICONOS_IPARAM_MAX_ITER) := by
  refine ⟨by decide, by decide, ?_⟩
  have h : (lsa_sample_run (-1)).isSome = true := by decide!
  obtain ⟨res, hres⟩ := Option.isSome_iff_exists.mp h
  refine ⟨res, hres, ?_⟩
  have hall : (lsa_sample_run (-1)).map
      (fun r => (r.info, r.exit, r.final.iter, r.iparam 1)) =
        some (1, LSAExit.loop_condition, 0, 0) := by decide!
  rw [hres] at hall
  simp only [Option.map_some', Option.some.injEq, Prod.mk.injEq] at hall
  obtain ⟨h1, h2, h3, h4⟩ := hall
  refine ⟨h1, h2, ?_, ?_, ?_⟩
  · rw [h3]; decide
  · exact h4
  · have h5 : res.iparam lsa_sample_ext.SICONOS_IPARAM_ITER_DONE = 0 := h4
    rw [h5]; decide

/-! ## The two Newton systems (C5) -/

section NewtonSystems
variable {R : Type} [Field R]

theorem sumTo_congr (n : Nat) (f g : Nat → R) (h : ∀ k, k < n → f k = g k) :
    sumTo n f = sumTo n g := by
  induction n with
  | zero => rfl
  | succ n ih =>
    rw [sumTo, sumTo, ih (fun k hk => h k (Nat.lt_succ_of_lt hk)), h n (Nat.lt_succ_self n)]

theorem sumTo_eq_zero (n : Nat) (f : Nat → R) (h : ∀ k, k < n → f k = 0) : sumTo n f = 0 := by
  induction n with
  | zero => rfl
  | succ n ih =>
    rw [sumTo, ih (fun k hk => h k (Nat.lt_succ_of_lt hk)), h n (Nat.lt_succ_self n), add_zero]

theorem sumTo_add_eleven (m : Nat) (f : Nat → R) :
    sumTo (m + 11) f = sumTo m f + f m + f (m + 1) + f (m + 2) + f (m + 3) + f (m + 4)
      + f (m + 5) + f (m + 6) + f (m + 7) + f (m + 8) + f (m + 9) + f (m + 10) := rfl

/-- A matrix with a left inverse has at most one solution of `A x = b`. -/
theorem left_inverse_unique (n : Nat) (A L : Nat → Nat → R) (x b : Vec R)
    (hL : ∀ i, i < n → ∀ j, j < n → sumTo n (fun k => L i k * A k j) = if i = j then 1 else 0)
    (hx : ∀ i, i < n → sumTo n (fun k => A i k * x k) = b i) :
    ∀ i, i < n → x i = sumTo n (fun k => L i k * b k) := by
  intro i hi
  have h1 : sumTo n (fun k => L i k * b k)
      = sumTo n (fun k => L i k * sumTo n (fun j => A k j * x j)) :=
    sumTo_congr n _ _ (fun k hk => by rw [hx k hk])
  rw [h1]
  simp only [sumTo_eq_sum, Finset.mul_sum]
  rw [Finset.sum_comm]
  have h2 : ∀ j ∈ Finset.range n, (∑ k in Finset.range n, L i k * (A k j * x j))
      = (if i = j then 1 else 0) * x j := by
    intro j hj
    rw [← hL i hi j (Finset.mem_range.mp hj), sumTo_eq_sum, Finset.sum_mul]
    exact Finset.sum_congr rfl (fun k _ => by ring)
  rw [Finset.sum_congr rfl h2]
  simp [Finset.sum_ite_eq, hi]

theorem compute_J_matrix_one (st : Int) (i j : Nat) :
    (compute_J_matrix st 1 : NumericsMatrix R).entry i j =
      if (i < 3 ∧ j = i) ∨ (i = 0 ∧ j = 3) ∨ (i = 3 ∧ j = 4) ∨ (i = 4 ∧ j = 5) then 1 else 0 := by
  simp only [compute_J_matrix, NM_insert, NM_eye, NM_create, u32, List.range, List.range.loop,
    List.foldl]
  norm_num
  split_ifs <;> first | (exfalso; omega) | simp

end NewtonSystems

section NewtonRows
variable {R : Type} [Field R]

/-- For one contact the rows of `M`, `-H'`, `-H`, `J` end at `m + 5`: the common part of
the two Jacobians has no entry below. -/
theorem jac_common_high (c : IPMContext R) (m : Nat)
    (hD : c.dims = { m := m, nd := 5, d := 5, n := 1, m_plus_nd := m + 5, d_minus_2 := 3,
                     n_dminus2 := 3, n_dplus1 := 6 })
    (hJ : c.J = compute_J_matrix c.cst.NM_SPARSE 1)
    (hM : ∀ i k, m ≤ i → c.M.entry i k = 0)
    (hH : ∀ i k, 5 ≤ i ∨ m ≤ k → c.minus_H.entry i k = 0)
    (i j : Nat) (hi : m + 5 ≤ i) : (ipm_jac_common c).entry i j = 0 := by
  have h1 : c.M.entry i j = 0 := hM i j (by omega)
  have h2 : c.minus_H.entry (j - m) i = 0 := hH _ _ (Or.inr (by omega))
  have h3 : c.minus_H.entry (i - m) j = 0 := hH _ _ (Or.inl (by omega))
  have h4 : c.J.entry (i - m) (j - (m + 5)) = 0 := by
    rw [hJ, compute_J_matrix_one, if_neg]
    omega
  simp only [ipm_jac_common, hD, NM_insert, NM_transpose, NM_create]
  simp [h1, h2, h3, h4]

theorem jac_common_low (c : IPMContext R) (m : Nat)
    (hD : c.dims = { m := m, nd := 5, d := 5, n := 1, m_plus_nd := m + 5, d_minus_2 := 3,
                     n_dminus2 := 3, n_dplus1 := 6 })
    (hm : m + 11 < 4294967296) (Q1 Q2 : NumericsMatrix R) (h : IPMHead R)
    (i j : Nat) (hi : i < m + 5) :
    (ipm_jac_scaled c Q1 Q2).entry i j = (ipm_jac_common c).entry i j ∧
    (ipm_jac_unscaled c h).entry i j = (ipm_jac_common c).entry i j := by
  have e : u32 (m + 5 + 3) = m + 8 := by
    unfold u32
    omega
  have n1 : ¬ (m + 5 ≤ i ∧ m ≤ j) := by omega
  have n2 : ¬ (m + 5 ≤ i ∧ m + 5 ≤ j) := by omega
  have n3 : ¬ (m + 8 ≤ i ∧ m + 8 ≤ j) := by omega
  have n4 : ¬ (m + 8 ≤ i ∧ m ≤ j) := by omega
  constructor
  · simp only [ipm_jac_scaled, hD, e]
    simp only [NM_insert, if_neg n1, if_neg n2, if_neg n3]
  · simp only [ipm_jac_unscaled, hD, e]
    simp only [NM_insert, if_neg n1, if_neg n2, if_neg n3, if_neg n4]

theorem jac_scaled_high (c : IPMContext R) (m : Nat)
    (hD : c.dims = { m := m, nd := 5, d := 5, n := 1, m_plus_nd := m + 5, d_minus_2 := 3,
                     n_dminus2 := 3, n_dplus1 := 6 })
    (hJ : c.J = compute_J_matrix c.cst.NM_SPARSE 1)
    (hM : ∀ i k, m ≤ i → c.M.entry i k = 0)
    (hH : ∀ i k, 5 ≤ i ∨ m ≤ k → c.minus_H.entry i k = 0)
    (hm : m + 11 < 4294967296) (Q1 Q2 : NumericsMatrix R)
    (i j : Nat) (hi : m + 5 ≤ i) :
    (ipm_jac_scaled c Q1 Q2).entry i j =
      (if m ≤ j then (compute_J_matrix c.cst.NM_SPARSE 1 : NumericsMatrix R).entry (j - m) (i - (m + 5))
        else 0)
      + (if m + 5 ≤ j then Q1.entry (i - (m + 5)) (j - (m + 5)) else 0)
      + (if m + 8 ≤ i ∧ m + 8 ≤ j then Q2.entry (i - (m + 8)) (j - (m + 8)) else 0) := by
  have e : u32 (m + 5 + 3) = m + 8 := by
    unfold u32
    omega
  have h0 := jac_common_high c m hD hJ hM hH i j hi
  simp only [ipm_jac_scaled, hD, e]
  simp only [NM_insert, NM_transpose, h0, hJ, hi, true_and]
  split_ifs <;> simp

theorem jac_unscaled_high (c : IPMContext R) (m : Nat)
    (hD : c.dims = { m := m, nd := 5, d := 5, n := 1, m_plus_nd := m + 5, d_minus_2 := 3,
                     n_dminus2 := 3, n_dplus1 := 6 })
    (hJ : c.J = compute_J_matrix c.cst.NM_SPARSE 1)
    (hM : ∀ i k, m ≤ i → c.M.entry i k = 0)
    (hH : ∀ i k, 5 ≤ i ∨ m ≤ k → c.minus_H.entry i k = 0)
    (hm : m + 11 < 4294967296) (h : IPMHead R)
    (i j : Nat) (hi : m + 5 ≤ i) :
    (ipm_jac_unscaled c h).entry i j =
      (if m ≤ j then
          ((List.range 1).foldl (ipm_blocks_contact c.dims h.velocity_1 h.velocity_2)
            (NM_create c.cst.NM_SPARSE 5 3, NM_create c.cst.NM_SPARSE 5 3)).1.entry (i - (m + 5)) (j - m)
        else 0)
      + (if m + 5 ≤ j then (c.ext.Arrow_repr h.reaction_1 3 1).entry (i - (m + 5)) (j - (m + 5)) else 0)
      + (if m + 8 ≤ i ∧ m ≤ j then
          ((List.range 1).foldl (ipm_blocks_contact c.dims h.velocity_1 h.velocity_2)
            (NM_create c.cst.NM_SPARSE 5 3, NM_create c.cst.NM_SPARSE 5 3)).2.entry (i - (m + 8)) (j - m)
        else 0)
      + (if m + 8 ≤ i ∧ m + 8 ≤ j then (c.ext.Arrow_repr h.reaction_2 3 1).entry (i - (m + 8)) (j - (m + 8))
        else 0) := by
  have e : u32 (m + 5 + 3) = m + 8 := by
    unfold u32
    omega
  have h0 := jac_common_high c m hD hJ hM hH i j hi
  simp only [ipm_jac_unscaled, hD, e]
  simp only [NM_insert, h0, hi, true_and]
  split_ifs <;> simp

end NewtonRows

section NewtonBlocks
variable {R : Type} [Field R]

theorem NM_entry_delta (A : NumericsMatrix R) (i j : Nat) (v : R) (a b : Nat) :
    (NM_entry A i j v).entry a b = A.entry a b + (if a = i ∧ b = j then v else 0) := by
  unfold NM_entry
  dsimp only
  split_ifs <;> simp

theorem blocks_one (st : Int) (D : Dims) (hd : D.d = 5) (hd2 : D.d_minus_2 = 3) (u1 u2 : Vec R)
    (r s : Nat) :
    ((List.range 1).foldl (ipm_blocks_contact D u1 u2)
        (NM_create st 5 3, NM_create st 5 3)).1.entry r s =
      (if r = 0 ∧ s < 3 then u1 s
        else if (r = 1 ∨ r = 2) ∧ s = 0 then u1 r
        else if (r = 1 ∨ r = 2) ∧ s = r then u1 0 else 0) ∧
    ((List.range 1).foldl (ipm_blocks_contact D u1 u2)
        (NM_create st 5 3, NM_create st 5 3)).2.entry r s =
      (if r = 0 ∧ s = 0 then u2 0
        else if r = 0 ∧ (s = 3 ∨ s = 4) then u2 (s - 2)
        else if (r = 1 ∨ r = 2) ∧ s = 0 then u2 r
        else if (r = 1 ∨ r = 2) ∧ s = r + 2 then u2 0 else 0) := by
  simp only [List.range, List.range.loop, List.foldl, ipm_blocks_contact, hd, hd2, List.range',
    NM_entry_delta]
  simp only [NM_create, Nat.zero_mul, Nat.zero_add, Nat.reduceAdd]
  by_cases hr3 : 3 ≤ r
  · have h0 : r ≠ 0 := by omega
    have h1 : r ≠ 1 := by omega
    have h2 : r ≠ 2 := by omega
    simp [h0, h1, h2]
  · by_cases hs5 : 5 ≤ s
    · have h0 : s ≠ 0 := by omega
      have h1 : s ≠ 1 := by omega
      have h2 : s ≠ 2 := by omega
      have h3 : s ≠ 3 := by omega
      have h4 : s ≠ 4 := by omega
      have h5 : ¬ s < 3 := by omega
      have h6 : s ≠ r := by omega
      have h7 : s ≠ r + 2 := by omega
      simp [h0, h1, h2, h3, h4, h5, h6, h7]
    · have hr : r = 0 ∨ r = 1 ∨ r = 2 := by omega
      have hs : s = 0 ∨ s = 1 ∨ s = 2 ∨ s = 3 ∨ s = 4 := by omega
      rcases hr with rfl | rfl | rfl <;> rcases hs with rfl | rfl | rfl | rfl | rfl <;>
        constructor <;> norm_num

end NewtonBlocks

section NewtonRowSums
variable {R : Type} [Field R]

theorem scaled_rows (c : IPMContext R) (m : Nat)
    (hD : c.dims = { m := m, nd := 5, d := 5, n := 1, m_plus_nd := m + 5, d_minus_2 := 3,
                     n_dminus2 := 3, n_dplus1 := 6 })
    (hJ : c.J = compute_J_matrix c.cst.NM_SPARSE 1)
    (hM : ∀ i k, m ≤ i → c.M.entry i k = 0)
    (hH : ∀ i k, 5 ≤ i ∨ m ≤ k → c.minus_H.entry i k = 0)
    (hm : m + 11 < 4294967296) (Q1 Q2 : NumericsMatrix R)
    (hQ1 : ∀ i k, 3 ≤ i ∨ 3 ≤ k → Q1.entry i k = 0)
    (hQ2 : ∀ i k, 3 ≤ i ∨ 3 ≤ k → Q2.entry i k = 0)
    (x : Vec R) (a : Nat) (ha : a < 3) :
    sumTo (m + 11) (fun k => (ipm_jac_scaled c Q1 Q2).entry (m + 5 + a) k * x k)
      = x (m + a) + block_apply Q1 (shift x (m + 5)) a ∧
    sumTo (m + 11) (fun k => (ipm_jac_scaled c Q1 Q2).entry (m + 8 + a) k * x k)
      = (if a = 0 then x m else x (m + a + 2)) + block_apply Q2 (shift x (m + 8)) a := by
  have hz : ∀ i, m + 5 ≤ i →
      sumTo m (fun k => (ipm_jac_scaled c Q1 Q2).entry i k * x k) = 0 := by
    intro i hi
    apply sumTo_eq_zero
    intro k hk
    rw [jac_scaled_high c m hD hJ hM hH hm Q1 Q2 i k hi, if_neg (by omega), if_neg (by omega),
      if_neg (by omega)]
    simp
  have q1 : ∀ i k, 3 ≤ k → Q1.entry i k = 0 := fun i k h => hQ1 i k (Or.inr h)
  have q1r : ∀ i k, 3 ≤ i → Q1.entry i k = 0 := fun i k h => hQ1 i k (Or.inl h)
  have q2 : ∀ i k, 3 ≤ k → Q2.entry i k = 0 := fun i k h => hQ2 i k (Or.inr h)
  have ha3 : a = 0 ∨ a = 1 ∨ a = 2 := by omega
  constructor
  · rw [sumTo_add_eleven, hz _ (by omega)]
    simp only [jac_scaled_high c m hD hJ hM hH hm Q1 Q2 _ _ (show m + 5 ≤ m + 5 + a by omega),
      compute_J_matrix_one, block_apply, shift]
    rcases ha3 with rfl | rfl | rfl <;>
      simp [Nat.add_sub_add_left, Nat.add_assoc, q1, q1r, q2] <;> ring
  · rw [sumTo_add_eleven, hz _ (by omega)]
    simp only [jac_scaled_high c m hD hJ hM hH hm Q1 Q2 _ _ (show m + 5 ≤ m + 8 + a by omega),
      compute_J_matrix_one, block_apply, shift]
    rcases ha3 with rfl | rfl | rfl <;>
      simp [Nat.add_sub_add_left, Nat.add_assoc, q1, q1r, q2] <;> ring

end NewtonRowSums

section NewtonUnscaled
variable {R : Type} [Field R]

theorem Arrow_repr_spec_one (v : Vec R) (i j : Nat) :
    (Arrow_repr_spec v 3 1).entry i j =
      if i < 3 ∧ j < 3 then
        (if i = 0 then v j else if j = 0 then v i else if i = j then v 0 else 0)
      else 0 := by
  unfold Arrow_repr_spec
  dsimp only
  by_cases h : i < 3 ∧ j < 3
  · have hi : i = 0 ∨ i = 1 ∨ i = 2 := by omega
    have hj : j = 0 ∨ j = 1 ∨ j = 2 := by omega
    rcases hi with rfl | rfl | rfl <;> rcases hj with rfl | rfl | rfl <;> norm_num
  · rw [if_neg h, if_neg]
    omega

theorem unscaled_rows (c : IPMContext R) (m : Nat)
    (hD : c.dims = { m := m, nd := 5, d := 5, n := 1, m_plus_nd := m + 5, d_minus_2 := 3,
                     n_dminus2 := 3, n_dplus1 := 6 })
    (hJ : c.J = compute_J_matrix c.cst.NM_SPARSE 1)
    (hM : ∀ i k, m ≤ i → c.M.entry i k = 0)
    (hH : ∀ i k, 5 ≤ i ∨ m ≤ k → c.minus_H.entry i k = 0)
    (hm : m + 11 < 4294967296) (h : IPMHead R)
    (hA : c.ext.Arrow_repr = Arrow_repr_spec)
    (x : Vec R) (a : Nat) (ha : a < 3) :
    sumTo (m + 11) (fun k => (ipm_jac_unscaled c h).entry (m + 5 + a) k * x k)
      = block_apply (Arrow_repr_spec h.velocity_1 3 1) (shift x m) a
        + block_apply (Arrow_repr_spec h.reaction_1 3 1) (shift x (m + 5)) a ∧
    sumTo (m + 11) (fun k => (ipm_jac_unscaled c h).entry (m + 8 + a) k * x k)
      = block_apply (Arrow_repr_spec h.velocity_2 3 1)
          (fun b => if b = 0 then x m else x (m + b + 2)) a
        + block_apply (Arrow_repr_spec h.reaction_2 3 1) (shift x (m + 8)) a := by
  have hd : c.dims.d = 5 := by rw [hD]
  have hd2 : c.dims.d_minus_2 = 3 := by rw [hD]
  have hz : ∀ i, m + 5 ≤ i →
      sumTo m (fun k => (ipm_jac_unscaled c h).entry i k * x k) = 0 := by
    intro i hi
    apply sumTo_eq_zero
    intro k hk
    rw [jac_unscaled_high c m hD hJ hM hH hm h i k hi, if_neg (by omega), if_neg (by omega),
      if_neg (by omega), if_neg (by omega)]
    simp
  have ha3 : a = 0 ∨ a = 1 ∨ a = 2 := by omega
  constructor
  · rw [sumTo_add_eleven, hz _ (by omega)]
    simp only [jac_unscaled_high c m hD hJ hM hH hm h _ _ (show m + 5 ≤ m + 5 + a by omega),
      (blocks_one c.cst.NM_SPARSE c.dims hd hd2 h.velocity_1 h.velocity_2 _ _).1,
      (blocks_one c.cst.NM_SPARSE c.dims hd hd2 h.velocity_1 h.velocity_2 _ _).2,
      hA, Arrow_repr_spec_one, block_apply, shift]
    rcases ha3 with rfl | rfl | rfl <;>
      simp [Nat.add_sub_add_left, Nat.add_assoc] <;> ring
  · rw [sumTo_add_eleven, hz _ (by omega)]
    simp only [jac_unscaled_high c m hD hJ hM hH hm h _ _ (show m + 5 ≤ m + 8 + a by omega),
      (blocks_one c.cst.NM_SPARSE c.dims hd hd2 h.velocity_1 h.velocity_2 _ _).1,
      (blocks_one c.cst.NM_SPARSE c.dims hd hd2 h.velocity_1 h.velocity_2 _ _).2,
      hA, Arrow_repr_spec_one, block_apply, shift]
    rcases ha3 with rfl | rfl | rfl <;>
      simp [Nat.add_sub_add_left, Nat.add_assoc] <;> ring

end NewtonUnscaled

section NewtonRhs
variable {R : Type} [Field R]

theorem ipm_rhs_one (c : IPMContext R) (m : Nat)
    (hD : c.dims = { m := m, nd := 5, d := 5, n := 1, m_plus_nd := m + 5, d_minus_2 := 3,
                     n_dminus2 := 3, n_dplus1 := 6 })
    (hm : m + 11 < 4294967296) (h : IPMHead R) (c1 c2 rhs0 : Vec R) :
    (∀ i, i < m + 5 → ∀ e1 e2 : Vec R, ipm_rhs c h c1 c2 rhs0 i = ipm_rhs c h e1 e2 rhs0 i) ∧
    (∀ a, a < 3 → ipm_rhs c h c1 c2 rhs0 (m + 5 + a) = - c1 a) ∧
    (∀ a, a < 3 → ipm_rhs c h c1 c2 rhs0 (m + 8 + a) = - c2 a) := by
  have e : u32 (m + 5 + 6) = m + 11 := by
    unfold u32
    omega
  refine ⟨?_, ?_, ?_⟩
  · intro i hi e1 e2
    simp only [ipm_rhs, hD, e, cblas_dscal, at_off, cblas_dcopy, shift]
    have h1 : i < m + 5 + 3 := by omega
    simp only [h1, hi, if_true]
  · intro a ha
    simp only [ipm_rhs, hD, e, cblas_dscal, at_off, cblas_dcopy, shift]
    have h1 : m + 5 + a < m + 11 := by omega
    have h2 : m + 5 + a < m + 5 + 3 := by omega
    have h3 : ¬ m + 5 + a < m + 5 := by omega
    have h4 : m + 5 + a - (m + 5) = a := by omega
    simp only [h1, h2, h3, h4, ha, if_true, if_false]
    push_cast
    ring
  · intro a ha
    simp only [ipm_rhs, hD, e, cblas_dscal, at_off, cblas_dcopy, shift]
    have h1 : m + 8 + a < m + 11 := by omega
    have h2 : ¬ m + 8 + a < m + 5 + 3 := by omega
    have h4 : m + 8 + a - (m + 5 + 3) = a := by omega
    simp only [h1, h2, h4, ha, if_true, if_false]
    push_cast
    ring

end NewtonRhs

section NewtonCompare
variable {R : Type} [Field R]

theorem arrow_apply (u v : Vec R) :
    block_apply (Arrow_repr_spec u 3 1) v 0 = u 0 * v 0 + u 1 * v 1 + u 2 * v 2 ∧
    block_apply (Arrow_repr_spec u 3 1) v 1 = u 1 * v 0 + u 0 * v 1 ∧
    block_apply (Arrow_repr_spec u 3 1) v 2 = u 2 * v 0 + u 0 * v 2 := by
  simp only [block_apply, Arrow_repr_spec_one]
  norm_num

theorem JA_prod_spec_one (u r : Vec R) :
    JA_prod_spec u r 3 1 0 = u 0 * r 0 + u 1 * r 1 + u 2 * r 2 ∧
    JA_prod_spec u r 3 1 1 = u 0 * r 1 + r 0 * u 1 ∧
    JA_prod_spec u r 3 1 2 = u 0 * r 2 + r 0 * u 2 := by
  simp only [JA_prod_spec, sumTo]
  norm_num

/-- The complementarity rows of the two systems for one cone block: with the scaled rows
`dr + Q du = -r`, the rows `arw(u) dr + arw(r) du = -(u o r)` hold exactly when
`arw(u) (Q du) = arw(r) du`. -/
theorem block_rows_iff (u r dr du qdu : Vec R)
    (hs : ∀ a, a < 3 → dr a + qdu a = - r a) :
    (∀ a, a < 3 → block_apply (Arrow_repr_spec u 3 1) dr a
        + block_apply (Arrow_repr_spec r 3 1) du a = - JA_prod_spec u r 3 1 a) ↔
    (∀ a, a < 3 → block_apply (Arrow_repr_spec u 3 1) qdu a
        = block_apply (Arrow_repr_spec r 3 1) du a) := by
  have s0 := hs 0 (by norm_num)
  have s1 := hs 1 (by norm_num)
  have s2 := hs 2 (by norm_num)
  obtain ⟨a0, a1, a2⟩ := arrow_apply u dr
  obtain ⟨b0, b1, b2⟩ := arrow_apply r du
  obtain ⟨c0, c1, c2⟩ := arrow_apply u qdu
  obtain ⟨p0, p1, p2⟩ := JA_prod_spec_one u r
  constructor
  · intro hu a ha
    have ha3 : a = 0 ∨ a = 1 ∨ a = 2 := by omega
    rcases ha3 with rfl | rfl | rfl
    · have h := hu 0 (by norm_num)
      rw [a0, b0, p0] at h
      rw [c0, b0]
      linear_combination (-1 : R) * h + u 0 * s0 + u 1 * s1 + u 2 * s2
    · have h := hu 1 (by norm_num)
      rw [a1, b1, p1] at h
      rw [c1, b1]
      linear_combination (-1 : R) * h + u 1 * s0 + u 0 * s1
    · have h := hu 2 (by norm_num)
      rw [a2, b2, p2] at h
      rw [c2, b2]
      linear_combination (-1 : R) * h + u 2 * s0 + u 0 * s2
  · intro hq a ha
    have ha3 : a = 0 ∨ a = 1 ∨ a = 2 := by omega
    rcases ha3 with rfl | rfl | rfl
    · have h := hq 0 (by norm_num)
      rw [c0, b0] at h
      rw [a0, b0, p0]
      linear_combination (-1 : R) * h + u 0 * s0 + u 1 * s1 + u 2 * s2
    · have h := hq 1 (by norm_num)
      rw [c1, b1] at h
      rw [a1, b1, p1]
      linear_combination (-1 : R) * h + u 1 * s0 + u 0 * s1
    · have h := hq 2 (by norm_num)
      rw [c2, b2] at h
      rw [a2, b2, p2]
      linear_combination (-1 : R) * h + u 2 * s0 + u 0 * s2

end NewtonCompare

section NewtonMain
variable {R : Type} [Field R]

theorem jac_sizes (c : IPMContext R) (m : Nat)
    (hD : c.dims = { m := m, nd := 5, d := 5, n := 1, m_plus_nd := m + 5, d_minus_2 := 3,
                     n_dminus2 := 3, n_dplus1 := 6 })
    (hm : m + 11 < 4294967296) (Q1 Q2 : NumericsMatrix R) (h : IPMHead R) :
    (ipm_jac_scaled c Q1 Q2).size0 = m + 11 ∧ (ipm_jac_scaled c Q1 Q2).size1 = m + 11 ∧
    (ipm_jac_unscaled c h).size0 = m + 11 ∧ (ipm_jac_unscaled c h).size1 = m + 11 := by
  have e : u32 (m + 5 + 6) = m + 11 := by
    unfold u32
    omega
  simp only [ipm_jac_scaled, ipm_jac_unscaled, ipm_jac_common, NM_insert, NM_create, hD, e]
  simp

/-- C5 (amended): for a problem with one contact (`d = 5`, `m` degrees of freedom) and any
matrices `Q1`, `Q2` in the place of the squared scaling matrices, a solution `x` of the
system with Nesterov-Todd scaling (rows `[M -H' 0; -H 0 J; 0 J' Q^2]`, complementarity
right-hand side `-r_k`) solves the system without scaling (arrow-matrix rows, right-hand side
`-(u_k o r_k)`) if and only if `arw(u_k) (Q_k du_k) = arw(r_k) du_k` holds for both cone
sub-blocks, where `du_1`, `du_2` are the six trailing entries of `x`. -/
theorem grfc3d_IPM_newton_systems (c : IPMContext R) (h : IPMHead R) (Q1 Q2 : NumericsMatrix R)
    (rhs0 x : Vec R) (m : Nat)
    (hD : c.dims = { m := m, nd := 5, d := 5, n := 1, m_plus_nd := m + 5, d_minus_2 := 3,
                     n_dminus2 := 3, n_dplus1 := 6 })
    (hm : m + 11 < 4294967296)
    (hJ : c.J = compute_J_matrix c.cst.NM_SPARSE 1)
    (hM : ∀ i k, m ≤ i → c.M.entry i k = 0)
    (hH : ∀ i k, 5 ≤ i ∨ m ≤ k → c.minus_H.entry i k = 0)
    (hQ1 : ∀ i k, 3 ≤ i ∨ 3 ≤ k → Q1.entry i k = 0)
    (hQ2 : ∀ i k, 3 ≤ i ∨ 3 ≤ k → Q2.entry i k = 0)
    (hA : c.ext.Arrow_repr = Arrow_repr_spec)
    (hP : c.ext.JA_prod = JA_prod_spec)
    (hs : solves_system (ipm_jac_scaled c Q1 Q2) x
      (ipm_rhs c h h.reaction_1 h.reaction_2 rhs0)) :
    solves_system (ipm_jac_unscaled c h) x
        (ipm_rhs c h (c.ext.JA_prod h.velocity_1 h.reaction_1 c.dims.n_dminus2 c.dims.n)
          (c.ext.JA_prod h.velocity_2 h.reaction_2 c.dims.n_dminus2 c.dims.n) rhs0) ↔
      (∀ a, a < 3 →
        block_apply (Arrow_repr_spec h.velocity_1 3 1) (block_apply Q1 (shift x (m + 5))) a
          = block_apply (Arrow_repr_spec h.reaction_1 3 1) (shift x (m + 5)) a) ∧
      (∀ a, a < 3 →
        block_apply (Arrow_repr_spec h.velocity_2 3 1) (block_apply Q2 (shift x (m + 8))) a
          = block_apply (Arrow_repr_spec h.reaction_2 3 1) (shift x (m + 8)) a) := by
  obtain ⟨z1, z2, z3, z4⟩ := jac_sizes c m hD hm Q1 Q2 h
  have hn1 : c.dims.n_dminus2 = 3 := by rw [hD]
  have hn2 : c.dims.n = 1 := by rw [hD]
  rw [hP, hn1, hn2]
  unfold solves_system at hs ⊢
  rw [z1, z2] at hs
  rw [z3, z4]
  obtain ⟨r0, r1, r2⟩ := ipm_rhs_one c m hD hm h h.reaction_1 h.reaction_2 rhs0
  obtain ⟨t0, t1, t2⟩ := ipm_rhs_one c m hD hm h (JA_prod_spec h.velocity_1 h.reaction_1 3 1)
    (JA_prod_spec h.velocity_2 h.reaction_2 3 1) rhs0
  have S1 : ∀ a, a < 3 → shift x m a + block_apply Q1 (shift x (m + 5)) a = - h.reaction_1 a := by
    intro a ha
    have e := hs (m + 5 + a) (by omega)
    rw [(scaled_rows c m hD hJ hM hH hm Q1 Q2 hQ1 hQ2 x a ha).1, r1 a ha] at e
    exact e
  have S2 : ∀ a, a < 3 → (fun b => if b = 0 then x m else x (m + b + 2)) a
      + block_apply Q2 (shift x (m + 8)) a = - h.reaction_2 a := by
    intro a ha
    have e := hs (m + 8 + a) (by omega)
    rw [(scaled_rows c m hD hJ hM hH hm Q1 Q2 hQ1 hQ2 x a ha).2, r2 a ha] at e
    exact e
  rw [← block_rows_iff h.velocity_1 h.reaction_1 (shift x m) (shift x (m + 5))
      (block_apply Q1 (shift x (m + 5))) S1,
    ← block_rows_iff h.velocity_2 h.reaction_2 (fun b => if b = 0 then x m else x (m + b + 2))
      (shift x (m + 8)) (block_apply Q2 (shift x (m + 8))) S2]
  constructor
  · intro hu
    constructor
    · intro a ha
      have e := hu (m + 5 + a) (by omega)
      rw [(unscaled_rows c m hD hJ hM hH hm h hA x a ha).1, t1 a ha] at e
      exact e
    · intro a ha
      have e := hu (m + 8 + a) (by omega)
      rw [(unscaled_rows c m hD hJ hM hH hm h hA x a ha).2, t2 a ha] at e
      exact e
  · rintro ⟨h1, h2⟩ i hi
    by_cases hlow : i < m + 5
    · have e := hs i hi
      rw [r0 i hlow (JA_prod_spec h.velocity_1 h.reaction_1 3 1)
        (JA_prod_spec h.velocity_2 h.reaction_2 3 1)] at e
      rw [← e]
      exact sumTo_congr _ _ _ (fun k _ => by
        rw [(jac_common_low c m hD hm Q1 Q2 h i k hlow).1, (jac_common_low c m hD hm Q1 Q2 h i k hlow).2])
    · by_cases hmid : i < m + 8
      · obtain ⟨a, ha, rfl⟩ : ∃ a, a < 3 ∧ i = m + 5 + a := ⟨i - (m + 5), by omega, by omega⟩
        rw [(unscaled_rows c m hD hJ hM hH hm h hA x a ha).1, t1 a ha]
        exact h1 a ha
      · obtain ⟨a, ha, rfl⟩ : ∃ a, a < 3 ∧ i = m + 8 + a := ⟨i - (m + 8), by omega, by omega⟩
        rw [(unscaled_rows c m hD hJ hM hH hm h hA x a ha).2, t2 a ha]
        exact h2 a ha

end NewtonMain

theorem nt_context_facts :
    nt_context.dims = { m := 1, nd := 5, d := 5, n := 1, m_plus_nd := 1 + 5, d_minus_2 := 3,
                        n_dminus2 := 3, n_dplus1 := 6 } ∧
    nt_context.J = compute_J_matrix nt_context.cst.NM_SPARSE 1 ∧
    (∀ i k, 1 ≤ i → nt_context.M.entry i k = 0) ∧
    (∀ i k, 5 ≤ i ∨ 1 ≤ k → nt_context.minus_H.entry i k = 0) ∧
    (∀ i k, 3 ≤ i ∨ 3 ≤ k → (Quad_repr_spec nt_point 3 1).entry i k = 0) := by
  refine ⟨rfl, rfl, ?_, ?_, ?_⟩
  · intro i k hi
    show (if i = 0 ∧ k = 0 then (1 : ℚ) else 0) = 0
    rw [if_neg]
    omega
  · intro i k _
    show ((-1 : ℚ) : ℚ) * sumTo 1 (fun a => sumTo 5 (fun b => _ * (0 : ℚ)) * _)
      + ((0 : ℚ) : ℚ) * sumTo 5 (fun b => _ * (0 : ℚ)) = 0
    simp [sumTo]
  · intro i k hik
    unfold Quad_repr_spec
    dsimp only
    rw [if_neg]
    omega

/-- Witness for C5 (amended): the one-contact context `nt_context` with the scaling point
`w = (2, 1, 1)` and the iterate `nt_state 1` satisfies the hypotheses, with
`nt_scaled_solution` as the solution of the scaled system. -/
theorem grfc3d_IPM_newton_systems_witness :
    solves_system
        (ipm_jac_scaled nt_context (Quad_repr_spec nt_point 3 1) (Quad_repr_spec nt_point 3 1))
        nt_scaled_solution
        (ipm_rhs nt_context (nt_head 1) (nt_head 1).reaction_1 (nt_head 1).reaction_2 (nt_state 1).rhs)
    ∧ (solves_system (ipm_jac_unscaled nt_context (nt_head 1)) nt_scaled_solution
        (ipm_rhs nt_context (nt_head 1)
          (nt_context.ext.JA_prod (nt_head 1).velocity_1 (nt_head 1).reaction_1
            nt_context.dims.n_dminus2 nt_context.dims.n)
          (nt_context.ext.JA_prod (nt_head 1).velocity_2 (nt_head 1).reaction_2
            nt_context.dims.n_dminus2 nt_context.dims.n) (nt_state 1).rhs) ↔
      (∀ a, a < 3 →
        block_apply (Arrow_repr_spec (nt_head 1).velocity_1 3 1)
            (block_apply (Quad_repr_spec nt_point 3 1) (shift nt_scaled_solution (1 + 5))) a
          = block_apply (Arrow_repr_spec (nt_head 1).reaction_1 3 1)
              (shift nt_scaled_solution (1 + 5)) a) ∧
      (∀ a, a < 3 →
        block_apply (Arrow_repr_spec (nt_head 1).velocity_2 3 1)
            (block_apply (Quad_repr_spec nt_point 3 1) (shift nt_scaled_solution (1 + 8))) a
          = block_apply (Arrow_repr_spec (nt_head 1).reaction_2 3 1)
              (shift nt_scaled_solution (1 + 8)) a)) :=
  ⟨by decide!,
   grfc3d_IPM_newton_systems nt_context (nt_head 1) (Quad_repr_spec nt_point 3 1)
     (Quad_repr_spec nt_point 3 1) (nt_state 1).rhs nt_scaled_solution 1
     nt_context_facts.1 (by norm_num) nt_context_facts.2.1 nt_context_facts.2.2.1
     nt_context_facts.2.2.2.1 nt_context_facts.2.2.2.2 nt_context_facts.2.2.2.2 rfl rfl
     (by decide!)⟩

/-- Counterexample to C5: one pass of `grfc3d_IPM` on a one-contact problem from the iterate
`u = (4, -1, 1, -1, 1)`, `r = (12, 6, 10, 6, 10)`, `t = t' = 2`, `v = 0`, which lies strictly
inside the cones.  The matrix `Q^2` of both sub-blocks is the quadratic representation of
`w = (2, 1, 1)`, a point inside the cone with `Q_w u_k = r_k` (the Nesterov-Todd scaling of
`u_k`, `r_k`).  Both Jacobians have a left inverse, so each system has exactly one solution,
the one the solver returns; the scaled system gives `dr = (-6, -4, -4, -4, -4)` and the system
without scaling gives `dr = (-10, -8, 0, -8, 0)`. -/
theorem grfc3d_IPM_scaling_direction_counterexample :
    (in_cone (nt_head 1).velocity_1 0 ∧ in_cone (nt_head 1).velocity_2 0 ∧
      in_cone (nt_head 1).reaction_1 0 ∧ in_cone (nt_head 1).reaction_2 0) ∧
    ((nt_head 0).velocity_1 = (nt_head 1).velocity_1 ∧ (nt_head 0).velocity_2 = (nt_head 1).velocity_2 ∧
      (nt_head 0).reaction_1 = (nt_head 1).reaction_1 ∧ (nt_head 0).reaction_2 = (nt_head 1).reaction_2 ∧
      (nt_head 0).primalConstraint = (nt_head 1).primalConstraint ∧
      (nt_head 0).dualConstraint = (nt_head 1).dualConstraint) ∧
    (ipm_converged nt_context (nt_head 1) = false ∧ ipm_converged nt_context (nt_head 0) = false) ∧
    (in_cone nt_point 0 ∧
      ipm_jacobian nt_context (nt_state 1) (nt_head 1)
        = ipm_jac_scaled nt_context (Quad_repr_spec nt_point 3 1) (Quad_repr_spec nt_point 3 1) ∧
      (∀ a, a < 3 → block_apply (Quad_repr_spec nt_point 3 1) (nt_head 1).velocity_1 a
        = (nt_head 1).reaction_1 a) ∧
      (∀ a, a < 3 → block_apply (Quad_repr_spec nt_point 3 1) (nt_head 1).velocity_2 a
        = (nt_head 1).reaction_2 a)) ∧
    (∀ x, solves_system (ipm_jacobian nt_context (nt_state 1) (nt_head 1)) x
        (ipm_rhs nt_context (nt_head 1) (nt_head 1).reaction_1 (nt_head 1).reaction_2 (nt_state 1).rhs)
      ↔ ∀ k, k < 12 → x k = nt_scaled_solution k) ∧
    (∀ x, solves_system (ipm_jacobian nt_context (nt_state 0) (nt_head 0)) x
        (ipm_rhs nt_context (nt_head 0)
          (nt_context.ext.JA_prod (nt_head 0).velocity_1 (nt_head 0).reaction_1 3 1)
          (nt_context.ext.JA_prod (nt_head 0).velocity_2 (nt_head 0).reaction_2 3 1) (nt_state 0).rhs)
      ↔ ∀ k, k < 12 → x k = nt_unscaled_solution k) ∧
    ((ipm_predictor nt_context (nt_state 1) (nt_head 1)).rhs = nt_scaled_solution ∧
      (ipm_predictor nt_context (nt_state 0) (nt_head 0)).rhs = nt_unscaled_solution) ∧
    ((List.range 5).map (ipm_predictor nt_context (nt_state 1) (nt_head 1)).dir.d_reaction
        = [-6, -4, -4, -4, -4] ∧
      (List.range 5).map (ipm_predictor nt_context (nt_state 0) (nt_head 0)).dir.d_reaction
        = [-10, -8, 0, -8, 0]) := by
  have uniq : ∀ (A : NumericsMatrix ℚ) (L : Nat → Nat → ℚ) (b sol : Vec ℚ),
      A.size0 = 12 → A.size1 = 12 →
      (∀ i, i < 12 → ∀ j, j < 12 →
        sumTo 12 (fun k => L i k * A.entry k j) = if i = j then 1 else 0) →
      (∀ i, i < 12 → sumTo 12 (fun k => L i k * b k) = sol i) →
      solves_system A sol b →
      ∀ x, solves_system A x b ↔ ∀ k, k < 12 → x k = sol k := by
    intro A L b sol h0 h1 hL hb hsol x
    constructor
    · intro hx k hk
      unfold solves_system at hx
      rw [h0, h1] at hx
      rw [left_inverse_unique 12 A.entry L x b hL hx k hk, hb k hk]
    · intro hx i hi
      rw [← hsol i hi]
      exact sumTo_congr _ _ _ (fun k hk => by rw [hx k (by rw [h1] at hk; exact hk)])
  refine ⟨by decide!, ⟨rfl, rfl, rfl, rfl, rfl, rfl⟩, by decide!, ⟨by decide!, rfl, by decide!, by decide!⟩,
    ?_, ?_, ⟨rfl, rfl⟩, by decide!⟩
  · exact uniq _ nt_scaled_inverse _ _ (by decide!) (by decide!) (by decide!) (by decide!)
      (by decide!)
  · exact uniq _ nt_unscaled_inverse _ _ (by decide!) (by decide!) (by decide!) (by decide!)
      (by decide!)

section NewtonStages
variable {R L : Type} [Zero R] [RatCast R] [Add R] [Mul R] [LE R] [LT R]
  [DecidableRel (α := R) (· ≤ ·)] [DecidableRel (α := R) (· < ·)]

/-- The pass of `newton_LSA` written with its stages: direction search, gradient, second
solve after a failed search, trial point, line search, update. -/
theorem lsa_pass_stages (ext : LSAExternals R L) (n : Nat) (opt : LSAOptions R)
    (fn : functions_LSA R) (s sd s2 s4 : LSAState R L) (theta_iter : Option R)
    (hd : lsa_direction ext n opt.params fn { s with iter := s.iter + 1, info_dir_search := 0 }
      = some sd)
    (hg : lsa_gradient fn sd = some s2)
    (hc : ¬ (s2.info_dir_search ≠ 0 ∧ fn.compute_RHS_desc.isNone))
    (ht : lsa_trial ext n fn (if s2.info_dir_search ≠ 0 then lsa_solve ext n opt.params s2 else s2)
      = some (s4, theta_iter)) :
    lsa_pass ext n opt fn s =
      match lsa_finish_pass ext n opt fn
          (if lsa_needs_search ext opt.params fn s4 theta_iter then lsa_search ext n opt s4
            else (s4, ((1 : ℚ) : R))).1
          (if lsa_needs_search ext opt.params fn s4 theta_iter then lsa_search ext n opt s4
            else (s4, ((1 : ℚ) : R))).2 with
      | none => LSAStep.null_call
      | some s5 => LSAStep.next s5 := by
  unfold lsa_pass
  dsimp only
  rw [hd]
  dsimp only
  rw [hg]
  dsimp only
  rw [if_neg hc, ht]

/-- A completed pass has gone through all the stages. -/
theorem lsa_pass_next_stages (ext : LSAExternals R L) (n : Nat) (opt : LSAOptions R)
    (fn : functions_LSA R) (s s5 : LSAState R L)
    (h : lsa_pass ext n opt fn s = LSAStep.next s5) :
    ∃ sd s2 s4 theta_iter,
      lsa_direction ext n opt.params fn { s with iter := s.iter + 1, info_dir_search := 0 }
        = some sd ∧
      lsa_gradient fn sd = some s2 ∧
      ¬ (s2.info_dir_search ≠ 0 ∧ fn.compute_RHS_desc.isNone) ∧
      lsa_trial ext n fn (if s2.info_dir_search ≠ 0 then lsa_solve ext n opt.params s2 else s2)
        = some (s4, theta_iter) ∧
      lsa_finish_pass ext n opt fn
          (if lsa_needs_search ext opt.params fn s4 theta_iter then lsa_search ext n opt s4
            else (s4, ((1 : ℚ) : R))).1
          (if lsa_needs_search ext opt.params fn s4 theta_iter then lsa_search ext n opt s4
            else (s4, ((1 : ℚ) : R))).2 = some s5 := by
  cases hd : lsa_direction ext n opt.params fn { s with iter := s.iter + 1, info_dir_search := 0 } with
  | none =>
    unfold lsa_pass at h
    dsimp only at h
    rw [hd] at h
    cases h
  | some sd =>
    cases hg : lsa_gradient fn sd with
    | none =>
      unfold lsa_pass at h
      dsimp only at h
      rw [hd] at h
      dsimp only at h
      rw [hg] at h
      cases h
    | some s2 =>
      by_cases hc : s2.info_dir_search ≠ 0 ∧ fn.compute_RHS_desc.isNone
      · unfold lsa_pass at h
        dsimp only at h
        rw [hd] at h
        dsimp only at h
        rw [hg] at h
        dsimp only at h
        rw [if_pos hc] at h
        cases h
      · cases ht : lsa_trial ext n fn
            (if s2.info_dir_search ≠ 0 then lsa_solve ext n opt.params s2 else s2) with
        | none =>
          unfold lsa_pass at h
          dsimp only at h
          rw [hd] at h
          dsimp only at h
          rw [hg] at h
          dsimp only at h
          rw [if_neg hc, ht] at h
          cases h
        | some p =>
          obtain ⟨s4, theta_iter⟩ := p
          rw [lsa_pass_stages ext n opt fn s sd s2 s4 theta_iter hd hg hc ht] at h
          refine ⟨sd, s2, s4, theta_iter, rfl, hg, hc, ht, ?_⟩
          split at h
          · cases h
          · rename_i s6 hf
            cases h
            exact hf

end NewtonStages

section NewtonGhost
variable {R L : Type} [Zero R] [RatCast R] [Add R] [Mul R] [LE R] [LT R]
  [DecidableRel (α := R) (· ≤ ·)] [DecidableRel (α := R) (· < ·)]

omit [LE R] [LT R] [DecidableRel (α := R) (· ≤ ·)] [DecidableRel (α := R) (· < ·)] in
/-- The direction search: with `compute_descent_direction` no linear solve is made, in
the other two branches exactly one; `z`, `F`, `theta`, `err` and the count of line
searches are kept. -/
theorem lsa_direction_frame (ext : LSAExternals R L) (n : Nat) (params : newton_LSA_param R)
    (fn : functions_LSA R) (s sd : LSAState R L) (h : lsa_direction ext n params fn s = some sd) :
    sd.solves = (if fn.compute_descent_direction.isSome then s.solves else s.solves + 1) ∧
    sd.searches = s.searches ∧ sd.z = s.z ∧ sd.F = s.F ∧ sd.theta = s.theta ∧ sd.err = s.err ∧
    sd.workV2 = s.workV2 := by
  unfold lsa_direction at h
  split at h
  · rename_i cdd hc
    cases h
    simp [hc]
  · rename_i hc
    split at h
    · split at h
      · cases h
      · cases h
        simp [hc, lsa_solve]
    · split at h
      · cases h
      · cases h
        simp [hc, lsa_solve]

omit [LE R] [LT R] [DecidableRel (α := R) (· ≤ ·)] [DecidableRel (α := R) (· < ·)] in
/-- The gradient block keeps `z`, `F`, the direction, the code of the direction search and
the counters.  With `compute_JacTheta_merit` it keeps `H` and `F_merit` as well; without
it (and with `compute_RHS_desc` or `compute_descent_direction`) it leaves the merit matrix
`compute_H(z)` in `H` and the merit residual `compute_F_merit(z)` in `F_merit`. -/
theorem lsa_gradient_frame (fn : functions_LSA R) (s s2 : LSAState R L)
    (h : lsa_gradient fn s = some s2) :
    s2.solves = s.solves ∧ s2.searches = s.searches ∧ s2.z = s.z ∧ s2.F = s.F ∧
    s2.theta = s.theta ∧ s2.err = s.err ∧ s2.workV1 = s.workV1 ∧ s2.workV2 = s.workV2 ∧
    s2.info_dir_search = s.info_dir_search ∧ s2.iter = s.iter ∧
    (fn.compute_JacTheta_merit.isSome → s2.H = s.H ∧ s2.F_merit = s.F_merit) ∧
    (fn.compute_JacTheta_merit = none →
      (fn.compute_RHS_desc.isSome || fn.compute_descent_direction.isSome) = true →
      ∃ hh fm, fn.compute_H = some hh ∧ fn.compute_F_merit = some fm ∧
        s2.H = hh s.z s.F s.H ∧ s2.F_merit = fm s.z s.F) := by
  unfold lsa_gradient at h
  split at h
  · rename_i hc
    split at h
    · rename_i jt hj
      cases h
      simp [hj]
    · rename_i hj
      split at h
      · rename_i hh fm e1 e2
        cases h
        refine ⟨rfl, rfl, rfl, rfl, rfl, rfl, rfl, rfl, rfl, rfl, ?_, ?_⟩
        · intro hs
          rw [hj] at hs
          cases hs
        · intro _ _
          exact ⟨hh, fm, e1, e2, rfl, rfl⟩
      · cases h
  · rename_i hc
    cases h
    refine ⟨rfl, rfl, rfl, rfl, rfl, rfl, rfl, rfl, rfl, rfl, fun _ => ⟨rfl, rfl⟩, ?_⟩
    intro _ hs
    exact absurd hs hc

omit [Zero R] [LE R] [LT R] [DecidableRel (α := R) (· ≤ ·)] [DecidableRel (α := R) (· < ·)] in
theorem lsa_trial_frame (ext : LSAExternals R L) (n : Nat) (fn : functions_LSA R)
    (s s4 : LSAState R L) (t : Option R) (h : lsa_trial ext n fn s = some (s4, t)) :
    s4.solves = s.solves ∧ s4.searches = s.searches ∧ s4.z = s.z ∧ s4.theta = s.theta ∧
    s4.err = s.err ∧ s4.JacThetaF_merit = s.JacThetaF_merit ∧
    (s.info_dir_search = 0 → s4.workV1 = s.workV1 ∧ t ≠ none) ∧
    (s.info_dir_search ≠ 0 → t = none ∧
      s4.workV1 = cblas_dscal n ((-1 : ℚ) : R) (cblas_dcopy n s.JacThetaF_merit s.workV1)) := by
  unfold lsa_trial at h
  split at h
  · rename_i h0
    split at h
    · cases h
      refine ⟨rfl, rfl, rfl, rfl, rfl, rfl, fun _ => ⟨rfl, by simp⟩, fun hne => absurd h0 hne⟩
    · cases h
  · rename_i h0
    cases h
    exact ⟨rfl, rfl, rfl, rfl, rfl, rfl, fun h1 => absurd h1 h0, fun _ => ⟨rfl, rfl⟩⟩

omit [Zero R] [LT R] [DecidableRel (α := R) (· < ·)] in
theorem lsa_finish_pass_frame (ext : LSAExternals R L) (n : Nat) (opt : LSAOptions R)
    (fn : functions_LSA R) (s s1 : LSAState R L) (tau : R)
    (h : lsa_finish_pass ext n opt fn s tau = some s1) :
    s1.solves = s.solves ∧ s1.searches = s.searches ∧ s1.workV1 = s.workV1 ∧
    s1.JacThetaF_merit = s.JacThetaF_merit ∧
    s1.z = (if ext.isfinite tau then cblas_daxpy n tau s.workV1 s.z
      else cblas_daxpy n ((1 : ℚ) : R) s.workV1 s.z) := by
  unfold lsa_finish_pass at h
  split at h
  · dsimp only at h
    split at h
    · cases h; exact ⟨rfl, rfl, rfl, rfl, rfl⟩
    · split at h
      · cases h; exact ⟨rfl, rfl, rfl, rfl, rfl⟩
      · split at h
        · cases h; exact ⟨rfl, rfl, rfl, rfl, rfl⟩
        · split at h
          · split at h
            · cases h; exact ⟨rfl, rfl, rfl, rfl, rfl⟩
            · cases h
          · cases h; exact ⟨rfl, rfl, rfl, rfl, rfl⟩
  · cases h

end NewtonGhost

section NewtonFallback
variable {R L : Type} [Zero R] [RatCast R] [Add R] [Mul R] [LE R] [LT R]
  [DecidableRel (α := R) (· ≤ ·)] [DecidableRel (α := R) (· < ·)]

/-- With `compute_RHS_desc` supplied a pass is always completed; its stages are named. -/
theorem lsa_pass_rhs_desc (ext : LSAExternals R L) (n : Nat) (opt : LSAOptions R)
    (fn : functions_LSA R) (hcb : lsa_callbacks_supplied opt fn = true)
    (hr : fn.compute_RHS_desc ≠ none) (s : LSAState R L) :
    ∃ sd s2 s4 theta_iter s5,
      lsa_direction ext n opt.params fn { s with iter := s.iter + 1, info_dir_search := 0 }
        = some sd ∧
      lsa_gradient fn sd = some s2 ∧
      lsa_trial ext n fn (if s2.info_dir_search ≠ 0 then lsa_solve ext n opt.params s2 else s2)
        = some (s4, theta_iter) ∧
      lsa_finish_pass ext n opt fn
          (if lsa_needs_search ext opt.params fn s4 theta_iter then lsa_search ext n opt s4
            else (s4, ((1 : ℚ) : R))).1
          (if lsa_needs_search ext opt.params fn s4 theta_iter then lsa_search ext n opt s4
            else (s4, ((1 : ℚ) : R))).2 = some s5 ∧
      lsa_pass ext n opt fn s = LSAStep.next s5 := by
  cases hp : lsa_pass ext n opt fn s with
  | null_call => exact absurd hp (lsa_pass_no_null ext n opt fn s hcb)
  | failed s1 =>
    obtain ⟨_, _, _, _, h4⟩ := ((lsa_pass_spec ext n opt fn s).2.1 s1).mp hp
    exact absurd h4 hr
  | next s5 =>
    obtain ⟨sd, s2, s4, theta_iter, h1, h2, _, h4, h5⟩ :=
      lsa_pass_next_stages ext n opt fn s s5 hp
    exact ⟨sd, s2, s4, theta_iter, s5, h1, h2, h4, h5, rfl⟩

/-- With `compute_RHS_desc` supplied the loop is only left through its condition. -/
theorem lsa_loop_rhs_desc (ext : LSAExternals R L) (n : Nat) (opt : LSAOptions R)
    (fn : functions_LSA R) (hcb : lsa_callbacks_supplied opt fn = true)
    (hr : fn.compute_RHS_desc ≠ none) :
    ∀ (fuel : Nat) (s : LSAState R L),
      ∃ sf, lsa_loop ext n opt fn fuel s = some (sf, LSAExit.loop_condition) := by
  intro fuel
  induction fuel with
  | zero => intro s; exact ⟨s, rfl⟩
  | succ k ih =>
    intro s
    unfold lsa_loop
    split
    · obtain ⟨_, _, _, _, s5, _, _, _, _, hp⟩ := lsa_pass_rhs_desc ext n opt fn hcb hr s
      rw [hp]
      exact ih s5
    · exact ⟨s, rfl⟩

/-- The final state of a completed pass carries the counters of its stages: the code of the
direction search is that of the second solve when there was one, one more linear solve
is counted exactly when the first direction search failed, and one more line search
exactly when the search was needed. -/
theorem lsa_pass_counters (ext : LSAExternals R L) (n : Nat) (opt : LSAOptions R)
    (fn : functions_LSA R) (s sd s2 s4 s5 : LSAState R L) (theta_iter : Option R)
    (hd : lsa_direction ext n opt.params fn { s with iter := s.iter + 1, info_dir_search := 0 }
      = some sd)
    (hg : lsa_gradient fn sd = some s2)
    (ht : lsa_trial ext n fn (if s2.info_dir_search ≠ 0 then lsa_solve ext n opt.params s2 else s2)
      = some (s4, theta_iter))
    (hf : lsa_finish_pass ext n opt fn
          (if lsa_needs_search ext opt.params fn s4 theta_iter then lsa_search ext n opt s4
            else (s4, ((1 : ℚ) : R))).1
          (if lsa_needs_search ext opt.params fn s4 theta_iter then lsa_search ext n opt s4
            else (s4, ((1 : ℚ) : R))).2 = some s5) :
    sd.solves = (if fn.compute_descent_direction.isSome then s.solves else s.solves + 1) ∧
    s5.solves = (if s2.info_dir_search ≠ 0 then sd.solves + 1 else sd.solves) ∧
    s5.info_dir_search = (if s2.info_dir_search ≠ 0
      then (ext.NM_LU_solve opt.params.keep_H s2.H
        (cblas_dscal n ((-1 : ℚ) : R) (cblas_dcopy n s2.F_merit s2.workV1))).1 else 0) ∧
    s5.searches = (if lsa_needs_search ext opt.params fn s4 theta_iter then s.searches + 1
      else s.searches) := by
  have fd := lsa_direction_frame ext n opt.params fn _ sd hd
  have fg := lsa_gradient_frame fn sd s2 hg
  have ft := lsa_trial_frame ext n fn _ s4 theta_iter ht
  have ff := lsa_finish_pass_frame ext n opt fn _ s5 _ hf
  have fi := lsa_finish_pass_info ext n opt fn _ s5 _ hf
  have ti := lsa_trial_info ext n fn _ s4 theta_iter ht
  have e1 : (if lsa_needs_search ext opt.params fn s4 theta_iter then lsa_search ext n opt s4
      else (s4, ((1 : ℚ) : R))).1.solves = s4.solves := by
    split <;> rfl
  have e2 : (if lsa_needs_search ext opt.params fn s4 theta_iter then lsa_search ext n opt s4
      else (s4, ((1 : ℚ) : R))).1.info_dir_search = s4.info_dir_search := by
    split <;> rfl
  have e3 : (if lsa_needs_search ext opt.params fn s4 theta_iter then lsa_search ext n opt s4
      else (s4, ((1 : ℚ) : R))).1.searches
      = (if lsa_needs_search ext opt.params fn s4 theta_iter then s4.searches + 1 else s4.searches) := by
    split <;> rfl
  refine ⟨fd.1, ?_, ?_, ?_⟩
  · rw [ff.1, e1, ft.1]
    split
    · show s2.solves + 1 = _
      rw [fg.1]
    · exact fg.1
  · rw [fi, e2, ti]
    split
    · rfl
    · rename_i h0
      exact not_not.mp h0
  · rw [ff.2.1, e3, ft.2.1]
    have : (if s2.info_dir_search ≠ 0 then lsa_solve ext n opt.params s2 else s2).searches
        = s.searches := by
      split
      · show s2.searches = _
        rw [fg.2.1, fd.2.1]
      · rw [fg.2.1, fd.2.1]
    rw [this]

end NewtonFallback

section NewtonFallbackClaims
variable {R L : Type} [Zero R] [RatCast R] [Add R] [Mul R] [LE R] [LT R]
  [DecidableRel (α := R) (· ≤ ·)] [DecidableRel (α := R) (· < ·)]

/-- With the callbacks supplied the direction search and the gradient block of a pass
return, and the pass ends in the jump exactly when the search failed without
`compute_RHS_desc`. -/
theorem lsa_stages_exist (ext : LSAExternals R L) (n : Nat) (opt : LSAOptions R)
    (fn : functions_LSA R) (hcb : lsa_callbacks_supplied opt fn = true) (s : LSAState R L) :
    ∃ sd s2,
      lsa_direction ext n opt.params fn { s with iter := s.iter + 1, info_dir_search := 0 }
        = some sd ∧
      lsa_gradient fn sd = some s2 ∧
      ((s2.info_dir_search ≠ 0 ∧ fn.compute_RHS_desc = none) →
        lsa_pass ext n opt fn s = LSAStep.failed s2) ∧
      (¬ (s2.info_dir_search ≠ 0 ∧ fn.compute_RHS_desc = none) →
        ∃ s4 theta_iter s5,
          lsa_trial ext n fn
            (if s2.info_dir_search ≠ 0 then lsa_solve ext n opt.params s2 else s2)
            = some (s4, theta_iter) ∧
          lsa_finish_pass ext n opt fn
            (if lsa_needs_search ext opt.params fn s4 theta_iter then lsa_search ext n opt s4
              else (s4, ((1 : ℚ) : R))).1
            (if lsa_needs_search ext opt.params fn s4 theta_iter then lsa_search ext n opt s4
              else (s4, ((1 : ℚ) : R))).2 = some s5 ∧
          lsa_pass ext n opt fn s = LSAStep.next s5) := by
  cases hp : lsa_pass ext n opt fn s with
  | null_call => exact absurd hp (lsa_pass_no_null ext n opt fn s hcb)
  | failed s1 =>
    obtain ⟨sd, h1, h2, h3, h4⟩ := ((lsa_pass_spec ext n opt fn s).2.1 s1).mp hp
    exact ⟨sd, s1, h1, h2, fun _ => rfl, fun hn => absurd ⟨h3, h4⟩ hn⟩
  | next s5 =>
    obtain ⟨sd, s2, s4, theta_iter, h1, h2, h3, h4, h5⟩ :=
      lsa_pass_next_stages ext n opt fn s s5 hp
    refine ⟨sd, s2, h1, h2, fun hc => absurd ⟨hc.1, Option.isNone_iff_eq_none.mpr hc.2⟩ h3,
      fun _ => ⟨s4, theta_iter, s5, h4, h5, rfl⟩⟩

/-- The fallback of `newton_LSA`: with the callbacks it calls and `compute_RHS_desc` supplied,
the call returns, never with `info = 2`, and the loop is only left through its condition.
In every pass whose direction search fails one more solve `H d = -F_merit` is made with the
buffers as the gradient block leaves them, and the pass is completed whatever that solve
returns (its code is the one the pass ends with).  The gradient block writes the merit
matrix `compute_H(z)` and the merit residual `compute_F_merit(z)` into the buffers when
`compute_JacTheta_merit` is NULL; when it is supplied (a callback that only fills the
gradient) and the direction came from a solve, the block leaves `H_desc`, as the first solve
left it, and `F_desc` in them. -/
theorem newton_LSA_rhs_desc_fallback (ext : LSAExternals R L) (n : Nat) (z : Vec R)
    (H : NumericsMatrix R) (opt : LSAOptions R) (fn : functions_LSA R)
    (rd : Vec R → Vec R → Vec R)
    (hcb : lsa_callbacks_supplied opt fn = true)
    (hr : fn.compute_RHS_desc = some rd) :
    (∃ res, newton_LSA ext n z H opt fn = some res ∧ res.info ≠ 2
      ∧ res.exit = LSAExit.loop_condition) ∧
    (∀ s : LSAState R L, ∃ sd s2 s5,
      lsa_direction ext n opt.params fn { s with iter := s.iter + 1, info_dir_search := 0 }
        = some sd ∧
      lsa_gradient fn sd = some s2 ∧
      lsa_pass ext n opt fn s = LSAStep.next s5 ∧
      s5.solves = (if s2.info_dir_search ≠ 0 then sd.solves + 1 else sd.solves) ∧
      s5.info_dir_search = (if s2.info_dir_search ≠ 0
        then (ext.NM_LU_solve opt.params.keep_H s2.H
          (cblas_dscal n ((-1 : ℚ) : R) (cblas_dcopy n s2.F_merit s2.workV1))).1 else 0) ∧
      (fn.compute_JacTheta_merit = none →
        ∃ hh fm, fn.compute_H = some hh ∧ fn.compute_F_merit = some fm ∧
          s2.H = hh s.z s.F sd.H ∧ s2.F_merit = fm s.z s.F) ∧
      (fn.compute_JacTheta_merit.isSome → fn.compute_descent_direction = none →
        s2.F_merit = rd s.z s.F ∧ s2.H = sd.H)) := by
  have hne : fn.compute_RHS_desc ≠ none := by rw [hr]; exact Option.some_ne_none rd
  constructor
  · obtain ⟨s0, h0, _, _⟩ := lsa_initial_state_spec ext n z H opt fn hcb
    obtain ⟨sf, hl⟩ := lsa_loop_rhs_desc ext n opt fn hcb hne
      (opt.iparam ext.SICONOS_IPARAM_MAX_ITER).toNat s0
    refine ⟨lsa_result ext opt sf LSAExit.loop_condition, ?_, ?_, rfl⟩
    · unfold newton_LSA
      rw [h0]
      dsimp only
      rw [hl]
    · dsimp only [lsa_result]
      split <;> decide
  · intro s
    obtain ⟨sd, s2, s4, theta_iter, s5, h1, h2, h4, h5, hp⟩ :=
      lsa_pass_rhs_desc ext n opt fn hcb hne s
    have cnt := lsa_pass_counters ext n opt fn s sd s2 s4 s5 theta_iter h1 h2 h4 h5
    have fd := lsa_direction_frame ext n opt.params fn _ sd h1
    have fg := lsa_gradient_frame fn sd s2 h2
    refine ⟨sd, s2, s5, h1, h2, hp, cnt.2.1, cnt.2.2.1, ?_, ?_⟩
    · intro hj
      obtain ⟨hh, fm, e1, e2, e3, e4⟩ := fg.2.2.2.2.2.2.2.2.2.2.2 hj (by simp [hr])
      refine ⟨hh, fm, e1, e2, ?_, ?_⟩
      · rw [e3, fd.2.2.1, fd.2.2.2.1]
      · rw [e4, fd.2.2.1, fd.2.2.2.1]
    · intro hj hc
      obtain ⟨e1, e2⟩ := fg.2.2.2.2.2.2.2.2.2.2.1 hj
      refine ⟨?_, e1⟩
      rw [e2]
      unfold lsa_direction at h1
      rw [hc, hr] at h1
      dsimp only at h1
      split at h1
      · cases h1
      · cases h1
        rfl

end NewtonFallbackClaims

/-- The fallback on the toy system with a descent system and without
`compute_JacTheta_merit`, solved with the failing linear solve: two solves, `info = 1`. -/
theorem newton_LSA_rhs_desc_fallback_witness :
    (lsa_callbacks_supplied (lsa_sample_options 1) (lsa_desc_fn false) = true
      ∧ (lsa_desc_fn false).compute_RHS_desc = some (fun _ F i => 2 * F i))
    ∧ (∃ res, newton_LSA lsa_failing_ext 1 (fun i => if i = 0 then 5 else 0) (NM_create 0 1 1)
          (lsa_sample_options 1) (lsa_desc_fn false) = some res ∧ res.info ≠ 2
        ∧ res.exit = LSAExit.loop_condition)
    ∧ (lsa_failing_run 1).map (fun r => (r.info, r.final.solves, r.final.info_dir_search))
        = some (1, 2, 1) :=
  ⟨⟨by decide, rfl⟩,
   (newton_LSA_rhs_desc_fallback lsa_failing_ext 1 (fun i => if i = 0 then 5 else 0)
     (NM_create 0 1 1) (lsa_sample_options 1) (lsa_desc_fn false) (fun _ F i => 2 * F i)
     (by decide) rfl).1,
   by decide!⟩

/-- Failing input for C11: the bundle with `compute_RHS_desc` (here `F_desc = 2 F`) and
`compute_JacTheta_merit` supplied passes the entry assertions; the first solve of the pass
from `z = 5` fails, and the second solve has again the right-hand side `-F_desc = -10`, not
the negative merit residual `-F_merit(z) = -5`: the buffer `F_merit` still holds `F_desc`,
because the gradient block refreshes `H` and `F_merit` only in its branch without
`compute_JacTheta_merit`. -/
theorem newton_LSA_fallback_rhs_counterexample :
    lsa_callbacks_supplied (lsa_sample_options 1) (lsa_desc_fn true) = true ∧
    lsa_entry_asserts (lsa_desc_fn true) = true ∧
    (lsa_desc_fn true).compute_RHS_desc.isSome = true ∧
    (lsa_desc_gradient_state true).map
      (fun s2 => (s2.z 0, s2.info_dir_search, s2.F_merit 0,
        (cblas_dscal 1 ((-1 : ℚ) : ℚ) (cblas_dcopy 1 s2.F_merit s2.workV1)) 0,
        (lsa_solve lsa_failing_ext 1 (lsa_sample_options 1).params s2).workV1 0))
      = some (5, 1, 10, -10, -10) ∧
    (lsa_sample_fn.compute_F.bind (fun f => lsa_sample_fn.compute_F_merit.map
      (fun fm => fm (fun i => if i = 0 then 5 else 0) (f (fun i => if i = 0 then 5 else 0)) 0)))
      = some 5 := by
  refine ⟨by decide, by decide, rfl, by decide!, by decide!⟩

/-- Counterexample to C12 as stated: with `compute_RHS_desc` supplied and a linear solve that
fails every time, the run of one pass from `z = 5` makes two solves, both fail (the code of
the second is 1), the line search is run once on the gradient step, and the call returns
`info = 1` with `z = 5/2`, not `info = 2`. -/
theorem newton_LSA_second_failure_counterexample :
    lsa_callbacks_supplied (lsa_sample_options 1) (lsa_desc_fn false) = true ∧
    lsa_entry_asserts (lsa_desc_fn false) = true ∧
    (lsa_desc_gradient_state false).map (fun s2 => (s2.info_dir_search, s2.solves)) = some (1, 1) ∧
    (lsa_failing_run 1).map
      (fun r => (r.info, r.final.solves, r.final.info_dir_search, r.final.searches, r.z 0,
        r.final.iter)) = some (1, 2, 1, 1, 5 / 2, 1) := by
  refine ⟨by decide, by decide, by decide!, by decide!⟩

/-- Failing input for C14: the bundle with `compute_F`, `compute_F_merit`, `compute_error`,
`compute_RHS_desc` and `compute_H` but no `compute_H_desc` passes the entry assertions of
`newton_LSA` (the fourth through `compute_H`), and so does the bundle with
`compute_descent_direction` and neither `compute_JacTheta_merit` nor `compute_H` (the fifth
only asks for them when `compute_RHS_desc` and `compute_descent_direction` are both set);
the first pass calls the NULL `compute_H_desc`, respectively the NULL `compute_H`. -/
theorem newton_LSA_null_call_counterexample :
    (lsa_entry_asserts lsa_unchecked_fn = true ∧
      lsa_unchecked_fn.compute_H_desc.isNone = true ∧
      (newton_LSA lsa_sample_ext 1 (fun i => if i = 0 then 5 else 0) (NM_create 0 1 1)
        (lsa_sample_options 3) lsa_unchecked_fn).isNone = true) ∧
    (lsa_entry_asserts lsa_direction_only_fn = true ∧
      lsa_direction_only_fn.compute_H.isNone = true ∧
      lsa_direction_only_fn.compute_JacTheta_merit.isNone = true ∧
      (newton_LSA lsa_sample_ext 1 (fun i => if i = 0 then 5 else 0) (NM_create 0 1 1)
        (lsa_sample_options 3) lsa_direction_only_fn).isNone = true) := by
  refine ⟨⟨by decide, rfl, by decide!⟩, ⟨by decide, rfl, rfl, by decide!⟩⟩

section NewtonUpdate
variable {R L : Type} [Zero R] [RatCast R] [Add R] [Mul R] [LE R] [LT R]
  [DecidableRel (α := R) (· ≤ ·)] [DecidableRel (α := R) (· < ·)]

omit [Zero R] [RatCast R] [Add R] [Mul R] [LE R] [LT R] [DecidableRel (α := R) (· ≤ ·)]
  [DecidableRel (α := R) (· < ·)] in
theorem lsa_callbacks_named (opt : LSAOptions R) (fn : functions_LSA R)
    (hcb : lsa_callbacks_supplied opt fn = true) :
    ∃ f fm ce, fn.compute_F = some f ∧ fn.compute_F_merit = some fm
      ∧ fn.compute_error = some ce := by
  cases h1 : fn.compute_F with
  | none => simp [lsa_callbacks_supplied, h1] at hcb
  | some f =>
    cases h2 : fn.compute_F_merit with
    | none => simp [lsa_callbacks_supplied, h2] at hcb
    | some fm =>
      cases h3 : fn.compute_error with
      | none => simp [lsa_callbacks_supplied, h3] at hcb
      | some ce => exact ⟨f, fm, ce, rfl, rfl, rfl⟩

omit [Zero R] [LT R] [DecidableRel (α := R) (· < ·)] in
/-- The end of a pass: the new `z`, `F`, `F_merit`, `theta`, the step stored in `tau`, and
the error selected by `iparam[STOPPING_CRITERION]`; the gradient buffer is the one the pass
computed before the update. -/
theorem lsa_finish_pass_spec (ext : LSAExternals R L) (n : Nat) (opt : LSAOptions R)
    (fn : functions_LSA R) (f : Vec R → Vec R) (fm : Vec R → Vec R → Vec R)
    (hf : fn.compute_F = some f) (hfm : fn.compute_F_merit = some fm)
    (s s5 : LSAState R L) (tau : R)
    (h : lsa_finish_pass ext n opt fn s tau = some s5) :
    s5.tau = tau ∧
    s5.z = (if ext.isfinite tau then cblas_daxpy n tau s.workV1 s.z
      else cblas_daxpy n ((1 : ℚ) : R) s.workV1 s.z) ∧
    s5.F = f s5.z ∧ s5.F_merit = fm s5.z (f s5.z) ∧
    s5.theta = ((1 / 2 : ℚ) : R) * ext.cblas_dnrm2 n s5.F_merit * ext.cblas_dnrm2 n s5.F_merit ∧
    s5.JacThetaF_merit = s.JacThetaF_merit ∧
    (opt.iparam SICONOS_IPARAM_STOPPING_CRITERION = SICONOS_STOPPING_CRITERION_RESIDU →
      s5.err = ext.cblas_dnrm2 n s5.F_merit) ∧
    (opt.iparam SICONOS_IPARAM_STOPPING_CRITERION = SICONOS_STOPPING_CRITERION_STATIONARITY →
      s5.err = ext.cblas_dnrm2 n s.JacThetaF_merit) ∧
    (opt.iparam SICONOS_IPARAM_STOPPING_CRITERION
        = SICONOS_STOPPING_CRITERION_RESIDU_AND_STATIONARITY →
      s5.err = fmax (ext.cblas_dnrm2 n s5.F_merit) (ext.cblas_dnrm2 n s.JacThetaF_merit)) ∧
    (opt.iparam SICONOS_IPARAM_STOPPING_CRITERION = SICONOS_STOPPING_CRITERION_USER_ROUTINE →
      ∃ ce, fn.compute_error = some ce ∧
        s5.err = ce s5.z s5.F s.JacThetaF_merit (opt.dparam ext.SICONOS_DPARAM_TOL)) ∧
    (opt.iparam SICONOS_IPARAM_STOPPING_CRITERION ≠ SICONOS_STOPPING_CRITERION_RESIDU →
      opt.iparam SICONOS_IPARAM_STOPPING_CRITERION ≠ SICONOS_STOPPING_CRITERION_STATIONARITY →
      opt.iparam SICONOS_IPARAM_STOPPING_CRITERION
        ≠ SICONOS_STOPPING_CRITERION_RESIDU_AND_STATIONARITY →
      opt.iparam SICONOS_IPARAM_STOPPING_CRITERION ≠ SICONOS_STOPPING_CRITERION_USER_ROUTINE →
      s5.err = s.err) := by
  unfold lsa_finish_pass at h
  rw [hf, hfm] at h
  dsimp only at h
  have d01 : SICONOS_STOPPING_CRITERION_RESIDU ≠ SICONOS_STOPPING_CRITERION_STATIONARITY := by
    decide
  have d02 : SICONOS_STOPPING_CRITERION_RESIDU
      ≠ SICONOS_STOPPING_CRITERION_RESIDU_AND_STATIONARITY := by decide
  have d03 : SICONOS_STOPPING_CRITERION_RESIDU ≠ SICONOS_STOPPING_CRITERION_USER_ROUTINE := by
    decide
  have d12 : SICONOS_STOPPING_CRITERION_STATIONARITY
      ≠ SICONOS_STOPPING_CRITERION_RESIDU_AND_STATIONARITY := by decide
  have d13 : SICONOS_STOPPING_CRITERION_STATIONARITY ≠ SICONOS_STOPPING_CRITERION_USER_ROUTINE := by
    decide
  have d23 : SICONOS_STOPPING_CRITERION_RESIDU_AND_STATIONARITY
      ≠ SICONOS_STOPPING_CRITERION_USER_ROUTINE := by decide
  split at h
  · rename_i c0
    cases h
    refine ⟨rfl, rfl, rfl, rfl, rfl, rfl, fun _ => rfl, fun c => ?_, fun c => ?_, fun c => ?_,
      fun c => absurd c0 c⟩
    · exact absurd (c0.symm.trans c) d01
    · exact absurd (c0.symm.trans c) d02
    · exact absurd (c0.symm.trans c) d03
  · rename_i c0
    split at h
    · rename_i c1
      cases h
      refine ⟨rfl, rfl, rfl, rfl, rfl, rfl, fun c => absurd c c0, fun _ => rfl, fun c => ?_,
        fun c => ?_, fun _ c => absurd c1 c⟩
      · exact absurd (c1.symm.trans c) d12
      · exact absurd (c1.symm.trans c) d13
    · rename_i c1
      split at h
      · rename_i c2
        cases h
        refine ⟨rfl, rfl, rfl, rfl, rfl, rfl, fun c => absurd c c0, fun c => absurd c c1,
          fun _ => rfl, fun c => ?_, fun _ _ c => absurd c2 c⟩
        exact absurd (c2.symm.trans c) d23
      · rename_i c2
        split at h
        · rename_i c3
          split at h
          · rename_i ce hce
            cases h
            exact ⟨rfl, rfl, rfl, rfl, rfl, rfl, fun c => absurd c c0, fun c => absurd c c1,
              fun c => absurd c c2, fun _ => ⟨ce, hce, rfl⟩, fun _ _ _ c => absurd c3 c⟩
          · cases h
        · rename_i c3
          cases h
          exact ⟨rfl, rfl, rfl, rfl, rfl, rfl, fun c => absurd c c0, fun c => absurd c c1,
            fun c => absurd c c2, fun c => absurd c c3, fun _ _ _ _ => rfl⟩

end NewtonUpdate

section NewtonStepClaims
variable {R L : Type} [Zero R] [RatCast R] [Add R] [Mul R] [LE R] [LT R]
  [DecidableRel (α := R) (· ≤ ·)] [DecidableRel (α := R) (· < ·)]

omit [LE R] [DecidableRel (α := R) (· ≤ ·)] in
/-- The gradient buffer of a completed pass is the one of its gradient block, and the
iterate of the trial point and of the line search is the one of the start of the pass. -/
theorem lsa_pass_buffers (ext : LSAExternals R L) (n : Nat) (opt : LSAOptions R)
    (fn : functions_LSA R) (s sd s2 s4 : LSAState R L) (theta_iter : Option R)
    (hd : lsa_direction ext n opt.params fn { s with iter := s.iter + 1, info_dir_search := 0 }
      = some sd)
    (hg : lsa_gradient fn sd = some s2)
    (ht : lsa_trial ext n fn (if s2.info_dir_search ≠ 0 then lsa_solve ext n opt.params s2 else s2)
      = some (s4, theta_iter)) :
    (if lsa_needs_search ext opt.params fn s4 theta_iter then lsa_search ext n opt s4
        else (s4, ((1 : ℚ) : R))).1.JacThetaF_merit = s2.JacThetaF_merit ∧
    (if lsa_needs_search ext opt.params fn s4 theta_iter then lsa_search ext n opt s4
        else (s4, ((1 : ℚ) : R))).1.z = s.z ∧
    s4.z = s.z ∧ s4.theta = s.theta := by
  have fd := lsa_direction_frame ext n opt.params fn _ sd hd
  have fg := lsa_gradient_frame fn sd s2 hg
  have ft := lsa_trial_frame ext n fn _ s4 theta_iter ht
  have e3 : (if s2.info_dir_search ≠ 0 then lsa_solve ext n opt.params s2 else s2).JacThetaF_merit
      = s2.JacThetaF_merit := by
    split <;> rfl
  have e4 : (if s2.info_dir_search ≠ 0 then lsa_solve ext n opt.params s2 else s2).z = s.z := by
    split
    · show s2.z = _
      rw [fg.2.2.1, fd.2.2.1]
    · rw [fg.2.2.1, fd.2.2.1]
  have e5 : (if s2.info_dir_search ≠ 0 then lsa_solve ext n opt.params s2 else s2).theta
      = s.theta := by
    split
    · show s2.theta = _
      rw [fg.2.2.2.2.1, fd.2.2.2.2.1]
    · rw [fg.2.2.2.2.1, fd.2.2.2.2.1]
  refine ⟨?_, ?_, ft.2.2.1.trans e4, ft.2.2.2.1.trans e5⟩
  · split
    · show s4.JacThetaF_merit = _
      rw [ft.2.2.2.2.2.1, e3]
    · show s4.JacThetaF_merit = _
      rw [ft.2.2.2.2.2.1, e3]
  · split
    · show s4.z = _
      rw [ft.2.2.1, e4]
    · show s4.z = _
      rw [ft.2.2.1, e4]

/-- C15 (amended): after every completed pass of `newton_LSA`, `F_merit` is the merit
residual at the updated `z`, and `err` is: its norm for RESIDU; the norm of the gradient
buffer `JacThetaF_merit` for STATIONARITY; the maximum of the two for
RESIDU_AND_STATIONARITY; the value of `compute_error` at the updated `z` (with that gradient
buffer) for USER_ROUTINE; the previous `err` for any other value.  The gradient buffer is
the one computed in the pass before the update: with neither `compute_descent_direction` nor
`compute_RHS_desc` it is `H' F_merit` with `H = compute_H` and `F_merit` at the iterate the
pass started from. -/
theorem newton_LSA_error_metric (ext : LSAExternals R L) (n : Nat) (opt : LSAOptions R)
    (fn : functions_LSA R) (hcb : lsa_callbacks_supplied opt fn = true) :
    ∃ f fm, fn.compute_F = some f ∧ fn.compute_F_merit = some fm ∧
      ∀ s s5 : LSAState R L, lsa_pass ext n opt fn s = LSAStep.next s5 →
        ∃ sd s2,
          lsa_direction ext n opt.params fn { s with iter := s.iter + 1, info_dir_search := 0 }
            = some sd ∧
          lsa_gradient fn sd = some s2 ∧
          s5.F = f s5.z ∧ s5.F_merit = fm s5.z (f s5.z) ∧
          s5.JacThetaF_merit = s2.JacThetaF_merit ∧
          (fn.compute_descent_direction = none → fn.compute_RHS_desc = none →
            ∃ hh, fn.compute_H = some hh ∧
              s2.JacThetaF_merit = NM_tgemv ((1 : ℚ) : R) (hh s.z s.F s.H) s.F_merit ((0 : ℚ) : R)
                s.JacThetaF_merit) ∧
          (opt.iparam SICONOS_IPARAM_STOPPING_CRITERION = SICONOS_STOPPING_CRITERION_RESIDU →
            s5.err = ext.cblas_dnrm2 n (fm s5.z (f s5.z))) ∧
          (opt.iparam SICONOS_IPARAM_STOPPING_CRITERION
              = SICONOS_STOPPING_CRITERION_STATIONARITY →
            s5.err = ext.cblas_dnrm2 n s2.JacThetaF_merit) ∧
          (opt.iparam SICONOS_IPARAM_STOPPING_CRITERION
              = SICONOS_STOPPING_CRITERION_RESIDU_AND_STATIONARITY →
            s5.err = fmax (ext.cblas_dnrm2 n (fm s5.z (f s5.z)))
              (ext.cblas_dnrm2 n s2.JacThetaF_merit)) ∧
          (opt.iparam SICONOS_IPARAM_STOPPING_CRITERION
              = SICONOS_STOPPING_CRITERION_USER_ROUTINE →
            ∃ ce, fn.compute_error = some ce ∧
              s5.err = ce s5.z (f s5.z) s2.JacThetaF_merit (opt.dparam ext.SICONOS_DPARAM_TOL)) ∧
          (opt.iparam SICONOS_IPARAM_STOPPING_CRITERION ≠ SICONOS_STOPPING_CRITERION_RESIDU →
            opt.iparam SICONOS_IPARAM_STOPPING_CRITERION
              ≠ SICONOS_STOPPING_CRITERION_STATIONARITY →
            opt.iparam SICONOS_IPARAM_STOPPING_CRITERION
              ≠ SICONOS_STOPPING_CRITERION_RESIDU_AND_STATIONARITY →
            opt.iparam SICONOS_IPARAM_STOPPING_CRITERION
              ≠ SICONOS_STOPPING_CRITERION_USER_ROUTINE →
            s5.err = s.err) := by
  obtain ⟨f, fm, _, hf, hfm, _⟩ := lsa_callbacks_named opt fn hcb
  refine ⟨f, fm, hf, hfm, ?_⟩
  intro s s5 hp
  obtain ⟨sd, s2, s4, theta_iter, h1, h2, _, h4, h5⟩ := lsa_pass_next_stages ext n opt fn s s5 hp
  obtain ⟨b1, b2, _, _⟩ := lsa_pass_buffers ext n opt fn s sd s2 s4 theta_iter h1 h2 h4
  obtain ⟨_, _, p3, p4, _, p6, c0, c1, c2, c3, c4⟩ :=
    lsa_finish_pass_spec ext n opt fn f fm hf hfm _ s5 _ h5
  have fd := lsa_direction_frame ext n opt.params fn _ sd h1
  have fg := lsa_gradient_frame fn sd s2 h2
  have ft := lsa_trial_frame ext n fn _ s4 theta_iter h4
  have e1 : (if lsa_needs_search ext opt.params fn s4 theta_iter then lsa_search ext n opt s4
      else (s4, ((1 : ℚ) : R))).1.err = s.err := by
    have : s4.err = s.err := by
      rw [ft.2.2.2.2.1]
      split
      · show s2.err = _
        rw [fg.2.2.2.2.2.1, fd.2.2.2.2.2.1]
      · rw [fg.2.2.2.2.2.1, fd.2.2.2.2.2.1]
    split
    · exact this
    · exact this
  refine ⟨sd, s2, h1, h2, p3, p4, p6.trans b1, ?_, ?_, ?_, ?_, ?_, ?_⟩
  · intro hc hr
    unfold lsa_direction at h1
    rw [hc, hr] at h1
    dsimp only at h1
    split at h1
    · cases h1
    · rename_i hh e
      refine ⟨hh, e, ?_⟩
      unfold lsa_gradient at h2
      rw [hc, hr] at h2
      simp only [Option.isSome_none, Bool.or_self, Bool.false_eq_true, if_false] at h2
      cases h2
      cases h1
      rfl
  · intro c
    rw [c0 c, p4]
  · intro c
    rw [c1 c, b1]
  · intro c
    rw [c2 c, p4, b1]
  · intro c
    obtain ⟨ce, e1, e2⟩ := c3 c
    exact ⟨ce, e1, by rw [e2, p3, b1]⟩
  · intro a0 a1 a2 a3
    rw [c4 a0 a1 a2 a3, e1]

/-- C16: a non-finite step of the line search is replaced by the unit step and the pass
is completed; the only way out of the loop of `newton_LSA` other than its condition is a
failed direction search without `compute_RHS_desc`.  With the callbacks supplied and
`itermax >= 0` the call returns, with `info = 2` exactly after that jump, and otherwise
with the iteration counter equal to `itermax` or with `err > tol` false (`err <= tol` for
numbers that are not NaN). -/
theorem newton_LSA_nonfinite_step (ext : LSAExternals R L) (n : Nat) (z : Vec R)
    (H : NumericsMatrix R) (opt : LSAOptions R) (fn : functions_LSA R)
    (hcb : lsa_callbacks_supplied opt fn = true)
    (hmax : 0 ≤ opt.iparam ext.SICONOS_IPARAM_MAX_ITER) :
    (∀ s s5 : LSAState R L, lsa_pass ext n opt fn s = LSAStep.next s5 →
      ∃ d : Vec R,
        s5.workV1 = d ∧
        s5.z = (if ext.isfinite s5.tau then cblas_daxpy n s5.tau d s.z
          else cblas_daxpy n ((1 : ℚ) : R) d s.z)) ∧
    (∀ s s1 : LSAState R L, lsa_pass ext n opt fn s = LSAStep.failed s1 →
      s1.info_dir_search ≠ 0 ∧ fn.compute_RHS_desc = none) ∧
    (∀ s : LSAState R L, lsa_pass ext n opt fn s ≠ LSAStep.null_call) ∧
    (∃ res, newton_LSA ext n z H opt fn = some res ∧
      (res.info = 2 ↔ res.exit = LSAExit.direction_failure) ∧
      (res.exit = LSAExit.direction_failure →
        res.final.info_dir_search ≠ 0 ∧ fn.compute_RHS_desc = none) ∧
      (res.exit = LSAExit.loop_condition →
        (res.final.iter : Int) = opt.iparam ext.SICONOS_IPARAM_MAX_ITER
          ∨ ¬ (opt.dparam ext.SICONOS_DPARAM_TOL < res.final.err))) := by
  obtain ⟨f, fm, _, hf, hfm, _⟩ := lsa_callbacks_named opt fn hcb
  refine ⟨?_, ?_, fun s => lsa_pass_no_null ext n opt fn s hcb, ?_⟩
  · intro s s5 hp
    obtain ⟨sd, s2, s4, theta_iter, h1, h2, _, h4, h5⟩ :=
      lsa_pass_next_stages ext n opt fn s s5 hp
    obtain ⟨_, b2, _, _⟩ := lsa_pass_buffers ext n opt fn s sd s2 s4 theta_iter h1 h2 h4
    obtain ⟨p1, p2, _⟩ := lsa_finish_pass_spec ext n opt fn f fm hf hfm _ s5 _ h5
    have ff := lsa_finish_pass_frame ext n opt fn _ s5 _ h5
    refine ⟨s5.workV1, rfl, ?_⟩
    rw [p2, p1, b2, ff.2.2.1]
  · intro s s1 hp
    obtain ⟨_, _, _, h3, h4⟩ := ((lsa_pass_spec ext n opt fn s).2.1 s1).mp hp
    exact ⟨h3, h4⟩
  · obtain ⟨s0, h0, hi0, hd0⟩ := lsa_initial_state_spec ext n z H opt fn hcb
    obtain ⟨sf, e, hl, hle, hcond, _, hfail⟩ :=
      lsa_loop_spec ext n opt fn hcb (opt.iparam ext.SICONOS_IPARAM_MAX_ITER).toNat s0
        (by omega) (by rw [hi0]; simpa using hmax) (Or.inl hd0)
    refine ⟨lsa_result ext opt sf e, ?_, ?_⟩
    · unfold newton_LSA
      rw [h0]
      dsimp only
      rw [hl]
    · cases e with
      | loop_condition =>
        dsimp only [lsa_result]
        refine ⟨⟨fun h => ?_, fun h => by cases h⟩, (fun h => by cases h), fun _ => ?_⟩
        · split at h <;> omega
        · have hc := hcond rfl
          by_cases ht : opt.dparam ext.SICONOS_DPARAM_TOL < sf.err
          · left
            have : ¬ (sf.iter : Int) < opt.iparam ext.SICONOS_IPARAM_MAX_ITER :=
              fun h => hc ⟨h, ht⟩
            omega
          · exact Or.inr ht
      | direction_failure =>
        dsimp only [lsa_result]
        exact ⟨⟨fun _ => rfl, fun _ => rfl⟩, fun _ => hfail rfl, fun h => by cases h⟩

end NewtonStepClaims

/-- Counterexample to C13 as stated: for `F(z) = z^3 - 2 z + 2` from `z = 1` the direction
solve succeeds (`d = -1`), the trial point `z + d = 0` has the merit value `2 > 0.9 * 1/2`,
the line search is called and returns `+inf`, which is not a step `tau < 1`; the unit step is
taken and the merit value at the new iterate `z = 0` is `2`, above `sigma * theta(z_old)`
and above `theta(z_old) = 1/2` itself. -/
theorem newton_LSA_descent_counterexample :
    lsa_callbacks_supplied (lsa_cubic_options 1) lsa_cubic_fn = true ∧
    lsa_entry_asserts lsa_cubic_fn = true ∧
    (lsa_cubic_run 0).map (fun r => (r.z 0, r.final.theta)) = some (Dbl.fin 1, Dbl.fin (1 / 2)) ∧
    (lsa_cubic_run 1).map
      (fun r => (r.final.info_dir_search, r.final.workV1 0, r.final.searches, r.final.tau))
      = some (0, Dbl.fin (-1), 1, Dbl.pinf) ∧
    (lsa_cubic_run 1).map (fun r => (r.info, r.final.iter, r.z 0, r.final.theta))
      = some (1, 1, Dbl.fin 0, Dbl.fin 2) ∧
    ¬ (Dbl.pinf < Dbl.fin 1) ∧
    ¬ (Dbl.fin 2 ≤ (lsa_cubic_options 1).params.sigma * Dbl.fin (1 / 2)) ∧
    ¬ (Dbl.fin 2 ≤ Dbl.fin (1 / 2)) := by
  refine ⟨by decide, by decide, by decide!, by decide!, by decide!, by decide!, by decide!,
    by decide!⟩

/-- Witness for C15 (amended): the toy system with the stopping criterion STATIONARITY. -/
theorem newton_LSA_error_metric_witness :
    lsa_callbacks_supplied (lsa_criterion_options 1 1) lsa_sample_fn = true ∧
    (∃ f fm, lsa_sample_fn.compute_F = some f ∧ lsa_sample_fn.compute_F_merit = some fm ∧
      ∀ s s5 : LSAState ℚ Unit,
        lsa_pass lsa_sample_ext 1 (lsa_criterion_options 1 1) lsa_sample_fn s
          = LSAStep.next s5 →
        ∃ sd s2,
          lsa_direction lsa_sample_ext 1 (lsa_criterion_options 1 1).params lsa_sample_fn
            { s with iter := s.iter + 1, info_dir_search := 0 } = some sd ∧
          lsa_gradient lsa_sample_fn sd = some s2 ∧
          s5.F_merit = fm s5.z (f s5.z) ∧
          s5.JacThetaF_merit = s2.JacThetaF_merit ∧
          s5.err = lsa_sample_ext.cblas_dnrm2 1 s2.JacThetaF_merit) ∧
    (newton_LSA lsa_sample_ext 1 (fun i => if i = 0 then 5 else 0) (NM_create 0 1 1)
        (lsa_criterion_options 1 1) lsa_sample_fn).map
      (fun r => (r.info, r.final.iter, r.z 0, r.final.F_merit 0, r.final.JacThetaF_merit 0,
        r.final.err)) = some (1, 1, 0, 0, 5, 5) := by
  refine ⟨by decide, ?_, by decide!⟩
  obtain ⟨f, fm, hf, hfm, h⟩ := newton_LSA_error_metric lsa_sample_ext 1
    (lsa_criterion_options 1 1) lsa_sample_fn (by decide)
  refine ⟨f, fm, hf, hfm, fun s s5 hp => ?_⟩
  obtain ⟨sd, s2, h1, h2, _, h4, h5, _, _, h8, _⟩ := h s s5 hp
  exact ⟨sd, s2, h1, h2, h4, h5, h8 (by decide)⟩

/-- Counterexample to C15 as stated: with the criterion STATIONARITY the pass of the toy
system `F(z) = z`, `H = (1)` from `z = 5` ends at `z = 0` with `err = 5`, the norm of the
gradient `H(5)' F_merit(5)` at the iterate the pass started from; the merit gradient
`H(z)' F_merit(z)` at the updated iterate `z = 0` is `0`.  With the criterion 7, which is
none of the four, `err` keeps its value `5` of the entry. -/
theorem newton_LSA_stationarity_counterexample :
    lsa_callbacks_supplied (lsa_criterion_options 1 1) lsa_sample_fn = true ∧
    (lsa_criterion_options 1 1).iparam SICONOS_IPARAM_STOPPING_CRITERION
      = SICONOS_STOPPING_CRITERION_STATIONARITY ∧
    (newton_LSA lsa_sample_ext 1 (fun i => if i = 0 then 5 else 0) (NM_create 0 1 1)
        (lsa_criterion_options 1 1) lsa_sample_fn).map
      (fun r => (r.final.iter, r.z 0, r.final.F 0, r.final.F_merit 0, r.final.err))
      = some (1, 0, 0, 0, 5) ∧
    (newton_LSA lsa_sample_ext 1 (fun i => if i = 0 then 5 else 0) (NM_create 0 1 1)
        (lsa_criterion_options 1 1) lsa_sample_fn).bind
      (fun r => lsa_sample_fn.compute_H.map (fun hh =>
        lsa_sample_ext.cblas_dnrm2 1
          (NM_tgemv ((1 : ℚ) : ℚ) (hh r.z r.final.F r.final.H) r.final.F_merit ((0 : ℚ) : ℚ)
            r.final.JacThetaF_merit))) = some 0 ∧
    (newton_LSA lsa_sample_ext 1 (fun i => if i = 0 then 5 else 0) (NM_create 0 1 1)
        (lsa_criterion_options 1 7) lsa_sample_fn).map
      (fun r => (r.final.iter, r.z 0, r.final.F_merit 0, r.final.err)) = some (1, 0, 0, 5) := by
  refine ⟨by decide, by decide, by decide!, by decide!, by decide!⟩

/-- Witness for C16: the cubic system from `z = 1`, whose line search returns `+inf`: the
pass takes the unit step to `z = 0` and the call returns `info = 1` after its one pass. -/
theorem newton_LSA_nonfinite_step_witness :
    (lsa_callbacks_supplied (lsa_cubic_options 1) lsa_cubic_fn = true ∧
      0 ≤ (lsa_cubic_options 1).iparam lsa_cubic_ext.SICONOS_IPARAM_MAX_ITER) ∧
    (∃ res, newton_LSA lsa_cubic_ext 1 lsa_cubic_start (NM_create 0 1 1) (lsa_cubic_options 1)
        lsa_cubic_fn = some res ∧
      (res.info = 2 ↔ res.exit = LSAExit.direction_failure) ∧
      (res.exit = LSAExit.direction_failure →
        res.final.info_dir_search ≠ 0 ∧ lsa_cubic_fn.compute_RHS_desc = none) ∧
      (res.exit = LSAExit.loop_condition →
        (res.final.iter : Int) = (lsa_cubic_options 1).iparam lsa_cubic_ext.SICONOS_IPARAM_MAX_ITER
          ∨ ¬ ((lsa_cubic_options 1).dparam lsa_cubic_ext.SICONOS_DPARAM_TOL < res.final.err))) ∧
    (lsa_cubic_run 1).map
      (fun r => (r.final.searches, r.final.tau, lsa_cubic_ext.isfinite r.final.tau,
        r.final.workV1 0, r.z 0)) = some (1, Dbl.pinf, false, Dbl.fin (-1), Dbl.fin 0) ∧
    (lsa_cubic_run 1).map (fun r => (r.info, r.final.iter, r.exit))
      = some (1, 1, LSAExit.loop_condition) ∧
    (lsa_cubic_run 2).map (fun r => (r.info, r.final.iter, r.z 0))
      = some (1, 2, Dbl.fin 1) :=
  ⟨⟨by decide, by decide⟩,
   (newton_LSA_nonfinite_step lsa_cubic_ext 1 lsa_cubic_start (NM_create 0 1 1)
     (lsa_cubic_options 1) lsa_cubic_fn (by decide) (by decide)).2.2.2,
   by decide!, by decide!, by decide!⟩

section RelationLemmas
variable {R : Type} [Semiring R]

/-- C17 (amended): for a `LagrangianLinearTIR` relation with `C` set and matrices and vectors
of the sizes of the interaction, `computeOutput` with `derivativeNumber = 0` sets
`y = C*q + e + F*z + D*lambda` (an absent `e`, `F` or `D` counting as zero; `D` is the matrix
`_jachlambda` set by `setDPtr`), for `derivativeNumber >= 1` it sets
`y = C*q^(k) + D*lambda^(k)` without the terms `e` and `F*z`, and `computeInput` accumulates
`p += C'*lambda` into the input block of the DS; nothing else is changed. -/
theorem LagrangianLinearTIR_output_input (k : LagrangianRDS) (rel : LagrangianLinearTIR R)
    (C : SimpleMatrix R) (time : R) (inter : Interaction R)
    (hC : rel._jachq = some C) (hy : C.size0 = inter.dimension)
    (hF : ∀ F, rel._F = some F → F.size0 = inter.dimension)
    (hD : ∀ D, rel._jachlambda = some D → D.size0 = inter.dimension) :
    (∃ out, computeOutput k rel time inter 0 = some out ∧
      out.dimension = inter.dimension ∧ out.lambda = inter.lambda ∧ out.DSlink = inter.DSlink ∧
      (∀ l, l ≠ 0 → out.y l = inter.y l) ∧
      (∀ i, inter.dimension ≤ i → out.y 0 i = inter.y 0 i) ∧
      ∀ i, i < inter.dimension →
        out.y 0 i = matvec C (inter.DSlink k.q0) i + (rel._e.getD (fun _ => 0)) i
          + ((rel._F.map (fun F => matvec F (inter.DSlink k.z) i)).getD 0)
          + ((rel._jachlambda.map (fun D => matvec D (inter.lambda 0) i)).getD 0)) ∧
    (∀ d, 1 ≤ d → ∃ out, computeOutput k rel time inter d = some out ∧
      out.dimension = inter.dimension ∧ out.lambda = inter.lambda ∧ out.DSlink = inter.DSlink ∧
      (∀ l, l ≠ d → out.y l = inter.y l) ∧
      (∀ i, inter.dimension ≤ i → out.y d i = inter.y d i) ∧
      ∀ i, i < inter.dimension →
        out.y d i = matvec C (inter.DSlink (k.q0 + d)) i
          + ((rel._jachlambda.map (fun D => matvec D (inter.lambda d) i)).getD 0)) ∧
    (∀ level, ∃ out, computeInput k rel time inter level = some out ∧
      out.dimension = inter.dimension ∧ out.lambda = inter.lambda ∧ out.y = inter.y ∧
      (∀ b, b ≠ k.p0 + level → out.DSlink b = inter.DSlink b) ∧
      (∀ j, C.size1 ≤ j → out.DSlink (k.p0 + level) j = inter.DSlink (k.p0 + level) j) ∧
      ∀ j, j < C.size1 →
        out.DSlink (k.p0 + level) j
          = inter.DSlink (k.p0 + level) j + tmatvec C (inter.lambda level) j) := by
  obtain ⟨jq, jl, oF, oe⟩ := rel
  dsimp only at hC hF hD
  subst hC
  refine ⟨?_, ?_, ?_⟩
  · refine ⟨_, rfl, rfl, rfl, rfl, ?_, ?_, ?_⟩
    · intro l hl
      simp only [if_neg hl]
    · intro i hi
      have hi1 : ¬ i < C.size0 := by omega
      have hi2 : ¬ i < inter.dimension := by omega
      rcases oe with _ | e <;> rcases oF with _ | F <;> rcases jl with _ | D <;>
        (try have hFs := hF _ rfl) <;> (try have hDs := hD _ rfl) <;>
        simp [prod, vector_add_assign, hi1, hi2, *]
    · intro i hi
      have hi1 : i < C.size0 := by omega
      rcases oe with _ | e <;> rcases oF with _ | F <;> rcases jl with _ | D <;>
        (try have hFs := hF _ rfl) <;> (try have hDs := hD _ rfl) <;>
        simp [prod, vector_add_assign, hi1, hi, *]
  · intro d hd1
    have hd0 : d ≠ 0 := by omega
    refine ⟨_, rfl, rfl, rfl, rfl, ?_, ?_, ?_⟩
    · intro l hl
      simp only [if_neg hl]
    · intro i hi
      have hi1 : ¬ i < C.size0 := by omega
      have hi2 : ¬ i < inter.dimension := by omega
      rcases jl with _ | D <;> (try have hDs := hD _ rfl) <;>
        simp [prod, hi1, hi2, hd0, *]
    · intro i hi
      have hi1 : i < C.size0 := by omega
      rcases jl with _ | D <;> (try have hDs := hD _ rfl) <;>
        simp [prod, hi1, hi, hd0, *]
  · intro level
    refine ⟨_, rfl, rfl, rfl, rfl, ?_, ?_, ?_⟩
    · intro b hb
      simp only [if_neg hb]
    · intro j hj
      have hj1 : ¬ j < C.size1 := by omega
      simp [prod_trans, hj1]
    · intro j hj
      simp [prod_trans, hj]

end RelationLemmas

/-- Witness for C17 (amended): the relation `C = (1)`, `F = (5)`, `e = (1/2)`, `D = (1)` on
the sample interaction. -/
theorem LagrangianLinearTIR_output_input_witness :
    (sample_relation_D._jachq = some (sample_matrix 1) ∧
      (sample_matrix 1).size0 = sample_interaction.dimension ∧
      (∀ F, sample_relation_D._F = some F → F.size0 = sample_interaction.dimension) ∧
      (∀ D, sample_relation_D._jachlambda = some D → D.size0 = sample_interaction.dimension)) ∧
    (∃ out, computeOutput sample_RDS sample_relation_D 0 sample_interaction 0 = some out ∧
      ∀ i, i < sample_interaction.dimension →
        out.y 0 i = matvec (sample_matrix 1) (sample_interaction.DSlink sample_RDS.q0) i
          + (sample_relation_D._e.getD (fun _ => 0)) i
          + ((sample_relation_D._F.map
              (fun F => matvec F (sample_interaction.DSlink sample_RDS.z) i)).getD 0)
          + ((sample_relation_D._jachlambda.map
              (fun D => matvec D (sample_interaction.lambda 0) i)).getD 0)) ∧
    (computeOutput sample_RDS sample_relation_D 0 sample_interaction 0).map (fun o => o.y 0 0)
      = some (71 / 2) ∧
    (computeOutput sample_RDS sample_relation_D 0 sample_interaction 1).map (fun o => o.y 1 0)
      = some 11 ∧
    (computeInput sample_RDS sample_relation_D 0 sample_interaction 0).map (fun o => o.DSlink 4 0)
      = some 13 := by
  have hF : ∀ F, sample_relation_D._F = some F → F.size0 = sample_interaction.dimension := by
    intro F h
    cases h
    rfl
  have hD : ∀ D, sample_relation_D._jachlambda = some D
      → D.size0 = sample_interaction.dimension := by
    intro D h
    cases h
    rfl
  obtain ⟨⟨out, h1, _, _, _, _, _, h7⟩, _, _⟩ :=
    LagrangianLinearTIR_output_input sample_RDS sample_relation_D (sample_matrix 1) 0
      sample_interaction rfl rfl hF hD
  exact ⟨⟨rfl, rfl, hF, hD⟩, ⟨out, h1, h7⟩, by decide!, by decide!, by decide!⟩

/-- Counterexample to C17 as stated: the relation `LagrangianLinearTIR(C, F, e)` with
`C = (1)`, `F = (5)`, `e = (1/2)` on which `setDPtr((1))` was called gives, for `q = (2)`,
`z = (6)`, `lambda = (3)`, the output `y = 71/2 = C*q + e + F*z + lambda`, not
`C*q + e + F*z = 65/2`; for `derivativeNumber = 1`, `q' = (7)` and `lambda' = (4)` it gives
`y' = 11`, not `C*q' = 7`.  Without `setDPtr` the outputs are `65/2` and `7`. -/
theorem LagrangianLinearTIR_D_counterexample :
    sample_relation_D = LagrangianLinearTIR.setDPtr
      (LagrangianLinearTIR.new_C_F_e (sample_matrix 1) (sample_matrix 5) (sample_vector (1 / 2)))
      (sample_matrix 1) ∧
    (computeOutput sample_RDS sample_relation_D 0 sample_interaction 0).map (fun o => o.y 0 0)
      = some (71 / 2) ∧
    matvec (sample_matrix 1) (sample_interaction.DSlink sample_RDS.q0) 0 + sample_vector (1 / 2) 0
      + matvec (sample_matrix 5) (sample_interaction.DSlink sample_RDS.z) 0 = 65 / 2 ∧
    (computeOutput sample_RDS sample_relation_D 0 sample_interaction 1).map (fun o => o.y 1 0)
      = some 11 ∧
    matvec (sample_matrix 1) (sample_interaction.DSlink (sample_RDS.q0 + 1)) 0 = 7 ∧
    (computeOutput sample_RDS sample_relation 0 sample_interaction 0).map (fun o => o.y 0 0)
      = some (65 / 2) ∧
    (computeOutput sample_RDS sample_relation 0 sample_interaction 1).map (fun o => o.y 1 0)
      = some 7 := by
  refine ⟨rfl, by decide!, by decide!, by decide!, by decide!, by decide!, by decide!⟩

/-! ### Damping factor, sub-block extraction and point update -/

section Damping
variable {R : Type} [LinearOrderedField R]

theorem fmin_bounds (a b lo hi : R) (ha : lo ≤ a ∧ a ≤ hi) (hb : lo ≤ b ∧ b ≤ hi) :
    lo ≤ fmin a b ∧ fmin a b ≤ hi := by
  unfold fmin
  split
  · exact ha
  · exact hb

theorem ipm_step_length_bounds (c : IPMContext R) (h : IPMHead R) (dir : IPMDirection R) (gmm : R)
    (hstep : ∀ x dx a b g, 0 ≤ c.ext.getStepLength x dx a b g ∧ c.ext.getStepLength x dx a b g ≤ 1) :
    0 ≤ ipm_step_length c h dir gmm ∧ ipm_step_length c h dir gmm ≤ 1 := by
  unfold ipm_step_length
  exact fmin_bounds _ _ _ _ (hstep _ _ _ _ _)
    (fmin_bounds _ _ _ _ (hstep _ _ _ _ _) (fmin_bounds _ _ _ _ (hstep _ _ _ _ _) (hstep _ _ _ _ _)))

theorem gmm_range (g1 g2 a : R) (hg : 0 ≤ g2) (h0 : 0 ≤ a) (h1 : a ≤ 1) :
    g1 ≤ g1 + g2 * a ∧ g1 + g2 * a ≤ g1 + g2 := by
  have e1 : 0 ≤ g2 * a := mul_nonneg hg h0
  have e2 : g2 * a ≤ g2 := mul_le_of_le_one_right hg h1
  constructor <;> linarith

/-- C18: in `grfc3d_IPM` the loop is entered with `gmm = 0.999`, the value used by the
predictor ratio test of the pass 0 (`gmmp1`, `gmmp2` are read from `dparam`); in every pass the predictor ratio test uses the `gmm` of
the state, the predictor then sets `gmm = gmmp1 + gmmp2 * alpha_primal` from its own step
length, the corrector ratio test uses that value and the corrector sets `gmm` again by the
same formula, which is the `gmm` the next pass starts with.  For `gmmp2 >= 0` and step
lengths in `[0,1]` these values lie in `[gmmp1, gmmp1 + gmmp2]`. -/
theorem grfc3d_IPM_damping_factor (ext : Externals R) (cst : Constants)
    (problem : GlobalRollingFrictionContactProblem R) (reaction velocity globalVelocity : Vec R)
    (options : SolverOptions R) (data : Grfc3d_IPM_data R) (c : IPMContext R) (s0 : IPMState R)
    (hc : c = ipm_entry_context ext cst problem options data)
    (hs : s0 = ipm_entry_state ext cst problem reaction velocity globalVelocity options data)
    (hg : 0 ≤ c.gmmp2) :
    s0.gmm = ((999 / 1000 : ℚ) : R) ∧
    c.gmmp1 = (ipm_entry_options ext cst problem options).dparam
      cst.SICONOS_FRICTION_3D_IPM_GAMMA_PARAMETER_1 ∧
    c.gmmp2 = (ipm_entry_options ext cst problem options).dparam
      cst.SICONOS_FRICTION_3D_IPM_GAMMA_PARAMETER_2 ∧
    (ipm_pass_predictor c s0).alpha_primal
      = ipm_step_length c (ipm_head c s0) (ipm_pass_predictor c s0).dir ((999 / 1000 : ℚ) : R) ∧
    (∀ k,
      (ipm_pass_predictor c (ipm_state_at c s0 k)).alpha_primal
        = ipm_step_length c (ipm_head c (ipm_state_at c s0 k))
            (ipm_pass_predictor c (ipm_state_at c s0 k)).dir (ipm_state_at c s0 k).gmm ∧
      (ipm_pass_predictor c (ipm_state_at c s0 k)).gmm
        = c.gmmp1 + c.gmmp2 * (ipm_pass_predictor c (ipm_state_at c s0 k)).alpha_primal ∧
      (ipm_pass_corrector c (ipm_state_at c s0 k)).alpha_primal
        = ipm_step_length c (ipm_head c (ipm_state_at c s0 k))
            (ipm_pass_corrector c (ipm_state_at c s0 k)).dir
            (ipm_pass_predictor c (ipm_state_at c s0 k)).gmm ∧
      (ipm_pass_corrector c (ipm_state_at c s0 k)).gmm
        = c.gmmp1 + c.gmmp2 * (ipm_pass_corrector c (ipm_state_at c s0 k)).alpha_primal ∧
      (ipm_state_at c s0 (k + 1)).alpha_primal
        = (ipm_pass_corrector c (ipm_state_at c s0 k)).alpha_primal ∧
      (ipm_state_at c s0 (k + 1)).gmm
        = c.gmmp1 + c.gmmp2 * (ipm_state_at c s0 (k + 1)).alpha_primal ∧
      (0 ≤ (ipm_pass_predictor c (ipm_state_at c s0 k)).alpha_primal →
        (ipm_pass_predictor c (ipm_state_at c s0 k)).alpha_primal ≤ 1 →
        c.gmmp1 ≤ (ipm_pass_predictor c (ipm_state_at c s0 k)).gmm ∧
        (ipm_pass_predictor c (ipm_state_at c s0 k)).gmm ≤ c.gmmp1 + c.gmmp2) ∧
      (0 ≤ (ipm_state_at c s0 (k + 1)).alpha_primal →
        (ipm_state_at c s0 (k + 1)).alpha_primal ≤ 1 →
        c.gmmp1 ≤ (ipm_state_at c s0 (k + 1)).gmm ∧
        (ipm_state_at c s0 (k + 1)).gmm ≤ c.gmmp1 + c.gmmp2)) ∧
    ((∀ x dx a b g, 0 ≤ c.ext.getStepLength x dx a b g ∧ c.ext.getStepLength x dx a b g ≤ 1) →
      ∀ k,
        (c.gmmp1 ≤ (ipm_pass_predictor c (ipm_state_at c s0 k)).gmm ∧
          (ipm_pass_predictor c (ipm_state_at c s0 k)).gmm ≤ c.gmmp1 + c.gmmp2) ∧
        (c.gmmp1 ≤ (ipm_state_at c s0 (k + 1)).gmm ∧
          (ipm_state_at c s0 (k + 1)).gmm ≤ c.gmmp1 + c.gmmp2)) := by
  have hs0 : s0.gmm = ((999 / 1000 : ℚ) : R) := by rw [hs]; rfl
  have hp : ∀ s : IPMState R, (ipm_pass_predictor c s).alpha_primal
      = ipm_step_length c (ipm_head c s) (ipm_pass_predictor c s).dir s.gmm := fun _ => rfl
  have hpg : ∀ s : IPMState R, (ipm_pass_predictor c s).gmm
      = c.gmmp1 + c.gmmp2 * (ipm_pass_predictor c s).alpha_primal := fun _ => rfl
  have hk : ∀ s : IPMState R, (ipm_pass_corrector c s).alpha_primal
      = ipm_step_length c (ipm_head c s) (ipm_pass_corrector c s).dir (ipm_pass_predictor c s).gmm :=
    fun _ => rfl
  have hkg : ∀ s : IPMState R, (ipm_pass_corrector c s).gmm
      = c.gmmp1 + c.gmmp2 * (ipm_pass_corrector c s).alpha_primal := fun _ => rfl
  have hna : ∀ k, (ipm_state_at c s0 (k + 1)).alpha_primal
      = (ipm_pass_corrector c (ipm_state_at c s0 k)).alpha_primal := fun _ => rfl
  have hng : ∀ k, (ipm_state_at c s0 (k + 1)).gmm
      = c.gmmp1 + c.gmmp2 * (ipm_state_at c s0 (k + 1)).alpha_primal := fun _ => rfl
  refine ⟨hs0, by rw [hc]; rfl, by rw [hc]; rfl, ?_, ?_, ?_⟩
  · rw [hp, hs0]
  · intro k
    refine ⟨hp _, hpg _, hk _, hkg _, hna k, hng k, ?_, ?_⟩
    · intro h0 h1
      rw [hpg]
      exact gmm_range _ _ _ hg h0 h1
    · intro h0 h1
      rw [hng]
      exact gmm_range _ _ _ hg h0 h1
  · intro hstep k
    constructor
    · rw [hpg, hp]
      exact gmm_range _ _ _ hg (ipm_step_length_bounds c _ _ _ hstep).1
        (ipm_step_length_bounds c _ _ _ hstep).2
    · rw [hng, hna, hk]
      exact gmm_range _ _ _ hg (ipm_step_length_bounds c _ _ _ hstep).1
        (ipm_step_length_bounds c _ _ _ hstep).2

end Damping

/-- Witness for C18: the call on the sample problem with one contact, every step length
`1/2`, `gmmp1 = 0.9` and `gmmp2 = 0.09`: the loop starts with `gmm = 0.999` and every pass
ends with `gmm = 0.9 + 0.09 * 0.5 = 0.945`. -/
theorem grfc3d_IPM_damping_factor_witness :
    0 ≤ gmm_context.gmmp2 ∧
    gmm_state.gmm = 999 / 1000 ∧
    (∀ k,
      (gmm_context.gmmp1 ≤ (ipm_pass_predictor gmm_context (ipm_state_at gmm_context gmm_state k)).gmm ∧
        (ipm_pass_predictor gmm_context (ipm_state_at gmm_context gmm_state k)).gmm
          ≤ gmm_context.gmmp1 + gmm_context.gmmp2) ∧
      (gmm_context.gmmp1 ≤ (ipm_state_at gmm_context gmm_state (k + 1)).gmm ∧
        (ipm_state_at gmm_context gmm_state (k + 1)).gmm
          ≤ gmm_context.gmmp1 + gmm_context.gmmp2)) ∧
    (gmm_context.gmmp1, gmm_context.gmmp2) = (9 / 10, 9 / 100) ∧
    ((ipm_pass_predictor gmm_context gmm_state).alpha_primal,
      (ipm_pass_predictor gmm_context gmm_state).gmm) = (1 / 2, 189 / 200) ∧
    ((ipm_state_at gmm_context gmm_state 1).alpha_primal,
      (ipm_state_at gmm_context gmm_state 1).gmm) = (1 / 2, 189 / 200) ∧
    (ipm_state_at gmm_context gmm_state 2).gmm = 189 / 200 :=
  ⟨by decide!,
   (grfc3d_IPM_damping_factor gmm_ext sample_cst (sample_problem 1) (fun _ => 0) (fun _ => 0)
     (fun _ => 0) gmm_options (ipm_entry_data gmm_ext sample_cst (sample_problem 1) gmm_options rfl)
     gmm_context gmm_state rfl rfl (by decide!)).1,
   (grfc3d_IPM_damping_factor gmm_ext sample_cst (sample_problem 1) (fun _ => 0) (fun _ => 0)
     (fun _ => 0) gmm_options (ipm_entry_data gmm_ext sample_cst (sample_problem 1) gmm_options rfl)
     gmm_context gmm_state rfl rfl (by decide!)).2.2.2.2.2
     (fun _ _ _ _ _ => (⟨by decide!, by decide!⟩ : (0 : ℚ) ≤ 1 / 2 ∧ (1 / 2 : ℚ) ≤ 1)),
   by decide!, by decide!, by decide!, by decide!⟩

section ExtractGeneral
variable {R : Type}

theorem extract_inner_closed (vec : Vec R) (posY : Nat) :
    ∀ (len s : Nat) (out : Vec R) (posX : Nat),
      (List.range' s len).foldl (fun st l => (setv st.1 st.2 (vec (posY + l)), st.2 + 1))
          (out, posX)
        = ((fun idx => if posX ≤ idx ∧ idx < posX + len then vec (posY + (s + (idx - posX)))
            else out idx), posX + len) := by
  intro len
  induction len with
  | zero =>
    intro s out posX
    refine Prod.ext (funext fun idx => ?_) rfl
    have : ¬ (posX ≤ idx ∧ idx < posX + 0) := by omega
    simp only [List.range', List.foldl_nil, if_neg this]
  | succ len ih =>
    intro s out posX
    rw [List.range'_succ, List.foldl_cons, ih]
    refine Prod.ext (funext fun idx => ?_) (by simp only; omega)
    simp only [setv]
    by_cases h1 : posX + 1 ≤ idx ∧ idx < posX + 1 + len
    · have h2 : posX ≤ idx ∧ idx < posX + (len + 1) := by omega
      rw [if_pos h1, if_pos h2]
      congr 1
      omega
    · rw [if_neg h1]
      by_cases h3 : idx = posX
      · have h2 : posX ≤ idx ∧ idx < posX + (len + 1) := by omega
        rw [if_pos h3, if_pos h2]
        congr 1
        omega
      · have h2 : ¬ (posX ≤ idx ∧ idx < posX + (len + 1)) := by omega
        rw [if_neg h3, if_neg h2]

theorem extract_outer_closed (vec : Vec R) (vec_dim i j : Nat) (out : Vec R) (X Y : Nat) :
    extract_outer vec vec_dim i j (out, X, Y)
      = ((fun idx => if X + 1 ≤ idx ∧ idx < X + 1 + (j - (i - 1))
            then vec (Y + ((i - 1) + (idx - (X + 1))))
            else if idx = X then vec Y else out idx),
          X + 1 + (j - (i - 1)), Y + vec_dim) := by
  unfold extract_outer extract_inner
  dsimp only
  rw [extract_inner_closed]
  rfl

/-- Closed form of `extract_vector` on `n` blocks of length `vec_dim`: the block `q` of the
output, of length `j - (i-1) + 1`, is the first entry of the block `q` of `vec` followed by
its entries `i-1, ..., j-1`; the output beyond the `n` blocks is not written. -/
theorem extract_fold_closed (vec : Vec R) (vec_dim i j : Nat) (out : Vec R) :
    ∀ n : Nat, ∃ o : Vec R,
      (List.range n).foldl (fun st _ => extract_outer vec vec_dim i j st) (out, 0, 0)
        = (o, n * (j - (i - 1) + 1), n * vec_dim) ∧
      (∀ idx, n * (j - (i - 1) + 1) ≤ idx → o idx = out idx) ∧
      ∀ q, q < n →
        o (q * (j - (i - 1) + 1)) = vec (q * vec_dim) ∧
        ∀ l, l < j - (i - 1) →
          o (q * (j - (i - 1) + 1) + 1 + l) = vec (q * vec_dim + ((i - 1) + l)) := by
  intro n
  induction n with
  | zero =>
    refine ⟨out, ?_, fun _ _ => rfl, fun q hq => absurd hq (Nat.not_lt_zero q)⟩
    simp
  | succ n ih =>
    obtain ⟨o, h1, h2, h3⟩ := ih
    rw [List.range_succ, List.foldl_append, h1]
    simp only [List.foldl_cons, List.foldl_nil, extract_outer_closed]
    refine ⟨_, Prod.ext rfl (Prod.ext ?_ ?_), ?_, ?_⟩
    · simp only [Nat.succ_mul]
      omega
    · simp only [Nat.succ_mul]
    · intro idx hidx
      have e : (n + 1) * (j - (i - 1) + 1) = n * (j - (i - 1) + 1) + (j - (i - 1) + 1) :=
        Nat.succ_mul _ _
      have c1 : ¬ (n * (j - (i - 1) + 1) + 1 ≤ idx ∧ idx < n * (j - (i - 1) + 1) + 1 + (j - (i - 1))) := by
        omega
      have c2 : idx ≠ n * (j - (i - 1) + 1) := by omega
      simp only [if_neg c1, if_neg c2]
      exact h2 idx (by omega)
    · intro q hq
      rcases Nat.lt_succ_iff_lt_or_eq.mp hq with hlt | heq
      · have e : (q + 1) * (j - (i - 1) + 1) = q * (j - (i - 1) + 1) + (j - (i - 1) + 1) :=
          Nat.succ_mul _ _
        have le : (q + 1) * (j - (i - 1) + 1) ≤ n * (j - (i - 1) + 1) :=
          Nat.mul_le_mul_right _ hlt
        refine ⟨?_, ?_⟩
        · have c1 : ¬ (n * (j - (i - 1) + 1) + 1 ≤ q * (j - (i - 1) + 1)
              ∧ q * (j - (i - 1) + 1) < n * (j - (i - 1) + 1) + 1 + (j - (i - 1))) := by omega
          have c2 : q * (j - (i - 1) + 1) ≠ n * (j - (i - 1) + 1) := by omega
          simp only [if_neg c1, if_neg c2]
          exact (h3 q hlt).1
        · intro l hl
          have c1 : ¬ (n * (j - (i - 1) + 1) + 1 ≤ q * (j - (i - 1) + 1) + 1 + l
              ∧ q * (j - (i - 1) + 1) + 1 + l < n * (j - (i - 1) + 1) + 1 + (j - (i - 1))) := by
            omega
          have c2 : q * (j - (i - 1) + 1) + 1 + l ≠ n * (j - (i - 1) + 1) := by omega
          simp only [if_neg c1, if_neg c2]
          exact (h3 q hlt).2 l hl
      · subst heq
        refine ⟨?_, ?_⟩
        · have c1 : ¬ (q * (j - (i - 1) + 1) + 1 ≤ q * (j - (i - 1) + 1)
              ∧ q * (j - (i - 1) + 1) < q * (j - (i - 1) + 1) + 1 + (j - (i - 1))) := by omega
          simp only [if_neg c1, if_true]
        · intro l hl
          have c1 : q * (j - (i - 1) + 1) + 1 ≤ q * (j - (i - 1) + 1) + 1 + l
              ∧ q * (j - (i - 1) + 1) + 1 + l < q * (j - (i - 1) + 1) + 1 + (j - (i - 1)) := by
            omega
          simp only [if_pos c1]
          congr 2
          omega

theorem extract_vector_blocks (x out : Vec R) (n i j : Nat) (hi : 1 ≤ i) (hij : i ≤ j) :
    (∀ q, q < n →
      extract_vector x (5 * n) n i j out (q * (j - i + 2)) = x (5 * q) ∧
      ∀ l, l ≤ j - i →
        extract_vector x (5 * n) n i j out (q * (j - i + 2) + 1 + l) = x (5 * q + (i - 1) + l)) ∧
    ∀ idx, n * (j - i + 2) ≤ idx → extract_vector x (5 * n) n i j out idx = out idx := by
  have hL : j - (i - 1) + 1 = j - i + 2 := by omega
  obtain ⟨o, h1, h2, h3⟩ := extract_fold_closed x (5 * n / n) i j out n
  have ho : extract_vector x (5 * n) n i j out = o := by
    unfold extract_vector
    dsimp only
    rw [h1]
  rw [ho]
  rw [hL] at h2 h3
  refine ⟨fun q hq => ?_, h2⟩
  have hn : 0 < n := by omega
  have hdiv : 5 * n / n = 5 := Nat.mul_div_cancel 5 hn
  rw [hdiv] at h3
  obtain ⟨a, b⟩ := h3 q hq
  refine ⟨by rw [a, Nat.mul_comm], fun l hl => ?_⟩
  rw [b l (by omega), Nat.mul_comm, Nat.add_assoc]

end ExtractGeneral

section SubBlocks
variable {R : Type} [Zero R] [RatCast R] [Add R] [Sub R] [Mul R] [Div R]
  [LE R] [LT R] [DecidableRel (α := R) (· ≤ ·)] [DecidableRel (α := R) (· < ·)]

/-- C19: for blocks of 5, `extract_vector(x, 5n, n, i, j, out)` with `1 <= i <= j` writes
for each contact `k` the block `(x[5k], x[5k+i-1], ..., x[5k+j-1])` (of length `j-i+2`) and
nothing beyond the `n` blocks; so at the top of every pass, for every contact `k < n`,
`velocity_1 = (t[k], u[5k+1], u[5k+2])`, `velocity_2 = (t_prime[k], u[5k+3], u[5k+4])`,
`reaction_1 = (r[5k], r[5k+1], r[5k+2])` and `reaction_2 = (r[5k], r[5k+3], r[5k+4])`,
computed from the point the pass starts with. -/
theorem grfc3d_IPM_sub_blocks (c : IPMContext R) (s0 : IPMState R)
    (hd2 : c.dims.d_minus_2 = 3) (hnd : c.dims.nd = 5 * c.dims.n)
    (hsz : 3 * c.dims.n < 4294967296) :
    (∀ (x out : Vec R) (n i j : Nat), 1 ≤ i → i ≤ j →
      (∀ k, k < n →
        extract_vector x (5 * n) n i j out (k * (j - i + 2)) = x (5 * k) ∧
        ∀ l, l ≤ j - i →
          extract_vector x (5 * n) n i j out (k * (j - i + 2) + 1 + l) = x (5 * k + (i - 1) + l)) ∧
      ∀ idx, n * (j - i + 2) ≤ idx → extract_vector x (5 * n) n i j out idx = out idx) ∧
    ∀ it k, k < c.dims.n →
      ((ipm_head c (ipm_state_at c s0 it)).velocity_1 (3 * k) = (ipm_state_at c s0 it).t k ∧
        (ipm_head c (ipm_state_at c s0 it)).velocity_1 (3 * k + 1)
          = (ipm_state_at c s0 it).velocity (5 * k + 1) ∧
        (ipm_head c (ipm_state_at c s0 it)).velocity_1 (3 * k + 2)
          = (ipm_state_at c s0 it).velocity (5 * k + 2)) ∧
      ((ipm_head c (ipm_state_at c s0 it)).velocity_2 (3 * k) = (ipm_state_at c s0 it).t_prime k ∧
        (ipm_head c (ipm_state_at c s0 it)).velocity_2 (3 * k + 1)
          = (ipm_state_at c s0 it).velocity (5 * k + 3) ∧
        (ipm_head c (ipm_state_at c s0 it)).velocity_2 (3 * k + 2)
          = (ipm_state_at c s0 it).velocity (5 * k + 4)) ∧
      ((ipm_head c (ipm_state_at c s0 it)).reaction_1 (3 * k)
          = (ipm_state_at c s0 it).reaction (5 * k) ∧
        (ipm_head c (ipm_state_at c s0 it)).reaction_1 (3 * k + 1)
          = (ipm_state_at c s0 it).reaction (5 * k + 1) ∧
        (ipm_head c (ipm_state_at c s0 it)).reaction_1 (3 * k + 2)
          = (ipm_state_at c s0 it).reaction (5 * k + 2)) ∧
      ((ipm_head c (ipm_state_at c s0 it)).reaction_2 (3 * k)
          = (ipm_state_at c s0 it).reaction (5 * k) ∧
        (ipm_head c (ipm_state_at c s0 it)).reaction_2 (3 * k + 1)
          = (ipm_state_at c s0 it).reaction (5 * k + 3) ∧
        (ipm_head c (ipm_state_at c s0 it)).reaction_2 (3 * k + 2)
          = (ipm_state_at c s0 it).reaction (5 * k + 4)) := by
  refine ⟨fun x out n i j hi hij => extract_vector_blocks x out n i j hi hij, ?_⟩
  intro it k hk
  generalize ipm_state_at c s0 it = st
  have hv1 : (ipm_head c st).velocity_1
      = set_leading c.dims (extract_vector st.velocity (5 * c.dims.n) c.dims.n (1 + 1) (1 + 2)
          (fun _ => 0)) st.t := by
    rw [← hnd]; rfl
  have hv2 : (ipm_head c st).velocity_2
      = set_leading c.dims (extract_vector st.velocity (5 * c.dims.n) c.dims.n (3 + 1) (3 + 2)
          (fun _ => 0)) st.t_prime := by
    rw [← hnd]; rfl
  have hr1 : (ipm_head c st).reaction_1
      = extract_vector st.reaction (5 * c.dims.n) c.dims.n (1 + 1) (1 + 2) (fun _ => 0) := by
    rw [← hnd]; rfl
  have hr2 : (ipm_head c st).reaction_2
      = extract_vector st.reaction (5 * c.dims.n) c.dims.n (3 + 1) (3 + 2) (fun _ => 0) := by
    rw [← hnd]; rfl
  obtain ⟨_, x1, x2⟩ := extract_vector_five st.velocity 1 c.dims.n (fun _ => 0) k hk
  obtain ⟨_, y1, y2⟩ := extract_vector_five st.velocity 3 c.dims.n (fun _ => 0) k hk
  obtain ⟨u0, u1, u2⟩ := extract_vector_five st.reaction 1 c.dims.n (fun _ => 0) k hk
  obtain ⟨w0, w1, w2⟩ := extract_vector_five st.reaction 3 c.dims.n (fun _ => 0) k hk
  rw [hv1, hv2, hr1, hr2]
  refine ⟨⟨?_, ?_, ?_⟩, ⟨?_, ?_, ?_⟩, ⟨u0, u1, u2⟩, ⟨w0, w1, w2⟩⟩
  · exact (set_leading_three c.dims hd2 hsz _ _ k hk).1
  · rw [(set_leading_three c.dims hd2 hsz _ _ k hk).2.1, x1]
  · rw [(set_leading_three c.dims hd2 hsz _ _ k hk).2.2, x2]
  · exact (set_leading_three c.dims hd2 hsz _ _ k hk).1
  · rw [(set_leading_three c.dims hd2 hsz _ _ k hk).2.1, y1]
  · rw [(set_leading_three c.dims hd2 hsz _ _ k hk).2.2, y2]

/-- C20: in a pass of `grfc3d_IPM` that reaches the update (`d = 5`, sizes without
wrap-around) the new point is `v + alpha_p*dv`, `u + alpha_p*du`, `r + alpha_d*dr`,
`t + alpha_d*dt`, `t' + alpha_d*dt'`, where `dv`, `dr`, `du_1`, `du_2` are the segments of
the corrector solution at the offsets `0`, `m`, `m+nd`, `m+nd+3n` (of lengths `m`, `nd`,
`3n`, `3n`), `dt[k]` and `dt'[k]` are the leading entries of the blocks `k` of `du_1` and
`du_2`, and `du` for the contact `k` is `(dt[k] + dt'[k], du_1[3k+1], du_1[3k+2],
du_2[3k+1], du_2[3k+2])`; `alpha_d = alpha_p`. -/
theorem grfc3d_IPM_point_update (c : IPMContext R) (s : IPMState R)
    (hd : c.dims.d = 5) (hd2 : c.dims.d_minus_2 = 3) (hnd : c.dims.nd = 5 * c.dims.n)
    (hmn : c.dims.m_plus_nd = c.dims.m + c.dims.nd) (hn3 : c.dims.n_dminus2 = 3 * c.dims.n) :
    (ipm_pass_corrector c s).alpha_dual = (ipm_pass_corrector c s).alpha_primal ∧
    (∀ i, i < c.dims.m →
      (ipm_pass c s).globalVelocity i
        = s.globalVelocity i + (ipm_pass_corrector c s).alpha_primal * (ipm_pass_corrector c s).rhs i) ∧
    (∀ i, i < c.dims.nd →
      (ipm_pass c s).reaction i
        = s.reaction i
          + (ipm_pass_corrector c s).alpha_dual * (ipm_pass_corrector c s).rhs (c.dims.m + i)) ∧
    (∀ k, k < c.dims.n →
      (ipm_pass c s).t k
        = s.t k + (ipm_pass_corrector c s).alpha_dual
            * (ipm_pass_corrector c s).rhs (c.dims.m + c.dims.nd + 3 * k) ∧
      (ipm_pass c s).t_prime k
        = s.t_prime k + (ipm_pass_corrector c s).alpha_dual
            * (ipm_pass_corrector c s).rhs (c.dims.m + c.dims.nd + 3 * c.dims.n + 3 * k) ∧
      (ipm_pass c s).velocity (5 * k)
        = s.velocity (5 * k) + (ipm_pass_corrector c s).alpha_primal
            * ((ipm_pass_corrector c s).rhs (c.dims.m + c.dims.nd + 3 * k)
              + (ipm_pass_corrector c s).rhs (c.dims.m + c.dims.nd + 3 * c.dims.n + 3 * k)) ∧
      (ipm_pass c s).velocity (5 * k + 1)
        = s.velocity (5 * k + 1) + (ipm_pass_corrector c s).alpha_primal
            * (ipm_pass_corrector c s).rhs (c.dims.m + c.dims.nd + 3 * k + 1) ∧
      (ipm_pass c s).velocity (5 * k + 2)
        = s.velocity (5 * k + 2) + (ipm_pass_corrector c s).alpha_primal
            * (ipm_pass_corrector c s).rhs (c.dims.m + c.dims.nd + 3 * k + 2) ∧
      (ipm_pass c s).velocity (5 * k + 3)
        = s.velocity (5 * k + 3) + (ipm_pass_corrector c s).alpha_primal
            * (ipm_pass_corrector c s).rhs (c.dims.m + c.dims.nd + 3 * c.dims.n + 3 * k + 1) ∧
      (ipm_pass c s).velocity (5 * k + 4)
        = s.velocity (5 * k + 4) + (ipm_pass_corrector c s).alpha_primal
            * (ipm_pass_corrector c s).rhs (c.dims.m + c.dims.nd + 3 * c.dims.n + 3 * k + 2)) ∧
    (∀ i, c.dims.m ≤ i → (ipm_pass c s).globalVelocity i = s.globalVelocity i) ∧
    (∀ i, c.dims.nd ≤ i →
      (ipm_pass c s).velocity i = s.velocity i ∧ (ipm_pass c s).reaction i = s.reaction i) ∧
    (∀ i, c.dims.n ≤ i → (ipm_pass c s).t i = s.t i ∧ (ipm_pass c s).t_prime i = s.t_prime i) := by
  generalize hk : ipm_pass_corrector c s = k
  have hdir : k.dir = ipm_retrieve c.dims k.rhs := by rw [← hk]; rfl
  have had : k.alpha_dual = k.alpha_primal := by rw [← hk]; rfl
  have hgv : (ipm_pass c s).globalVelocity
      = cblas_daxpy c.dims.m k.alpha_primal k.dir.d_globalVelocity s.globalVelocity := by
    rw [← hk]; rfl
  have hvel : (ipm_pass c s).velocity
      = cblas_daxpy c.dims.nd k.alpha_primal k.dir.d_velocity s.velocity := by
    rw [← hk]; rfl
  have hrea : (ipm_pass c s).reaction
      = cblas_daxpy c.dims.nd k.alpha_dual k.dir.d_reaction s.reaction := by
    rw [← hk]; rfl
  have ht : (ipm_pass c s).t = cblas_daxpy c.dims.n k.alpha_dual k.dir.d_t s.t := by
    rw [← hk]; rfl
  have htp : (ipm_pass c s).t_prime
      = cblas_daxpy c.dims.n k.alpha_dual k.dir.d_t_prime s.t_prime := by
    rw [← hk]; rfl
  have hdgv : ∀ i, i < c.dims.m → k.dir.d_globalVelocity i = k.rhs i := by
    intro i hi
    rw [hdir]
    simp [ipm_retrieve, cblas_dcopy, hi]
  have hdr : ∀ i, i < c.dims.nd → k.dir.d_reaction i = k.rhs (c.dims.m + i) := by
    intro i hi
    rw [hdir]
    simp [ipm_retrieve, cblas_dcopy, shift, hi]
  have hdv1 : ∀ i, i < 3 * c.dims.n → k.dir.d_velocity_1 i = k.rhs (c.dims.m + c.dims.nd + i) := by
    intro i hi
    rw [hdir]
    simp [ipm_retrieve, cblas_dcopy, shift, hi, hn3, hmn]
  have hdv2 : ∀ i, i < 3 * c.dims.n →
      k.dir.d_velocity_2 i = k.rhs (c.dims.m + c.dims.nd + 3 * c.dims.n + i) := by
    intro i hi
    rw [hdir]
    simp [ipm_retrieve, cblas_dcopy, shift, hi, hn3, hmn]
  refine ⟨had, ?_, ?_, ?_, ?_, ?_, ?_⟩
  · intro i hi
    rw [hgv]
    simp [cblas_daxpy, hi, hdgv i hi]
  · intro i hi
    rw [hrea]
    simp [cblas_daxpy, hi, hdr i hi]
  · intro q hq
    obtain ⟨r0, r1, r2, r3, r4, r5, r6⟩ := ipm_retrieve_five c.dims hd hd2 k.rhs q hq
    rw [← hdir] at r0 r1 r2 r3 r4 r5 r6
    have b0 : 5 * q < c.dims.nd := by omega
    have b1 : 5 * q + 1 < c.dims.nd := by omega
    have b2 : 5 * q + 2 < c.dims.nd := by omega
    have b3 : 5 * q + 3 < c.dims.nd := by omega
    have b4 : 5 * q + 4 < c.dims.nd := by omega
    have a0 := hdv1 (3 * q) (by omega)
    have a1 := hdv1 (3 * q + 1) (by omega)
    have a2 := hdv1 (3 * q + 2) (by omega)
    have c0 := hdv2 (3 * q) (by omega)
    have c1 := hdv2 (3 * q + 1) (by omega)
    have c2 := hdv2 (3 * q + 2) (by omega)
    rw [ht, htp, hvel]
    refine ⟨?_, ?_, ?_, ?_, ?_, ?_, ?_⟩
    · simp only [cblas_daxpy, if_pos hq, r5, a0]
    · simp only [cblas_daxpy, if_pos hq, r6, c0]
    · simp only [cblas_daxpy, if_pos b0, r0, a0, c0]
    · simp only [cblas_daxpy, if_pos b1, r1, a1, Nat.add_assoc]
    · simp only [cblas_daxpy, if_pos b2, r2, a2, Nat.add_assoc]
    · simp only [cblas_daxpy, if_pos b3, r3, c1, Nat.add_assoc]
    · simp only [cblas_daxpy, if_pos b4, r4, c2, Nat.add_assoc]
  · intro i hi
    rw [hgv]
    simp only [cblas_daxpy, if_neg (Nat.not_lt.mpr hi)]
  · intro i hi
    rw [hvel, hrea]
    simp only [cblas_daxpy, if_neg (Nat.not_lt.mpr hi), and_self]
  · intro i hi
    rw [ht, htp]
    simp only [cblas_daxpy, if_neg (Nat.not_lt.mpr hi), and_self]

end SubBlocks

/-- Witness for C19: the call on the sample problem with one contact; at the top of the
second pass `u = (23/2, 4.001, 4.501, 5.501, 6.001)`, `r = (3/2, 1.54, 2.04, 2.54, 3.04)`,
`t = 11/2`, `t' = 6`.  On the vector `x[i] = i` with two blocks of 5, `i = 2` and `j = 4`,
`extract_vector` writes `(0, 1, 2, 3)` and `(5, 6, 7, 8)`. -/
theorem grfc3d_IPM_sub_blocks_witness :
    (gmm_context.dims.d_minus_2 = 3 ∧ gmm_context.dims.nd = 5 * gmm_context.dims.n ∧
      3 * gmm_context.dims.n < 4294967296) ∧
    (∀ (x out : Vec ℚ) (n i j : Nat), 1 ≤ i → i ≤ j →
      (∀ k, k < n →
        extract_vector x (5 * n) n i j out (k * (j - i + 2)) = x (5 * k) ∧
        ∀ l, l ≤ j - i →
          extract_vector x (5 * n) n i j out (k * (j - i + 2) + 1 + l) = x (5 * k + (i - 1) + l)) ∧
      ∀ idx, n * (j - i + 2) ≤ idx → extract_vector x (5 * n) n i j out idx = out idx) ∧
    (List.range 9).map (extract_vector (fun i => i) 10 2 2 4 (fun _ => 100))
      = [0, 1, 2, 3, 5, 6, 7, 8, 100] ∧
    ((ipm_state_at gmm_context gmm_state 1).t 0, (ipm_state_at gmm_context gmm_state 1).t_prime 0)
      = (11 / 2, 6) ∧
    (List.range 5).map (ipm_state_at gmm_context gmm_state 1).velocity
      = [23 / 2, 4001 / 1000, 4501 / 1000, 5501 / 1000, 6001 / 1000] ∧
    (List.range 5).map (ipm_state_at gmm_context gmm_state 1).reaction
      = [3 / 2, 77 / 50, 51 / 25, 127 / 50, 76 / 25] ∧
    (List.range 3).map (ipm_head gmm_context (ipm_state_at gmm_context gmm_state 1)).velocity_1
      = [11 / 2, 4001 / 1000, 4501 / 1000] ∧
    (List.range 3).map (ipm_head gmm_context (ipm_state_at gmm_context gmm_state 1)).velocity_2
      = [6, 5501 / 1000, 6001 / 1000] ∧
    (List.range 3).map (ipm_head gmm_context (ipm_state_at gmm_context gmm_state 1)).reaction_1
      = [3 / 2, 77 / 50, 51 / 25] ∧
    (List.range 3).map (ipm_head gmm_context (ipm_state_at gmm_context gmm_state 1)).reaction_2
      = [3 / 2, 127 / 50, 76 / 25] :=
  ⟨⟨by decide, by decide, by decide⟩,
   (grfc3d_IPM_sub_blocks gmm_context gmm_state (by decide) (by decide) (by decide)).1,
   by decide, by decide!, by decide!, by decide!, by decide!, by decide!, by decide!, by decide!⟩

/-- Witness for C20: the first pass of the call on the sample problem with one contact
(`m = 1`, `nd = 5`), whose corrector solution is `(1, 2, ..., 13)` with the step length
`1/2`: `dv = 1`, `dr = (2, .., 6)`, `du_1 = (7, 8, 9)`, `du_2 = (10, 11, 12)`, so `dt = 7`,
`dt' = 10` and `du = (17, 8, 9, 11, 12)`. -/
theorem grfc3d_IPM_point_update_witness :
    (gmm_context.dims.d = 5 ∧ gmm_context.dims.d_minus_2 = 3 ∧
      gmm_context.dims.nd = 5 * gmm_context.dims.n ∧
      gmm_context.dims.m_plus_nd = gmm_context.dims.m + gmm_context.dims.nd ∧
      gmm_context.dims.n_dminus2 = 3 * gmm_context.dims.n) ∧
    (∀ i, i < gmm_context.dims.m →
      (ipm_pass gmm_context gmm_state).globalVelocity i
        = gmm_state.globalVelocity i + (ipm_pass_corrector gmm_context gmm_state).alpha_primal
            * (ipm_pass_corrector gmm_context gmm_state).rhs i) ∧
    (gmm_context.dims.m, gmm_context.dims.nd, gmm_context.dims.n) = (1, 5, 1) ∧
    (List.range 13).map (ipm_pass_corrector gmm_context gmm_state).rhs
      = [1, 2, 3, 4, 5, 6, 7, 8, 9, 10, 11, 12, 13] ∧
    ((ipm_pass_corrector gmm_context gmm_state).alpha_primal,
      (ipm_pass_corrector gmm_context gmm_state).alpha_dual) = (1 / 2, 1 / 2) ∧
    (gmm_state.globalVelocity 0, gmm_state.t 0, gmm_state.t_prime 0) = (1 / 100, 2, 1) ∧
    (List.range 5).map gmm_state.velocity = [3, 1 / 1000, 1 / 1000, 1 / 1000, 1 / 1000] ∧
    (List.range 5).map gmm_state.reaction = [1 / 2, 1 / 25, 1 / 25, 1 / 25, 1 / 25] ∧
    ((ipm_pass gmm_context gmm_state).globalVelocity 0, (ipm_pass gmm_context gmm_state).t 0,
      (ipm_pass gmm_context gmm_state).t_prime 0) = (51 / 100, 11 / 2, 6) ∧
    (List.range 5).map (ipm_pass gmm_context gmm_state).velocity
      = [23 / 2, 4001 / 1000, 4501 / 1000, 5501 / 1000, 6001 / 1000] ∧
    (List.range 5).map (ipm_pass gmm_context gmm_state).reaction
      = [3 / 2, 77 / 50, 51 / 25, 127 / 50, 76 / 25] :=
  ⟨⟨by decide, by decide, by decide, by decide, by decide⟩,
   (grfc3d_IPM_point_update gmm_context gmm_state (by decide) (by decide) (by decide) (by decide)
     (by decide)).2.1,
   by decide, by decide!, by decide!, by decide!, by decide!, by decide!, by decide!, by decide!,
   by decide!⟩


/-! ### Size assertion, default options, common step length -/

section SizeAssert

theorem u32_modEq (x : Nat) : (u32 x : Int) ≡ (x : Int) [ZMOD 4294967296] := by
  unfold u32
  rw [Int.natCast_mod]
  exact Int.mod_modEq _ _

theorem rhs_size_assert_iff (m nd d n : Nat) :
    (u32 (u32 (m + nd) + 2 * u32 (n * u32 (d + 4294967296 - 2)))
        = u32 (u32 (m + nd) + u32 (n * (d + 1))))
      ↔ ((n : Int) * ((d : Int) - 5)) % 4294967296 = 0 := by
  have h1 : ((u32 (u32 (m + nd) + 2 * u32 (n * u32 (d + 4294967296 - 2))) : Nat) : Int)
      ≡ (u32 (m + nd) : Int) + 2 * ((n : Int) * ((d : Int) - 2)) [ZMOD 4294967296] := by
    refine (u32_modEq _).trans ?_
    push_cast
    refine Int.ModEq.add_left _ (Int.ModEq.mul_left _ ?_)
    refine (u32_modEq _).trans ?_
    push_cast
    refine Int.ModEq.mul_left _ ?_
    refine (u32_modEq _).trans ?_
    rw [Int.modEq_iff_dvd]
    exact ⟨-1, by omega⟩
  have h2 : ((u32 (u32 (m + nd) + u32 (n * (d + 1))) : Nat) : Int)
      ≡ (u32 (m + nd) : Int) + (n : Int) * ((d : Int) + 1) [ZMOD 4294967296] := by
    refine (u32_modEq _).trans ?_
    push_cast
    refine Int.ModEq.add_left _ ?_
    refine (u32_modEq _).trans ?_
    push_cast
    exact Int.ModEq.refl _
  have lt1 : ∀ x, u32 x < 4294967296 := fun x => Nat.mod_lt _ (by decide)
  constructor
  · intro h
    have h3 : (u32 (m + nd) : Int) + 2 * ((n : Int) * ((d : Int) - 2))
        ≡ (u32 (m + nd) : Int) + (n : Int) * ((d : Int) + 1) [ZMOD 4294967296] := by
      refine h1.symm.trans ?_
      rw [h]
      exact h2
    have h4 := (Int.modEq_iff_dvd.mp h3.symm)
    have e : (u32 (m + nd) : Int) + 2 * ((n : Int) * ((d : Int) - 2))
        - ((u32 (m + nd) : Int) + (n : Int) * ((d : Int) + 1)) = (n : Int) * ((d : Int) - 5) := by
      ring
    rw [e] at h4
    exact Int.emod_eq_zero_of_dvd h4
  · intro h
    have h4 : (4294967296 : Int) ∣ (n : Int) * ((d : Int) - 5) := Int.dvd_of_emod_eq_zero h
    have h3 : (u32 (m + nd) : Int) + 2 * ((n : Int) * ((d : Int) - 2))
        ≡ (u32 (m + nd) : Int) + (n : Int) * ((d : Int) + 1) [ZMOD 4294967296] := by
      apply Int.ModEq.symm
      rw [Int.modEq_iff_dvd]
      have e : (u32 (m + nd) : Int) + 2 * ((n : Int) * ((d : Int) - 2))
          - ((u32 (m + nd) : Int) + (n : Int) * ((d : Int) + 1)) = (n : Int) * ((d : Int) - 5) := by
        ring
      rw [e]
      exact h4
    have h5 := (h1.trans h3).trans h2.symm
    have h6 : ((u32 (u32 (m + nd) + 2 * u32 (n * u32 (d + 4294967296 - 2))) : Nat) : Int)
        = ((u32 (u32 (m + nd) + u32 (n * (d + 1))) : Nat) : Int) := by
      have a := lt1 (u32 (m + nd) + 2 * u32 (n * u32 (d + 4294967296 - 2)))
      have b := lt1 (u32 (m + nd) + u32 (n * (d + 1)))
      unfold Int.ModEq at h5
      rw [Int.emod_eq_of_lt (by omega) (by omega), Int.emod_eq_of_lt (by omega) (by omega)] at h5
      exact h5
    exact_mod_cast h6

end SizeAssert

/-- C29: the condition of `assert((m_plus_nd+2*n_dminus2) == (m_plus_nd+n_dplus1))`, which
only depends on the size variables fixed at the entry of `grfc3d_IPM`, holds for all `m`,
`nd`, `n` when `problem->dimension = 5`; in general it holds exactly when `n*(d-5)` is a
multiple of `2^32` (the sizes are `unsigned int`), so it fails for `d != 5` and `n >= 1`
unless `n*(d-5)` is such a multiple. -/
theorem grfc3d_IPM_size_assert {R : Type} [Zero R] [One R] [RatCast R] [Add R] [Mul R] [Div R]
    [LE R] [LT R] (ext : Externals R) (cst : Constants)
    (problem : GlobalRollingFrictionContactProblem R) (options : SolverOptions R)
    (data : Grfc3d_IPM_data R) :
    (ipm_entry_context ext cst problem options data).dims = dims_of problem ∧
    (problem.dimension = 5 →
      rhs_size_assert (ipm_entry_context ext cst problem options data).dims = true) ∧
    (rhs_size_assert (ipm_entry_context ext cst problem options data).dims = true
      ↔ ((problem.numberOfContacts : Int) * ((problem.dimension : Int) - 5)) % 4294967296 = 0) ∧
    (problem.dimension ≠ 5 → 1 ≤ problem.numberOfContacts →
      ((problem.numberOfContacts : Int) * ((problem.dimension : Int) - 5)) % 4294967296 ≠ 0 →
      rhs_size_assert (ipm_entry_context ext cst problem options data).dims = false) := by
  have hD : (ipm_entry_context ext cst problem options data).dims = dims_of problem := by
    unfold ipm_entry_context ipm_context ipm_symmetrize
    split <;> rfl
  have hiff : rhs_size_assert (dims_of problem) = true
      ↔ ((problem.numberOfContacts : Int) * ((problem.dimension : Int) - 5)) % 4294967296 = 0 := by
    unfold rhs_size_assert dims_of
    simp only [beq_iff_eq]
    exact rhs_size_assert_iff _ _ _ _
  rw [hD]
  refine ⟨rfl, ?_, hiff, ?_⟩
  · intro h5
    rw [hiff, h5]
    simp
  · intro _ _ hne
    rw [← Bool.not_eq_true]
    exact fun h => hne (hiff.mp h)

/-- Witness for C29: on the sample problems (`d = 5`) the condition holds, also for
`2^32 - 1` contacts; with `d = 3` and one contact it fails, and with `d = 3` and `2^31`
contacts, where `n*(d-5) = -2^32`, it holds. -/
theorem grfc3d_IPM_size_assert_witness :
    (sample_problem 2 : GlobalRollingFrictionContactProblem ℚ).dimension = 5 ∧
    rhs_size_assert (ipm_entry_context rat_ext sample_cst (sample_problem 2) rat_options
      (ipm_entry_data rat_ext sample_cst (sample_problem 2) rat_options rfl)).dims = true ∧
    rhs_size_assert (dims_of (sample_problem 4294967295 : GlobalRollingFrictionContactProblem ℚ))
      = true ∧
    rhs_size_assert (dims_of { (sample_problem 1 : GlobalRollingFrictionContactProblem ℚ) with
      dimension := 3 }) = false ∧
    rhs_size_assert (dims_of { (sample_problem 2147483648 : GlobalRollingFrictionContactProblem ℚ)
      with dimension := 3 }) = true :=
  ⟨rfl,
   (grfc3d_IPM_size_assert rat_ext sample_cst (sample_problem 2) rat_options
     (ipm_entry_data rat_ext sample_cst (sample_problem 2) rat_options rfl)).2.1 rfl,
   by decide, by decide, by decide⟩

section DefaultOptions
variable {R L : Type} [Zero R] [RatCast R] [Add R] [Mul R] [LE R] [LT R]
  [DecidableRel (α := R) (· ≤ ·)] [DecidableRel (α := R) (· < ·)]

omit [Zero R] [Add R] [Mul R] [LE R] [LT R] [DecidableRel (α := R) (· ≤ ·)]
  [DecidableRel (α := R) (· < ·)] in
/-- What `newton_lsa_set_default` writes: `iparam` at `MAX_ITER`, `LSA_NONMONOTONE_LS` and
`LSA_NONMONOTONE_LS_M`, `dparam` at `TOL`, `LSA_ALPHA_MIN` and at the index
`SICONOS_IPARAM_STOPPING_CRITERION = 10`; every other entry, `iparam[10]` included unless
`MAX_ITER` is 10, keeps its value. -/
theorem newton_lsa_set_default_spec (ext : LSAExternals R L) (options : LSAOptions R) :
    (newton_lsa_set_default ext options).dparam SICONOS_IPARAM_STOPPING_CRITERION
      = ((SICONOS_STOPPING_CRITERION_RESIDU : ℚ) : R) ∧
    (newton_lsa_set_default ext options).iparam SICONOS_IPARAM_LSA_NONMONOTONE_LS = 0 ∧
    (newton_lsa_set_default ext options).iparam SICONOS_IPARAM_LSA_NONMONOTONE_LS_M = 0 ∧
    (newton_lsa_set_default ext options).dparam SICONOS_DPARAM_LSA_ALPHA_MIN
      = ((1 / 10000000000000000 : ℚ) : R) ∧
    (ext.SICONOS_IPARAM_MAX_ITER ≠ SICONOS_IPARAM_LSA_NONMONOTONE_LS →
      ext.SICONOS_IPARAM_MAX_ITER ≠ SICONOS_IPARAM_LSA_NONMONOTONE_LS_M →
      (newton_lsa_set_default ext options).iparam ext.SICONOS_IPARAM_MAX_ITER = 1000) ∧
    (ext.SICONOS_DPARAM_TOL ≠ SICONOS_DPARAM_LSA_ALPHA_MIN →
      ext.SICONOS_DPARAM_TOL ≠ SICONOS_IPARAM_STOPPING_CRITERION →
      (newton_lsa_set_default ext options).dparam ext.SICONOS_DPARAM_TOL
        = ((1 / 10000000000 : ℚ) : R)) ∧
    (∀ k, k ≠ ext.SICONOS_IPARAM_MAX_ITER → k ≠ SICONOS_IPARAM_LSA_NONMONOTONE_LS →
      k ≠ SICONOS_IPARAM_LSA_NONMONOTONE_LS_M →
      (newton_lsa_set_default ext options).iparam k = options.iparam k) ∧
    (∀ k, k ≠ ext.SICONOS_DPARAM_TOL → k ≠ SICONOS_DPARAM_LSA_ALPHA_MIN →
      k ≠ SICONOS_IPARAM_STOPPING_CRITERION →
      (newton_lsa_set_default ext options).dparam k = options.dparam k) ∧
    (newton_lsa_set_default ext options).dWork = options.dWork ∧
    (newton_lsa_set_default ext options).params = options.params := by
  refine ⟨?_, ?_, ?_, ?_, ?_, ?_, ?_, ?_, rfl, rfl⟩
  · simp [newton_lsa_set_default, setv]
  · simp [newton_lsa_set_default, setv, SICONOS_IPARAM_LSA_NONMONOTONE_LS,
      SICONOS_IPARAM_LSA_NONMONOTONE_LS_M]
  · simp [newton_lsa_set_default, setv]
  · simp [newton_lsa_set_default, setv, SICONOS_DPARAM_LSA_ALPHA_MIN,
      SICONOS_IPARAM_STOPPING_CRITERION]
  · intro h1 h2
    simp [newton_lsa_set_default, setv, h1, h2]
  · intro h1 h2
    simp [newton_lsa_set_default, setv, h1, h2]
  · intro k h1 h2 h3
    simp [newton_lsa_set_default, setv, h1, h2, h3]
  · intro k h1 h2 h3
    simp [newton_lsa_set_default, setv, h1, h2, h3]

end DefaultOptions

/-- Failing input for C30: options with `iparam[STOPPING_CRITERION] = STATIONARITY` and
`dparam[10] = 3`.  After `newton_lsa_set_default` the entry `iparam[10]` is still
`STATIONARITY`, not `RESIDU`, and the entry `dparam[10]`, which is none of `TOL`,
`LSA_ALPHA_MIN`, has been set to 0: the last assignment of the routine indexes `dparam`
with `SICONOS_IPARAM_STOPPING_CRITERION`.  The other entries are as the claim says. -/
theorem newton_lsa_set_default_counterexample :
    lsa_preset_options.iparam SICONOS_IPARAM_STOPPING_CRITERION
      = SICONOS_STOPPING_CRITERION_STATIONARITY ∧
    lsa_preset_options.dparam 10 = 3 ∧
    (newton_lsa_set_default lsa_sample_ext lsa_preset_options).iparam
        SICONOS_IPARAM_STOPPING_CRITERION = SICONOS_STOPPING_CRITERION_STATIONARITY ∧
    (newton_lsa_set_default lsa_sample_ext lsa_preset_options).iparam
        SICONOS_IPARAM_STOPPING_CRITERION ≠ SICONOS_STOPPING_CRITERION_RESIDU ∧
    (newton_lsa_set_default lsa_sample_ext lsa_preset_options).dparam 10 = 0 ∧
    (lsa_sample_ext.SICONOS_DPARAM_TOL ≠ 10 ∧ SICONOS_DPARAM_LSA_ALPHA_MIN ≠ 10) ∧
    (List.range 12).map (newton_lsa_set_default lsa_sample_ext lsa_preset_options).iparam
      = [1000, 7, 7, 0, 0, 7, 7, 7, 7, 7, 1, 7] ∧
    (List.range 12).map (newton_lsa_set_default lsa_sample_ext lsa_preset_options).dparam
      = [1 / 10000000000, 3, 1 / 10000000000000000, 3, 3, 3, 3, 3, 3, 3, 0, 3] := by
  refine ⟨by decide, by decide!, by decide, by decide, by decide!, by decide, by decide,
    by decide!⟩

section CommonStep
variable {R : Type} [LinearOrderedField R]

theorem ipm_step_length_min (c : IPMContext R) (h : IPMHead R) (dir : IPMDirection R) (g : R) :
    ipm_step_length c h dir g
      = min (c.ext.getStepLength h.velocity_1 dir.d_velocity_1 c.dims.n_dminus2 c.dims.n g)
          (min (c.ext.getStepLength h.velocity_2 dir.d_velocity_2 c.dims.n_dminus2 c.dims.n g)
            (min (c.ext.getStepLength h.reaction_1 dir.d_reaction_1 c.dims.n_dminus2 c.dims.n g)
              (c.ext.getStepLength h.reaction_2 dir.d_reaction_2 c.dims.n_dminus2 c.dims.n g))) := by
  unfold ipm_step_length
  simp only [fmin_eq_min]

theorem min_four_mem (a b c d : R) :
    min a (min b (min c d)) ∈ [a, b, c, d] ∧
    min a (min b (min c d)) ≤ a ∧ min a (min b (min c d)) ≤ b ∧
    min a (min b (min c d)) ≤ c ∧ min a (min b (min c d)) ≤ d := by
  refine ⟨?_, min_le_left _ _, ?_, ?_, ?_⟩
  · rcases min_choice a (min b (min c d)) with h | h
    · rw [h]; simp
    · rw [h]
      rcases min_choice b (min c d) with h | h
      · rw [h]; simp
      · rw [h]
        rcases min_choice c d with h | h
        · rw [h]; simp
        · rw [h]; simp
  · exact le_trans (min_le_right _ _) (min_le_left _ _)
  · exact le_trans (min_le_right _ _) (le_trans (min_le_right _ _) (min_le_left _ _))
  · exact le_trans (min_le_right _ _) (le_trans (min_le_right _ _) (min_le_right _ _))

/-- C21: in every pass of `grfc3d_IPM`, after the predictor solve and after the corrector
solve, `alpha_primal` is the minimum of the four values
`getStepLength(u_1, du_1)`, `getStepLength(u_2, du_2)`, `getStepLength(r_1, dr_1)`,
`getStepLength(r_2, dr_2)` (with the current `gmm`), so it is one of them and not larger than
any, and `alpha_dual = alpha_primal`; the update applies this one step length of the
corrector to `v`, `u`, `r`, `t` and `t'`. -/
theorem grfc3d_IPM_common_step_length (c : IPMContext R) (s : IPMState R) :
    ((ipm_pass_predictor c s).alpha_primal
      = min (c.ext.getStepLength (ipm_head c s).velocity_1 (ipm_pass_predictor c s).dir.d_velocity_1
              c.dims.n_dminus2 c.dims.n s.gmm)
          (min (c.ext.getStepLength (ipm_head c s).velocity_2
                (ipm_pass_predictor c s).dir.d_velocity_2 c.dims.n_dminus2 c.dims.n s.gmm)
            (min (c.ext.getStepLength (ipm_head c s).reaction_1
                  (ipm_pass_predictor c s).dir.d_reaction_1 c.dims.n_dminus2 c.dims.n s.gmm)
              (c.ext.getStepLength (ipm_head c s).reaction_2
                (ipm_pass_predictor c s).dir.d_reaction_2 c.dims.n_dminus2 c.dims.n s.gmm))) ∧
      (ipm_pass_predictor c s).alpha_primal ∈
        [c.ext.getStepLength (ipm_head c s).velocity_1 (ipm_pass_predictor c s).dir.d_velocity_1
            c.dims.n_dminus2 c.dims.n s.gmm,
          c.ext.getStepLength (ipm_head c s).velocity_2 (ipm_pass_predictor c s).dir.d_velocity_2
            c.dims.n_dminus2 c.dims.n s.gmm,
          c.ext.getStepLength (ipm_head c s).reaction_1 (ipm_pass_predictor c s).dir.d_reaction_1
            c.dims.n_dminus2 c.dims.n s.gmm,
          c.ext.getStepLength (ipm_head c s).reaction_2 (ipm_pass_predictor c s).dir.d_reaction_2
            c.dims.n_dminus2 c.dims.n s.gmm] ∧
      (ipm_pass_predictor c s).alpha_primal
        ≤ c.ext.getStepLength (ipm_head c s).velocity_1 (ipm_pass_predictor c s).dir.d_velocity_1
            c.dims.n_dminus2 c.dims.n s.gmm ∧
      (ipm_pass_predictor c s).alpha_primal
        ≤ c.ext.getStepLength (ipm_head c s).velocity_2 (ipm_pass_predictor c s).dir.d_velocity_2
            c.dims.n_dminus2 c.dims.n s.gmm ∧
      (ipm_pass_predictor c s).alpha_primal
        ≤ c.ext.getStepLength (ipm_head c s).reaction_1 (ipm_pass_predictor c s).dir.d_reaction_1
            c.dims.n_dminus2 c.dims.n s.gmm ∧
      (ipm_pass_predictor c s).alpha_primal
        ≤ c.ext.getStepLength (ipm_head c s).reaction_2 (ipm_pass_predictor c s).dir.d_reaction_2
            c.dims.n_dminus2 c.dims.n s.gmm ∧
      (ipm_pass_predictor c s).alpha_dual = (ipm_pass_predictor c s).alpha_primal) ∧
    ((ipm_pass_corrector c s).alpha_primal
      = min (c.ext.getStepLength (ipm_head c s).velocity_1 (ipm_pass_corrector c s).dir.d_velocity_1
              c.dims.n_dminus2 c.dims.n (ipm_pass_predictor c s).gmm)
          (min (c.ext.getStepLength (ipm_head c s).velocity_2
                (ipm_pass_corrector c s).dir.d_velocity_2 c.dims.n_dminus2 c.dims.n
                (ipm_pass_predictor c s).gmm)
            (min (c.ext.getStepLength (ipm_head c s).reaction_1
                  (ipm_pass_corrector c s).dir.d_reaction_1 c.dims.n_dminus2 c.dims.n
                  (ipm_pass_predictor c s).gmm)
              (c.ext.getStepLength (ipm_head c s).reaction_2
                (ipm_pass_corrector c s).dir.d_reaction_2 c.dims.n_dminus2 c.dims.n
                (ipm_pass_predictor c s).gmm))) ∧
      (ipm_pass_corrector c s).alpha_primal ∈
        [c.ext.getStepLength (ipm_head c s).velocity_1 (ipm_pass_corrector c s).dir.d_velocity_1
            c.dims.n_dminus2 c.dims.n (ipm_pass_predictor c s).gmm,
          c.ext.getStepLength (ipm_head c s).velocity_2 (ipm_pass_corrector c s).dir.d_velocity_2
            c.dims.n_dminus2 c.dims.n (ipm_pass_predictor c s).gmm,
          c.ext.getStepLength (ipm_head c s).reaction_1 (ipm_pass_corrector c s).dir.d_reaction_1
            c.dims.n_dminus2 c.dims.n (ipm_pass_predictor c s).gmm,
          c.ext.getStepLength (ipm_head c s).reaction_2 (ipm_pass_corrector c s).dir.d_reaction_2
            c.dims.n_dminus2 c.dims.n (ipm_pass_predictor c s).gmm] ∧
      (ipm_pass_corrector c s).alpha_primal
        ≤ c.ext.getStepLength (ipm_head c s).velocity_1 (ipm_pass_corrector c s).dir.d_velocity_1
            c.dims.n_dminus2 c.dims.n (ipm_pass_predictor c s).gmm ∧
      (ipm_pass_corrector c s).alpha_primal
        ≤ c.ext.getStepLength (ipm_head c s).velocity_2 (ipm_pass_corrector c s).dir.d_velocity_2
            c.dims.n_dminus2 c.dims.n (ipm_pass_predictor c s).gmm ∧
      (ipm_pass_corrector c s).alpha_primal
        ≤ c.ext.getStepLength (ipm_head c s).reaction_1 (ipm_pass_corrector c s).dir.d_reaction_1
            c.dims.n_dminus2 c.dims.n (ipm_pass_predictor c s).gmm ∧
      (ipm_pass_corrector c s).alpha_primal
        ≤ c.ext.getStepLength (ipm_head c s).reaction_2 (ipm_pass_corrector c s).dir.d_reaction_2
            c.dims.n_dminus2 c.dims.n (ipm_pass_predictor c s).gmm ∧
      (ipm_pass_corrector c s).alpha_dual = (ipm_pass_corrector c s).alpha_primal) ∧
    ((ipm_pass c s).globalVelocity
        = cblas_daxpy c.dims.m (ipm_pass_corrector c s).alpha_primal
            (ipm_pass_corrector c s).dir.d_globalVelocity s.globalVelocity ∧
      (ipm_pass c s).velocity
        = cblas_daxpy c.dims.nd (ipm_pass_corrector c s).alpha_primal
            (ipm_pass_corrector c s).dir.d_velocity s.velocity ∧
      (ipm_pass c s).reaction
        = cblas_daxpy c.dims.nd (ipm_pass_corrector c s).alpha_primal
            (ipm_pass_corrector c s).dir.d_reaction s.reaction ∧
      (ipm_pass c s).t
        = cblas_daxpy c.dims.n (ipm_pass_corrector c s).alpha_primal
            (ipm_pass_corrector c s).dir.d_t s.t ∧
      (ipm_pass c s).t_prime
        = cblas_daxpy c.dims.n (ipm_pass_corrector c s).alpha_primal
            (ipm_pass_corrector c s).dir.d_t_prime s.t_prime ∧
      (ipm_pass c s).alpha_primal = (ipm_pass_corrector c s).alpha_primal ∧
      (ipm_pass c s).alpha_dual = (ipm_pass_corrector c s).alpha_primal) := by
  have hp : (ipm_pass_predictor c s).alpha_primal
      = ipm_step_length c (ipm_head c s) (ipm_pass_predictor c s).dir s.gmm := rfl
  have hk : (ipm_pass_corrector c s).alpha_primal
      = ipm_step_length c (ipm_head c s) (ipm_pass_corrector c s).dir (ipm_pass_predictor c s).gmm :=
    rfl
  have ep := hp.trans (ipm_step_length_min c (ipm_head c s) (ipm_pass_predictor c s).dir s.gmm)
  have ek := hk.trans (ipm_step_length_min c (ipm_head c s) (ipm_pass_corrector c s).dir
    (ipm_pass_predictor c s).gmm)
  refine ⟨?_, ?_, rfl, rfl, rfl, rfl, rfl, rfl, rfl⟩
  · obtain ⟨a, b, c1, d, e⟩ := min_four_mem
      (c.ext.getStepLength (ipm_head c s).velocity_1 (ipm_pass_predictor c s).dir.d_velocity_1
        c.dims.n_dminus2 c.dims.n s.gmm)
      (c.ext.getStepLength (ipm_head c s).velocity_2 (ipm_pass_predictor c s).dir.d_velocity_2
        c.dims.n_dminus2 c.dims.n s.gmm)
      (c.ext.getStepLength (ipm_head c s).reaction_1 (ipm_pass_predictor c s).dir.d_reaction_1
        c.dims.n_dminus2 c.dims.n s.gmm)
      (c.ext.getStepLength (ipm_head c s).reaction_2 (ipm_pass_predictor c s).dir.d_reaction_2
        c.dims.n_dminus2 c.dims.n s.gmm)
    rw [← ep] at a b c1 d e
    exact ⟨ep, a, b, c1, d, e, rfl⟩
  · obtain ⟨a, b, c1, d, e⟩ := min_four_mem
      (c.ext.getStepLength (ipm_head c s).velocity_1 (ipm_pass_corrector c s).dir.d_velocity_1
        c.dims.n_dminus2 c.dims.n (ipm_pass_predictor c s).gmm)
      (c.ext.getStepLength (ipm_head c s).velocity_2 (ipm_pass_corrector c s).dir.d_velocity_2
        c.dims.n_dminus2 c.dims.n (ipm_pass_predictor c s).gmm)
      (c.ext.getStepLength (ipm_head c s).reaction_1 (ipm_pass_corrector c s).dir.d_reaction_1
        c.dims.n_dminus2 c.dims.n (ipm_pass_predictor c s).gmm)
      (c.ext.getStepLength (ipm_head c s).reaction_2 (ipm_pass_corrector c s).dir.d_reaction_2
        c.dims.n_dminus2 c.dims.n (ipm_pass_predictor c s).gmm)
    rw [← ek] at a b c1 d e
    exact ⟨ek, a, b, c1, d, e, rfl⟩

end CommonStep


/-! ### Trajectory of the loop of `newton_LSA` -/

section NewtonTrajectoryLemmas
variable {R L : Type} [Zero R] [RatCast R] [Add R] [Mul R] [LE R] [LT R]
  [DecidableRel (α := R) (· ≤ ·)] [DecidableRel (α := R) (· < ·)]

omit [Add R] [LE R] [LT R] [DecidableRel (α := R) (· ≤ ·)] [DecidableRel (α := R) (· < ·)] in
/-- The fields of the state at the first evaluation of the loop condition. -/
theorem lsa_initial_state_fields (ext : LSAExternals R L) (n : Nat) (z : Vec R)
    (H : NumericsMatrix R) (opt : LSAOptions R) (fn : functions_LSA R) (s0 : LSAState R L)
    (h : lsa_initial_state ext n z H opt fn = some s0) :
    ∃ f fm ce, fn.compute_F = some f ∧ fn.compute_F_merit = some fm ∧ fn.compute_error = some ce ∧
      s0.z = z ∧ s0.F = f z ∧ s0.F_merit = fm z (f z) ∧
      s0.theta = ((1 / 2 : ℚ) : R) * ext.cblas_dnrm2 n s0.F_merit * ext.cblas_dnrm2 n s0.F_merit ∧
      s0.err = ce z (f z) s0.JacThetaF_merit (opt.dparam ext.SICONOS_DPARAM_TOL) ∧
      s0.JacThetaF_merit 0 = ((DBL_MAX : ℚ) : R) ∧
      s0.iter = 0 ∧ s0.searches = 0 ∧ s0.solves = 0 ∧ s0.H = H := by
  unfold lsa_initial_state at h
  split at h
  · rename_i f fm ce hf hfm hce
    split at h
    · cases h
    · cases h
      exact ⟨f, fm, ce, hf, hfm, hce, rfl, rfl, rfl, rfl, rfl, by simp [setv], rfl, rfl, rfl, rfl⟩
  · cases h

/-- The trajectory from `s`, read from its first pass. -/
theorem lsa_state_at_first (ext : LSAExternals R L) (n : Nat) (opt : LSAOptions R)
    (fn : functions_LSA R) (s : LSAState R L) (k : Nat) :
    lsa_state_at ext n opt fn s (k + 1)
      = (if (s.iter : Int) < opt.iparam ext.SICONOS_IPARAM_MAX_ITER
            ∧ opt.dparam ext.SICONOS_DPARAM_TOL < s.err then
          match lsa_pass ext n opt fn s with
          | LSAStep.next s1 => lsa_state_at ext n opt fn s1 k
          | LSAStep.failed _ => none
          | LSAStep.null_call => none
        else none) := by
  induction k with
  | zero =>
    by_cases hc : (s.iter : Int) < opt.iparam ext.SICONOS_IPARAM_MAX_ITER
        ∧ opt.dparam ext.SICONOS_DPARAM_TOL < s.err
    · simp only [lsa_state_at, if_pos hc]
    · simp only [lsa_state_at, if_neg hc]
  | succ k ih =>
    rw [lsa_state_at, ih]
    by_cases hc : (s.iter : Int) < opt.iparam ext.SICONOS_IPARAM_MAX_ITER
        ∧ opt.dparam ext.SICONOS_DPARAM_TOL < s.err
    · rw [if_pos hc, if_pos hc]
      cases hp : lsa_pass ext n opt fn s with
      | next s1 => rfl
      | failed s1 => rfl
      | null_call => rfl
    · rw [if_neg hc, if_neg hc]

/-- A property that holds at the entry of the loop and is kept by every completed pass
holds each time the loop condition is evaluated. -/
theorem lsa_state_at_invariant (ext : LSAExternals R L) (n : Nat) (opt : LSAOptions R)
    (fn : functions_LSA R) (P : LSAState R L → Prop) (s0 : LSAState R L) (h0 : P s0)
    (hstep : ∀ s s1, P s → lsa_pass ext n opt fn s = LSAStep.next s1 → P s1) :
    ∀ k s, lsa_state_at ext n opt fn s0 k = some s → P s := by
  intro k
  induction k with
  | zero =>
    intro s h
    simp only [lsa_state_at, Option.some.injEq] at h
    rw [← h]
    exact h0
  | succ k ih =>
    intro s h
    rw [lsa_state_at] at h
    cases hk : lsa_state_at ext n opt fn s0 k with
    | none => rw [hk] at h; cases h
    | some sk =>
      rw [hk] at h
      dsimp only at h
      split at h
      · cases hp : lsa_pass ext n opt fn sk with
        | next s1 =>
          rw [hp] at h
          simp only [Option.some.injEq] at h
          rw [← h]
          exact hstep sk s1 (ih sk hk) hp
        | failed s1 => rw [hp] at h; cases h
        | null_call => rw [hp] at h; cases h
      · cases h

/-- The counter `iter` at the evaluation `k` of the loop condition is `k` more than at the
entry. -/
theorem lsa_state_at_iter (ext : LSAExternals R L) (n : Nat) (opt : LSAOptions R)
    (fn : functions_LSA R) (s0 : LSAState R L) :
    ∀ k s, lsa_state_at ext n opt fn s0 k = some s → s.iter = s0.iter + k := by
  intro k
  induction k with
  | zero =>
    intro s h
    simp only [lsa_state_at, Option.some.injEq] at h
    rw [← h]
    rfl
  | succ k ih =>
    intro s h
    rw [lsa_state_at] at h
    cases hk : lsa_state_at ext n opt fn s0 k with
    | none => rw [hk] at h; cases h
    | some sk =>
      rw [hk] at h
      dsimp only at h
      split at h
      · cases hp : lsa_pass ext n opt fn sk with
        | next s1 =>
          rw [hp] at h
          simp only [Option.some.injEq] at h
          rw [← h, (lsa_pass_spec ext n opt fn sk).1 s1 hp, ih sk hk]
          omega
        | failed s1 => rw [hp] at h; cases h
        | null_call => rw [hp] at h; cases h
      · cases h

/-- The loop run from the entry continues as the loop run from a state of its trajectory. -/
theorem lsa_loop_of_state_at (ext : LSAExternals R L) (n : Nat) (opt : LSAOptions R)
    (fn : functions_LSA R) :
    ∀ (k : Nat) (s0 s : LSAState R L), lsa_state_at ext n opt fn s0 k = some s →
      ∀ fuel, lsa_loop ext n opt fn (k + fuel) s0 = lsa_loop ext n opt fn fuel s := by
  intro k
  induction k with
  | zero =>
    intro s0 s h fuel
    simp only [lsa_state_at, Option.some.injEq] at h
    rw [h, Nat.zero_add]
  | succ k ih =>
    intro s0 s h fuel
    rw [lsa_state_at_first] at h
    split at h
    · rename_i hc
      cases hp : lsa_pass ext n opt fn s0 with
      | next s1 =>
        rw [hp] at h
        dsimp only at h
        have e : k + 1 + fuel = (k + fuel) + 1 := by omega
        rw [e, lsa_loop, if_pos hc, hp]
        exact ih s1 s h fuel
      | failed s1 => rw [hp] at h; cases h
      | null_call => rw [hp] at h; cases h
    · cases h

/-- What the loop returns is a state of its trajectory at which the loop condition is
false or the fuel is used up, or the state of a pass from such a state that ends in the
jump. -/
theorem lsa_loop_trajectory (ext : LSAExternals R L) (n : Nat) (opt : LSAOptions R)
    (fn : functions_LSA R) :
    ∀ (fuel : Nat) (s0 sf : LSAState R L) (e : LSAExit),
      lsa_loop ext n opt fn fuel s0 = some (sf, e) →
      ∃ k s, k ≤ fuel ∧ lsa_state_at ext n opt fn s0 k = some s ∧
        ((e = LSAExit.loop_condition ∧ sf = s ∧
            (k < fuel → ¬ ((s.iter : Int) < opt.iparam ext.SICONOS_IPARAM_MAX_ITER
              ∧ opt.dparam ext.SICONOS_DPARAM_TOL < s.err))) ∨
          (e = LSAExit.direction_failure ∧ k < fuel ∧
            ((s.iter : Int) < opt.iparam ext.SICONOS_IPARAM_MAX_ITER
              ∧ opt.dparam ext.SICONOS_DPARAM_TOL < s.err) ∧
            lsa_pass ext n opt fn s = LSAStep.failed sf)) := by
  intro fuel
  induction fuel with
  | zero =>
    intro s0 sf e h
    simp only [lsa_loop, Option.some.injEq, Prod.mk.injEq] at h
    exact ⟨0, s0, le_refl 0, rfl, Or.inl ⟨h.2.symm, h.1.symm, fun h => absurd h (lt_irrefl 0)⟩⟩
  | succ fuel ih =>
    intro s0 sf e h
    rw [lsa_loop] at h
    split at h
    · rename_i hc
      cases hp : lsa_pass ext n opt fn s0 with
      | next s1 =>
        rw [hp] at h
        dsimp only at h
        obtain ⟨k, s, hk, hs, hcase⟩ := ih s1 sf e h
        refine ⟨k + 1, s, by omega, ?_, ?_⟩
        · rw [lsa_state_at_first, if_pos hc, hp]
          exact hs
        · rcases hcase with ⟨a, b, c⟩ | ⟨a, b, c, d⟩
          · exact Or.inl ⟨a, b, fun hlt => c (by omega)⟩
          · exact Or.inr ⟨a, by omega, c, d⟩
      | failed s1 =>
        rw [hp] at h
        simp only [Option.some.injEq, Prod.mk.injEq] at h
        refine ⟨0, s0, by omega, rfl, Or.inr ⟨h.2.symm, by omega, hc, ?_⟩⟩
        rw [hp, h.1]
      | null_call => rw [hp] at h; cases h
    · rename_i hc
      simp only [Option.some.injEq, Prod.mk.injEq] at h
      exact ⟨0, s0, by omega, rfl, Or.inl ⟨h.2.symm, h.1.symm, fun _ => hc⟩⟩

/-- A pass that ends in the jump leaves `z`, `F`, `theta`, `err` and the counter of the
line searches as they were at its start. -/
theorem lsa_pass_failed_frame (ext : LSAExternals R L) (n : Nat) (opt : LSAOptions R)
    (fn : functions_LSA R) (s s1 : LSAState R L)
    (h : lsa_pass ext n opt fn s = LSAStep.failed s1) :
    s1.iter = s.iter + 1 ∧ s1.z = s.z ∧ s1.F = s.F ∧ s1.theta = s.theta ∧ s1.err = s.err ∧
    s1.searches = s.searches ∧ s1.info_dir_search ≠ 0 ∧ fn.compute_RHS_desc = none := by
  obtain ⟨sd, h1, h2, h3, h4⟩ := ((lsa_pass_spec ext n opt fn s).2.1 s1).mp h
  obtain ⟨a1, a2, a3, a4⟩ := (lsa_pass_spec ext n opt fn s).2.2 s1 h
  have fd := lsa_direction_frame ext n opt.params fn _ sd h1
  have fg := lsa_gradient_frame fn sd s1 h2
  refine ⟨a1, a2, ?_, a3, a4, ?_, h3, h4⟩
  · rw [fg.2.2.2.1, fd.2.2.2.1]
  · rw [fg.2.1, fd.2.1]

omit [Zero R] [LT R] [DecidableRel (α := R) (· < ·)] in
/-- The end of a pass stores the step in `tau` and keeps the state of the line search. -/
theorem lsa_finish_pass_tau (ext : LSAExternals R L) (n : Nat) (opt : LSAOptions R)
    (fn : functions_LSA R) (s s1 : LSAState R L) (tau : R)
    (h : lsa_finish_pass ext n opt fn s tau = some s1) :
    s1.tau = tau ∧ s1.ls = s.ls ∧ s1.iter = s.iter ∧ s1.info_dir_search = s.info_dir_search := by
  unfold lsa_finish_pass at h
  split at h
  · dsimp only at h
    split at h
    · cases h; exact ⟨rfl, rfl, rfl, rfl⟩
    · split at h
      · cases h; exact ⟨rfl, rfl, rfl, rfl⟩
      · split at h
        · cases h; exact ⟨rfl, rfl, rfl, rfl⟩
        · split at h
          · split at h
            · cases h; exact ⟨rfl, rfl, rfl, rfl⟩
            · cases h
          · cases h; exact ⟨rfl, rfl, rfl, rfl⟩
  · cases h

end NewtonTrajectoryLemmas


section NewtonLoopClaims
variable {R L : Type} [Zero R] [RatCast R] [Add R] [Mul R] [LE R] [LT R]
  [DecidableRel (α := R) (· ≤ ·)] [DecidableRel (α := R) (· < ·)]

/-- C27: with the callbacks supplied (they are functions, so deterministic), each time the
loop condition of `newton_LSA` is evaluated `F = compute_F(z)`, the buffer `F_merit` holds
`compute_F_merit(z, F)` and `theta = 1/2 * ||F_merit||^2` for the current `z`; this also
holds for the state the loop is left with through its condition.  Inside a pass the
direction block overwrites `F_merit` with `F_desc` when `compute_RHS_desc` is supplied. -/
theorem newton_LSA_loop_invariant (ext : LSAExternals R L) (n : Nat) (z : Vec R)
    (H : NumericsMatrix R) (opt : LSAOptions R) (fn : functions_LSA R)
    (hcb : lsa_callbacks_supplied opt fn = true) :
    ∃ f fm s0, fn.compute_F = some f ∧ fn.compute_F_merit = some fm ∧
      lsa_initial_state ext n z H opt fn = some s0 ∧ s0.z = z ∧
      (∀ k s, lsa_state_at ext n opt fn s0 k = some s →
        s.F = f s.z ∧ s.F_merit = fm s.z s.F ∧
        s.theta = ((1 / 2 : ℚ) : R) * ext.cblas_dnrm2 n s.F_merit * ext.cblas_dnrm2 n s.F_merit) ∧
      (∀ res, newton_LSA ext n z H opt fn = some res → res.exit = LSAExit.loop_condition →
        res.F = f res.z ∧ res.final.F_merit = fm res.z res.F ∧
        res.final.theta = ((1 / 2 : ℚ) : R) * ext.cblas_dnrm2 n res.final.F_merit
          * ext.cblas_dnrm2 n res.final.F_merit) ∧
      (∀ rd, fn.compute_descent_direction = none → fn.compute_RHS_desc = some rd →
        ∀ s sd : LSAState R L, lsa_direction ext n opt.params fn s = some sd →
          sd.F_merit = rd s.z s.F) := by
  obtain ⟨s0, h0, _, _⟩ := lsa_initial_state_spec ext n z H opt fn hcb
  obtain ⟨f, fm, ce, hf, hfm, hce, i1, i2, i3, i4, _⟩ :=
    lsa_initial_state_fields ext n z H opt fn s0 h0
  have hinv : ∀ k s, lsa_state_at ext n opt fn s0 k = some s →
      s.F = f s.z ∧ s.F_merit = fm s.z s.F ∧
      s.theta = ((1 / 2 : ℚ) : R) * ext.cblas_dnrm2 n s.F_merit * ext.cblas_dnrm2 n s.F_merit := by
    apply lsa_state_at_invariant ext n opt fn
      (fun s => s.F = f s.z ∧ s.F_merit = fm s.z s.F ∧
        s.theta = ((1 / 2 : ℚ) : R) * ext.cblas_dnrm2 n s.F_merit * ext.cblas_dnrm2 n s.F_merit)
    · refine ⟨?_, ?_, i4⟩
      · rw [i2, i1]
      · rw [i3, i2, i1]
    · intro s s1 _ hp
      obtain ⟨sd, s2, s4, theta_iter, _, _, _, _, h5⟩ := lsa_pass_next_stages ext n opt fn s s1 hp
      obtain ⟨_, _, p3, p4, p5, _⟩ := lsa_finish_pass_spec ext n opt fn f fm hf hfm _ s1 _ h5
      refine ⟨p3, ?_, p5⟩
      rw [p4, p3]
  refine ⟨f, fm, s0, hf, hfm, h0, i1, hinv, ?_, ?_⟩
  · intro res hres hexit
    unfold newton_LSA at hres
    rw [h0] at hres
    dsimp only at hres
    cases hl : lsa_loop ext n opt fn (opt.iparam ext.SICONOS_IPARAM_MAX_ITER).toNat s0 with
    | none => rw [hl] at hres; cases hres
    | some r =>
      obtain ⟨sf, e⟩ := r
      rw [hl] at hres
      simp only [Option.some.injEq] at hres
      obtain ⟨k, s, _, hs, hcase⟩ := lsa_loop_trajectory ext n opt fn _ s0 sf e hl
      have he : e = LSAExit.loop_condition := by
        rw [← hres] at hexit
        cases e
        · rfl
        · exact hexit
      subst he
      rcases hcase with ⟨_, b, _⟩ | ⟨a, _⟩
      · have := hinv k s hs
        rw [← hres]
        dsimp only [lsa_result]
        rw [b]
        exact this
      · cases a
  · intro rd hc hr s sd hd
    unfold lsa_direction at hd
    rw [hc, hr] at hd
    dsimp only at hd
    split at hd
    · cases hd
    · cases hd
      rfl

/-- C26: with the callbacks supplied, a pass of `newton_LSA` ends in the jump exactly
when its direction search returns a non-zero code while `compute_RHS_desc` is NULL; when
this happens in the pass number `k + 1` (the one that starts at the evaluation `k` of the
loop condition, with `iter = k`), the call returns `info = 2` with `z` and `F` as they were
at the start of that pass, `iparam[ITER_DONE] = k + 1` (the value of `iter` in the failing
pass), `dparam[RESIDU] = theta`, and no line search is run in that pass; conversely every
return with `info = 2` comes from such a pass. -/
theorem newton_LSA_direction_failure (ext : LSAExternals R L) (n : Nat) (z : Vec R)
    (H : NumericsMatrix R) (opt : LSAOptions R) (fn : functions_LSA R)
    (hcb : lsa_callbacks_supplied opt fn = true) :
    ∃ s0, lsa_initial_state ext n z H opt fn = some s0 ∧
      (∀ s s1 : LSAState R L, lsa_pass ext n opt fn s = LSAStep.failed s1 ↔
        ∃ sd, lsa_direction ext n opt.params fn { s with iter := s.iter + 1, info_dir_search := 0 }
            = some sd ∧
          lsa_gradient fn sd = some s1 ∧ s1.info_dir_search ≠ 0 ∧ fn.compute_RHS_desc = none) ∧
      (∀ k s s1, lsa_state_at ext n opt fn s0 k = some s →
        ((s.iter : Int) < opt.iparam ext.SICONOS_IPARAM_MAX_ITER
          ∧ opt.dparam ext.SICONOS_DPARAM_TOL < s.err) →
        lsa_pass ext n opt fn s = LSAStep.failed s1 →
        ∃ res, newton_LSA ext n z H opt fn = some res ∧ res.info = 2 ∧
          res.exit = LSAExit.direction_failure ∧ res.final = s1 ∧
          s.iter = k ∧ res.z = s.z ∧ res.F = s.F ∧
          res.iparam ext.SICONOS_IPARAM_ITER_DONE = ((k + 1 : Nat) : Int) ∧
          res.dparam ext.SICONOS_DPARAM_RESIDU = s.theta ∧
          res.final.searches = s.searches) ∧
      (∀ res, newton_LSA ext n z H opt fn = some res → res.info = 2 →
        ∃ k s, lsa_state_at ext n opt fn s0 k = some s ∧
          ((s.iter : Int) < opt.iparam ext.SICONOS_IPARAM_MAX_ITER
            ∧ opt.dparam ext.SICONOS_DPARAM_TOL < s.err) ∧
          lsa_pass ext n opt fn s = LSAStep.failed res.final ∧
          res.final.info_dir_search ≠ 0 ∧ fn.compute_RHS_desc = none ∧
          s.iter = k ∧ res.z = s.z ∧ res.F = s.F ∧
          res.iparam ext.SICONOS_IPARAM_ITER_DONE = ((k + 1 : Nat) : Int) ∧
          res.dparam ext.SICONOS_DPARAM_RESIDU = s.theta ∧
          res.final.searches = s.searches) := by
  obtain ⟨s0, h0, hi0, _⟩ := lsa_initial_state_spec ext n z H opt fn hcb
  have hfacts : ∀ k s s1, lsa_state_at ext n opt fn s0 k = some s →
      lsa_pass ext n opt fn s = LSAStep.failed s1 →
      s.iter = k ∧ (lsa_result ext opt s1 LSAExit.direction_failure).z = s.z ∧
      (lsa_result ext opt s1 LSAExit.direction_failure).F = s.F ∧
      (lsa_result ext opt s1 LSAExit.direction_failure).iparam ext.SICONOS_IPARAM_ITER_DONE
        = ((k + 1 : Nat) : Int) ∧
      (lsa_result ext opt s1 LSAExit.direction_failure).dparam ext.SICONOS_DPARAM_RESIDU
        = s.theta ∧ s1.searches = s.searches := by
    intro k s s1 hs hp
    have hk : s.iter = k := by
      rw [lsa_state_at_iter ext n opt fn s0 k s hs, hi0, Nat.zero_add]
    obtain ⟨a1, a2, a3, a4, _, a6, _, _⟩ := lsa_pass_failed_frame ext n opt fn s s1 hp
    refine ⟨hk, a2, a3, ?_, ?_, a6⟩
    · dsimp only [lsa_result]
      rw [if_pos rfl, a1, hk]
    · dsimp only [lsa_result]
      rw [if_pos rfl, a4]
  refine ⟨s0, h0, fun s s1 => (lsa_pass_spec ext n opt fn s).2.1 s1, ?_, ?_⟩
  · intro k s s1 hs hc hp
    have hk : s.iter = k := (hfacts k s s1 hs hp).1
    have hfuel : k + 1 ≤ (opt.iparam ext.SICONOS_IPARAM_MAX_ITER).toNat := by
      have := hc.1
      rw [hk] at this
      omega
    obtain ⟨fuel, hfe⟩ : ∃ fuel, (opt.iparam ext.SICONOS_IPARAM_MAX_ITER).toNat = k + (fuel + 1) :=
      ⟨(opt.iparam ext.SICONOS_IPARAM_MAX_ITER).toNat - (k + 1), by omega⟩
    have hl : lsa_loop ext n opt fn (opt.iparam ext.SICONOS_IPARAM_MAX_ITER).toNat s0
        = some (s1, LSAExit.direction_failure) := by
      rw [hfe, lsa_loop_of_state_at ext n opt fn k s0 s hs, lsa_loop, if_pos hc, hp]
    refine ⟨lsa_result ext opt s1 LSAExit.direction_failure, ?_, rfl, rfl, rfl,
      hfacts k s s1 hs hp⟩
    unfold newton_LSA
    rw [h0]
    dsimp only
    rw [hl]
  · intro res hres hinfo
    unfold newton_LSA at hres
    rw [h0] at hres
    dsimp only at hres
    cases hl : lsa_loop ext n opt fn (opt.iparam ext.SICONOS_IPARAM_MAX_ITER).toNat s0 with
    | none => rw [hl] at hres; cases hres
    | some r =>
      obtain ⟨sf, e⟩ := r
      rw [hl] at hres
      simp only [Option.some.injEq] at hres
      obtain ⟨k, s, _, hs, hcase⟩ := lsa_loop_trajectory ext n opt fn _ s0 sf e hl
      rcases hcase with ⟨a, _, _⟩ | ⟨a, _, c, d⟩
      · subst a
        rw [← hres] at hinfo
        dsimp only [lsa_result] at hinfo
        split at hinfo <;> omega
      · subst a
        have hf := lsa_pass_failed_frame ext n opt fn s sf d
        rw [← hres]
        exact ⟨k, s, hs, c, d, hf.2.2.2.2.2.2.1, hf.2.2.2.2.2.2.2, hfacts k s sf hs d⟩

end NewtonLoopClaims

/-- Witness for C26: the run from `z = 2` with `H = (z)` and the error 1: the iterates are
2, 1, 0, the solve of the third pass fails (`H = 0`) and the call returns `info = 2` with
`z = 0`, `iparam[ITER_DONE] = 3`, `dparam[RESIDU] = theta = 0` (the error is 1), after three
solves and no line search. -/
theorem newton_LSA_direction_failure_witness :
    lsa_callbacks_supplied (lsa_criterion_options 5 3) lsa_slope_fn = true ∧
    (∃ s0, lsa_initial_state lsa_div_ext 1 (fun i => if i = 0 then 2 else 0) (NM_create 0 1 1)
        (lsa_criterion_options 5 3) lsa_slope_fn = some s0 ∧
      ∀ s s1 : LSAState ℚ Unit,
        lsa_pass lsa_div_ext 1 (lsa_criterion_options 5 3) lsa_slope_fn s = LSAStep.failed s1 ↔
        ∃ sd, lsa_direction lsa_div_ext 1 (lsa_criterion_options 5 3).params lsa_slope_fn
            { s with iter := s.iter + 1, info_dir_search := 0 } = some sd ∧
          lsa_gradient lsa_slope_fn sd = some s1 ∧ s1.info_dir_search ≠ 0 ∧
          lsa_slope_fn.compute_RHS_desc = none) ∧
    ((lsa_initial_state lsa_div_ext 1 (fun i => if i = 0 then 2 else 0) (NM_create 0 1 1)
        (lsa_criterion_options 5 3) lsa_slope_fn).bind
      (fun s0 => lsa_state_at lsa_div_ext 1 (lsa_criterion_options 5 3) lsa_slope_fn s0 2)).map
      (fun s => (s.z 0, s.F 0, s.theta, s.iter, s.err, s.searches)) = some (0, 0, 0, 2, 1, 0) ∧
    (lsa_div_run 5).map (fun r => (r.info, r.z 0, r.F 0, r.iparam 1, r.dparam 1))
      = some (2, 0, 0, 3, 0) ∧
    (lsa_div_run 5).map (fun r => (r.final.err, r.final.theta, r.final.searches, r.final.solves))
      = some (1, 0, 0, 3) := by
  obtain ⟨s0, a, b, _⟩ := newton_LSA_direction_failure lsa_div_ext 1
    (fun i => if i = 0 then 2 else 0) (NM_create 0 1 1) (lsa_criterion_options 5 3) lsa_slope_fn
    (by decide)
  exact ⟨by decide, ⟨s0, a, b⟩, by decide!, by decide!, by decide!⟩

/-- Witness for C27: the toy system with the descent system `F_desc = 2 F`: inside the
first pass from `z = 5` the buffer `F_merit` holds `F_desc = 10`, and at the next evaluation
of the loop condition `z = 0`, `F = 0`, `F_merit = 0` and `theta = 0`. -/
theorem newton_LSA_loop_invariant_witness :
    lsa_callbacks_supplied (lsa_sample_options 3) (lsa_desc_fn false) = true ∧
    (∃ f fm s0, (lsa_desc_fn false).compute_F = some f ∧
      (lsa_desc_fn false).compute_F_merit = some fm ∧
      lsa_initial_state lsa_sample_ext 1 (fun i => if i = 0 then 5 else 0) (NM_create 0 1 1)
        (lsa_sample_options 3) (lsa_desc_fn false) = some s0 ∧
      ∀ k s, lsa_state_at lsa_sample_ext 1 (lsa_sample_options 3) (lsa_desc_fn false) s0 k = some s →
        s.F = f s.z ∧ s.F_merit = fm s.z s.F ∧
        s.theta = ((1 / 2 : ℚ) : ℚ) * lsa_sample_ext.cblas_dnrm2 1 s.F_merit
          * lsa_sample_ext.cblas_dnrm2 1 s.F_merit) ∧
    ((lsa_initial_state lsa_sample_ext 1 (fun i => if i = 0 then 5 else 0) (NM_create 0 1 1)
        (lsa_sample_options 3) (lsa_desc_fn false)).bind
      (fun s0 => lsa_direction lsa_sample_ext 1 (lsa_sample_options 3).params (lsa_desc_fn false)
        { s0 with iter := s0.iter + 1, info_dir_search := 0 })).map
      (fun sd => (sd.z 0, sd.F 0, sd.F_merit 0)) = some (5, 5, 10) ∧
    ((lsa_initial_state lsa_sample_ext 1 (fun i => if i = 0 then 5 else 0) (NM_create 0 1 1)
        (lsa_sample_options 3) (lsa_desc_fn false)).bind
      (fun s0 => lsa_state_at lsa_sample_ext 1 (lsa_sample_options 3) (lsa_desc_fn false) s0 0)).map
      (fun s => (s.z 0, s.F 0, s.F_merit 0, s.theta, s.iter)) = some (5, 5, 5, 25 / 2, 0) ∧
    ((lsa_initial_state lsa_sample_ext 1 (fun i => if i = 0 then 5 else 0) (NM_create 0 1 1)
        (lsa_sample_options 3) (lsa_desc_fn false)).bind
      (fun s0 => lsa_state_at lsa_sample_ext 1 (lsa_sample_options 3) (lsa_desc_fn false) s0 1)).map
      (fun s => (s.z 0, s.F 0, s.F_merit 0, s.theta, s.iter)) = some (0, 0, 0, 0, 1) := by
  obtain ⟨f, fm, s0, a, b, c, _, d, _⟩ := newton_LSA_loop_invariant lsa_sample_ext 1
    (fun i => if i = 0 then 5 else 0) (NM_create 0 1 1) (lsa_sample_options 3) (lsa_desc_fn false)
    (by decide)
  exact ⟨by decide, ⟨f, fm, s0, a, b, c, d⟩, by decide!, by decide!, by decide!⟩

section SlopeTest
variable {R L : Type} [LinearOrderedField R]

theorem cblas_ddot_neg_self (n : Nat) (g w : Vec R) :
    cblas_ddot n g (cblas_dscal n ((-1 : ℚ) : R) (cblas_dcopy n g w))
      = - ∑ i in Finset.range n, g i * g i := by
  rw [cblas_ddot_eq_sum, ← Finset.sum_neg_distrib]
  apply Finset.sum_congr rfl
  intro i hi
  have hi : i < n := Finset.mem_range.mp hi
  simp only [cblas_dscal, cblas_dcopy, if_pos hi]
  push_cast
  ring

/-- C24 (amended): in every pass of `newton_LSA` that enters the line search, when
`check_dir_quality` is set and the direction `d` fails the slope test,
`<grad theta, d> > -rho * ||d||^p`, the direction handed to the line search is `-grad theta`
(the buffer `JacThetaF_merit`) and the reference slope is recomputed as
`<grad theta, -grad theta> = -||grad theta||^2 <= 0`; otherwise (test passed, or
`check_dir_quality` not set) `d` and `<grad theta, d>` are passed unchanged. -/
theorem newton_LSA_slope_test (ext : LSAExternals R L) (n : Nat) (opt : LSAOptions R)
    (fn : functions_LSA R) :
    (∀ s : LSAState R L, ∃ dir slope,
      lsa_search ext n opt s
        = ({ s with
              workV1 := dir
              ls := (if opt.iparam SICONOS_IPARAM_LSA_SEARCH_CRITERION = ext.SICONOS_LSA_GOLDSTEIN
                then ext.linesearch_Goldstein2 s.ls n s.theta slope
                  { z := s.z, F := s.F, F_merit := s.F_merit, desc_dir := dir,
                    alpha_min := opt.dparam SICONOS_DPARAM_LSA_ALPHA_MIN, alpha0 := ((2 : ℚ) : R),
                    sigma := opt.params.sigma,
                    arcsearch := opt.iparam SICONOS_IPARAM_LSA_FORCE_ARCSEARCH != 0 }
                else ext.linesearch_Armijo2 s.ls n s.theta slope
                  { z := s.z, F := s.F, F_merit := s.F_merit, desc_dir := dir,
                    alpha_min := opt.dparam SICONOS_DPARAM_LSA_ALPHA_MIN, alpha0 := ((2 : ℚ) : R),
                    sigma := opt.params.sigma,
                    arcsearch := opt.iparam SICONOS_IPARAM_LSA_FORCE_ARCSEARCH != 0 }).1
              searches := s.searches + 1 },
            (if opt.iparam SICONOS_IPARAM_LSA_SEARCH_CRITERION = ext.SICONOS_LSA_GOLDSTEIN
              then ext.linesearch_Goldstein2 s.ls n s.theta slope
                { z := s.z, F := s.F, F_merit := s.F_merit, desc_dir := dir,
                  alpha_min := opt.dparam SICONOS_DPARAM_LSA_ALPHA_MIN, alpha0 := ((2 : ℚ) : R),
                  sigma := opt.params.sigma,
                  arcsearch := opt.iparam SICONOS_IPARAM_LSA_FORCE_ARCSEARCH != 0 }
              else ext.linesearch_Armijo2 s.ls n s.theta slope
                { z := s.z, F := s.F, F_merit := s.F_merit, desc_dir := dir,
                  alpha_min := opt.dparam SICONOS_DPARAM_LSA_ALPHA_MIN, alpha0 := ((2 : ℚ) : R),
                  sigma := opt.params.sigma,
                  arcsearch := opt.iparam SICONOS_IPARAM_LSA_FORCE_ARCSEARCH != 0 }).2) ∧
      (opt.params.check_dir_quality = true →
        -(opt.params.rho * ext.pow (ext.cblas_dnrm2 n s.workV1) opt.params.p)
          < cblas_ddot n s.JacThetaF_merit s.workV1 →
        dir = cblas_dscal n ((-1 : ℚ) : R) (cblas_dcopy n s.JacThetaF_merit s.workV1) ∧
        (∀ i, i < n → dir i = - s.JacThetaF_merit i) ∧
        slope = cblas_ddot n s.JacThetaF_merit dir ∧
        slope = - ∑ i in Finset.range n, s.JacThetaF_merit i * s.JacThetaF_merit i ∧
        slope ≤ 0) ∧
      (¬ (opt.params.check_dir_quality = true ∧
          -(opt.params.rho * ext.pow (ext.cblas_dnrm2 n s.workV1) opt.params.p)
            < cblas_ddot n s.JacThetaF_merit s.workV1) →
        dir = s.workV1 ∧ slope = cblas_ddot n s.JacThetaF_merit s.workV1)) ∧
    (∀ s s5 : LSAState R L, lsa_pass ext n opt fn s = LSAStep.next s5 →
      ∃ s4 theta_iter,
        (lsa_needs_search ext opt.params fn s4 theta_iter = true →
          s5.tau = (lsa_search ext n opt s4).2 ∧ s5.workV1 = (lsa_search ext n opt s4).1.workV1 ∧
          s5.ls = (lsa_search ext n opt s4).1.ls ∧ s5.searches = s4.searches + 1 ∧
          s4.JacThetaF_merit = s5.JacThetaF_merit) ∧
        (lsa_needs_search ext opt.params fn s4 theta_iter = false →
          s5.tau = ((1 : ℚ) : R) ∧ s5.workV1 = s4.workV1 ∧ s5.searches = s4.searches)) := by
  have hthr : ∀ s : LSAState R L,
      ((-1 : ℚ) : R) * opt.params.rho * ext.pow (ext.cblas_dnrm2 n s.workV1) opt.params.p
        = -(opt.params.rho * ext.pow (ext.cblas_dnrm2 n s.workV1) opt.params.p) := by
    intro s
    push_cast
    ring
  constructor
  · intro s
    by_cases hbad : opt.params.check_dir_quality = true ∧
        -(opt.params.rho * ext.pow (ext.cblas_dnrm2 n s.workV1) opt.params.p)
          < cblas_ddot n s.JacThetaF_merit s.workV1
    · have hb : (opt.params.check_dir_quality && decide
          (((-1 : ℚ) : R) * opt.params.rho * ext.pow (ext.cblas_dnrm2 n s.workV1) opt.params.p
            < cblas_ddot n s.JacThetaF_merit s.workV1)) = true := by
        rw [hthr]
        simp [hbad.1, hbad.2]
      refine ⟨cblas_dscal n ((-1 : ℚ) : R) (cblas_dcopy n s.JacThetaF_merit s.workV1),
        cblas_ddot n s.JacThetaF_merit
          (cblas_dscal n ((-1 : ℚ) : R) (cblas_dcopy n s.JacThetaF_merit s.workV1)), ?_, ?_, ?_⟩
      · unfold lsa_search
        simp only [hb, if_true]
      · intro _ _
        refine ⟨rfl, ?_, rfl, cblas_ddot_neg_self n _ _, ?_⟩
        · intro i hi
          simp only [cblas_dscal, cblas_dcopy, if_pos hi]
          push_cast
          ring
        · rw [cblas_ddot_neg_self, neg_nonpos]
          exact Finset.sum_nonneg (fun i _ => mul_self_nonneg _)
      · intro hn
        exact absurd hbad hn
    · have hb : (opt.params.check_dir_quality && decide
          (((-1 : ℚ) : R) * opt.params.rho * ext.pow (ext.cblas_dnrm2 n s.workV1) opt.params.p
            < cblas_ddot n s.JacThetaF_merit s.workV1)) = false := by
        rw [hthr]
        rw [Bool.and_eq_false_iff]
        by_cases hq : opt.params.check_dir_quality = true
        · right
          simpa using fun h => hbad ⟨hq, h⟩
        · left
          simpa using hq
      refine ⟨s.workV1, cblas_ddot n s.JacThetaF_merit s.workV1, ?_, ?_, ?_⟩
      · unfold lsa_search
        simp only [hb, Bool.false_eq_true, if_false]
      · intro h1 h2
        exact absurd ⟨h1, h2⟩ hbad
      · intro _
        exact ⟨rfl, rfl⟩
  · intro s s5 hp
    obtain ⟨sd, s2, s4, theta_iter, _, _, _, _, h5⟩ := lsa_pass_next_stages ext n opt fn s s5 hp
    refine ⟨s4, theta_iter, ?_, ?_⟩
    · intro hs
      rw [hs] at h5
      simp only [if_true] at h5
      have ff := lsa_finish_pass_frame ext n opt fn _ s5 _ h5
      have ft := lsa_finish_pass_tau ext n opt fn _ s5 _ h5
      exact ⟨ft.1, ff.2.2.1, ft.2.1, ff.2.1, ff.2.2.2.1.symm⟩
    · intro hs
      rw [hs] at h5
      simp only [Bool.false_eq_true, if_false] at h5
      have ff := lsa_finish_pass_frame ext n opt fn _ s5 _ h5
      have ft := lsa_finish_pass_tau ext n opt fn _ s5 _ h5
      exact ⟨ft.1, ff.2.2.1, ff.2.1⟩

end SlopeTest

/-- Counterexample to C24 as stated: one pass of the toy
system from `z = 5` with the ascent direction `d = F(z) = 5` and the gradient `5`; the line
search is entered and the slope test fails (`<grad theta, d> = 25 > -rho * 5`).  With
`check_dir_quality` set the line search is handed the direction `-5` and the slope `-25`;
with `check_dir_quality` not set it is handed `d = 5` and the slope `25` unchanged, and the
step `1/2` leads to `z = 15/2`. -/
theorem newton_LSA_check_dir_quality_counterexample :
    (lsa_quality_options 1 false).params.check_dir_quality = false ∧
    -((lsa_quality_options 1 false).params.rho * lsa_probe_ext.pow 5 (21 / 10)) < (25 : ℚ) ∧
    (lsa_probe_run true).map (fun r => (r.final.searches, r.final.ls, r.final.workV1 0, r.z 0))
      = some (1, (-25, -5), -5, 5 / 2) ∧
    (lsa_probe_run false).map (fun r => (r.final.searches, r.final.ls, r.final.workV1 0, r.z 0))
      = some (1, (25, 5), 5, 15 / 2) ∧
    ((lsa_initial_state lsa_probe_ext 1 (fun i => if i = 0 then 5 else 0) (NM_create 0 1 1)
        (lsa_quality_options 1 false) lsa_ascent_fn).bind
      (fun s0 => (lsa_direction lsa_probe_ext 1 (lsa_quality_options 1 false).params lsa_ascent_fn
          { s0 with iter := s0.iter + 1, info_dir_search := 0 }).bind
        (fun sd => lsa_gradient lsa_ascent_fn sd))).map
      (fun s2 => (s2.workV1 0, s2.JacThetaF_merit 0, cblas_ddot 1 s2.JacThetaF_merit s2.workV1,
        lsa_probe_ext.cblas_dnrm2 1 s2.workV1)) = some (5, 5, 25, 5) := by
  refine ⟨rfl, by decide!, by decide!, by decide!, by decide!⟩


/-! ### Symmetrisation of `problem->M` -/

section Symmetrisation
variable {R : Type} [LinearOrderedField R]

theorem half_sum_entry (M : NumericsMatrix R) (i j : Nat) :
    (NM_add ((1 / 2 : ℚ) : R) M ((1 / 2 : ℚ) : R) (NM_transpose M)).entry i j
      = (M.entry i j + M.entry j i) / 2 := by
  simp only [NM_add, NM_transpose]
  push_cast
  ring

theorem half_sum_quadratic (M : NumericsMatrix R) (m : Nat) (v : Vec R) :
    ∑ i in Finset.range m, ∑ j in Finset.range m,
        v i * (NM_add ((1 / 2 : ℚ) : R) M ((1 / 2 : ℚ) : R) (NM_transpose M)).entry i j * v j
      = ∑ i in Finset.range m, ∑ j in Finset.range m, v i * M.entry i j * v j := by
  have e : ∀ i j, v i * (NM_add ((1 / 2 : ℚ) : R) M ((1 / 2 : ℚ) : R) (NM_transpose M)).entry i j * v j
      = (v i * M.entry i j * v j) / 2 + (v j * M.entry j i * v i) / 2 := by
    intro i j
    rw [half_sum_entry]
    ring
  simp only [e, Finset.sum_add_distrib]
  have sw : ∑ i in Finset.range m, ∑ j in Finset.range m, (v j * M.entry j i * v i) / 2
      = ∑ i in Finset.range m, ∑ j in Finset.range m, (v i * M.entry i j * v j) / 2 :=
    Finset.sum_comm
  rw [sw, ← Finset.sum_add_distrib]
  apply Finset.sum_congr rfl
  intro i _
  rw [← Finset.sum_add_distrib]
  apply Finset.sum_congr rfl
  intro j _
  ring

/-- C23: `grfc3d_IPM` leaves `problem->M` as it is when `NM_is_symmetric(problem->M)` holds,
and otherwise replaces it by `NM_add(1/2, M, 1/2, M')`, the matrix `(M + M')/2` of the same
sizes, which is symmetric and has the quadratic form of `M`; the other fields of the problem
are not changed, and the problem the caller finds after the call is this one: in every result
the call returns, and it returns one whenever the solver data is present and the call runs
through (`ipm_run_defined`).  A matrix with symmetric entries keeps its entries in either
case. -/
theorem grfc3d_IPM_symmetrization (ext : Externals R) (cst : Constants)
    (problem : GlobalRollingFrictionContactProblem R) (reaction velocity globalVelocity : Vec R)
    (options : SolverOptions R) :
    (∀ res, grfc3d_IPM ext cst problem reaction velocity globalVelocity options = some res →
      res.problem = ipm_symmetrize ext problem) ∧
    (∀ data, (ipm_entry_options ext cst problem options).solverData = some data →
      ipm_run_defined (ipm_entry_context ext cst problem options data)
        (ipm_entry_state ext cst problem reaction velocity globalVelocity options data) = true →
      ∃ res, grfc3d_IPM ext cst problem reaction velocity globalVelocity options = some res ∧
        res.problem = ipm_symmetrize ext problem) ∧
    (ext.NM_is_symmetric problem.M = true → ipm_symmetrize ext problem = problem) ∧
    (ext.NM_is_symmetric problem.M = false →
      ipm_symmetrize ext problem
        = { problem with
            M := NM_add ((1 / 2 : ℚ) : R) problem.M ((1 / 2 : ℚ) : R) (NM_transpose problem.M) }) ∧
    ((ipm_symmetrize ext problem).M.size0 = problem.M.size0 ∧
      (ipm_symmetrize ext problem).M.size1 = problem.M.size1 ∧
      (ipm_symmetrize ext problem).H = problem.H ∧
      (ipm_symmetrize ext problem).q = problem.q ∧
      (ipm_symmetrize ext problem).b = problem.b ∧
      (ipm_symmetrize ext problem).mu = problem.mu ∧
      (ipm_symmetrize ext problem).mu_r = problem.mu_r ∧
      (ipm_symmetrize ext problem).dimension = problem.dimension ∧
      (ipm_symmetrize ext problem).numberOfContacts = problem.numberOfContacts) ∧
    (ext.NM_is_symmetric problem.M = false →
      (∀ i j, (ipm_symmetrize ext problem).M.entry i j
        = (problem.M.entry i j + problem.M.entry j i) / 2) ∧
      (∀ i j, (ipm_symmetrize ext problem).M.entry i j
        = (ipm_symmetrize ext problem).M.entry j i) ∧
      (∀ (m : Nat) (v : Vec R),
        ∑ i in Finset.range m, ∑ j in Finset.range m,
            v i * (ipm_symmetrize ext problem).M.entry i j * v j
          = ∑ i in Finset.range m, ∑ j in Finset.range m, v i * problem.M.entry i j * v j)) ∧
    ((∀ i j, problem.M.entry i j = problem.M.entry j i) →
      ∀ i j, (ipm_symmetrize ext problem).M.entry i j = problem.M.entry i j) := by
  have ht : ext.NM_is_symmetric problem.M = true → ipm_symmetrize ext problem = problem := by
    intro h
    unfold ipm_symmetrize
    simp [h]
  have hf : ext.NM_is_symmetric problem.M = false →
      ipm_symmetrize ext problem
        = { problem with
            M := NM_add ((1 / 2 : ℚ) : R) problem.M ((1 / 2 : ℚ) : R) (NM_transpose problem.M) } := by
    intro h
    unfold ipm_symmetrize
    simp [h]
  refine ⟨?_, ?_, ht, hf, ?_, ?_, ?_⟩
  · intro res hres
    unfold grfc3d_IPM at hres
    split at hres
    · cases hres
    · dsimp only at hres
      split at hres
      · cases hres
        rfl
      · cases hres
  · intro data hdata hd
    unfold grfc3d_IPM
    rw [hdata]
    dsimp only
    rw [if_pos hd]
    exact ⟨_, rfl, rfl⟩
  · cases h : ext.NM_is_symmetric problem.M with
    | true => rw [ht h]; exact ⟨rfl, rfl, rfl, rfl, rfl, rfl, rfl, rfl, rfl⟩
    | false => rw [hf h]; exact ⟨rfl, rfl, rfl, rfl, rfl, rfl, rfl, rfl, rfl⟩
  · intro h
    rw [hf h]
    refine ⟨fun i j => half_sum_entry _ i j, fun i j => ?_, fun m v => half_sum_quadratic _ m v⟩
    show (NM_add _ _ _ _).entry i j = (NM_add _ _ _ _).entry j i
    rw [half_sum_entry, half_sum_entry, add_comm]
  · intro hs i j
    cases h : ext.NM_is_symmetric problem.M with
    | true => rw [ht h]
    | false =>
      rw [hf h]
      show (NM_add _ _ _ _).entry i j = _
      rw [half_sum_entry, ← hs i j]
      ring

end Symmetrisation

/-- Witness for C23: the call on the problem with `M = [1 2; 0 1]` and the exact symmetry
test returns the problem with `M = [1 1; 1 1]`; the quadratic forms of both at `v = (1, 3)`
are `16`. -/
theorem grfc3d_IPM_symmetrization_witness :
    sym_ext.NM_is_symmetric asym_problem.M = false ∧
    (∃ res, grfc3d_IPM sym_ext sample_cst asym_problem (fun _ => 0) (fun _ => 0) (fun _ => 0)
        (sample_options 1 0 0) = some res ∧ res.problem = ipm_symmetrize sym_ext asym_problem) ∧
    (∀ i j, (ipm_symmetrize sym_ext asym_problem).M.entry i j
      = (ipm_symmetrize sym_ext asym_problem).M.entry j i) ∧
    asym_run.map (fun r => (List.range 2).map (fun i => (List.range 2).map
      (fun j => r.problem.M.entry i j))) = some [[1, 1], [1, 1]] ∧
    (List.range 2).map (fun i => (List.range 2).map (fun j => asym_problem.M.entry i j))
      = [[1, 2], [0, 1]] ∧
    asym_run.map (fun r => (r.problem.M.size0, r.problem.M.size1, r.problem.H.size1)) 
      = some (2, 2, 5) ∧
    sym_ext.NM_is_symmetric (ipm_symmetrize sym_ext asym_problem).M = true :=
  ⟨by decide!,
   (grfc3d_IPM_symmetrization sym_ext sample_cst asym_problem (fun _ => 0) (fun _ => 0)
     (fun _ => 0) (sample_options 1 0 0)).2.1
       (ipm_entry_data sym_ext sample_cst asym_problem (sample_options 1 0 0) rfl) (by rfl)
       (by decide!),
   ((grfc3d_IPM_symmetrization sym_ext sample_cst asym_problem (fun _ => 0) (fun _ => 0)
     (fun _ => 0) (sample_options 1 0 0)).2.2.2.2.2.1 (by decide!)).2.1,
   by decide!, by decide!, by decide!, by decide!⟩

/-! ### The leading entries `velocity[5i] = t[i] + t_prime[i]` and the split of the gap -/

section GapSplit
variable {R : Type} [LinearOrderedField R]

theorem sum_range_five (n : Nat) (f : Nat → R) :
    ∑ i in Finset.range (5 * n), f i
      = ∑ q in Finset.range n,
          (f (5 * q) + f (5 * q + 1) + f (5 * q + 2) + f (5 * q + 3) + f (5 * q + 4)) := by
  induction n with
  | zero => simp
  | succ n ih =>
    have e : 5 * (n + 1) = 5 * n + 1 + 1 + 1 + 1 + 1 := by ring
    rw [e, Finset.sum_range_succ, Finset.sum_range_succ, Finset.sum_range_succ,
      Finset.sum_range_succ, Finset.sum_range_succ, ih, Finset.sum_range_succ]
    ring

theorem sum_range_three (n : Nat) (f : Nat → R) :
    ∑ i in Finset.range (3 * n), f i
      = ∑ q in Finset.range n, (f (3 * q) + f (3 * q + 1) + f (3 * q + 2)) := by
  induction n with
  | zero => simp
  | succ n ih =>
    have e : 3 * (n + 1) = 3 * n + 1 + 1 + 1 := by ring
    rw [e, Finset.sum_range_succ, Finset.sum_range_succ, Finset.sum_range_succ, ih,
      Finset.sum_range_succ]
    ring

theorem cblas_ddot_comm (n : Nat) (x y : Vec R) : cblas_ddot n x y = cblas_ddot n y x := by
  rw [cblas_ddot_eq_sum, cblas_ddot_eq_sum]
  exact Finset.sum_congr rfl (fun i _ => mul_comm _ _)

/-- The scalar product of two vectors of `n` blocks of 5 is the sum of the scalar products
of their two families of sub-blocks of 3 when the leading entry of each block of the first
is the sum of the leading entries of its sub-blocks and the sub-blocks of the second share
its leading entry. -/
theorem cblas_ddot_blocks (n : Nat) (V W U1 U2 R1 R2 : Vec R)
    (hV : ∀ q, q < n → V (5 * q) = U1 (3 * q) + U2 (3 * q) ∧
      V (5 * q + 1) = U1 (3 * q + 1) ∧ V (5 * q + 2) = U1 (3 * q + 2) ∧
      V (5 * q + 3) = U2 (3 * q + 1) ∧ V (5 * q + 4) = U2 (3 * q + 2))
    (hW : ∀ q, q < n → W (5 * q) = R1 (3 * q) ∧ W (5 * q) = R2 (3 * q) ∧
      W (5 * q + 1) = R1 (3 * q + 1) ∧ W (5 * q + 2) = R1 (3 * q + 2) ∧
      W (5 * q + 3) = R2 (3 * q + 1) ∧ W (5 * q + 4) = R2 (3 * q + 2)) :
    cblas_ddot (5 * n) V W = cblas_ddot (3 * n) U1 R1 + cblas_ddot (3 * n) U2 R2 := by
  rw [cblas_ddot_eq_sum, cblas_ddot_eq_sum, cblas_ddot_eq_sum,
    sum_range_five n (fun i => V i * W i), sum_range_three n (fun i => U1 i * R1 i),
    sum_range_three n (fun i => U2 i * R2 i), ← Finset.sum_add_distrib]
  apply Finset.sum_congr rfl
  intro q hq
  obtain ⟨v0, v1, v2, v3, v4⟩ := hV q (Finset.mem_range.mp hq)
  obtain ⟨w0, w0', w1, w2, w3, w4⟩ := hW q (Finset.mem_range.mp hq)
  rw [v0, v1, v2, v3, v4, w1, w2, w3, w4]
  have : (U1 (3 * q) + U2 (3 * q)) * W (5 * q)
      = U1 (3 * q) * R1 (3 * q) + U2 (3 * q) * R2 (3 * q) := by
    rw [add_mul, ← w0']
    rw [w0]
  rw [this]
  ring

/-- The scalar product of two points of the open second-order cone is positive. -/
theorem in_cone_dot_pos (x y : Vec R) (q : Nat) (hx : in_cone x q) (hy : in_cone y q) :
    0 < x (3 * q) * y (3 * q) + x (3 * q + 1) * y (3 * q + 1) + x (3 * q + 2) * y (3 * q + 2) := by
  obtain ⟨hx0, hx1⟩ := hx
  obtain ⟨hy0, hy1⟩ := hy
  have h := cone_cauchy (x (3 * q)) (x (3 * q + 1)) (x (3 * q + 2)) (y (3 * q))
    (-(y (3 * q + 1))) (-(y (3 * q + 2))) hx0 hx1 hy0 (by simpa using hy1)
  linarith

theorem cblas_ddot_cone (n : Nat) (x y : Vec R) (hx : ∀ q, q < n → in_cone x q)
    (hy : ∀ q, q < n → in_cone y q) :
    0 ≤ cblas_ddot (3 * n) x y ∧ (0 < n → 0 < cblas_ddot (3 * n) x y) := by
  rw [cblas_ddot_eq_sum, sum_range_three n (fun i => x i * y i)]
  have hp : ∀ q ∈ Finset.range n, 0 < x (3 * q) * y (3 * q) + x (3 * q + 1) * y (3 * q + 1)
      + x (3 * q + 2) * y (3 * q + 2) :=
    fun q hq => in_cone_dot_pos x y q (hx q (Finset.mem_range.mp hq)) (hy q (Finset.mem_range.mp hq))
  refine ⟨Finset.sum_nonneg (fun q hq => le_of_lt (hp q hq)), fun hn => ?_⟩
  exact Finset.sum_pos hp ⟨0, Finset.mem_range.mpr hn⟩

/-- The sub-blocks at the top of a pass in terms of the point (`d = 5`). -/
theorem ipm_head_blocks (c : IPMContext R) (s : IPMState R)
    (hd2 : c.dims.d_minus_2 = 3) (hnd : c.dims.nd = 5 * c.dims.n)
    (hsz : 5 * c.dims.n < 4294967296) (q : Nat) (hq : q < c.dims.n) :
    ((ipm_head c s).velocity_1 (3 * q) = s.t q ∧
      (ipm_head c s).velocity_1 (3 * q + 1) = s.velocity (5 * q + 1) ∧
      (ipm_head c s).velocity_1 (3 * q + 2) = s.velocity (5 * q + 2) ∧
      (ipm_head c s).velocity_2 (3 * q) = s.t_prime q ∧
      (ipm_head c s).velocity_2 (3 * q + 1) = s.velocity (5 * q + 3) ∧
      (ipm_head c s).velocity_2 (3 * q + 2) = s.velocity (5 * q + 4)) ∧
    ((ipm_head c s).reaction_1 (3 * q) = s.reaction (5 * q) ∧
      (ipm_head c s).reaction_1 (3 * q + 1) = s.reaction (5 * q + 1) ∧
      (ipm_head c s).reaction_1 (3 * q + 2) = s.reaction (5 * q + 2) ∧
      (ipm_head c s).reaction_2 (3 * q) = s.reaction (5 * q) ∧
      (ipm_head c s).reaction_2 (3 * q + 1) = s.reaction (5 * q + 3) ∧
      (ipm_head c s).reaction_2 (3 * q + 2) = s.reaction (5 * q + 4)) := by
  have hsz3 : 3 * c.dims.n < 4294967296 := by omega
  have hv1 : (ipm_head c s).velocity_1
      = set_leading c.dims (extract_vector s.velocity (5 * c.dims.n) c.dims.n (1 + 1) (1 + 2) (fun _ => 0)) s.t := by
    rw [← hnd]; rfl
  have hv2 : (ipm_head c s).velocity_2
      = set_leading c.dims (extract_vector s.velocity (5 * c.dims.n) c.dims.n (3 + 1) (3 + 2) (fun _ => 0)) s.t_prime := by
    rw [← hnd]; rfl
  have hr1 : (ipm_head c s).reaction_1
      = extract_vector s.reaction (5 * c.dims.n) c.dims.n (1 + 1) (1 + 2) (fun _ => 0) := by
    rw [← hnd]; rfl
  have hr2 : (ipm_head c s).reaction_2
      = extract_vector s.reaction (5 * c.dims.n) c.dims.n (3 + 1) (3 + 2) (fun _ => 0) := by
    rw [← hnd]; rfl
  obtain ⟨-, x1, x2⟩ := extract_vector_five s.velocity 1 c.dims.n (fun _ => 0) q hq
  obtain ⟨-, y1, y2⟩ := extract_vector_five s.velocity 3 c.dims.n (fun _ => 0) q hq
  obtain ⟨u0, u1, u2⟩ := extract_vector_five s.reaction 1 c.dims.n (fun _ => 0) q hq
  obtain ⟨w0, w1, w2⟩ := extract_vector_five s.reaction 3 c.dims.n (fun _ => 0) q hq
  refine ⟨⟨?_, ?_, ?_, ?_, ?_, ?_⟩, ⟨?_, ?_, ?_, ?_, ?_, ?_⟩⟩
  · rw [hv1, (set_leading_three c.dims hd2 hsz3 _ _ q hq).1]
  · rw [hv1, (set_leading_three c.dims hd2 hsz3 _ _ q hq).2.1, x1]
  · rw [hv1, (set_leading_three c.dims hd2 hsz3 _ _ q hq).2.2, x2]
  · rw [hv2, (set_leading_three c.dims hd2 hsz3 _ _ q hq).1]
  · rw [hv2, (set_leading_three c.dims hd2 hsz3 _ _ q hq).2.1, y1]
  · rw [hv2, (set_leading_three c.dims hd2 hsz3 _ _ q hq).2.2, y2]
  · rw [hr1, u0]
  · rw [hr1, u1]
  · rw [hr1, u2]
  · rw [hr2, w0]
  · rw [hr2, w1]
  · rw [hr2, w2]

/-- The gap at the top of a pass is the sum of the two sub-block scalar products when
the leading entries of `velocity` are the sums `t + t_prime` (`d = 5`). -/
theorem ipm_head_gap_split (c : IPMContext R) (s : IPMState R)
    (hd2 : c.dims.d_minus_2 = 3) (hnd : c.dims.nd = 5 * c.dims.n)
    (hnm : c.dims.n_dminus2 = 3 * c.dims.n) (hsz : 5 * c.dims.n < 4294967296)
    (hinv : ∀ q, q < c.dims.n → s.velocity (5 * q) = s.t q + s.t_prime q) :
    (ipm_head c s).gapVal = (ipm_head c s).u1dotr1 + (ipm_head c s).u2dotr2 := by
  have e1 : (ipm_head c s).gapVal = cblas_ddot (5 * c.dims.n) s.reaction s.velocity := by
    rw [← hnd]; rfl
  have e2 : (ipm_head c s).u1dotr1
      = cblas_ddot (3 * c.dims.n) (ipm_head c s).velocity_1 (ipm_head c s).reaction_1 := by
    rw [← hnm]; rfl
  have e3 : (ipm_head c s).u2dotr2
      = cblas_ddot (3 * c.dims.n) (ipm_head c s).velocity_2 (ipm_head c s).reaction_2 := by
    rw [← hnm]; rfl
  rw [e1, e2, e3, cblas_ddot_comm]
  apply cblas_ddot_blocks
  · intro q hq
    obtain ⟨⟨a0, a1, a2, a3, a4, a5⟩, -⟩ := ipm_head_blocks c s hd2 hnd hsz q hq
    exact ⟨by rw [a0, a3, hinv q hq], a1.symm, a2.symm, a4.symm, a5.symm⟩
  · intro q hq
    obtain ⟨-, ⟨b0, b1, b2, b3, b4, b5⟩⟩ := ipm_head_blocks c s hd2 hnd hsz q hq
    exact ⟨b0.symm, b3.symm, b1.symm, b2.symm, b4.symm, b5.symm⟩

/-- The update of a pass keeps `velocity[5q] = t[q] + t_prime[q]`: the corrector has
`d_velocity[5q] = d_t[q] + d_t_prime[q]` and `alpha_dual = alpha_primal`. -/
theorem ipm_next_leading (c : IPMContext R) (s : IPMState R)
    (hd : c.dims.d = 5) (hd2 : c.dims.d_minus_2 = 3) (hnd : c.dims.nd = 5 * c.dims.n)
    (q : Nat) (hq : q < c.dims.n) (hinv : s.velocity (5 * q) = s.t q + s.t_prime q) :
    (ipm_pass_corrector c s).dir.d_velocity (5 * q)
      = (ipm_pass_corrector c s).dir.d_t q + (ipm_pass_corrector c s).dir.d_t_prime q ∧
    (ipm_pass_corrector c s).alpha_dual = (ipm_pass_corrector c s).alpha_primal ∧
    (ipm_next c s).velocity (5 * q) = (ipm_next c s).t q + (ipm_next c s).t_prime q := by
  have hk : ipm_pass_corrector c s
      = ipm_corrector c (ipm_head c s) (ipm_predictor c s (ipm_head c s)) := rfl
  generalize ipm_pass_corrector c s = k at hk
  have hdir : k.dir = ipm_retrieve c.dims k.rhs := by rw [hk]; rfl
  have hvel : (ipm_next c s).velocity = cblas_daxpy c.dims.nd k.alpha_primal k.dir.d_velocity s.velocity := by
    rw [hk]; rfl
  have ht : (ipm_next c s).t = cblas_daxpy c.dims.n k.alpha_primal k.dir.d_t s.t := by
    rw [hk]; rfl
  have htp : (ipm_next c s).t_prime = cblas_daxpy c.dims.n k.alpha_primal k.dir.d_t_prime s.t_prime := by
    rw [hk]; rfl
  obtain ⟨r0, -, -, -, -, r5, r6⟩ := ipm_retrieve_five c.dims hd hd2 k.rhs q hq
  rw [← hdir] at r0 r5 r6
  have b0 : 5 * q < c.dims.nd := by omega
  have hdv : k.dir.d_velocity (5 * q) = k.dir.d_t q + k.dir.d_t_prime q := by rw [r0, r5, r6]
  refine ⟨hdv, by rw [hk]; rfl, ?_⟩
  rw [hvel, ht, htp]
  simp only [cblas_daxpy, b0, hq, if_true]
  rw [hdv, hinv]
  ring

/-- Along the passes of a call with data built by `grfc3d_IPM_init` the leading entries of
`velocity` are the sums `t + t_prime`. -/
theorem ipm_state_at_leading (ext : Externals R) (cst : Constants)
    (problem : GlobalRollingFrictionContactProblem R) (options options0 : SolverOptions R)
    (data : Grfc3d_IPM_data R) (rhs reaction velocity globalVelocity : Vec R)
    (h5 : problem.dimension = 5) (hnd : problem.H.size1 = 5 * problem.numberOfContacts)
    (hsz : 5 * problem.numberOfContacts < 4294967296)
    (hdata : (grfc3d_IPM_init cst problem options0).solverData = some data) (k : Nat)
    (q : Nat) (hq : q < problem.numberOfContacts) :
    (ipm_state_at (ipm_context ext cst problem options data)
        (ipm_initial_state (dims_of problem) options data rhs reaction velocity globalVelocity)
        k).velocity (5 * q)
      = (ipm_state_at (ipm_context ext cst problem options data)
          (ipm_initial_state (dims_of problem) options data rhs reaction velocity globalVelocity)
          k).t q
        + (ipm_state_at (ipm_context ext cst problem options data)
          (ipm_initial_state (dims_of problem) options data rhs reaction velocity globalVelocity)
          k).t_prime q := by
  obtain ⟨hd, hd2, hnd', hn, -⟩ := ipm_context_dims_five ext cst problem options data h5 hnd hsz
  induction k with
  | zero =>
    have hsp : data.starting_point.velocity = fun i => if i < problem.H.size1
        then (if i % problem.dimension = 0 then ((3 : ℚ) : R) else ((1 / 1000 : ℚ) : R)) else 0 := by
      have : some data = (grfc3d_IPM_init cst problem options0).solverData := hdata.symm
      simp only [grfc3d_IPM_init, Option.some.injEq] at this
      rw [this]
    have hi' : 5 * q < (dims_of problem).nd := by
      show 5 * q < problem.H.size1
      omega
    have hi2 : 5 * q < problem.H.size1 := hi'
    have hq' : q < (dims_of problem).n := hq
    have m0 : (5 * q) % 5 = 0 := by omega
    simp only [ipm_state_at, ipm_initial_state, cblas_dcopy, hi', if_true, hsp, hi2, h5, hq', m0]
    push_cast
    norm_num
  | succ k ih =>
    exact (ipm_next_leading _ _ hd hd2 hnd' q (by rw [hn]; exact hq) ih).2.2

/-- C28: with `d = 5` (and `nd = 5n` within the range of `unsigned int`), solver data built
by `grfc3d_IPM_init` and exact arithmetic, at the top of every pass of the loop of
`grfc3d_IPM` `velocity[5i] = t[i] + t_prime[i]` for every contact `i`, the corrector of the
pass has `d_velocity[5i] = d_t[i] + d_t_prime[i]` and `alpha_dual = alpha_primal`, and the
gap `cblas_ddot(nd, reaction, velocity)` is the sum `u1dotr1 + u2dotr2` of the scalar
products of the sub-blocks. -/
theorem grfc3d_IPM_gap_split (ext : Externals R) (cst : Constants)
    (problem : GlobalRollingFrictionContactProblem R) (options options0 : SolverOptions R)
    (data : Grfc3d_IPM_data R) (rhs reaction velocity globalVelocity : Vec R)
    (h5 : problem.dimension = 5) (hnd : problem.H.size1 = 5 * problem.numberOfContacts)
    (hsz : 5 * problem.numberOfContacts < 4294967296)
    (hdata : (grfc3d_IPM_init cst problem options0).solverData = some data) (k : Nat) :
    (∀ i, i < problem.numberOfContacts →
      (ipm_initial_state (dims_of problem) options data rhs reaction velocity globalVelocity).velocity (5 * i) = 3 ∧
      (ipm_initial_state (dims_of problem) options data rhs reaction velocity globalVelocity).t i = 2 ∧
      (ipm_initial_state (dims_of problem) options data rhs reaction velocity globalVelocity).t_prime i = 1) ∧
    (∀ i, i < problem.numberOfContacts →
      (ipm_state_at (ipm_context ext cst problem options data)
          (ipm_initial_state (dims_of problem) options data rhs reaction velocity globalVelocity)
          k).velocity (5 * i)
        = (ipm_state_at (ipm_context ext cst problem options data)
            (ipm_initial_state (dims_of problem) options data rhs reaction velocity globalVelocity)
            k).t i
          + (ipm_state_at (ipm_context ext cst problem options data)
            (ipm_initial_state (dims_of problem) options data rhs reaction velocity globalVelocity)
            k).t_prime i) ∧
    (∀ i, i < problem.numberOfContacts →
      (ipm_pass_corrector (ipm_context ext cst problem options data)
          (ipm_state_at (ipm_context ext cst problem options data)
            (ipm_initial_state (dims_of problem) options data rhs reaction velocity globalVelocity)
            k)).dir.d_velocity (5 * i)
        = (ipm_pass_corrector (ipm_context ext cst problem options data)
            (ipm_state_at (ipm_context ext cst problem options data)
              (ipm_initial_state (dims_of problem) options data rhs reaction velocity globalVelocity)
              k)).dir.d_t i
          + (ipm_pass_corrector (ipm_context ext cst problem options data)
            (ipm_state_at (ipm_context ext cst problem options data)
              (ipm_initial_state (dims_of problem) options data rhs reaction velocity globalVelocity)
              k)).dir.d_t_prime i) ∧
    (ipm_pass_corrector (ipm_context ext cst problem options data)
        (ipm_state_at (ipm_context ext cst problem options data)
          (ipm_initial_state (dims_of problem) options data rhs reaction velocity globalVelocity)
          k)).alpha_dual
      = (ipm_pass_corrector (ipm_context ext cst problem options data)
        (ipm_state_at (ipm_context ext cst problem options data)
          (ipm_initial_state (dims_of problem) options data rhs reaction velocity globalVelocity)
          k)).alpha_primal ∧
    (ipm_head (ipm_context ext cst problem options data)
        (ipm_state_at (ipm_context ext cst problem options data)
          (ipm_initial_state (dims_of problem) options data rhs reaction velocity globalVelocity)
          k)).gapVal
      = (ipm_head (ipm_context ext cst problem options data)
          (ipm_state_at (ipm_context ext cst problem options data)
            (ipm_initial_state (dims_of problem) options data rhs reaction velocity globalVelocity)
            k)).u1dotr1
        + (ipm_head (ipm_context ext cst problem options data)
          (ipm_state_at (ipm_context ext cst problem options data)
            (ipm_initial_state (dims_of problem) options data rhs reaction velocity globalVelocity)
            k)).u2dotr2 := by
  obtain ⟨hd, hd2, hnd', hn, hnm⟩ := ipm_context_dims_five ext cst problem options data h5 hnd hsz
  have hinv := ipm_state_at_leading ext cst problem options options0 data rhs reaction velocity
    globalVelocity h5 hnd hsz hdata
  refine ⟨?_, hinv k, ?_, rfl, ?_⟩
  · intro i hi
    have hsp : data.starting_point.velocity = fun i => if i < problem.H.size1
        then (if i % problem.dimension = 0 then ((3 : ℚ) : R) else ((1 / 1000 : ℚ) : R)) else 0 := by
      have : some data = (grfc3d_IPM_init cst problem options0).solverData := hdata.symm
      simp only [grfc3d_IPM_init, Option.some.injEq] at this
      rw [this]
    have hi' : 5 * i < (dims_of problem).nd := by
      show 5 * i < problem.H.size1
      omega
    have hi2 : 5 * i < problem.H.size1 := hi'
    have hq' : i < (dims_of problem).n := hi
    have m0 : (5 * i) % 5 = 0 := by omega
    simp only [ipm_initial_state, cblas_dcopy, hi', if_true, hsp, hi2, h5, hq', m0]
    push_cast
    exact ⟨rfl, rfl, rfl⟩
  · intro i hi
    exact (ipm_next_leading _ _ hd hd2 hnd' i (by rw [hn]; exact hi) (hinv k i hi)).1
  · apply ipm_head_gap_split _ _ hd2 hnd' (by rw [hnm, hn]) (by rw [hn]; exact hsz)
    intro q hq
    exact hinv k q (by rw [← hn]; exact hq)

end GapSplit


/-- Witness for C28: the call on the sample problem with two contacts and the routines
`cone_ext`; at the top of the second pass `velocity[5] = 14/5 = 19/10 + 9/10` and the gap
`14297/6250` is the sum of `19297/12500` and `9297/12500`. -/
theorem grfc3d_IPM_gap_split_witness :
    (sample_problem 2 : GlobalRollingFrictionContactProblem ℚ).dimension = 5 ∧
    (sample_problem 2 : GlobalRollingFrictionContactProblem ℚ).H.size1 = 5 * 2 ∧
    (ipm_state_at (cone_context 2) (cone_state 2) 1).velocity 5 = 14 / 5 ∧
    (ipm_state_at (cone_context 2) (cone_state 2) 1).t 1 = 19 / 10 ∧
    (ipm_state_at (cone_context 2) (cone_state 2) 1).t_prime 1 = 9 / 10 ∧
    (∀ i, i < 2 → (ipm_state_at (cone_context 2) (cone_state 2) 1).velocity (5 * i)
      = (ipm_state_at (cone_context 2) (cone_state 2) 1).t i
        + (ipm_state_at (cone_context 2) (cone_state 2) 1).t_prime i) ∧
    (ipm_head (cone_context 2) (ipm_state_at (cone_context 2) (cone_state 2) 1)).gapVal
      = (ipm_head (cone_context 2) (ipm_state_at (cone_context 2) (cone_state 2) 1)).u1dotr1
        + (ipm_head (cone_context 2) (ipm_state_at (cone_context 2) (cone_state 2) 1)).u2dotr2 ∧
    (ipm_head (cone_context 2) (ipm_state_at (cone_context 2) (cone_state 2) 1)).gapVal
      = 14297 / 6250 ∧
    (ipm_head (cone_context 2) (ipm_state_at (cone_context 2) (cone_state 2) 1)).u1dotr1
      = 19297 / 12500 ∧
    (ipm_head (cone_context 2) (ipm_state_at (cone_context 2) (cone_state 2) 1)).u2dotr2
      = 9297 / 12500 := by
  have key := grfc3d_IPM_gap_split cone_ext sample_cst (sample_problem 2)
    (ipm_entry_options cone_ext sample_cst (sample_problem 2) rat_options) rat_options
    (ipm_entry_data cone_ext sample_cst (sample_problem 2) rat_options rfl)
    ((ipm_entry_options cone_ext sample_cst (sample_problem 2) rat_options).dWork.getD (fun _ => 0))
    (fun _ => 0) (fun _ => 0) (fun _ => 0) rfl rfl (by decide) rfl 1
  exact ⟨rfl, rfl, by decide!, by decide!, by decide!, key.2.1, key.2.2.2.2, by decide!,
    by decide!, by decide!⟩


/-! ### The centering parameter -/

section Centering
variable {R : Type} [LinearOrderedField R]

theorem ipm_step_calls_mem (c : IPMContext R) (s : IPMState R) :
    (((ipm_head c s).velocity_1, (ipm_pass_predictor c s).dir.d_velocity_1, s.gmm) ∈ ipm_step_calls c s ∧
      ((ipm_head c s).velocity_2, (ipm_pass_predictor c s).dir.d_velocity_2, s.gmm) ∈ ipm_step_calls c s ∧
      ((ipm_head c s).reaction_1, (ipm_pass_predictor c s).dir.d_reaction_1, s.gmm) ∈ ipm_step_calls c s ∧
      ((ipm_head c s).reaction_2, (ipm_pass_predictor c s).dir.d_reaction_2, s.gmm) ∈ ipm_step_calls c s) ∧
    (((ipm_head c s).velocity_1, (ipm_pass_corrector c s).dir.d_velocity_1,
        (ipm_pass_predictor c s).gmm) ∈ ipm_step_calls c s ∧
      ((ipm_head c s).velocity_2, (ipm_pass_corrector c s).dir.d_velocity_2,
        (ipm_pass_predictor c s).gmm) ∈ ipm_step_calls c s ∧
      ((ipm_head c s).reaction_1, (ipm_pass_corrector c s).dir.d_reaction_1,
        (ipm_pass_predictor c s).gmm) ∈ ipm_step_calls c s ∧
      ((ipm_head c s).reaction_2, (ipm_pass_corrector c s).dir.d_reaction_2,
        (ipm_pass_predictor c s).gmm) ∈ ipm_step_calls c s) := by
  unfold ipm_step_calls
  simp

/-- The common step length of four ratio tests that keep their sub-blocks inside the cone
is non-negative and keeps the four families of sub-blocks inside the cone. -/
theorem ipm_step_length_cone (c : IPMContext R) (h : IPMHead R) (dir : IPMDirection R) (g : R)
    (n : Nat)
    (hin : ∀ q, q < n → in_cone h.velocity_1 q ∧ in_cone h.velocity_2 q ∧
      in_cone h.reaction_1 q ∧ in_cone h.reaction_2 q)
    (hs : ∀ x dx : Vec R,
      (x, dx) ∈ [(h.velocity_1, dir.d_velocity_1), (h.velocity_2, dir.d_velocity_2),
        (h.reaction_1, dir.d_reaction_1), (h.reaction_2, dir.d_reaction_2)] →
      0 ≤ c.ext.getStepLength x dx c.dims.n_dminus2 c.dims.n g ∧
      ∀ q, q < n → in_cone (fun i => x i
        + c.ext.getStepLength x dx c.dims.n_dminus2 c.dims.n g * dx i) q) :
    0 ≤ ipm_step_length c h dir g ∧
    ∀ q, q < n →
      in_cone (fun i => h.velocity_1 i + ipm_step_length c h dir g * dir.d_velocity_1 i) q ∧
      in_cone (fun i => h.velocity_2 i + ipm_step_length c h dir g * dir.d_velocity_2 i) q ∧
      in_cone (fun i => h.reaction_1 i + ipm_step_length c h dir g * dir.d_reaction_1 i) q ∧
      in_cone (fun i => h.reaction_2 i + ipm_step_length c h dir g * dir.d_reaction_2 i) q := by
  have s1 := hs _ _ (List.mem_cons_self _ _)
  have s2 := hs _ _ (List.mem_cons_of_mem _ (List.mem_cons_self _ _))
  have s3 := hs _ _ (List.mem_cons_of_mem _ (List.mem_cons_of_mem _ (List.mem_cons_self _ _)))
  have s4 := hs _ _ (List.mem_cons_of_mem _ (List.mem_cons_of_mem _
    (List.mem_cons_of_mem _ (List.mem_cons_self _ _))))
  rw [ipm_step_length_min]
  obtain ⟨-, m1, m2, m3, m4⟩ := min_four_mem
    (c.ext.getStepLength h.velocity_1 dir.d_velocity_1 c.dims.n_dminus2 c.dims.n g)
    (c.ext.getStepLength h.velocity_2 dir.d_velocity_2 c.dims.n_dminus2 c.dims.n g)
    (c.ext.getStepLength h.reaction_1 dir.d_reaction_1 c.dims.n_dminus2 c.dims.n g)
    (c.ext.getStepLength h.reaction_2 dir.d_reaction_2 c.dims.n_dminus2 c.dims.n g)
  have hb0 := le_min s1.1 (le_min s2.1 (le_min s3.1 s4.1))
  refine ⟨hb0, fun q hq => ⟨?_, ?_, ?_, ?_⟩⟩
  · exact in_cone_segment _ _ q _ _ hb0 m1 (hin q hq).1 (s1.2 q hq)
  · exact in_cone_segment _ _ q _ _ hb0 m2 (hin q hq).2.1 (s2.2 q hq)
  · exact in_cone_segment _ _ q _ _ hb0 m3 (hin q hq).2.2.1 (s3.2 q hq)
  · exact in_cone_segment _ _ q _ _ hb0 m4 (hin q hq).2.2.2 (s4.2 q hq)

/-- The sub-blocks stay inside the cone over a pass whose corrector ratio tests keep them
inside (`d = 5`). -/
theorem ipm_cone_next (c : IPMContext R) (s : IPMState R)
    (hd : c.dims.d = 5) (hd2 : c.dims.d_minus_2 = 3) (hnd : c.dims.nd = 5 * c.dims.n)
    (hsz : 5 * c.dims.n < 4294967296)
    (hin : ∀ q, q < c.dims.n → in_cone (ipm_head c s).velocity_1 q ∧
      in_cone (ipm_head c s).velocity_2 q ∧ in_cone (ipm_head c s).reaction_1 q ∧
      in_cone (ipm_head c s).reaction_2 q)
    (hstep : ∀ (x dx : Vec R) (g : R), (x, dx, g) ∈ ipm_step_calls c s →
      (∀ q, q < c.dims.n → in_cone x q) →
      0 ≤ c.ext.getStepLength x dx c.dims.n_dminus2 c.dims.n g ∧
      ∀ q, q < c.dims.n → in_cone (fun i => x i
        + c.ext.getStepLength x dx c.dims.n_dminus2 c.dims.n g * dx i) q) :
    ∀ q, q < c.dims.n → in_cone (ipm_head c (ipm_next c s)).velocity_1 q ∧
      in_cone (ipm_head c (ipm_next c s)).velocity_2 q ∧
      in_cone (ipm_head c (ipm_next c s)).reaction_1 q ∧
      in_cone (ipm_head c (ipm_next c s)).reaction_2 q := by
  obtain ⟨-, k1, k2, k3, k4⟩ := ipm_step_calls_mem c s
  have hs : ∀ x dx : Vec R,
      (x, dx) ∈ [((ipm_head c s).velocity_1, (ipm_pass_corrector c s).dir.d_velocity_1),
        ((ipm_head c s).velocity_2, (ipm_pass_corrector c s).dir.d_velocity_2),
        ((ipm_head c s).reaction_1, (ipm_pass_corrector c s).dir.d_reaction_1),
        ((ipm_head c s).reaction_2, (ipm_pass_corrector c s).dir.d_reaction_2)] →
      0 ≤ c.ext.getStepLength x dx c.dims.n_dminus2 c.dims.n (ipm_pass_predictor c s).gmm ∧
      ∀ q, q < c.dims.n → in_cone (fun i => x i
        + c.ext.getStepLength x dx c.dims.n_dminus2 c.dims.n (ipm_pass_predictor c s).gmm * dx i) q := by
    intro x dx hmem
    simp only [List.mem_cons, List.mem_singleton, Prod.mk.injEq, List.not_mem_nil, or_false] at hmem
    rcases hmem with ⟨hx, hdx⟩ | ⟨hx, hdx⟩ | ⟨hx, hdx⟩ | ⟨hx, hdx⟩ <;> subst hx <;> subst hdx
    · exact hstep _ _ _ k1 (fun q hq => (hin q hq).1)
    · exact hstep _ _ _ k2 (fun q hq => (hin q hq).2.1)
    · exact hstep _ _ _ k3 (fun q hq => (hin q hq).2.2.1)
    · exact hstep _ _ _ k4 (fun q hq => (hin q hq).2.2.2)
  obtain ⟨-, hc⟩ := ipm_step_length_cone c (ipm_head c s) (ipm_pass_corrector c s).dir
    (ipm_pass_predictor c s).gmm c.dims.n hin hs
  intro q hq
  obtain ⟨c1, c2, c3, c4⟩ := hc q hq
  have u0 := ipm_subblock_update c s hd hd2 hnd hsz q hq 0 (by omega)
  have u1 := ipm_subblock_update c s hd hd2 hnd hsz q hq 1 (by omega)
  have u2 := ipm_subblock_update c s hd hd2 hnd hsz q hq 2 (by omega)
  simp only [Nat.add_zero] at u0
  refine ⟨?_, ?_, ?_, ?_⟩
  · exact (in_cone_congr _ _ q u0.1 u1.1 u2.1).mpr c1
  · exact (in_cone_congr _ _ q u0.2.1 u1.2.1 u2.2.1).mpr c2
  · exact (in_cone_congr _ _ q u0.2.2.1 u1.2.2.1 u2.2.2.1).mpr c3
  · exact (in_cone_congr _ _ q u0.2.2.2 u1.2.2.2 u2.2.2.2).mpr c4

/-- The sub-blocks are inside the cone at the top of every pass when they are so at the
start and the corrector ratio tests of the earlier passes keep them inside (`d = 5`). -/
theorem ipm_state_at_cone (c : IPMContext R) (s0 : IPMState R)
    (hd : c.dims.d = 5) (hd2 : c.dims.d_minus_2 = 3) (hnd : c.dims.nd = 5 * c.dims.n)
    (hsz : 5 * c.dims.n < 4294967296)
    (h0 : ∀ q, q < c.dims.n → in_cone (ipm_head c s0).velocity_1 q ∧
      in_cone (ipm_head c s0).velocity_2 q ∧ in_cone (ipm_head c s0).reaction_1 q ∧
      in_cone (ipm_head c s0).reaction_2 q) (k : Nat)
    (hstep : ∀ j, j < k → ∀ (x dx : Vec R) (g : R),
      (x, dx, g) ∈ ipm_step_calls c (ipm_state_at c s0 j) →
      (∀ q, q < c.dims.n → in_cone x q) →
      0 ≤ c.ext.getStepLength x dx c.dims.n_dminus2 c.dims.n g ∧
      ∀ q, q < c.dims.n → in_cone (fun i => x i
        + c.ext.getStepLength x dx c.dims.n_dminus2 c.dims.n g * dx i) q) :
    ∀ q, q < c.dims.n → in_cone (ipm_head c (ipm_state_at c s0 k)).velocity_1 q ∧
      in_cone (ipm_head c (ipm_state_at c s0 k)).velocity_2 q ∧
      in_cone (ipm_head c (ipm_state_at c s0 k)).reaction_1 q ∧
      in_cone (ipm_head c (ipm_state_at c s0 k)).reaction_2 q := by
  induction k with
  | zero => exact h0
  | succ k ih =>
    exact ipm_cone_next c _ hd hd2 hnd hsz
      (ih (fun j hj => hstep j (Nat.lt_succ_of_lt hj))) (hstep k (Nat.lt_succ_self k))

/-- The sub-blocks of the starting point built by `grfc3d_IPM_init` are inside the cone
(`d = 5`). -/
theorem ipm_cone_start (ext : Externals R) (cst : Constants)
    (problem : GlobalRollingFrictionContactProblem R) (options options0 : SolverOptions R)
    (data : Grfc3d_IPM_data R) (rhs reaction velocity globalVelocity : Vec R)
    (h5 : problem.dimension = 5) (hnd : problem.H.size1 = 5 * problem.numberOfContacts)
    (hsz : 5 * problem.numberOfContacts < 4294967296)
    (hdata : (grfc3d_IPM_init cst problem options0).solverData = some data)
    (q : Nat) (hq : q < problem.numberOfContacts) :
    in_cone (ipm_head (ipm_context ext cst problem options data)
      (ipm_initial_state (dims_of problem) options data rhs reaction velocity globalVelocity)).velocity_1 q ∧
    in_cone (ipm_head (ipm_context ext cst problem options data)
      (ipm_initial_state (dims_of problem) options data rhs reaction velocity globalVelocity)).velocity_2 q ∧
    in_cone (ipm_head (ipm_context ext cst problem options data)
      (ipm_initial_state (dims_of problem) options data rhs reaction velocity globalVelocity)).reaction_1 q ∧
    in_cone (ipm_head (ipm_context ext cst problem options data)
      (ipm_initial_state (dims_of problem) options data rhs reaction velocity globalVelocity)).reaction_2 q := by
  obtain ⟨hd, hd2, hnd', hn, -⟩ := ipm_context_dims_five ext cst problem options data h5 hnd hsz
  have hsp : data.starting_point =
      { globalVelocity := fun i => if i < problem.M.size0 then ((1 / 100 : ℚ) : R) else 0
        velocity := fun i => if i < problem.H.size1
          then (if i % problem.dimension = 0 then ((3 : ℚ) : R) else ((1 / 1000 : ℚ) : R)) else 0
        reaction := fun i => if i < problem.H.size1
          then (if i % problem.dimension = 0 then ((1 / 2 : ℚ) : R) else ((4 / 100 : ℚ) : R)) else 0 } := by
    have : some data = (grfc3d_IPM_init cst problem options0).solverData := hdata.symm
    simp only [grfc3d_IPM_init, Option.some.injEq] at this
    rw [this]
  generalize hc : ipm_context ext cst problem options data = c at hd hd2 hnd' hn
  have hqc : q < c.dims.n := by rw [hn]; exact hq
  generalize hs : ipm_initial_state (dims_of problem) options data rhs reaction velocity globalVelocity = s0
  have hvel : ∀ i, i < 5 * problem.numberOfContacts → s0.velocity i
      = if i % 5 = 0 then ((3 : ℚ) : R) else ((1 / 1000 : ℚ) : R) := by
    intro i hi
    rw [← hs]
    have hi' : i < (dims_of problem).nd := by
      show i < problem.H.size1
      omega
    have hi2 : i < problem.H.size1 := hi'
    simp only [ipm_initial_state, cblas_dcopy, hi', if_true, hsp, hi2, h5]
  have hrea : ∀ i, i < 5 * problem.numberOfContacts → s0.reaction i
      = if i % 5 = 0 then ((1 / 2 : ℚ) : R) else ((4 / 100 : ℚ) : R) := by
    intro i hi
    rw [← hs]
    have hi' : i < (dims_of problem).nd := by
      show i < problem.H.size1
      omega
    have hi2 : i < problem.H.size1 := hi'
    simp only [ipm_initial_state, cblas_dcopy, hi', if_true, hsp, hi2, h5]
  have ht : s0.t q = ((2 : ℚ) : R) := by
    rw [← hs]
    have hq' : q < (dims_of problem).n := hq
    simp only [ipm_initial_state, hq', if_true]
  have htp : s0.t_prime q = ((1 : ℚ) : R) := by
    rw [← hs]
    have hq' : q < (dims_of problem).n := hq
    simp only [ipm_initial_state, hq', if_true]
  obtain ⟨⟨a0, a1, a2, a3, a4, a5⟩, ⟨b0, b1, b2, b3, b4, b5⟩⟩ :=
    ipm_head_blocks c s0 hd2 hnd' (by rw [hn]; exact hsz) q hqc
  have m0 : (5 * q) % 5 = 0 := by omega
  have m1 : (5 * q + 1) % 5 ≠ 0 := by omega
  have m2 : (5 * q + 2) % 5 ≠ 0 := by omega
  have m3 : (5 * q + 3) % 5 ≠ 0 := by omega
  have m4 : (5 * q + 4) % 5 ≠ 0 := by omega
  refine ⟨?_, ?_, ?_, ?_⟩
  · unfold in_cone
    rw [a0, a1, a2, ht, hvel _ (by omega), hvel _ (by omega), if_neg m1, if_neg m2]
    norm_num
  · unfold in_cone
    rw [a3, a4, a5, htp, hvel _ (by omega), hvel _ (by omega), if_neg m3, if_neg m4]
    norm_num
  · unfold in_cone
    rw [b0, b1, b2, hrea _ (by omega), hrea _ (by omega), hrea _ (by omega),
      if_pos m0, if_neg m1, if_neg m2]
    norm_num
  · unfold in_cone
    rw [b3, b4, b5, hrea _ (by omega), hrea _ (by omega), hrea _ (by omega),
      if_pos m0, if_neg m3, if_neg m4]
    norm_num

/-- The scalar product of the affine point `(velocity + a*d_velocity, reaction +
a*d_reaction)` of the predictor splits over the sub-blocks (`d = 5`). -/
theorem ipm_affine_split (c : IPMContext R) (s : IPMState R) (rhs : Vec R) (a : R)
    (hd : c.dims.d = 5) (hd2 : c.dims.d_minus_2 = 3) (hnd : c.dims.nd = 5 * c.dims.n)
    (hsz : 5 * c.dims.n < 4294967296)
    (hinv : ∀ q, q < c.dims.n → s.velocity (5 * q) = s.t q + s.t_prime q) :
    cblas_ddot c.dims.nd
        (cblas_daxpy c.dims.nd a (ipm_retrieve c.dims rhs).d_velocity
          (cblas_dcopy c.dims.nd s.velocity (fun _ => 0)))
        (cblas_daxpy c.dims.nd a (ipm_retrieve c.dims rhs).d_reaction
          (cblas_dcopy c.dims.nd s.reaction (fun _ => 0)))
      = cblas_ddot (3 * c.dims.n)
          (fun i => (ipm_head c s).velocity_1 i + a * (ipm_retrieve c.dims rhs).d_velocity_1 i)
          (fun i => (ipm_head c s).reaction_1 i + a * (ipm_retrieve c.dims rhs).d_reaction_1 i)
        + cblas_ddot (3 * c.dims.n)
          (fun i => (ipm_head c s).velocity_2 i + a * (ipm_retrieve c.dims rhs).d_velocity_2 i)
          (fun i => (ipm_head c s).reaction_2 i + a * (ipm_retrieve c.dims rhs).d_reaction_2 i) := by
  rw [hnd]
  have hdr1 : (ipm_retrieve c.dims rhs).d_reaction_1
      = extract_vector (ipm_retrieve c.dims rhs).d_reaction (5 * c.dims.n) c.dims.n (1 + 1) (1 + 2)
          (fun _ => 0) := by
    rw [← hnd]; rfl
  have hdr2 : (ipm_retrieve c.dims rhs).d_reaction_2
      = extract_vector (ipm_retrieve c.dims rhs).d_reaction (5 * c.dims.n) c.dims.n (3 + 1) (3 + 2)
          (fun _ => 0) := by
    rw [← hnd]; rfl
  apply cblas_ddot_blocks
  · intro q hq
    obtain ⟨⟨a0, a1, a2, a3, a4, a5⟩, -⟩ := ipm_head_blocks c s hd2 hnd hsz q hq
    obtain ⟨r0, r1, r2, r3, r4, -, -⟩ := ipm_retrieve_five c.dims hd hd2 rhs q hq
    have b0 : 5 * q < 5 * c.dims.n := by omega
    have b1 : 5 * q + 1 < 5 * c.dims.n := by omega
    have b2 : 5 * q + 2 < 5 * c.dims.n := by omega
    have b3 : 5 * q + 3 < 5 * c.dims.n := by omega
    have b4 : 5 * q + 4 < 5 * c.dims.n := by omega
    simp only [cblas_daxpy, cblas_dcopy, b0, b1, b2, b3, b4, if_true]
    rw [a0, a1, a2, a3, a4, a5, r0, r1, r2, r3, r4, hinv q hq]
    exact ⟨by ring, rfl, rfl, rfl, rfl⟩
  · intro q hq
    obtain ⟨-, ⟨c0, c1, c2, c3, c4, c5⟩⟩ := ipm_head_blocks c s hd2 hnd hsz q hq
    obtain ⟨e0, e1, e2⟩ := extract_vector_five (ipm_retrieve c.dims rhs).d_reaction 1 c.dims.n
      (fun _ => 0) q hq
    obtain ⟨f0, f1, f2⟩ := extract_vector_five (ipm_retrieve c.dims rhs).d_reaction 3 c.dims.n
      (fun _ => 0) q hq
    have b0 : 5 * q < 5 * c.dims.n := by omega
    have b1 : 5 * q + 1 < 5 * c.dims.n := by omega
    have b2 : 5 * q + 2 < 5 * c.dims.n := by omega
    have b3 : 5 * q + 3 < 5 * c.dims.n := by omega
    have b4 : 5 * q + 4 < 5 * c.dims.n := by omega
    simp only [cblas_daxpy, cblas_dcopy, b0, b1, b2, b3, b4, if_true]
    rw [c0, c1, c2, c3, c4, c5, hdr1, hdr2, e0, e1, e2, f0, f1, f2]
    exact ⟨rfl, rfl, rfl, rfl, rfl, rfl⟩

end Centering


section CenteringTheorem
variable {R : Type} [LinearOrderedField R]

/-- The affine barrier value and the barrier value of a pass are positive when the
sub-blocks are inside the cone, `velocity[5q] = t[q] + t_prime[q]` and the predictor
ratio tests keep the sub-blocks inside (`d = 5`, `n >= 1`). -/
theorem ipm_barrier_pos (c : IPMContext R) (s : IPMState R)
    (hd : c.dims.d = 5) (hd2 : c.dims.d_minus_2 = 3) (hnd : c.dims.nd = 5 * c.dims.n)
    (hnm : c.dims.n_dminus2 = 3 * c.dims.n) (hsz : 5 * c.dims.n < 4294967296)
    (hn : 0 < c.dims.n)
    (hinv : ∀ q, q < c.dims.n → s.velocity (5 * q) = s.t q + s.t_prime q)
    (hin : ∀ q, q < c.dims.n → in_cone (ipm_head c s).velocity_1 q ∧
      in_cone (ipm_head c s).velocity_2 q ∧ in_cone (ipm_head c s).reaction_1 q ∧
      in_cone (ipm_head c s).reaction_2 q)
    (hstep : ∀ (x dx : Vec R) (g : R), (x, dx, g) ∈ ipm_step_calls c s →
      (∀ q, q < c.dims.n → in_cone x q) →
      0 ≤ c.ext.getStepLength x dx c.dims.n_dminus2 c.dims.n g ∧
      ∀ q, q < c.dims.n → in_cone (fun i => x i
        + c.ext.getStepLength x dx c.dims.n_dminus2 c.dims.n g * dx i) q) :
    0 < (ipm_head c s).barr_param ∧ 0 < (ipm_pass_predictor c s).barr_param_a := by
  have hcast : (0 : R) < ((c.dims.n : ℚ) : R) := by
    rw [Rat.cast_natCast]
    exact Nat.cast_pos.mpr hn
  constructor
  · have e : (ipm_head c s).barr_param = (ipm_head c s).gapVal / ((c.dims.n : ℚ) : R) := rfl
    have e1 : (ipm_head c s).u1dotr1
        = cblas_ddot (3 * c.dims.n) (ipm_head c s).velocity_1 (ipm_head c s).reaction_1 := by
      rw [← hnm]; rfl
    have e2 : (ipm_head c s).u2dotr2
        = cblas_ddot (3 * c.dims.n) (ipm_head c s).velocity_2 (ipm_head c s).reaction_2 := by
      rw [← hnm]; rfl
    rw [e, ipm_head_gap_split c s hd2 hnd hnm hsz hinv, e1, e2]
    have p1 := (cblas_ddot_cone c.dims.n _ _ (fun q hq => (hin q hq).1)
      (fun q hq => (hin q hq).2.2.1)).2 hn
    have p2 := (cblas_ddot_cone c.dims.n _ _ (fun q hq => (hin q hq).2.1)
      (fun q hq => (hin q hq).2.2.2)).2 hn
    exact div_pos (add_pos p1 p2) hcast
  · obtain ⟨⟨k1, k2, k3, k4⟩, -⟩ := ipm_step_calls_mem c s
    have hs : ∀ x dx : Vec R,
        (x, dx) ∈ [((ipm_head c s).velocity_1, (ipm_pass_predictor c s).dir.d_velocity_1),
          ((ipm_head c s).velocity_2, (ipm_pass_predictor c s).dir.d_velocity_2),
          ((ipm_head c s).reaction_1, (ipm_pass_predictor c s).dir.d_reaction_1),
          ((ipm_head c s).reaction_2, (ipm_pass_predictor c s).dir.d_reaction_2)] →
        0 ≤ c.ext.getStepLength x dx c.dims.n_dminus2 c.dims.n s.gmm ∧
        ∀ q, q < c.dims.n → in_cone (fun i => x i
          + c.ext.getStepLength x dx c.dims.n_dminus2 c.dims.n s.gmm * dx i) q := by
      intro x dx hmem
      simp only [List.mem_cons, List.mem_singleton, Prod.mk.injEq, List.not_mem_nil, or_false] at hmem
      rcases hmem with ⟨hx, hdx⟩ | ⟨hx, hdx⟩ | ⟨hx, hdx⟩ | ⟨hx, hdx⟩ <;> subst hx <;> subst hdx
      · exact hstep _ _ _ k1 (fun q hq => (hin q hq).1)
      · exact hstep _ _ _ k2 (fun q hq => (hin q hq).2.1)
      · exact hstep _ _ _ k3 (fun q hq => (hin q hq).2.2.1)
      · exact hstep _ _ _ k4 (fun q hq => (hin q hq).2.2.2)
    obtain ⟨-, hc⟩ := ipm_step_length_cone c (ipm_head c s) (ipm_pass_predictor c s).dir s.gmm
      c.dims.n hin hs
    have ea : (ipm_pass_predictor c s).alpha_primal
        = ipm_step_length c (ipm_head c s) (ipm_pass_predictor c s).dir s.gmm := rfl
    rw [← ea] at hc
    have edir : (ipm_pass_predictor c s).dir = ipm_retrieve c.dims (ipm_pass_predictor c s).rhs := rfl
    have e : (ipm_pass_predictor c s).barr_param_a
        = cblas_ddot c.dims.nd
            (cblas_daxpy c.dims.nd (ipm_pass_predictor c s).alpha_primal
              (ipm_retrieve c.dims (ipm_pass_predictor c s).rhs).d_velocity
              (cblas_dcopy c.dims.nd s.velocity (fun _ => 0)))
            (cblas_daxpy c.dims.nd (ipm_pass_predictor c s).alpha_primal
              (ipm_retrieve c.dims (ipm_pass_predictor c s).rhs).d_reaction
              (cblas_dcopy c.dims.nd s.reaction (fun _ => 0))) / ((c.dims.n : ℚ) : R) := rfl
    rw [e, ipm_affine_split c s _ _ hd hd2 hnd hsz hinv, ← edir]
    have p1 := (cblas_ddot_cone c.dims.n _ _ (fun q hq => (hc q hq).1)
      (fun q hq => (hc q hq).2.2.1)).2 hn
    have p2 := (cblas_ddot_cone c.dims.n _ _ (fun q hq => (hc q hq).2.1)
      (fun q hq => (hc q hq).2.2.2)).2 hn
    exact div_pos (add_pos p1 p2) hcast

end CenteringTheorem

/-- The step lengths of `cone_step` are non-negative and keep sub-blocks that are inside
the cone inside. -/
theorem cone_step_keeps (x dx : Vec ℚ) (n : Nat) (hx : ∀ q, q < n → in_cone x q) :
    0 ≤ cone_step x dx n ∧
    ∀ q, q < n → in_cone (fun i => x i + cone_step x dx n * dx i) q := by
  unfold cone_step
  by_cases h : (List.range n).all (fun q => decide (in_cone (fun i => x i + dx i) q)) = true
  · rw [if_pos h]
    refine ⟨by norm_num, fun q hq => ?_⟩
    rw [List.all_eq_true] at h
    have := h q (List.mem_range.mpr hq)
    simpa using this
  · rw [if_neg h]
    refine ⟨le_refl _, fun q hq => ?_⟩
    simpa using hx q hq

/-- C4, witness: the call on the sample problem with two contacts and the routines
`cone_ext` (every direction entry `-1/10`, step lengths of `cone_step`).  The four
sub-blocks of both contacts are inside the cone at the starting point and at the top of
the second and of the third pass; the first pass takes the full step 1 and moves every
sub-block, from `(2, 1/1000, 1/1000)`, `(1, 1/1000, 1/1000)`, `(1/2, 1/25, 1/25)` to
`(19/10, -99/1000, -99/1000)`, `(9/10, -99/1000, -99/1000)`, `(2/5, -3/50, -3/50)`. -/
theorem grfc3d_IPM_cone_invariant_witness :
    (sample_problem 2 : GlobalRollingFrictionContactProblem ℚ).dimension = 5 ∧
    (sample_problem 2 : GlobalRollingFrictionContactProblem ℚ).H.size1 = 5 * 2 ∧
    (∀ q, q < 2 →
      in_cone (ipm_head (cone_context 2) (cone_state 2)).velocity_1 q ∧
      in_cone (ipm_head (cone_context 2) (cone_state 2)).velocity_2 q ∧
      in_cone (ipm_head (cone_context 2) (cone_state 2)).reaction_1 q ∧
      in_cone (ipm_head (cone_context 2) (cone_state 2)).reaction_2 q) ∧
    (∀ q, q < 2 →
      in_cone (ipm_head (cone_context 2) (ipm_next (cone_context 2) (cone_state 2))).velocity_1 q ∧
      in_cone (ipm_head (cone_context 2) (ipm_next (cone_context 2) (cone_state 2))).velocity_2 q ∧
      in_cone (ipm_head (cone_context 2) (ipm_next (cone_context 2) (cone_state 2))).reaction_1 q ∧
      in_cone (ipm_head (cone_context 2) (ipm_next (cone_context 2) (cone_state 2))).reaction_2 q) ∧
    (∀ q, q < 2 →
      in_cone (ipm_head (cone_context 2)
        (ipm_next (cone_context 2) (ipm_next (cone_context 2) (cone_state 2)))).velocity_1 q ∧
      in_cone (ipm_head (cone_context 2)
        (ipm_next (cone_context 2) (ipm_next (cone_context 2) (cone_state 2)))).velocity_2 q ∧
      in_cone (ipm_head (cone_context 2)
        (ipm_next (cone_context 2) (ipm_next (cone_context 2) (cone_state 2)))).reaction_1 q ∧
      in_cone (ipm_head (cone_context 2)
        (ipm_next (cone_context 2) (ipm_next (cone_context 2) (cone_state 2)))).reaction_2 q) ∧
    ((ipm_pass_corrector (cone_context 2) (cone_state 2)).alpha_primal = 1 ∧
      (List.range 6).map (ipm_pass_corrector (cone_context 2) (cone_state 2)).dir.d_velocity_1
        = [-1 / 10, -1 / 10, -1 / 10, -1 / 10, -1 / 10, -1 / 10] ∧
      (List.range 6).map (ipm_pass_corrector (cone_context 2) (cone_state 2)).dir.d_reaction_1
        = [-1 / 10, -1 / 10, -1 / 10, -1 / 10, -1 / 10, -1 / 10]) ∧
    ((List.range 6).map (ipm_head (cone_context 2) (cone_state 2)).velocity_1
        = [2, 1 / 1000, 1 / 1000, 2, 1 / 1000, 1 / 1000] ∧
      (List.range 6).map (ipm_head (cone_context 2) (cone_state 2)).velocity_2
        = [1, 1 / 1000, 1 / 1000, 1, 1 / 1000, 1 / 1000] ∧
      (List.range 6).map (ipm_head (cone_context 2) (cone_state 2)).reaction_1
        = [1 / 2, 1 / 25, 1 / 25, 1 / 2, 1 / 25, 1 / 25] ∧
      (List.range 6).map (ipm_head (cone_context 2) (cone_state 2)).reaction_2
        = [1 / 2, 1 / 25, 1 / 25, 1 / 2, 1 / 25, 1 / 25]) ∧
    ((List.range 6).map (ipm_head (cone_context 2) (ipm_next (cone_context 2) (cone_state 2))).velocity_1
        = [19 / 10, -99 / 1000, -99 / 1000, 19 / 10, -99 / 1000, -99 / 1000] ∧
      (List.range 6).map (ipm_head (cone_context 2) (ipm_next (cone_context 2) (cone_state 2))).velocity_2
        = [9 / 10, -99 / 1000, -99 / 1000, 9 / 10, -99 / 1000, -99 / 1000] ∧
      (List.range 6).map (ipm_head (cone_context 2) (ipm_next (cone_context 2) (cone_state 2))).reaction_1
        = [2 / 5, -3 / 50, -3 / 50, 2 / 5, -3 / 50, -3 / 50] ∧
      (List.range 6).map (ipm_head (cone_context 2) (ipm_next (cone_context 2) (cone_state 2))).reaction_2
        = [2 / 5, -3 / 50, -3 / 50, 2 / 5, -3 / 50, -3 / 50]) := by
  have key := grfc3d_IPM_cone_invariant cone_ext sample_cst (sample_problem 2)
    (ipm_entry_options cone_ext sample_cst (sample_problem 2) rat_options)
    (ipm_entry_data cone_ext sample_cst (sample_problem 2) rat_options rfl) rfl rfl (by decide)
  have h1 := key.1 rat_options
    ((ipm_entry_options cone_ext sample_cst (sample_problem 2) rat_options).dWork.getD (fun _ => 0))
    (fun _ => 0) (fun _ => 0) (fun _ => 0) rfl
  have h2 := key.2 (cone_context 2) (cone_state 2) _ _ rfl rfl rfl h1 (by
    intro x dx hmem
    simp only [List.mem_cons, List.mem_singleton, Prod.mk.injEq, List.not_mem_nil, or_false] at hmem
    rcases hmem with ⟨hx, hdx⟩ | ⟨hx, hdx⟩ | ⟨hx, hdx⟩ | ⟨hx, hdx⟩ <;> subst hx <;> subst hdx
    · exact cone_step_keeps _ _ 2 (fun q hq => (h1 q hq).1)
    · exact cone_step_keeps _ _ 2 (fun q hq => (h1 q hq).2.1)
    · exact cone_step_keeps _ _ 2 (fun q hq => (h1 q hq).2.2.1)
    · exact cone_step_keeps _ _ 2 (fun q hq => (h1 q hq).2.2.2))
  have h3 := key.2 (cone_context 2) (ipm_next (cone_context 2) (cone_state 2)) _ _ rfl rfl rfl h2 (by
    intro x dx hmem
    simp only [List.mem_cons, List.mem_singleton, Prod.mk.injEq, List.not_mem_nil, or_false] at hmem
    rcases hmem with ⟨hx, hdx⟩ | ⟨hx, hdx⟩ | ⟨hx, hdx⟩ | ⟨hx, hdx⟩ <;> subst hx <;> subst hdx
    · exact cone_step_keeps _ _ 2 (fun q hq => (h2 q hq).1)
    · exact cone_step_keeps _ _ 2 (fun q hq => (h2 q hq).2.1)
    · exact cone_step_keeps _ _ 2 (fun q hq => (h2 q hq).2.2.1)
    · exact cone_step_keeps _ _ 2 (fun q hq => (h2 q hq).2.2.2))
  exact ⟨rfl, rfl, h1, h2, h3, by decide!, by decide!, by decide!⟩

section NewtonSearchClaims
variable {R L : Type} [Zero R] [RatCast R] [Add R] [Mul R] [LE R] [LT R]
  [DecidableRel (α := R) (· ≤ ·)] [DecidableRel (α := R) (· < ·)]

omit [Zero R] [RatCast R] [Add R] [LE R] [DecidableRel (α := R) (· ≤ ·)] in
/-- The test of the line search at a gradient step (`theta_iter = INFINITY`), with
`compute_RHS_desc` supplied. -/
theorem lsa_needs_search_gradient (ext : LSAExternals R L) (params : newton_LSA_param R)
    (fn : functions_LSA R) (s : LSAState R L) (hr : fn.compute_RHS_desc ≠ none) :
    lsa_needs_search ext params fn s none
      = (ext.INFINITY_gt (params.sigma * s.theta) || decide (0 < s.info_dir_search)) := by
  have hsome : fn.compute_RHS_desc.isSome = true := by
    cases hc : fn.compute_RHS_desc with
    | none => exact absurd hc hr
    | some _ => rfl
  unfold lsa_needs_search
  rw [hsome]
  simp

/-- C12 (amended): in every pass of `newton_LSA` (callbacks supplied) whose direction search
fails, either `compute_RHS_desc` is NULL, and then no second solve is made and the pass
ends in the jump that returns `info = 2`; or `compute_RHS_desc` is supplied, and then
exactly one more solve is made and the pass is completed: when this second solve fails as
well, the direction is replaced by the negative gradient and `theta_iter = INFINITY`; the
line search is run when the code of the failed solve is positive or
`INFINITY > sigma * theta` (so whenever `sigma * theta` is neither `+inf` nor NaN), and
otherwise the unit step along the negative gradient is taken without a search; the loop
continues. -/
theorem newton_LSA_second_solve (ext : LSAExternals R L) (n : Nat) (opt : LSAOptions R)
    (fn : functions_LSA R) (hcb : lsa_callbacks_supplied opt fn = true) (s : LSAState R L) :
    ∃ sd s2,
      lsa_direction ext n opt.params fn { s with iter := s.iter + 1, info_dir_search := 0 }
        = some sd ∧
      lsa_gradient fn sd = some s2 ∧
      (s2.info_dir_search ≠ 0 → fn.compute_RHS_desc = none →
        lsa_pass ext n opt fn s = LSAStep.failed s2 ∧ s2.solves = sd.solves ∧
        (lsa_result ext opt s2 LSAExit.direction_failure).info = 2) ∧
      (s2.info_dir_search ≠ 0 → fn.compute_RHS_desc ≠ none →
        ∃ s4 theta_iter s5,
          lsa_trial ext n fn (lsa_solve ext n opt.params s2) = some (s4, theta_iter) ∧
          lsa_pass ext n opt fn s = LSAStep.next s5 ∧
          s5.solves = sd.solves + 1 ∧
          s5.info_dir_search = (lsa_solve ext n opt.params s2).info_dir_search ∧
          (s5.info_dir_search ≠ 0 →
            s4.workV1 = cblas_dscal n ((-1 : ℚ) : R)
              (cblas_dcopy n s2.JacThetaF_merit (lsa_solve ext n opt.params s2).workV1) ∧
            theta_iter = none ∧
            (0 < s5.info_dir_search ∨ ext.INFINITY_gt (opt.params.sigma * s.theta) = true →
              s5.searches = s.searches + 1) ∧
            (¬ 0 < s5.info_dir_search →
              ext.INFINITY_gt (opt.params.sigma * s.theta) = false →
              s5.searches = s.searches ∧ s5.tau = ((1 : ℚ) : R) ∧
              s5.z = cblas_daxpy n ((1 : ℚ) : R) s4.workV1 s.z))) := by
  obtain ⟨sd, s2, h1, h2, hfail, hnext⟩ := lsa_stages_exist ext n opt fn hcb s
  have fg := lsa_gradient_frame fn sd s2 h2
  refine ⟨sd, s2, h1, h2, ?_, ?_⟩
  · intro h0 hr
    exact ⟨hfail ⟨h0, hr⟩, fg.1, rfl⟩
  · intro h0 hr
    obtain ⟨s4, theta_iter, s5, h4, h5, hp⟩ := hnext (fun hc => hr hc.2)
    have cnt := lsa_pass_counters ext n opt fn s sd s2 s4 s5 theta_iter h1 h2 h4 h5
    have hb := lsa_pass_buffers ext n opt fn s sd s2 s4 theta_iter h1 h2 h4
    rw [if_pos h0] at h4
    have ft := lsa_trial_frame ext n fn _ s4 theta_iter h4
    have ti := lsa_trial_info ext n fn _ s4 theta_iter h4
    have e5 : s5.info_dir_search = (lsa_solve ext n opt.params s2).info_dir_search := by
      rw [cnt.2.2.1, if_pos h0]
      rfl
    refine ⟨s4, theta_iter, s5, h4, hp, ?_, e5, ?_⟩
    · rw [cnt.2.1, if_pos h0]
    · intro h6
      rw [e5] at h6
      obtain ⟨t1, t2⟩ := ft.2.2.2.2.2.2.2 h6
      have hns : lsa_needs_search ext opt.params fn s4 theta_iter
          = (ext.INFINITY_gt (opt.params.sigma * s.theta) || decide (0 < s5.info_dir_search)) := by
        rw [t1, lsa_needs_search_gradient ext opt.params fn s4 hr, hb.2.2.2, ti, e5]
      refine ⟨t2, t1, ?_, ?_⟩
      · intro hor
        have hv : lsa_needs_search ext opt.params fn s4 theta_iter = true := by
          rw [hns]
          rcases hor with h | h
          · simp [h]
          · simp [h]
        rw [cnt.2.2.2, if_pos hv]
      · intro hn hi
        have hv : lsa_needs_search ext opt.params fn s4 theta_iter = false := by
          rw [hns, hi]
          simp [hn]
        rw [hv] at h5
        simp only [Bool.false_eq_true, if_false] at h5
        have ff := lsa_finish_pass_frame ext n opt fn _ s5 _ h5
        have ftau := lsa_finish_pass_tau ext n opt fn _ s5 _ h5
        refine ⟨?_, ftau.1, ?_⟩
        · rw [cnt.2.2.2, hv]
          simp
        · rw [ff.2.2.2.2, hb.2.2.1]
          split <;> rfl

end NewtonSearchClaims


section NewtonFullStep
variable {R L : Type} [LinearOrderedField R]

/-- The merit value of the trial point of a successful direction search, written with the
iterate `z` itself (the callbacks and the norm read the first `n` entries). -/
theorem lsa_trial_theta (ext : LSAExternals R L) (n : Nat) (fn : functions_LSA R)
    (f : Vec R → Vec R) (fm : Vec R → Vec R → Vec R)
    (hf : fn.compute_F = some f) (hfm : fn.compute_F_merit = some fm)
    (hloc : ∀ x y : Vec R, (∀ i, i < n → x i = y i) →
      ext.cblas_dnrm2 n (fm x (f x)) = ext.cblas_dnrm2 n (fm y (f y)))
    (s3 s4 : LSAState R L) (theta_iter : Option R)
    (h : lsa_trial ext n fn s3 = some (s4, theta_iter)) (h0 : s3.info_dir_search = 0) :
    theta_iter = some (((1 / 2 : ℚ) : R)
      * ext.cblas_dnrm2 n (fm (cblas_daxpy n ((1 : ℚ) : R) s4.workV1 s3.z)
          (f (cblas_daxpy n ((1 : ℚ) : R) s4.workV1 s3.z)))
      * ext.cblas_dnrm2 n (fm (cblas_daxpy n ((1 : ℚ) : R) s4.workV1 s3.z)
          (f (cblas_daxpy n ((1 : ℚ) : R) s4.workV1 s3.z)))) ∧
    s4.workV1 = s3.workV1 := by
  have hw : ∀ i, i < n →
      cblas_daxpy n ((1 : ℚ) : R) s3.workV1 (cblas_dcopy n s3.z s3.workV2) i
        = cblas_daxpy n ((1 : ℚ) : R) s3.workV1 s3.z i := by
    intro i hi
    simp only [cblas_daxpy, cblas_dcopy, if_pos hi]
  have hnorm := hloc _ _ hw
  unfold lsa_trial at h
  rw [if_pos h0, hf, hfm] at h
  dsimp only at h
  cases h
  dsimp only
  rw [hnorm]
  exact ⟨rfl, rfl⟩

/-- C13 (amended): in a pass of `newton_LSA` (callbacks supplied, exact arithmetic, so every
value is below `INFINITY`) that is completed, i.e. does not end in the jump after a failed
direction search without `compute_RHS_desc`: when the direction search (after the fallback
solve, if there was one) succeeds and the trial point `z + d` has a merit value
`theta(z + d) <= sigma * theta(z)`, no line search is called, `tau = 1`, the new iterate
is `z + d` and its merit value is at most `sigma * theta(z)`; in every other completed pass
the line search is called and the new iterate is `z + tau * d` for the step `tau` it
returns and the direction `d` handed to it, or `z + d` when `tau` is not finite. -/
theorem newton_LSA_full_step (ext : LSAExternals R L) (n : Nat) (opt : LSAOptions R)
    (fn : functions_LSA R) (f : Vec R → Vec R) (fm : Vec R → Vec R → Vec R)
    (hcb : lsa_callbacks_supplied opt fn = true)
    (hf : fn.compute_F = some f) (hfm : fn.compute_F_merit = some fm)
    (hfin : ext.isfinite ((1 : ℚ) : R) = true)
    (hinf : ∀ x : R, ext.INFINITY_gt x = true)
    (hloc : ∀ x y : Vec R, (∀ i, i < n → x i = y i) →
      ext.cblas_dnrm2 n (fm x (f x)) = ext.cblas_dnrm2 n (fm y (f y)))
    (s : LSAState R L) :
    ∃ sd s2,
      lsa_direction ext n opt.params fn { s with iter := s.iter + 1, info_dir_search := 0 }
        = some sd ∧
      lsa_gradient fn sd = some s2 ∧
      (s2.info_dir_search ≠ 0 → fn.compute_RHS_desc = none →
        lsa_pass ext n opt fn s = LSAStep.failed s2) ∧
      (¬ (s2.info_dir_search ≠ 0 ∧ fn.compute_RHS_desc = none) →
        ∃ s4 theta_iter s5,
          lsa_trial ext n fn
            (if s2.info_dir_search ≠ 0 then lsa_solve ext n opt.params s2 else s2)
            = some (s4, theta_iter) ∧
          lsa_pass ext n opt fn s = LSAStep.next s5 ∧
          (s2.info_dir_search = 0 → s4.info_dir_search = 0 ∧ s4.workV1 = s2.workV1) ∧
          (s2.info_dir_search ≠ 0 →
            s4.info_dir_search = (lsa_solve ext n opt.params s2).info_dir_search) ∧
          (s4.info_dir_search = 0 →
            ((1 / 2 : ℚ) : R)
                * ext.cblas_dnrm2 n (fm (cblas_daxpy n ((1 : ℚ) : R) s4.workV1 s.z)
                    (f (cblas_daxpy n ((1 : ℚ) : R) s4.workV1 s.z)))
                * ext.cblas_dnrm2 n (fm (cblas_daxpy n ((1 : ℚ) : R) s4.workV1 s.z)
                    (f (cblas_daxpy n ((1 : ℚ) : R) s4.workV1 s.z)))
              ≤ opt.params.sigma * s.theta →
            s5.searches = s.searches ∧ s5.tau = ((1 : ℚ) : R) ∧
            s5.z = cblas_daxpy n ((1 : ℚ) : R) s4.workV1 s.z ∧
            s5.theta = ((1 / 2 : ℚ) : R)
              * ext.cblas_dnrm2 n (fm s5.z (f s5.z)) * ext.cblas_dnrm2 n (fm s5.z (f s5.z)) ∧
            s5.theta ≤ opt.params.sigma * s.theta) ∧
          (¬ (s4.info_dir_search = 0 ∧
              ((1 / 2 : ℚ) : R)
                  * ext.cblas_dnrm2 n (fm (cblas_daxpy n ((1 : ℚ) : R) s4.workV1 s.z)
                      (f (cblas_daxpy n ((1 : ℚ) : R) s4.workV1 s.z)))
                  * ext.cblas_dnrm2 n (fm (cblas_daxpy n ((1 : ℚ) : R) s4.workV1 s.z)
                      (f (cblas_daxpy n ((1 : ℚ) : R) s4.workV1 s.z)))
                ≤ opt.params.sigma * s.theta) →
            s5.searches = s.searches + 1 ∧
            s5.tau = (lsa_search ext n opt s4).2 ∧
            s5.workV1 = (lsa_search ext n opt s4).1.workV1 ∧
            s5.z = (if ext.isfinite s5.tau then cblas_daxpy n s5.tau s5.workV1 s.z
              else cblas_daxpy n ((1 : ℚ) : R) s5.workV1 s.z))) := by
  obtain ⟨sd, s2, h1, h2, hfail, hnext⟩ := lsa_stages_exist ext n opt fn hcb s
  refine ⟨sd, s2, h1, h2, fun a b => hfail ⟨a, b⟩, ?_⟩
  intro hcomp
  obtain ⟨s4, theta_iter, s5, h4, h5, hp⟩ := hnext hcomp
  have cnt := lsa_pass_counters ext n opt fn s sd s2 s4 s5 theta_iter h1 h2 h4 h5
  have hb := lsa_pass_buffers ext n opt fn s sd s2 s4 theta_iter h1 h2 h4
  have ti := lsa_trial_info ext n fn _ s4 theta_iter h4
  have ft := lsa_trial_frame ext n fn _ s4 theta_iter h4
  have hz3 : (if s2.info_dir_search ≠ 0 then lsa_solve ext n opt.params s2 else s2).z = s.z := by
    rw [← ft.2.2.1]
    exact hb.2.2.1
  have htheta : s4.info_dir_search = 0 →
      theta_iter = some (((1 / 2 : ℚ) : R)
        * ext.cblas_dnrm2 n (fm (cblas_daxpy n ((1 : ℚ) : R) s4.workV1 s.z)
            (f (cblas_daxpy n ((1 : ℚ) : R) s4.workV1 s.z)))
        * ext.cblas_dnrm2 n (fm (cblas_daxpy n ((1 : ℚ) : R) s4.workV1 s.z)
            (f (cblas_daxpy n ((1 : ℚ) : R) s4.workV1 s.z)))) := by
    intro h40
    have := (lsa_trial_theta ext n fn f fm hf hfm hloc _ s4 theta_iter h4 (by rw [← ti]; exact h40)).1
    rw [hz3] at this
    exact this
  refine ⟨s4, theta_iter, s5, h4, hp, ?_, ?_, ?_, ?_⟩
  · intro h0
    rw [if_neg (not_not.mpr h0)] at ti ft
    exact ⟨ti.trans h0, (ft.2.2.2.2.2.2.1 h0).1⟩
  · intro h0
    rw [if_pos h0] at ti
    exact ti
  · intro h40 hacc
    have hv : lsa_needs_search ext opt.params fn s4 theta_iter = false := by
      rw [htheta h40]
      unfold lsa_needs_search
      dsimp only
      rw [hb.2.2.2, h40]
      simp only [Bool.or_eq_false_iff, decide_eq_false_iff_not, not_lt, Bool.and_eq_false_iff]
      exact ⟨hacc, Or.inl (by decide)⟩
    rw [hv] at h5
    simp only [Bool.false_eq_true, if_false] at h5
    obtain ⟨p1, p2, _, p4, p5, _⟩ := lsa_finish_pass_spec ext n opt fn f fm hf hfm _ s5 _ h5
    have hz5 : s5.z = cblas_daxpy n ((1 : ℚ) : R) s4.workV1 s.z := by
      rw [p2, if_pos hfin, hb.2.2.1]
    have hth5 : s5.theta = ((1 / 2 : ℚ) : R)
        * ext.cblas_dnrm2 n (fm s5.z (f s5.z)) * ext.cblas_dnrm2 n (fm s5.z (f s5.z)) := by
      rw [p5, p4]
    refine ⟨?_, p1, hz5, hth5, ?_⟩
    · rw [cnt.2.2.2, hv]
      simp
    · rw [hth5, hz5]
      exact hacc
  · intro hnot
    have hv : lsa_needs_search ext opt.params fn s4 theta_iter = true := by
      by_cases h40 : s4.info_dir_search = 0
      · rw [htheta h40]
        unfold lsa_needs_search
        dsimp only
        rw [hb.2.2.2]
        have hlt := not_le.mp (fun hle => hnot ⟨h40, hle⟩)
        simp only [Bool.or_eq_true, decide_eq_true_eq]
        exact Or.inl hlt
      · have hn : theta_iter = none := (ft.2.2.2.2.2.2.2 (by rw [← ti]; exact h40)).1
        rw [hn]
        unfold lsa_needs_search
        dsimp only
        rw [hinf]
        simp
    rw [hv] at h5
    simp only [if_true] at h5
    have ff := lsa_finish_pass_frame ext n opt fn _ s5 _ h5
    have ftau := lsa_finish_pass_tau ext n opt fn _ s5 _ h5
    refine ⟨?_, ftau.1, ff.2.2.1, ?_⟩
    · rw [cnt.2.2.2, hv]
      simp
    · rw [ff.2.2.2.2, ftau.1, ff.2.2.1]
      have : (lsa_search ext n opt s4).1.z = s.z := hb.2.2.1
      rw [this]

end NewtonFullStep


/-- Witness for C12 (amended): the first pass of the failing run over the rationals (both
solves fail with the code 1, the line search is run on the gradient step), and the pass
from `z = +inf` on `F(z) = z^2` with a solve that fails with the code `-1`: there
`sigma * theta = +inf`, `INFINITY > sigma * theta` is false, both solves fail, no line search
is run and `tau = 1`. -/
theorem newton_LSA_second_solve_witness :
    lsa_callbacks_supplied (lsa_sample_options 1) (lsa_desc_fn false) = true ∧
    (∃ s0, lsa_initial_state lsa_failing_ext 1 (fun i => if i = 0 then 5 else 0) (NM_create 0 1 1)
        (lsa_sample_options 1) (lsa_desc_fn false) = some s0 ∧
      ∃ sd s2,
        lsa_direction lsa_failing_ext 1 (lsa_sample_options 1).params (lsa_desc_fn false)
          { s0 with iter := s0.iter + 1, info_dir_search := 0 } = some sd ∧
        lsa_gradient (lsa_desc_fn false) sd = some s2 ∧
        (s2.info_dir_search ≠ 0 → (lsa_desc_fn false).compute_RHS_desc ≠ none →
          ∃ s4 theta_iter s5,
            lsa_trial lsa_failing_ext 1 (lsa_desc_fn false)
              (lsa_solve lsa_failing_ext 1 (lsa_sample_options 1).params s2)
              = some (s4, theta_iter) ∧
            lsa_pass lsa_failing_ext 1 (lsa_sample_options 1) (lsa_desc_fn false) s0
              = LSAStep.next s5 ∧
            s5.solves = sd.solves + 1 ∧
            (s5.info_dir_search ≠ 0 →
              theta_iter = none ∧
              (0 < s5.info_dir_search ∨
                  lsa_failing_ext.INFINITY_gt ((lsa_sample_options 1).params.sigma * s0.theta) = true →
                s5.searches = s0.searches + 1)))) ∧
    (lsa_failing_run 1).map
      (fun r => (r.info, r.final.solves, r.final.info_dir_search, r.final.searches, r.z 0))
      = some (1, 2, 1, 1, 5 / 2) ∧
    lsa_callbacks_supplied (lsa_cubic_options 1) lsa_square_fn = true ∧
    (lsa_initial_state lsa_neg_ext 1 (fun _ => Dbl.pinf) (NM_create 0 1 1) (lsa_cubic_options 1)
        lsa_square_fn).map
      (fun s => (s.theta, (lsa_cubic_options 1).params.sigma * s.theta,
        lsa_neg_ext.INFINITY_gt ((lsa_cubic_options 1).params.sigma * s.theta)))
      = some (Dbl.pinf, Dbl.pinf, false) ∧
    lsa_neg_run.map
      (fun r => (r.final.solves, r.final.info_dir_search, r.final.searches, r.final.tau,
        r.final.workV1 0, r.final.iter))
      = some (2, -1, 0, Dbl.fin 1, Dbl.ninf, 1) := by
  refine ⟨by decide, ?_, by decide!, by decide, by decide!, by decide!⟩
  obtain ⟨s0, h0, _, _⟩ := lsa_initial_state_spec lsa_failing_ext 1
    (fun i => if i = 0 then 5 else 0) (NM_create 0 1 1) (lsa_sample_options 1) (lsa_desc_fn false)
    (by decide)
  obtain ⟨sd, s2, h1, h2, _, h4⟩ := newton_LSA_second_solve lsa_failing_ext 1
    (lsa_sample_options 1) (lsa_desc_fn false) (by decide) s0
  refine ⟨s0, h0, sd, s2, h1, h2, fun a b => ?_⟩
  obtain ⟨s4, theta_iter, s5, c1, c2, c3, _, c5⟩ := h4 a b
  exact ⟨s4, theta_iter, s5, c1, c2, c3, fun h => ⟨(c5 h).2.1, (c5 h).2.2.1⟩⟩

/-- Witness for C13 (amended): on the toy system `F(z) = z` every pass is completed; the
first pass from `z = 5` takes the full Newton step to `z = 0` without a line search and the
merit value falls from `25/2` to `0`; in the run with the ascent direction `d = 5` the
trial point is not accepted, the line search is called once and returns `tau = 1/2`, and
the new iterate is `5 + 5/2`. -/
theorem newton_LSA_full_step_witness :
    (lsa_callbacks_supplied (lsa_sample_options 1) lsa_sample_fn = true ∧
      lsa_sample_ext.isfinite ((1 : ℚ) : ℚ) = true ∧
      ∀ x : ℚ, lsa_sample_ext.INFINITY_gt x = true) ∧
    (∀ s : LSAState ℚ Unit, ∃ sd s2,
      lsa_direction lsa_sample_ext 1 (lsa_sample_options 1).params lsa_sample_fn
        { s with iter := s.iter + 1, info_dir_search := 0 } = some sd ∧
      lsa_gradient lsa_sample_fn sd = some s2 ∧
      (¬ (s2.info_dir_search ≠ 0 ∧ lsa_sample_fn.compute_RHS_desc = none) →
        ∃ s4 s5 : LSAState ℚ Unit, lsa_pass lsa_sample_ext 1 (lsa_sample_options 1) lsa_sample_fn s
            = LSAStep.next s5 ∧
          (s4.info_dir_search = 0 →
            ((1 / 2 : ℚ) : ℚ)
                * lsa_sample_ext.cblas_dnrm2 1 (cblas_daxpy 1 ((1 : ℚ) : ℚ) s4.workV1 s.z)
                * lsa_sample_ext.cblas_dnrm2 1 (cblas_daxpy 1 ((1 : ℚ) : ℚ) s4.workV1 s.z)
              ≤ (lsa_sample_options 1).params.sigma * s.theta →
            s5.searches = s.searches ∧ s5.tau = ((1 : ℚ) : ℚ) ∧
            s5.z = cblas_daxpy 1 ((1 : ℚ) : ℚ) s4.workV1 s.z ∧
            s5.theta ≤ (lsa_sample_options 1).params.sigma * s.theta) ∧
          (¬ (s4.info_dir_search = 0 ∧
              ((1 / 2 : ℚ) : ℚ)
                  * lsa_sample_ext.cblas_dnrm2 1 (cblas_daxpy 1 ((1 : ℚ) : ℚ) s4.workV1 s.z)
                  * lsa_sample_ext.cblas_dnrm2 1 (cblas_daxpy 1 ((1 : ℚ) : ℚ) s4.workV1 s.z)
                ≤ (lsa_sample_options 1).params.sigma * s.theta) →
            s5.searches = s.searches + 1))) ∧
    (lsa_sample_run 0).map (fun r => (r.z 0, r.final.theta)) = some (5, 25 / 2) ∧
    (lsa_sample_run 1).map
      (fun r => (r.final.info_dir_search, r.final.searches, r.final.tau, r.z 0, r.final.theta))
      = some (0, 0, 1, 0, 0) ∧
    (lsa_sample_run 2).map (fun r => (r.z 0, r.final.theta)) = some (0, 0) ∧
    (lsa_probe_run false).map (fun r => (r.final.searches, r.final.tau, r.final.workV1 0, r.z 0))
      = some (1, 1 / 2, 5, 15 / 2) := by
  refine ⟨⟨by decide, rfl, fun _ => rfl⟩, fun s => ?_, by decide!, by decide!, by decide!,
    by decide!⟩
  obtain ⟨sd, s2, a, b, _, d⟩ := newton_LSA_full_step lsa_sample_ext 1 (lsa_sample_options 1)
    lsa_sample_fn (fun z => z) (fun _ F => F) (by decide) rfl rfl rfl (fun _ => rfl)
    (fun x y h => by
      show |x 0| = |y 0|
      rw [h 0 (by decide)]) s
  refine ⟨sd, s2, a, b, fun hc => ?_⟩
  obtain ⟨s4, _, s5, _, hp, _, _, e1, e2⟩ := d hc
  exact ⟨s4, s5, hp, fun h40 hacc => ⟨(e1 h40 hacc).1, (e1 h40 hacc).2.1, (e1 h40 hacc).2.2.1,
    (e1 h40 hacc).2.2.2.2⟩, fun hn => (e2 hn).1⟩

section NewtonEntryClaims
variable {R L : Type} [Zero R] [RatCast R] [Add R] [Mul R] [LE R] [LT R]
  [DecidableRel (α := R) (· ≤ ·)] [DecidableRel (α := R) (· < ·)]

/-- C25 (amended): with the callbacks supplied, the error at the entry of `newton_LSA` is the
value of `compute_error` at the initial `z` (with `JacThetaF_merit[0] = DBL_MAX`), whatever
the stopping criterion; if `err > tol` does not hold (the error is `<= tol`, or it is NaN)
or if `itermax <= 0`, no pass is run: the call returns `z` unchanged with
`F = compute_F(z)`, `iparam[ITER_DONE] = 0`, `dparam[RESIDU]` equal to that error, and
`info = 1` when `err > tol` and `info = 0` otherwise. -/
theorem newton_LSA_no_iteration (ext : LSAExternals R L) (n : Nat) (z : Vec R)
    (H : NumericsMatrix R) (opt : LSAOptions R) (fn : functions_LSA R)
    (hcb : lsa_callbacks_supplied opt fn = true) :
    ∃ f ce s0, fn.compute_F = some f ∧ fn.compute_error = some ce ∧
      lsa_initial_state ext n z H opt fn = some s0 ∧
      s0.JacThetaF_merit 0 = ((DBL_MAX : ℚ) : R) ∧
      s0.err = ce z (f z) s0.JacThetaF_merit (opt.dparam ext.SICONOS_DPARAM_TOL) ∧
      (¬ opt.dparam ext.SICONOS_DPARAM_TOL < s0.err
          ∨ opt.iparam ext.SICONOS_IPARAM_MAX_ITER ≤ 0 →
        ∃ res, newton_LSA ext n z H opt fn = some res ∧
          res.exit = LSAExit.loop_condition ∧ res.final = s0 ∧
          res.final.iter = 0 ∧ res.final.searches = 0 ∧ res.final.solves = 0 ∧
          res.z = z ∧ res.F = f z ∧
          res.iparam ext.SICONOS_IPARAM_ITER_DONE = 0 ∧
          res.dparam ext.SICONOS_DPARAM_RESIDU = s0.err ∧
          (opt.dparam ext.SICONOS_DPARAM_TOL < s0.err → res.info = 1) ∧
          (¬ opt.dparam ext.SICONOS_DPARAM_TOL < s0.err → res.info = 0)) := by
  obtain ⟨s0, h0, _, _⟩ := lsa_initial_state_spec ext n z H opt fn hcb
  obtain ⟨f, fm, ce, hf, hfm, hce, i1, i2, i3, i4, i5, i6, i7, i8, i9, _⟩ :=
    lsa_initial_state_fields ext n z H opt fn s0 h0
  refine ⟨f, ce, s0, hf, hce, h0, i6, i5, ?_⟩
  intro hcase
  have hl : lsa_loop ext n opt fn (opt.iparam ext.SICONOS_IPARAM_MAX_ITER).toNat s0
      = some (s0, LSAExit.loop_condition) := by
    cases hfu : (opt.iparam ext.SICONOS_IPARAM_MAX_ITER).toNat with
    | zero => rfl
    | succ fuel =>
      rw [lsa_loop, if_neg]
      rintro ⟨c1, c2⟩
      rcases hcase with h | h
      · exact h c2
      · omega
  refine ⟨lsa_result ext opt s0 LSAExit.loop_condition, ?_, rfl, rfl, i7, i8, i9, i1, i2, ?_, ?_,
    ?_, ?_⟩
  · unfold newton_LSA
    rw [h0]
    dsimp only
    rw [hl]
  · dsimp only [lsa_result]
    rw [if_pos rfl, i7]
    rfl
  · dsimp only [lsa_result]
    rw [if_pos rfl]
  · intro h
    dsimp only [lsa_result]
    rw [if_pos h]
  · intro h
    dsimp only [lsa_result]
    rw [if_neg h]

end NewtonEntryClaims

/-- Witness for C25 (amended): the toy system `F(z) = z` from `z = 5` with `itermax = 0`
returns `info = 1`, `z = 5`, `iparam[ITER_DONE] = 0` and `dparam[RESIDU] = 5`; from `z = 0`
with `itermax = 3` the initial error `0` is not above `tol` and the call returns `info = 0`
without a pass. -/
theorem newton_LSA_no_iteration_witness :
    lsa_callbacks_supplied (lsa_sample_options 0) lsa_sample_fn = true ∧
    (∃ f ce s0, lsa_sample_fn.compute_F = some f ∧ lsa_sample_fn.compute_error = some ce ∧
      lsa_initial_state lsa_sample_ext 1 (fun i => if i = 0 then 5 else 0) (NM_create 0 1 1)
        (lsa_sample_options 0) lsa_sample_fn = some s0 ∧
      s0.JacThetaF_merit 0 = ((DBL_MAX : ℚ) : ℚ)) ∧
    (lsa_sample_options 0).iparam lsa_sample_ext.SICONOS_IPARAM_MAX_ITER ≤ 0 ∧
    (∃ res, newton_LSA lsa_sample_ext 1 (fun i => if i = 0 then 5 else 0) (NM_create 0 1 1)
        (lsa_sample_options 0) lsa_sample_fn = some res ∧
      res.exit = LSAExit.loop_condition ∧ res.final.iter = 0 ∧ res.final.searches = 0 ∧
      res.final.solves = 0 ∧ res.z = (fun i => if i = 0 then 5 else 0) ∧
      res.iparam lsa_sample_ext.SICONOS_IPARAM_ITER_DONE = 0) ∧
    (lsa_sample_run 0).map (fun r => (r.info, r.z 0, r.F 0, r.iparam 1, r.dparam 1, r.final.iter))
      = some (1, 5, 5, 0, 5, 0) ∧
    (newton_LSA lsa_sample_ext 1 (fun _ => 0) (NM_create 0 1 1) (lsa_sample_options 3)
        lsa_sample_fn).map
      (fun r => (r.info, r.z 0, r.F 0, r.iparam 1, r.dparam 1, r.final.iter))
      = some (0, 0, 0, 0, 0, 0) := by
  obtain ⟨f, ce, s0, a, b, c, d, _, hres⟩ := newton_LSA_no_iteration lsa_sample_ext 1
    (fun i => if i = 0 then 5 else 0) (NM_create 0 1 1) (lsa_sample_options 0) lsa_sample_fn
    (by decide)
  obtain ⟨res, r1, r2, _, r4, r5, r6, r7, _, r9, _⟩ := hres (Or.inr (by decide))
  exact ⟨by decide, ⟨f, ce, s0, a, b, c, d⟩, by decide, ⟨res, r1, r2, r4, r5, r6, r7, r9⟩,
    by decide!, by decide!⟩

/-- Counterexample to C25 as stated: on the cubic system `F(z) = z^3 - 2 z + 2` from
`z = +inf` the value `F(z)` and the initial error `|F(z)|` are NaN.  With `itermax = 0` (and
with `itermax = 3`) no pass is run and the call returns `info = 0`, although the error is
not `<= tol`: the code tests `err > tol`, which is false for NaN. -/
theorem newton_LSA_nan_error_counterexample :
    lsa_callbacks_supplied (lsa_cubic_options 0) lsa_cubic_fn = true ∧
    lsa_entry_asserts lsa_cubic_fn = true ∧
    (lsa_nan_error_run 0).map (fun r => (r.info, r.final.iter, r.iparam 1, r.dparam 1, r.z 0))
      = some (0, 0, 0, Dbl.nan, Dbl.pinf) ∧
    (lsa_nan_error_run 3).map (fun r => (r.info, r.final.iter, r.iparam 1, r.dparam 1, r.z 0))
      = some (0, 0, 0, Dbl.nan, Dbl.pinf) ∧
    ¬ (Dbl.nan ≤ (lsa_cubic_options 0).dparam 0) ∧
    ¬ ((lsa_cubic_options 0).dparam 0 < Dbl.nan) := by
  refine ⟨by decide, by decide, by decide!, by decide!, by decide!, by decide!⟩

end Siconos
